import Mathlib

/-!
SimpleLang: lexer, label table, code generator, semantic analyzer and virtual machine

A shallow embedding of `src/code-generator.js`, `src/semanticer.js` and `src/vm.js`, of
the label table and the expression parser `_parse_expr` of `src/parser.js`, and of
`src/lexer.js`.

Modelling conventions, fixed once for the whole development:

* A JavaScript number is modelled by an integer (`Val.num`) that stands for a
  double: a number literal and the result of `+`, `-` and `*` are the double
  nearest to the exact value, ties going to the even significand (`number`),
  so that integers of magnitude up to 2^53 are computed exactly and larger
  ones are rounded; the two zeros are not told apart; a run that would
  produce a fraction, `NaN` or an infinity is reported as `Fault.unmodelled`.
* A JavaScript object used as a dictionary (a VM frame, the function table) is
  modelled by the ordered list of its own properties; identifiers are assumed
  not to collide with the names every object inherits (`toString`,
  `constructor`, ...).  A string or a number on the operand stack, which the
  search of `assign` reads as if it were a frame, has its own properties (for
  a string `length` and its character indices, for a number none) and the
  members it inherits from `String.prototype`, `Number.prototype` and
  `Object.prototype`; whether a string has one of the members added after
  ECMAScript 2020 depends on the engine and is `Fault.unmodelled`.
* A run of the JavaScript code that throws is `Fault.throws`; a run that leaves
  the value domain above is `Fault.unmodelled`; a VM run that is cut because
  its step budget is used up is `Fault.out_of_fuel`.
* Stacks are lists whose head is the top of the stack: the head of
  `scope_stack` is the innermost frame, its last element is frame 0.
-/

namespace SimpleLang

/-! ## Data model -/

/-- The `type` field of an AST node. -/
inductive ASTType where
  | program | action | string_iter | number_iter | target | function | type
  deriving DecidableEq, Repr

/-- The `op` field of an AST node. -/
inductive ASTOp where
  | none | assign | add | sub | mul | div | func_call | if_ | while_ | break_
  | continue_ | return_ | gt | gte | lt | lte | equal | not_equal
  deriving DecidableEq, Repr

/-- `AST_T | string | number`: an element of a `body` array is a node, or a
string or number payload. -/
inductive AST where
  | node (ty : ASTType) (op : ASTOp) (body : List AST)
  | str (s : String)
  | num (n : Int)
  deriving Repr

/-- `LABEL_TYPE_T`. -/
inductive LabelType where
  | num | str | fn
  deriving DecidableEq, Repr

/-- `LABEL_T`: one entry of the flat label table. -/
structure Label where
  id : Int
  type : LabelType
  name : String
  return_type : Option LabelType
  deriving DecidableEq, Repr

/-- Values on the operand stack and instruction operands. -/
inductive Val where
  | num (n : Int)
  | str (s : String)
  | undefined
  | null
  deriving DecidableEq, Repr

/-- `OPT`: the opcodes. -/
inductive OPT where
  | load_name | load_value | load_const | assign | add | sub | mul | div
  | compare_above | compare_above_equal | compare_below | compare_below_equal
  | compare_equal | compare_not_equal | jmp | jmp_remove | jmp_true_remove
  | jmp_false_remove | call | ret | create_scope | delete_scope | nop | seek
  deriving DecidableEq, Repr

/-- `OPCodeT`: one instruction. -/
structure OPCodeT where
  action : OPT
  value : Val
  deriving DecidableEq, Repr

/-- Why a run of the JavaScript code yields no result in the model. -/
inductive Fault where
  | throws
  | unmodelled
  | out_of_fuel
  deriving DecidableEq, Repr

/-- Result of a modelled JavaScript computation. -/
abbrev Res (α : Type) := Except Fault α

instance {ε α : Type} [DecidableEq ε] [DecidableEq α] : DecidableEq (Except ε α)
  | .ok a, .ok b => if h : a = b then isTrue (by rw [h]) else isFalse (fun h' => h (by cases h'; rfl))
  | .error a, .error b =>
    if h : a = b then isTrue (by rw [h]) else isFalse (fun h' => h (by cases h'; rfl))
  | .ok _, .error _ => isFalse (fun h => by cases h)
  | .error _, .ok _ => isFalse (fun h => by cases h)

/-- A JavaScript object used as a dictionary: its own properties in insertion order. -/
abbrev Dict (α : Type) := List (String × α)

/-- Own-property read `d[k]`. -/
def Dict.get {α : Type} (d : Dict α) (k : String) : Option α :=
  match d with
  | [] => none
  | (k', v) :: rest => if k' = k then some v else Dict.get rest k

/-- Own-property write `d[k] = v`: overwrite in place, or append a new property. -/
def Dict.set {α : Type} (d : Dict α) (k : String) (v : α) : Dict α :=
  match d with
  | [] => [(k, v)]
  | (k', v') :: rest => if k' = k then (k', v) :: rest else (k', v') :: Dict.set rest k v

/-- The function table `function_map`: function name to entry index. -/
abbrev FunctionMap := Dict Nat

/-- A run-time frame of the VM scope stack. -/
abbrev Frame := Dict Val

/-! ## Code generator (`src/code-generator.js`) -/

/-- `labels_table.find(label => label.id === x)` for a body element `x`
(`none`: the element is missing, that is `undefined`). -/
def find_label (labels_table : List Label) (x : Option AST) : Option Label :=
  match x with
  | some (.num n) => labels_table.find? (fun label => decide (label.id = n))
  | _ => none

/-- `labels_table.find(label => label.id === x.body[0])` for an element `x` that may be
missing or a payload: the callback reads `x.body[0]`, which throws for such an `x`, but
it only runs when the table has an entry. -/
def find_label_of (labels_table : List Label) (x : Option AST) : Res (Option Label) :=
  match x with
  | some (.node _ _ b) => .ok (find_label labels_table b.head?)
  | _ =>
    match labels_table with
    | [] => .ok none
    | _ :: _ => .error .throws

/-- `label?.name` as an instruction operand. -/
def label_name (label : Option Label) : Val :=
  match label with
  | some l => .str l.name
  | none => .undefined

/-- Numeric value of a string of decimal digits. -/
def digits_value (cs : List Char) : Nat :=
  cs.foldl (fun acc c => 10 * acc + (c.toNat - 48)) 0

/-- Number of halvings that bring `m` below 2^53, when at most `fuel` are needed. -/
def significand_shift : Nat → Nat → Option Nat
  | 0, m => if m < 9007199254740992 then some 0 else none
  | fuel + 1, m =>
    if m < 9007199254740992 then some 0
    else
      match significand_shift fuel (m / 2) with
      | some e => some (e + 1)
      | none => none

/-- The double nearest to the natural number `m`, ties going to the even
significand: `m` itself up to 2^53, above it the 53 leading bits rounded by the
bits that are cut; `none` when the nearest double is `Infinity` (from
2^1024 - 2^970 on). -/
def round_to_double (m : Nat) : Option Nat :=
  if m ≤ 9007199254740992 then some m
  else
    match significand_shift 971 m with
    | none => none
    | some e =>
      let q := m / 2 ^ e
      let r := m % 2 ^ e
      let half := 2 ^ (e - 1)
      let significand := if r < half then q else if half < r then q + 1
        else if q % 2 = 0 then q else q + 1
      if e = 971 ∧ significand = 9007199254740992 then none
      else some (significand * 2 ^ e)

/-- The Number value that an arithmetic result or a literal with the exact
integer value `n` is rounded to; an infinite result is outside the model. -/
def number (n : Int) : Res Val :=
  match round_to_double n.natAbs with
  | some m => .ok (.num (if n < 0 then -(m : Int) else (m : Int)))
  | none => .error .unmodelled

/-- Unary plus `+x` on the payload of a number literal: a string of decimal
digits yields the double nearest to its value, a number yields itself, every
other operand is outside the integer model. -/
def to_number (x : Option AST) : Res Val :=
  match x with
  | some (.num n) => .ok (.num n)
  | some (.str s) =>
    if s.data.all Char.isDigit then number (digits_value s.data) else .error .unmodelled
  | _ => .error .unmodelled

/-- Payload `ast.body[0]` of a string literal as an instruction operand. -/
def literal_value (x : Option AST) : Res Val :=
  match x with
  | none => .ok .undefined
  | some (.str s) => .ok (.str s)
  | some (.num n) => .ok (.num n)
  | some (.node _ _ _) => .error .unmodelled

/-- Opcode of a binary node: the arithmetic branch keeps `ast.op`, the
comparison branch maps it to a `compare_*` opcode. -/
def binary_action (op : ASTOp) : Option OPT :=
  match op with
  | .add => some .add
  | .sub => some .sub
  | .mul => some .mul
  | .div => some .div
  | .gt => some .compare_above
  | .gte => some .compare_above_equal
  | .lt => some .compare_below
  | .lte => some .compare_below_equal
  | .equal => some .compare_equal
  | .not_equal => some .compare_not_equal
  | _ => none

/-- `builtin_functions_name`. -/
def builtin_functions_name : List String := ["print"]

/-- `func_label?.id === x` for a body element `x`. -/
def id_matches (func_label : Option Label) (x : Option AST) : Bool :=
  match func_label, x with
  | some l, some (.num n) => decide (l.id = n)
  | none, none => true
  | _, _ => false

/-- `scopes[0].body.find(ast => ast.type === "function" && ast.body[0].body[0] === func_label?.id)`
over the elements of the root body; the callback throws on a function node whose
first child has no `body`. -/
def find_function (func_label : Option Label) : List AST → Res (Option AST)
  | [] => .ok none
  | a :: rest =>
    match a with
    | .node .function op fb =>
      match fb.head? with
      | some (.node _ _ nb) =>
        if id_matches func_label nb.head? then .ok (some (.node .function op fb))
        else find_function func_label rest
      | _ => .error .throws
    | _ => find_function func_label rest

/-- Operand of the `load_name` emitted for argument `i` of a call to a declared
function: the name of the callee's `i`-th declared parameter. -/
def param_name (labels_table : List Label) (scopes : List AST) (func_label : Option Label)
    (i : Nat) : Res Val :=
  match scopes.head? with
  | some (.node _ _ root_body) =>
    match find_function func_label root_body with
    | .error e => .error e
    | .ok (some (.node _ _ fb)) =>
      match find_label_of labels_table ((fb.take (fb.length - 1)).drop 2)[i]? with
      | .ok label => .ok (label_name label)
      | .error e => .error e
    | .ok _ => .error .throws
  | _ => .error .throws

/-- `builtin_functions_name.find(n => n === func_label?.name) !== undefined`. -/
def is_builtin (func_label : Option Label) : Bool :=
  match func_label with
  | some l => decide (l.name ∈ builtin_functions_name)
  | none => false

mutual
/-- `expr_generator(ast, labels_table, scopes)`. -/
def expr_generator (labels_table : List Label) (scopes : List AST) :
    AST → Res (List OPCodeT)
  | .str _ => .error .throws
  | .num _ => .error .throws
  | .node ty op body =>
    if ty = .string_iter then
      match literal_value body.head? with
      | .ok v => .ok [⟨.load_const, v⟩]
      | .error e => .error e
    else if ty = .number_iter then
      match to_number body.head? with
      | .ok v => .ok [⟨.load_const, v⟩]
      | .error e => .error e
    else if ty = .type then .ok []
    else if ty = .target then
      .ok [⟨.load_name, label_name (find_label labels_table body.head?)⟩, ⟨.load_value, .null⟩]
    else
      match binary_action op with
      | some action =>
        match body with
        | left :: right :: _ =>
          match expr_generator labels_table (scopes ++ [.node ty op body]) left with
          | .error e => .error e
          | .ok left_part_code =>
            match expr_generator labels_table (scopes ++ [.node ty op body]) right with
            | .error e => .error e
            | .ok right_part_code => .ok (left_part_code ++ right_part_code ++ [⟨action, .null⟩])
        | [left] =>
          match expr_generator labels_table (scopes ++ [.node ty op body]) left with
          | .error e => .error e
          | .ok _ => .error .throws
        | [] => .error .throws
      | none =>
        if op = .func_call then
          match find_label_of labels_table body.head? with
          | .error e => .error e
          | .ok func_label =>
            match body with
            | [] =>
              .ok ([⟨.create_scope, .null⟩]
                ++ [⟨.call, label_name func_label⟩, ⟨.delete_scope, .null⟩])
            | _ :: args =>
              match expr_generator_args labels_table scopes (.node ty op body) func_label
                  (is_builtin func_label) 0 args with
              | .error e => .error e
              | .ok args_code =>
                .ok ([⟨.create_scope, .null⟩] ++ args_code
                  ++ [⟨.call, label_name func_label⟩, ⟨.delete_scope, .null⟩])
        else .error .throws
/-- The argument loop of the `func_call` branch, from argument index `i` on. -/
def expr_generator_args (labels_table : List Label) (scopes : List AST) (call_ast : AST)
    (func_label : Option Label) (is_builtin_function : Bool) (i : Nat) :
    List AST → Res (List OPCodeT)
  | [] => .ok []
  | arg :: rest =>
    match expr_generator labels_table (scopes ++ [call_ast]) arg with
    | .error e => .error e
    | .ok arg_code =>
      match (if is_builtin_function then .ok (.str ("arg_" ++ toString i))
             else param_name labels_table scopes func_label i) with
      | .error e => .error e
      | .ok name =>
        match expr_generator_args labels_table scopes call_ast func_label
            is_builtin_function (i + 1) rest with
        | .error e => .error e
        | .ok rest_code =>
          .ok ([⟨.load_name, name⟩] ++ arg_code ++ [⟨.assign, .null⟩] ++ rest_code)
end

/-- `expr_generator` applied to a body element that may be missing: reading
`ast.type` of `undefined` throws. -/
def expr_generator_at (labels_table : List Label) (scopes : List AST) (x : Option AST) :
    Res (List OPCodeT) :=
  match x with
  | some ast => expr_generator labels_table scopes ast
  | none => .error .throws

/-- Rewrite of one instruction at index `i` by the placeholder loop of the `while` branch. -/
def resolve_placeholder (break_index i : Nat) (op : OPCodeT) : OPCodeT :=
  if op.action = .jmp ∧ (op.value = .str "break" ∨ op.value = .str "continue") then
    if op.value = .str "break" then ⟨op.action, .num (-((i : Int) - (break_index : Int)))⟩
    else ⟨op.action, .num (-(i : Int))⟩
  else op

/-- The loop `for (let i=0; i<while_code.length; i++)` that rewrites the `break` and
`continue` placeholders of `while_code`, from index `i` on. -/
def resolve_placeholders (break_index : Nat) (i : Nat) : List OPCodeT → List OPCodeT
  | [] => []
  | op :: rest => resolve_placeholder break_index i op :: resolve_placeholders break_index (i + 1) rest

/-- Text of `op` in the template literal of the `break`/`continue` placeholder. -/
def placeholder_text (op : ASTOp) : String :=
  if op = .break_ then "break" else "continue"

/-- Key written by `function_map[func_label?.name] = ...`. -/
def function_key (func_label : Option Label) : String :=
  match func_label with
  | some l => l.name
  | none => "undefined"

mutual
/-- `code_generator(ast, labels_table, scopes)`; the global `function_map` it
writes to is passed in and returned. -/
def code_generator (labels_table : List Label) (scopes : List AST) (function_map : FunctionMap)
    (ast : AST) : Res (List OPCodeT × FunctionMap) :=
  match ast with
  | .node _ _ body => code_generator_body labels_table scopes function_map [] body
  | _ => .error .throws
termination_by structural ast
/-- The loop `for (let i=0; i<ast.body.length; i++)` of `code_generator` over the
remaining children, `code` being the instructions emitted so far. -/
def code_generator_body (labels_table : List Label) (scopes : List AST)
    (function_map : FunctionMap) (code : List OPCodeT) (body : List AST) :
    Res (List OPCodeT × FunctionMap) :=
  match body with
  | [] => .ok (code, function_map)
  | current_ast :: rest =>
    match code_generator_stmt labels_table scopes function_map code.length current_ast with
    | .error e => .error e
    | .ok (stmt_code, fm) => code_generator_body labels_table scopes fm (code ++ stmt_code) rest
termination_by structural body
/-- One iteration of that loop: the instructions appended to `code` for the child
`current_ast`, where `code_length` is `code.length` on entry. -/
def code_generator_stmt (labels_table : List Label) (scopes : List AST)
    (function_map : FunctionMap) (code_length : Nat) (current_ast : AST) :
    Res (List OPCodeT × FunctionMap) :=
  match current_ast with
  | .str _ => .error .throws
  | .num _ => .error .throws
  | .node ty op body =>
    if ty = .action then
      if op = .none then .error .throws
      else if op = .assign then
        match find_label_of labels_table body.head? with
        | .error e => .error e
        | .ok assign_target_label_info =>
          match expr_generator_at labels_table (scopes ++ [.node ty op body]) body.tail.head? with
          | .error e => .error e
          | .ok assign_value_code =>
            .ok ([⟨.load_name, label_name assign_target_label_info⟩]
              ++ assign_value_code ++ [⟨.assign, .null⟩], function_map)
      else if op = .if_ then
        match body with
        | [] => .error .throws
        | [if_cond_ast] =>
          match expr_generator labels_table (scopes ++ [.node ty op body]) if_cond_ast with
          | .error e => .error e
          | .ok _ => .error .throws
        | [if_cond_ast, if_true_ast] =>
          match expr_generator labels_table (scopes ++ [.node ty op body]) if_cond_ast with
          | .error e => .error e
          | .ok if_cond_code =>
            match code_generator labels_table (scopes ++ [.node ty op body]) function_map
                if_true_ast with
            | .error e => .error e
            | .ok (if_true_code, fm) =>
              .ok (if_cond_code ++ [⟨.jmp_true_remove, .num 2⟩]
                ++ [⟨.jmp_false_remove, .num (if_true_code.length + 1)⟩] ++ if_true_code, fm)
        | if_cond_ast :: if_true_ast :: if_else_ast :: _ =>
          match expr_generator labels_table (scopes ++ [.node ty op body]) if_cond_ast with
          | .error e => .error e
          | .ok if_cond_code =>
            match code_generator labels_table (scopes ++ [.node ty op body]) function_map
                if_true_ast with
            | .error e => .error e
            | .ok (if_true_code, fm) =>
              match code_generator labels_table (scopes ++ [.node ty op body]) fm if_else_ast with
              | .error e => .error e
              | .ok (if_else_code, fm') =>
                .ok (if_cond_code ++ [⟨.jmp_true_remove, .num 2⟩]
                  ++ [⟨.jmp_false_remove, .num (if_true_code.length + 2)⟩] ++ if_true_code
                  ++ [⟨.jmp, .num (if_else_code.length + 1)⟩] ++ if_else_code, fm')
      else if op = .while_ then
        match body with
        | [] => .error .throws
        | [while_cond_ast] =>
          match expr_generator labels_table (scopes ++ [.node ty op body]) while_cond_ast with
          | .error e => .error e
          | .ok _ => .error .throws
        | while_cond_ast :: while_body_ast :: _ =>
          match expr_generator labels_table (scopes ++ [.node ty op body]) while_cond_ast with
          | .error e => .error e
          | .ok while_cond_code =>
            match code_generator labels_table (scopes ++ [.node ty op body]) function_map
                while_body_ast with
            | .error e => .error e
            | .ok (while_body_code, fm) =>
              let while_code := while_cond_code ++ [⟨.jmp_true_remove, .num 3⟩]
                ++ [⟨.jmp_remove, .num (while_body_code.length + 3)⟩,
                    ⟨.jmp, .num (while_body_code.length + 2)⟩]
              let break_index := while_code.length - 1
              let while_code := while_code ++ while_body_code
              let while_code := while_code ++ [⟨.jmp, .num (-(while_code.length : Int))⟩]
              .ok (resolve_placeholders break_index 0 while_code, fm)
      else if op = .break_ ∨ op = .continue_ then
        .ok ([⟨.jmp, .str (placeholder_text op)⟩], function_map)
      else if op = .return_ then
        match expr_generator_at labels_table (scopes ++ [.node ty op body]) body.head? with
        | .error e => .error e
        | .ok return_body_code => .ok (return_body_code ++ [⟨.ret, .null⟩], function_map)
      else if op = .func_call then
        match expr_generator labels_table (scopes ++ [.node ty op body]) (.node ty op body) with
        | .error e => .error e
        | .ok func_call_code => .ok (func_call_code ++ [⟨.seek, .num 1⟩], function_map)
      else .ok ([], function_map)
    else if ty = .function then
      match find_label_of labels_table body.head? with
      | .error e => .error e
      | .ok func_label =>
        match code_generator_last labels_table (scopes ++ [.node ty op body])
            (Dict.set function_map (function_key func_label) (code_length + 1)) body with
        | .error e => .error e
        | .ok (func_code, fm) => .ok ([⟨.jmp, .num (func_code.length + 1)⟩] ++ func_code, fm)
    else if ty = .program then
      code_generator_body labels_table (scopes ++ [.node ty op body]) function_map [] body
    else .ok ([], function_map)
termination_by structural current_ast
/-- `code_generator` applied to the last element `body[body.length - 1]` of a
function node (`undefined` for an empty body). -/
def code_generator_last (labels_table : List Label) (scopes : List AST)
    (function_map : FunctionMap) (body : List AST) : Res (List OPCodeT × FunctionMap) :=
  match body with
  | [] => .error .throws
  | [func_body_ast] => code_generator labels_table scopes function_map func_body_ast
  | _ :: next :: rest => code_generator_last labels_table scopes function_map (next :: rest)
termination_by structural body
end

/-- The object returned by the generator and consumed by `vm`. -/
structure CodeObject where
  code : List OPCodeT
  function_map : FunctionMap
  call_stack : List Int
  op_stack : List Val
  scope_stack : List Frame
  deriving DecidableEq, Repr

/-- The default export of `code-generator.js`; `function_map` is the content of the
module-level table when the run starts (empty for the first run of a process). -/
def generate (function_map : FunctionMap) (ast : AST) (labels_table : List Label) :
    Res CodeObject :=
  match code_generator labels_table [ast] function_map ast with
  | .error e => .error e
  | .ok (code, fm) => .ok ⟨code, fm, [], [], []⟩

/-! ## Semantic analyzer (`src/semanticer.js`) -/

/-- The string `"num"`, `"str"` or `"fn"` of a label type. -/
def LabelType.val : LabelType → Val
  | .num => .str "num"
  | .str => .str "str"
  | .fn => .str "fn"

/-- `/[0-9.]+/.test(s)`: the string holds a digit or a dot. -/
def has_digit_or_dot (s : String) : Bool :=
  s.data.any (fun c => c.isDigit || c == '.')

/-- `ast_node_stack[0].body.find(ast => ast.type === "function" &&
ast.body[0].type === "target" && ast.body[0].body[0] === func_call_target.body[0])`, where
`func_call_target.body[0]` is the number `id`; the callback throws on a function node
with an empty body. -/
def find_function_ast (id : Int) : List AST → Res (Option AST)
  | [] => .ok none
  | a :: rest =>
    match a with
    | .node .function op fb =>
      match fb.head? with
      | none => .error .throws
      | some (.node .target _ nb) =>
        match nb.head? with
        | some (.num m) =>
          if m = id then .ok (some (.node .function op fb)) else find_function_ast id rest
        | _ => find_function_ast id rest
      | some _ => find_function_ast id rest
    | _ => find_function_ast id rest

/-- A node of type `target`. -/
def is_target_node (ast : AST) : Bool :=
  match ast with
  | .node .target _ _ => true
  | _ => false

/-- The value of `x.body[1].body[0]`, read as a type name, for a function node's body
`fb`; reading `body` of a missing or payload `fb[1]` throws. -/
def declared_return_type (fb : List AST) : Res Val :=
  match fb.tail.head? with
  | some (.node _ _ rb) => literal_value rb.head?
  | _ => .error .throws

/-- The end of the `func_call` branch: `target_func_ast.body[1].type !== "type"` throws,
otherwise the result is `target_func_ast.body[1].body[0]`. -/
def declared_return_type_checked (fb : List AST) : Res Val :=
  match fb.tail.head? with
  | some (.node .type _ rb) => literal_value rb.head?
  | _ => .error .throws

mutual
/-- `expr_checker(ast, labels_table, target_type)`, reading the module-level
`ast_node_stack` (index 0 is its bottom, the root program). -/
def expr_checker (labels_table : List Label) (ast_node_stack : List AST) (ast : AST)
    (target_type : Val) : Res Val :=
  match ast with
  | .str _ => .error .throws
  | .num _ => .error .throws
  | .node ty op body =>
    if ty = .number_iter then
      if body.length ≠ 1 then .error .throws
      else
        match body.head? with
        | some (.str s) =>
          if has_digit_or_dot s = false then .error .throws
          else if target_type = .str "str" then .error .throws
          else .ok (.str "num")
        | _ => .error .throws
    else if ty = .string_iter then
      if body.length ≠ 1 then .error .throws
      else
        match body.head? with
        | some (.str _) =>
          if target_type = .str "num" then .error .throws else .ok (.str "str")
        | _ => .error .throws
    else if ty = .target then
      match find_label labels_table body.head? with
      | none => .error .throws
      | some target_label_info =>
        if target_label_info.type = .fn then .error .throws
        else if target_label_info.type.val ≠ target_type then .error .throws
        else .ok target_label_info.type.val
    else if op = .add ∨ op = .equal ∨ op = .not_equal then
      match body with
      | [] => .error .throws
      | [left_part] =>
        match expr_checker labels_table ast_node_stack left_part target_type with
        | .error e => .error e
        | .ok _ => .error .throws
      | left_part :: right_part :: _ =>
        match expr_checker labels_table ast_node_stack left_part target_type with
        | .error e => .error e
        | .ok left_part_check_res =>
          match expr_checker labels_table ast_node_stack right_part target_type with
          | .error e => .error e
          | .ok right_part_check_res =>
            if left_part_check_res = right_part_check_res then
              if left_part_check_res ≠ target_type then .error .throws
              else if left_part_check_res = .str "num" ∨ left_part_check_res = .str "str" then
                if op = .add then .ok left_part_check_res else .ok (.str "num")
              else .error .throws
            else .error .throws
    else if op = .sub ∨ op = .mul ∨ op = .div ∨ op = .gt ∨ op = .gte ∨ op = .lt ∨ op = .lte then
      match body with
      | [] => .error .throws
      | [left_part] =>
        match expr_checker labels_table ast_node_stack left_part target_type with
        | .error e => .error e
        | .ok _ => .error .throws
      | left_part :: right_part :: _ =>
        match expr_checker labels_table ast_node_stack left_part target_type with
        | .error e => .error e
        | .ok left_part_check_res =>
          match expr_checker labels_table ast_node_stack right_part target_type with
          | .error e => .error e
          | .ok right_part_check_res =>
            if left_part_check_res = right_part_check_res then
              if left_part_check_res ≠ target_type then .error .throws
              else if left_part_check_res = .str "num" then .ok left_part_check_res
              else .error .throws
            else .error .throws
    else if op = .func_call then
      match find_label_of labels_table body.head? with
      | .error e => .error e
      | .ok none => .error .throws
      | .ok (some func_labels_info) =>
        match ast_node_stack.head? with
        | some (.node _ _ root_body) =>
          match find_function_ast func_labels_info.id root_body with
          | .error e => .error e
          | .ok (some (.node _ _ fb)) =>
            if ((fb.take (fb.length - 1)).drop 2).all is_target_node = false then .error .throws
            else if body.tail.length ≠ ((fb.take (fb.length - 1)).drop 2).length then
              .error .throws
            else
              match body with
              | [] => declared_return_type_checked fb
              | _ :: func_call_args =>
                match expr_checker_args labels_table ast_node_stack func_call_args
                    ((fb.take (fb.length - 1)).drop 2) with
                | .error e => .error e
                | .ok _ => declared_return_type_checked fb
          | .ok _ => .error .throws
        | _ => .error .throws
    else .error .throws
termination_by structural ast
/-- The loop of the `func_call` branch that checks each argument against the type of
the declared parameter at the same position. -/
def expr_checker_args (labels_table : List Label) (ast_node_stack : List AST)
    (func_call_args : List AST) (func_decl_args_info : List AST) : Res Unit :=
  match func_call_args with
  | [] => .ok ()
  | arg_value_ast :: rest =>
    match arg_value_ast with
    | .str _ => .error .throws
    | .num _ => .error .throws
    | .node aty aop abody =>
      match func_decl_args_info with
      | [] => .error .throws
      | arg_must_info :: rest_info =>
        match arg_must_info with
        | .node .target _ ib =>
          match find_label labels_table ib.head? with
          | none => .error .throws
          | some arg_must_label_info =>
            match expr_checker labels_table ast_node_stack (.node aty aop abody)
                arg_must_label_info.type.val with
            | .error e => .error e
            | .ok _ => expr_checker_args labels_table ast_node_stack rest rest_info
        | _ => .error .throws
termination_by structural func_call_args
end

/-- `expr_checker` applied to a body element that may be missing. -/
def expr_checker_at (labels_table : List Label) (ast_node_stack : List AST) (x : Option AST)
    (target_type : Val) : Res Val :=
  match x with
  | some ast => expr_checker labels_table ast_node_stack ast target_type
  | none => .error .throws

/-- `scope.op === "while"` for an entry of `ast_node_stack`. -/
def is_while_scope (scope : AST) : Bool :=
  match scope with
  | .node _ .while_ _ => true
  | _ => false

/-- `scope_ast.type === "function"` for an entry of `ast_node_stack`. -/
def is_function_scope (scope : AST) : Bool :=
  match scope with
  | .node .function _ _ => true
  | _ => false

/-- A body element that is a string or a number payload. -/
def is_payload (ast : AST) : Bool :=
  match ast with
  | .node _ _ _ => false
  | _ => true

/-- The parameter loop of the `function` branch of `semanticer`, over
`body[2 .. length - 2]`: every parameter must be a node of type `target`. -/
def params_are_targets (body : List AST) : Bool :=
  ((body.take (body.length - 1)).drop 2).all is_target_node

/-- The `return` branch of `semanticer`, once the enclosing function is known. -/
def check_return (labels_table : List Label) (ast_node_stack : List AST) (body : List AST) :
    Res Unit :=
  match (ast_node_stack.reverse).find? is_function_scope with
  | some (.node _ _ fb) =>
    if body.length ≠ 0 then
      if body.length ≤ 1 then
        match declared_return_type fb with
        | .error e => .error e
        | .ok return_type =>
          match expr_checker_at labels_table ast_node_stack body.head? return_type with
          | .error e => .error e
          | .ok _ => .ok ()
      else .error .throws
    else .ok ()
  | _ => .error .throws

mutual
/-- `semanticer(ast, labels_table)`; the module-level `ast_node_stack` is passed in
(pushing appends at the end). -/
def semanticer (labels_table : List Label) (ast_node_stack : List AST) (ast : AST) : Res Unit :=
  match ast with
  | .node ty _ body =>
    if ty ≠ .program then .error .throws
    else semanticer_body labels_table ast_node_stack body
  | _ => .error .throws
termination_by structural ast
/-- The loop of `semanticer` over the remaining children. -/
def semanticer_body (labels_table : List Label) (ast_node_stack : List AST) (body : List AST) :
    Res Unit :=
  match body with
  | [] => .ok ()
  | child_ast :: rest =>
    match semanticer_child labels_table ast_node_stack child_ast with
    | .error e => .error e
    | .ok _ => semanticer_body labels_table ast_node_stack rest
termination_by structural body
/-- One iteration of that loop, for the child `child_ast`. -/
def semanticer_child (labels_table : List Label) (ast_node_stack : List AST) (child_ast : AST) :
    Res Unit :=
  match child_ast with
  | .str _ => .error .throws
  | .num _ => .error .throws
  | .node ty op body =>
    if ty = .action then
      if op = .none then .error .throws
      else if op = .assign then
        match body.head? with
        | some (.node .target _ tb) =>
          match find_label labels_table tb.head? with
          | none => .error .throws
          | some assign_target_label_info =>
            match expr_checker_at labels_table ast_node_stack body.tail.head?
                assign_target_label_info.type.val with
            | .error e => .error e
            | .ok assign_value_type =>
              if assign_value_type ≠ assign_target_label_info.type.val then .error .throws
              else .ok ()
        | _ => .error .throws
      else if op = .if_ then
        match body with
        | if_cond_ast :: if_true_ast :: rest =>
          if is_payload if_cond_ast ∨ is_payload if_true_ast then .error .throws
          else
            match expr_checker labels_table ast_node_stack if_cond_ast (.str "num") with
            | .error e => .error e
            | .ok _ =>
              match semanticer labels_table (ast_node_stack ++ [.node ty op body])
                  if_true_ast with
              | .error e => .error e
              | .ok _ =>
                match rest with
                | [if_else_ast] =>
                  semanticer labels_table (ast_node_stack ++ [.node ty op body]) if_else_ast
                | _ => .ok ()
        | _ => .error .throws
      else if op = .while_ then
        match body with
        | while_cond_ast :: while_body_ast :: _ =>
          if is_payload while_cond_ast ∨ is_payload while_body_ast then .error .throws
          else
            match expr_checker labels_table ast_node_stack while_cond_ast (.str "num") with
            | .error e => .error e
            | .ok _ =>
              semanticer labels_table (ast_node_stack ++ [.node ty op body]) while_body_ast
        | _ => .error .throws
      else if op = .break_ ∨ op = .continue_ then
        if ast_node_stack.any is_while_scope then .ok () else .error .throws
      else if op = .return_ then check_return labels_table ast_node_stack body
      else .ok ()
    else if ty = .function then
      match find_label_of labels_table body.head? with
      | .error e => .error e
      | .ok none => .error .throws
      | .ok (some target_label_info) =>
        if target_label_info.type ≠ .fn then .error .throws
        else
          match body.tail.head? with
          | some (.node .type _ _) =>
            if body.length > 3 ∧ params_are_targets body = false then .error .throws
            else semanticer_last labels_table (ast_node_stack ++ [.node ty op body]) body
          | _ => .error .throws
    else .ok ()
termination_by structural child_ast
/-- `semanticer` applied to the last element `body[body.length - 1]` of a function node. -/
def semanticer_last (labels_table : List Label) (ast_node_stack : List AST) (body : List AST) :
    Res Unit :=
  match body with
  | [] => .error .throws
  | [func_body_ast] => semanticer labels_table ast_node_stack func_body_ast
  | _ :: next :: rest => semanticer_last labels_table ast_node_stack (next :: rest)
termination_by structural body
end

/-- The default export of `semanticer.js`, for an empty module-level stack: push the
root, analyze, pop. -/
def analyze (ast : AST) (labels_table : List Label) : Res Unit :=
  semanticer labels_table [ast] ast

/-! ## Virtual machine (`src/vm.js`) -/

/-- The mutable state of one VM run: the instruction pointer, the three stacks of
`code_object`, and the argument lists printed so far by the builtin `print`. -/
structure VMState where
  ip : Int
  op_stack : List Val
  call_stack : List Int
  scope_stack : List Frame
  output : List (List Val)
  deriving DecidableEq, Repr

/-- `op_stack.pop()`: popping an empty array yields `undefined`. -/
def pop (s : List Val) : Val × List Val :=
  match s with
  | [] => (.undefined, [])
  | v :: rest => (v, rest)

/-- `r1 + r2` on two numbers, the exact sum rounded to a double, or on two strings. -/
def js_add (r1 r2 : Val) : Res Val :=
  match r1, r2 with
  | .num a, .num b => number (a + b)
  | .str a, .str b => .ok (.str (a ++ b))
  | _, _ => .error .unmodelled

/-- `r1 - r2` on two numbers, the exact difference rounded to a double. -/
def js_sub (r1 r2 : Val) : Res Val :=
  match r1, r2 with
  | .num a, .num b => number (a - b)
  | _, _ => .error .unmodelled

/-- `r1 * r2` on two numbers, the exact product rounded to a double. -/
def js_mul (r1 r2 : Val) : Res Val :=
  match r1, r2 with
  | .num a, .num b => number (a * b)
  | _, _ => .error .unmodelled

/-- `r1 / r2` on two numbers, when the quotient is an integer. -/
def js_div (r1 r2 : Val) : Res Val :=
  match r1, r2 with
  | .num a, .num b =>
    if b ≠ 0 ∧ a % b = 0 then .ok (.num (a / b)) else .error .unmodelled
  | _, _ => .error .unmodelled

/-- A relational comparison `r1 > r2`, `r1 >= r2`, `r1 < r2`, `r1 <= r2` on two
numbers, yielding 1 or 0. -/
def js_compare (rel : Int → Int → Bool) (r1 r2 : Val) : Res Val :=
  match r1, r2 with
  | .num a, .num b => .ok (.num (if rel a b then 1 else 0))
  | _, _ => .error .unmodelled

/-- Property key of a popped name token `r1`. -/
def key_of (r1 : Val) : Res String :=
  match r1 with
  | .str s => .ok s
  | .undefined => .ok "undefined"
  | .null => .ok "null"
  | .num _ => .error .unmodelled

/-- The scope search of `load_value`: innermost frame first, the first frame
with `scope[r1] !== undefined` wins; `undefined` when there is none. -/
def lookup_value (k : String) : List Frame → Val
  | [] => .undefined
  | scope :: rest =>
    match Dict.get scope k with
    | some v => if v = .undefined then lookup_value k rest else v
    | none => lookup_value k rest

/-- Length of a string in UTF-16 code units. -/
def utf16_length (s : String) : Nat :=
  s.data.foldl (fun n c => n + (if c.toNat < 65536 then 1 else 2)) 0

/-- Whether `k` is an own property of the string value `s`: `length` and the
canonical indices below its length. -/
def string_has_own (s k : String) : Bool :=
  decide (k = "length") ||
    (k.data.all Char.isDigit && !k.data.isEmpty
      && (decide (k = "0") || !decide (k.data.head? = some '0'))
      && decide (digits_value k.data < utf16_length s))

/-- String keys of `Object.prototype`, which every string and number inherits. -/
def object_prototype_keys : List String :=
  ["constructor", "__defineGetter__", "__defineSetter__", "hasOwnProperty",
   "__lookupGetter__", "__lookupSetter__", "isPrototypeOf", "propertyIsEnumerable",
   "toString", "valueOf", "__proto__", "toLocaleString"]

/-- String keys of `String.prototype` in every version of Node that runs
`src/index.js` (its top-level `await` needs Node 14.8): the members of
ECMAScript 2020. -/
def string_prototype_keys : List String :=
  ["length", "constructor", "anchor", "big", "blink", "bold", "charAt", "charCodeAt",
   "codePointAt", "concat", "endsWith", "fontcolor", "fontsize", "fixed", "includes",
   "indexOf", "italics", "lastIndexOf", "link", "localeCompare", "match", "matchAll",
   "normalize", "padEnd", "padStart", "repeat", "replace", "search", "slice", "small",
   "split", "strike", "sub", "substr", "substring", "sup", "startsWith", "toString",
   "trim", "trimStart", "trimLeft", "trimEnd", "trimRight", "toLocaleLowerCase",
   "toLocaleUpperCase", "toLowerCase", "toUpperCase", "valueOf"]

/-- String keys that later editions added to `String.prototype` (`replaceAll` in
Node 15, `at` in Node 16.6, the other two in Node 20): whether a string has them
depends on the version of the engine. -/
def string_prototype_later_keys : List String :=
  ["replaceAll", "at", "isWellFormed", "toWellFormed"]

/-- String keys of `Number.prototype`. -/
def number_prototype_keys : List String :=
  ["constructor", "toExponential", "toFixed", "toLocaleString", "toPrecision", "toString",
   "valueOf"]

/-- Whether `s[k] !== undefined` for a string value `s`: an own property or a
member inherited from `String.prototype` or `Object.prototype`. -/
def string_has (s k : String) : Res Bool :=
  if string_has_own s k || string_prototype_keys.contains k || object_prototype_keys.contains k
  then .ok true
  else if string_prototype_later_keys.contains k then .error .unmodelled
  else .ok false

/-- Whether `n[k] !== undefined` for a number `n`: a member inherited from
`Number.prototype` or `Object.prototype`. -/
def number_has (k : String) : Bool :=
  number_prototype_keys.contains k || object_prototype_keys.contains k

/-- The search loop of `assign`, which walks `op_stack` (not `scope_stack`) from its
top: `true` when some operand `scope` has `scope[r1] !== undefined`.  Reading a
property of `undefined` or `null` throws. -/
def found_at_scope (k : String) : List Val → Res Bool
  | [] => .ok false
  | scope :: rest =>
    match scope with
    | .undefined => .error .throws
    | .null => .error .throws
    | .num _ => if number_has k then .ok true else found_at_scope k rest
    | .str s =>
      match string_has s k with
      | .error e => .error e
      | .ok true => .ok true
      | .ok false => found_at_scope k rest

/-- The write `found_at_scope[r1] = r2` to a string or a number in strict code:
the setter of `__proto__` returns without effect, every other key that the value
has is an own property that is not writable or an inherited data property, and
the write throws. -/
def set_on_primitive (k : String) : Res Unit :=
  if k = "__proto__" then .ok () else .error .throws

/-- The bindings `arg_<N>` of a frame as `func_args_map`, keyed by `N`. -/
def func_args_map : Frame → Res (Dict Val)
  | [] => .ok []
  | (scope_var_name, v) :: rest =>
    match func_args_map rest with
    | .error e => .error e
    | .ok m =>
      if scope_var_name.data.take 4 = ['a', 'r', 'g', '_'] then
        let segment := (scope_var_name.data.drop 4).takeWhile (fun c => c != '_')
        if segment.all Char.isDigit ∧ digits_value segment < 10 ^ 21 then
          let key := toString (digits_value segment)
          .ok (if (Dict.get m key).isSome then m else (key, v) :: m)
        else .error .unmodelled
      else .ok m

/-- Insertion into a list sorted by the default order of `Array.prototype.sort`:
elements are compared as strings, character by character. -/
def sort_insert (k : String) : List String → List String
  | [] => [k]
  | k' :: rest => if k.data < k'.data then k :: k' :: rest else k' :: sort_insert k rest

/-- `Object.keys(func_args_map).map(k => +k).sort()`, as decimal strings. -/
def func_args_map_keys (m : Dict Val) : List String :=
  (m.map Prod.fst).foldr sort_insert []

/-- The argument list `func_args` handed to a builtin. -/
def func_args (scope : Frame) : Res (List Val) :=
  match func_args_map scope with
  | .error e => .error e
  | .ok m => .ok ((func_args_map_keys m).map (fun key => (Dict.get m key).getD .undefined))

/-- Own keys of `builtins_functions`. -/
def builtins_functions : List String := ["print"]

/-- Advance to the next instruction: the `ip += 1` after `break`. -/
def VMState.next (st : VMState) (op_stack : List Val) : VMState :=
  { st with ip := st.ip + 1, op_stack := op_stack }

/-- A binary instruction: pop `r2`, pop `r1`, push the result. -/
def binary_step (st : VMState) (f : Val → Val → Res Val) : Res VMState :=
  let (r2, s1) := pop st.op_stack
  let (r1, s2) := pop s1
  match f r1 r2 with
  | .ok res => .ok (st.next (res :: s2))
  | .error e => .error e

/-- `ip += op_value` for a jump taken from `st`, leaving `op_stack` on the stack. -/
def jump_step (st : VMState) (op_value : Val) (op_stack : List Val) : Res VMState :=
  match op_value with
  | .num d => .ok { st with ip := st.ip + d, op_stack := op_stack }
  | _ => .error .unmodelled

/-- The `switch (op_action)` of `vm` for the fetched instruction, followed by the
`ip += 1` of the cases that `break`.  Continuing with the `undefined` address of an
unmapped function or of an empty call stack makes the next fetch throw. -/
def exec (function_map : FunctionMap) (st : VMState) (op : OPCodeT) : Res VMState :=
  match op.action with
  | .add => binary_step st js_add
  | .sub => binary_step st js_sub
  | .mul => binary_step st js_mul
  | .div => binary_step st js_div
  | .load_name => .ok (st.next (op.value :: st.op_stack))
  | .load_value =>
    match key_of (pop st.op_stack).1 with
    | .ok k => .ok (st.next (lookup_value k st.scope_stack :: (pop st.op_stack).2))
    | .error e => .error e
  | .load_const => .ok (st.next (op.value :: st.op_stack))
  | .assign =>
    let (r2, s1) := pop st.op_stack
    let (r1, s2) := pop s1
    match key_of r1 with
    | .error e => .error e
    | .ok k =>
      match found_at_scope k s2 with
      | .error e => .error e
      | .ok true =>
        match set_on_primitive k with
        | .error e => .error e
        | .ok _ => .ok { st with ip := st.ip + 1, op_stack := s2 }
      | .ok false =>
        match st.scope_stack with
        | [] => .error .throws
        | scope :: rest =>
          .ok { st with ip := st.ip + 1, op_stack := s2, scope_stack := Dict.set scope k r2 :: rest }
  | .compare_above => binary_step st (js_compare (fun a b => decide (a > b)))
  | .compare_above_equal => binary_step st (js_compare (fun a b => decide (a ≥ b)))
  | .compare_below => binary_step st (js_compare (fun a b => decide (a < b)))
  | .compare_below_equal => binary_step st (js_compare (fun a b => decide (a ≤ b)))
  | .compare_equal =>
    binary_step st (fun r1 r2 => .ok (.num (if r1 = r2 then 1 else 0)))
  | .compare_not_equal =>
    binary_step st (fun r1 r2 => .ok (.num (if r1 = r2 then 0 else 1)))
  | .jmp => jump_step st op.value st.op_stack
  | .jmp_remove => jump_step st op.value (pop st.op_stack).2
  | .jmp_true_remove =>
    if (pop st.op_stack).1 = .num 1 then jump_step st op.value (pop st.op_stack).2
    else .ok (st.next st.op_stack)
  | .jmp_false_remove =>
    if (pop st.op_stack).1 = .num 0 then jump_step st op.value (pop st.op_stack).2
    else .ok (st.next st.op_stack)
  | .call =>
    match key_of op.value with
    | .error e => .error e
    | .ok name =>
      if name ∈ builtins_functions then
        match st.scope_stack with
        | [] => .error .throws
        | scope :: _ =>
          match func_args scope with
          | .error e => .error e
          | .ok args =>
            .ok { st with ip := st.ip + 1, op_stack := .num 0 :: st.op_stack,
                          output := st.output ++ [args] }
      else
        match Dict.get function_map name with
        | none => .error .throws
        | some fn_addr =>
          .ok { st with ip := fn_addr, call_stack := (st.ip + 1) :: st.call_stack }
  | .ret =>
    match st.call_stack with
    | [] => .error .throws
    | target_addr :: rest => .ok { st with ip := target_addr, call_stack := rest }
  | .create_scope => .ok { st with ip := st.ip + 1, scope_stack := [] :: st.scope_stack }
  | .delete_scope => .ok { st with ip := st.ip + 1, scope_stack := st.scope_stack.tail }
  | .seek =>
    match op.value with
    | .num k => .ok (st.next (st.op_stack.drop k.toNat))
    | _ => .error .unmodelled
  | .nop => .ok (st.next st.op_stack)

/-- One iteration of the `while (ip !== code.length)` loop of `vm`, entered with
`ip !== code.length`: fetch `code[ip]` and execute it.  Fetching outside the array
yields `undefined`, whose destructuring throws. -/
def step (code : List OPCodeT) (function_map : FunctionMap) (st : VMState) : Res VMState :=
  if st.ip < 0 then .error .throws
  else
    match code[st.ip.toNat]? with
    | none => .error .throws
    | some op => exec function_map st op

/-- The loop `while (ip !== code.length)` of `vm`, cut after `fuel` iterations. -/
def run (code : List OPCodeT) (function_map : FunctionMap) : Nat → VMState → Res VMState
  | 0, st => if st.ip = code.length then .ok st else .error .out_of_fuel
  | fuel + 1, st =>
    if st.ip = code.length then .ok st
    else
      match step code function_map st with
      | .ok st' => run code function_map fuel st'
      | .error e => .error e

/-- The instruction indices fetched by the loop of `vm`, in order, within `fuel`
iterations. -/
def trace (code : List OPCodeT) (function_map : FunctionMap) : Nat → VMState → List Int
  | 0, _ => []
  | fuel + 1, st =>
    if st.ip = code.length then []
    else
      st.ip :: (match step code function_map st with
        | .ok st' => trace code function_map fuel st'
        | .error _ => [])

/-- `vm(code_object)`: push the global frame, then run the loop from `ip = 0`. -/
def vm (fuel : Nat) (code_object : CodeObject) : Res VMState :=
  run code_object.code code_object.function_map fuel
    ⟨0, code_object.op_stack, code_object.call_stack, [] :: code_object.scope_stack, []⟩

/-- The instruction indices fetched by `vm(code_object)` within `fuel` iterations. -/
def vm_trace (fuel : Nat) (code_object : CodeObject) : List Int :=
  trace code_object.code code_object.function_map fuel
    ⟨0, code_object.op_stack, code_object.call_stack, [] :: code_object.scope_stack, []⟩

/-! ## Reference semantics of call-free expressions -/

/-- The binary operators of call-free expressions: `add`, `sub`, `mul` and the six comparisons. -/
inductive BinOp where
  | add | sub | mul | gt | gte | lt | lte | equal | not_equal
  deriving DecidableEq, Repr

/-- The `op` tag of the action node of a binary operator. -/
def BinOp.op : BinOp → ASTOp
  | .add => .add
  | .sub => .sub
  | .mul => .mul
  | .gt => .gt
  | .gte => .gte
  | .lt => .lt
  | .lte => .lte
  | .equal => .equal
  | .not_equal => .not_equal

/-- Reference value of a binary operator on integers: exact arithmetic, and 1 or 0
for a comparison that holds or fails. -/
def BinOp.apply : BinOp → Int → Int → Int
  | .add, a, b => a + b
  | .sub, a, b => a - b
  | .mul, a, b => a * b
  | .gt, a, b => if a > b then 1 else 0
  | .gte, a, b => if a ≥ b then 1 else 0
  | .lt, a, b => if a < b then 1 else 0
  | .lte, a, b => if a ≤ b then 1 else 0
  | .equal, a, b => if a = b then 1 else 0
  | .not_equal, a, b => if a = b then 0 else 1

/-- Call-free expressions: number literals (given by their digits), targets
(given by their label id) and binary nodes. -/
inductive Expr where
  | lit (digits : String)
  | target (id : Int)
  | binary (op : BinOp) (left right : Expr)
  deriving Repr

/-- The AST node that the parser builds for a call-free expression. -/
def Expr.ast : Expr → AST
  | .lit digits => .node .number_iter .none [.str digits]
  | .target id => .node .target .none [.num id]
  | .binary op left right => .node .action op.op [left.ast, right.ast]

/-- Reference value of a call-free expression under the bindings `env` of names to
integers: left operand first; `none` when a literal is not a digit string, a
target id has no label or its name is unbound. -/
def Expr.value (labels_table : List Label) (env : String → Option Int) : Expr → Option Int
  | .lit digits =>
    if digits.data.all Char.isDigit then some (digits_value digits.data) else none
  | .target id =>
    match labels_table.find? (fun label => decide (label.id = id)) with
    | some label => env label.name
    | none => none
  | .binary op left right =>
    match left.value labels_table env with
    | none => none
    | some a =>
      match right.value labels_table env with
      | none => none
      | some b => some (op.apply a b)

/-- Whether doubles compute the reference value of `e` without rounding: every
literal is at most 2^53 = 9007199254740992, and so is the magnitude of the
reference value of every binary node of `e`. -/
def Expr.exact (labels_table : List Label) (env : String → Option Int) : Expr → Bool
  | .lit digits => decide (digits_value digits.data ≤ 9007199254740992)
  | .target _ => true
  | .binary op left right =>
    left.exact labels_table env && right.exact labels_table env &&
      match left.value labels_table env, right.value labels_table env with
      | some a, some b => decide ((op.apply a b).natAbs ≤ 9007199254740992)
      | _, _ => false

/-- The opcode that `expr_generator` emits for a binary operator. -/
def BinOp.action : BinOp → OPT
  | .add => .add
  | .sub => .sub
  | .mul => .mul
  | .gt => .compare_above
  | .gte => .compare_above_equal
  | .lt => .compare_below
  | .lte => .compare_below_equal
  | .equal => .compare_equal
  | .not_equal => .compare_not_equal

/-- The AST of the top-level program `i = 0; while (i < n) { i = i + 1; }`, where
`id` is the label id of `i` and `digits` the text of the literal `n`. -/
def count_program (id : Int) (digits : String) : AST :=
  .node .program .none
    [ .node .action .assign [.node .target .none [.num id], (Expr.lit "0").ast],
      .node .action .while_
        [ (Expr.binary .lt (.target id) (.lit digits)).ast,
          .node .program .none
            [ .node .action .assign
                [.node .target .none [.num id], (Expr.binary .add (.target id) (.lit "1")).ast] ] ] ]

/-- The seventeen instructions generated for `count_program`, for the variable name `x`
and the bound `n`. -/
def count_code (x : String) (n : Int) : List OPCodeT :=
  [ ⟨.load_name, .str x⟩, ⟨.load_const, .num 0⟩, ⟨.assign, .null⟩,
    ⟨.load_name, .str x⟩, ⟨.load_value, .null⟩, ⟨.load_const, .num n⟩, ⟨.compare_below, .null⟩,
    ⟨.jmp_true_remove, .num 3⟩, ⟨.jmp_remove, .num 9⟩, ⟨.jmp, .num 8⟩,
    ⟨.load_name, .str x⟩, ⟨.load_name, .str x⟩, ⟨.load_value, .null⟩, ⟨.load_const, .num 1⟩,
    ⟨.add, .null⟩, ⟨.assign, .null⟩,
    ⟨.jmp, .num (-13)⟩ ]

/-- The instruction sequence `c` occupies the indices `n .. n + c.length - 1` of `code`. -/
def CodeAt (code : List OPCodeT) (n : Nat) (c : List OPCodeT) : Prop :=
  ∃ pre post, code = pre ++ c ++ post ∧ pre.length = n


/-- The opcode at index `i` of `code`. -/
def action_at (code : List OPCodeT) (i : Nat) : Option OPT :=
  match code[i]? with
  | some op => some op.action
  | none => none

/-- The index on which the relative jump at index `i` of `code` lands: `i` plus its
numeric operand. -/
def jump_target (code : List OPCodeT) (i : Nat) : Option Int :=
  match code[i]? with
  | some op =>
    match op.value with
    | .num d => some ((i : Int) + d)
    | _ => none
  | none => none

/-- An unresolved placeholder: a `jmp` whose operand is the string `break` or `continue`. -/
def is_placeholder (op : OPCodeT) : Bool :=
  decide (op.action = .jmp ∧ (op.value = .str "break" ∨ op.value = .str "continue"))

/-- The four jump opcodes. -/
def is_jump (a : OPT) : Bool :=
  match a with
  | .jmp | .jmp_remove | .jmp_true_remove | .jmp_false_remove => true
  | _ => false

/-- `JumpSite labels_table kind scopes function_map block k`: the node `block` holds a
`break` or `continue` statement (of op `kind`) either directly in its body or nested in
the blocks of `if` statements, at any depth and inside no inner loop, and the
instruction emitted for that statement sits at offset `k` of the code generated for
`block` (called with `scopes` and `function_map`). -/
inductive JumpSite (labels_table : List Label) (kind : ASTOp) :
    List AST → FunctionMap → AST → Nat → Prop where
  | direct (scopes : List AST) (function_map : FunctionMap) (ty : ASTType) (op : ASTOp)
      (pre : List AST) (payload : List AST) (post : List AST) (cpre : List OPCodeT)
      (fm1 : FunctionMap) :
      kind = .break_ ∨ kind = .continue_ →
      code_generator_body labels_table scopes function_map [] pre = .ok (cpre, fm1) →
      JumpSite labels_table kind scopes function_map
        (.node ty op (pre ++ .node .action kind payload :: post)) cpre.length
  | if_true (scopes : List AST) (function_map : FunctionMap) (ty : ASTType) (op : ASTOp)
      (pre : List AST) (if_cond_ast if_true_ast : AST) (rest post : List AST)
      (cpre : List OPCodeT) (fm1 : FunctionMap) (cc : List OPCodeT) (k : Nat) :
      code_generator_body labels_table scopes function_map [] pre = .ok (cpre, fm1) →
      expr_generator labels_table
        (scopes ++ [.node .action .if_ (if_cond_ast :: if_true_ast :: rest)]) if_cond_ast
          = .ok cc →
      JumpSite labels_table kind
        (scopes ++ [.node .action .if_ (if_cond_ast :: if_true_ast :: rest)]) fm1
        if_true_ast k →
      JumpSite labels_table kind scopes function_map
        (.node ty op (pre ++ .node .action .if_ (if_cond_ast :: if_true_ast :: rest) :: post))
        (cpre.length + cc.length + 2 + k)
  | if_else (scopes : List AST) (function_map : FunctionMap) (ty : ASTType) (op : ASTOp)
      (pre : List AST) (if_cond_ast if_true_ast if_else_ast : AST) (rest post : List AST)
      (cpre : List OPCodeT) (fm1 : FunctionMap) (cc tc : List OPCodeT) (fm2 : FunctionMap)
      (k : Nat) :
      code_generator_body labels_table scopes function_map [] pre = .ok (cpre, fm1) →
      expr_generator labels_table
        (scopes ++ [.node .action .if_ (if_cond_ast :: if_true_ast :: if_else_ast :: rest)])
        if_cond_ast = .ok cc →
      code_generator labels_table
        (scopes ++ [.node .action .if_ (if_cond_ast :: if_true_ast :: if_else_ast :: rest)])
        fm1 if_true_ast = .ok (tc, fm2) →
      JumpSite labels_table kind
        (scopes ++ [.node .action .if_ (if_cond_ast :: if_true_ast :: if_else_ast :: rest)])
        fm2 if_else_ast k →
      JumpSite labels_table kind scopes function_map
        (.node ty op (pre ++
          .node .action .if_ (if_cond_ast :: if_true_ast :: if_else_ast :: rest) :: post))
        (cpre.length + cc.length + 2 + tc.length + 1 + k)

mutual
/-- Whether `ast` is or contains, at any depth, a function node whose entry in the
function table is written under `key`. -/
def declares (labels_table : List Label) (key : String) (ast : AST) : Bool :=
  match ast with
  | .node ty _ body =>
    (decide (ty = .function) &&
      (match find_label_of labels_table body.head? with
        | .ok func_label => decide (function_key func_label = key)
        | .error _ => false))
    || declares_list labels_table key body
  | _ => false
termination_by structural ast
/-- `declares` for one of the elements of a body. -/
def declares_list (labels_table : List Label) (key : String) (body : List AST) : Bool :=
  match body with
  | [] => false
  | a :: rest => declares labels_table key a || declares_list labels_table key rest
termination_by structural body
end

/-- A node of type `program`. -/
def is_program_node (ast : AST) : Bool :=
  match ast with
  | .node .program _ _ => true
  | _ => false

mutual
/-- The shape of the ASTs that the parser builds, as far as `break` and `continue` are
concerned: only an action node carries the op `while`, an `if` node has at most three
children (condition, true block, else block), and no child of a program node is itself
a program node (there is no bare block statement). -/
def shaped (ast : AST) : Bool :=
  match ast with
  | .node ty op body =>
    decide (op = .while_ → ty = .action)
      && decide (ty = .action ∧ op = .if_ → body.length ≤ 3)
      && (decide (ty ≠ .program) || body.all (fun a => !is_program_node a))
      && shaped_list body
  | _ => true
termination_by structural ast
/-- `shaped` for every element of a body. -/
def shaped_list (body : List AST) : Bool :=
  match body with
  | [] => true
  | a :: rest => shaped a && shaped_list rest
termination_by structural body
end

/-- Every jump of `code` has a numeric operand, or is an unresolved placeholder and
`in_while` holds. -/
def Good (in_while : Bool) (code : List OPCodeT) : Prop :=
  ∀ op ∈ code, is_jump op.action = true →
    (∃ d, op.value = .num d) ∨ (is_placeholder op = true ∧ in_while = true)

/-- The loop goes from `st` to `st'` in `fetched.length` iterations, none of which
finds `ip = code.length`, fetching the indices `fetched` in order. -/
def Reaches (code : List OPCodeT) (function_map : FunctionMap) (st : VMState)
    (fetched : List Int) (st' : VMState) : Prop :=
  ∀ fuel, run code function_map (fuel + fetched.length) st = run code function_map fuel st' ∧
    trace code function_map (fuel + fetched.length) st
      = fetched ++ trace code function_map fuel st'

/-- The indices `n, n + 1, ..., n + len - 1`. -/
def indices : Nat → Nat → List Int
  | _, 0 => []
  | n, len + 1 => (n : Int) :: indices (n + 1) len

/-! ## Auxiliary definitions and example programs -/

/-- What `function_map_frame` states of one AST: generating it as a statement or as a
block leaves the entry of `key` alone when it declares no function under `key`. -/
def KeepsKey (labels_table : List Label) (key : String) (ast : AST) : Prop :=
  (∀ (scopes : List AST) (fm : FunctionMap) (len : Nat) (code : List OPCodeT)
      (fm' : FunctionMap),
      code_generator_stmt labels_table scopes fm len ast = .ok (code, fm') →
      declares labels_table key ast = false → Dict.get fm' key = Dict.get fm key) ∧
  (∀ (scopes : List AST) (fm : FunctionMap) (code : List OPCodeT) (fm' : FunctionMap),
      code_generator labels_table scopes fm ast = .ok (code, fm') →
      declares labels_table key ast = false → Dict.get fm' key = Dict.get fm key)

/-- What `accepted_code_good` states of one AST, as a statement that is not a program
node and as a block. -/
def LeavesNoPlaceholder (labels_table : List Label) (ast : AST) : Prop :=
  (∀ (stack scopes : List AST) (fm : FunctionMap) (len : Nat) (code : List OPCodeT)
      (fm' : FunctionMap),
      shaped ast = true → is_program_node ast = false →
      semanticer_child labels_table stack ast = .ok () →
      code_generator_stmt labels_table scopes fm len ast = .ok (code, fm') →
      Good (stack.any is_while_scope) code) ∧
  (∀ (stack scopes : List AST) (fm : FunctionMap) (code : List OPCodeT) (fm' : FunctionMap),
      shaped ast = true →
      semanticer labels_table stack ast = .ok () →
      code_generator labels_table scopes fm ast = .ok (code, fm') →
      Good (stack.any is_while_scope) code)

/-- The decimal digits of `n`, most significant first (`0` is the single digit `0`). -/
def decimal_fuel : Nat → Nat → List Char
  | 0, _ => []
  | fuel + 1, n =>
    if n < 10 then [Char.ofNat (48 + n)]
    else decimal_fuel fuel (n / 10) ++ [Char.ofNat (48 + n % 10)]

/-- The label table of `num i = 0; while (i < 3) { i = i + 1; }`. -/
def count_labels : List Label :=
  [⟨0, .fn, "print", none⟩, ⟨1, .num, "i", none⟩]

/-- The label table of `num a = 1; num b = 2; num c = a + b;`. -/
def sum_labels : List Label :=
  [ ⟨0, .fn, "print", none⟩, ⟨1, .num, "a", none⟩, ⟨2, .num, "b", none⟩, ⟨3, .num, "c", none⟩ ]

/-- The label table of `num fn add(num a, num b) { return a + b; } num r = add(2,3);`. -/
def add_labels : List Label :=
  [ ⟨0, .fn, "print", none⟩, ⟨1, .fn, "add", some .num⟩, ⟨2, .num, "a", none⟩,
    ⟨3, .num, "b", none⟩, ⟨4, .num, "r", none⟩ ]

/-- The declaration `num fn add(num a, num b) { return a + b; }` as a list of children
of its function node. -/
def add_function_body : List AST :=
  [ .node .target .none [.num 1], .node .type .none [.str "num"],
    .node .target .none [.num 2], .node .target .none [.num 3],
    .node .program .none
      [ .node .action .return_ [(Expr.binary .add (.target 2) (.target 3)).ast] ] ]

/-- The statement `num r = add(2,3);`. -/
def add_call : AST :=
  .node .action .assign
    [.node .target .none [.num 4],
     .node .action .func_call
       [.node .target .none [.num 1], (Expr.lit "2").ast, (Expr.lit "3").ast]]

/-- The AST of `num fn add(num a, num b) { return a + b; } num r = add(2,3);`. -/
def add_program : AST :=
  .node .program .none [.node .function .none add_function_body, add_call]

/-- The code object generated for `add_program`. -/
def add_code_object : CodeObject :=
  ⟨[ ⟨.jmp, .num 7⟩, ⟨.load_name, .str "a"⟩, ⟨.load_value, .null⟩, ⟨.load_name, .str "b"⟩,
     ⟨.load_value, .null⟩, ⟨.add, .null⟩, ⟨.ret, .null⟩, ⟨.load_name, .str "r"⟩,
     ⟨.create_scope, .null⟩, ⟨.load_name, .str "a"⟩, ⟨.load_const, .num 2⟩, ⟨.assign, .null⟩,
     ⟨.load_name, .str "b"⟩, ⟨.load_const, .num 3⟩, ⟨.assign, .null⟩, ⟨.call, .str "add"⟩,
     ⟨.delete_scope, .null⟩, ⟨.assign, .null⟩ ], [("add", 1)], [], [], []⟩

/-- Bindings of the example runs: `a` is 4. -/
def example_env : String → Option Int :=
  fun x => if x = "a" then some 4 else none

/-- The expression `a + 3`. -/
def example_expr : Expr := .binary .add (.target 1) (.lit "3")

/-- The condition `a < 2`. -/
def example_cond : AST := (Expr.binary .lt (.target 1) (.lit "2")).ast

/-- The block `{ b = 1; }`. -/
def branch_true : AST :=
  .node .program .none
    [.node .action .assign [.node .target .none [.num 2], (Expr.lit "1").ast]]

/-- The block `{ b = 0; }`. -/
def branch_else : AST :=
  .node .program .none
    [.node .action .assign [.node .target .none [.num 2], (Expr.lit "0").ast]]

/-- The code generated for `if (a < 2) { b = 1; } else { b = 0; }`. -/
def branch_code : List OPCodeT :=
  [ ⟨.load_name, .str "a"⟩, ⟨.load_value, .null⟩, ⟨.load_const, .num 2⟩,
    ⟨.compare_below, .null⟩, ⟨.jmp_true_remove, .num 2⟩, ⟨.jmp_false_remove, .num 5⟩,
    ⟨.load_name, .str "b"⟩, ⟨.load_const, .num 1⟩, ⟨.assign, .null⟩, ⟨.jmp, .num 4⟩,
    ⟨.load_name, .str "b"⟩, ⟨.load_const, .num 0⟩, ⟨.assign, .null⟩ ]

/-- The condition `a < 1`. -/
def inner_cond : AST := (Expr.binary .lt (.target 1) (.lit "1")).ast

/-- The block `{ if (a < 1) { break; } }`. -/
def break_body : AST :=
  .node .program .none
    [ .node .action .if_ [inner_cond, .node .program .none [.node .action .break_ []]] ]

/-- The code generated for `while (a < 2) { if (a < 1) { break; } }`. -/
def break_loop_code : List OPCodeT :=
  [ ⟨.load_name, .str "a"⟩, ⟨.load_value, .null⟩, ⟨.load_const, .num 2⟩,
    ⟨.compare_below, .null⟩, ⟨.jmp_true_remove, .num 3⟩, ⟨.jmp_remove, .num 10⟩,
    ⟨.jmp, .num 9⟩, ⟨.load_name, .str "a"⟩, ⟨.load_value, .null⟩, ⟨.load_const, .num 1⟩,
    ⟨.compare_below, .null⟩, ⟨.jmp_true_remove, .num 2⟩, ⟨.jmp_false_remove, .num 2⟩,
    ⟨.jmp, .num (-7)⟩, ⟨.jmp, .num (-14)⟩ ]

/-- The block `{ a = a + 1; continue; }`. -/
def continue_body : AST :=
  .node .program .none
    [ .node .action .assign
        [.node .target .none [.num 1], (Expr.binary .add (.target 1) (.lit "1")).ast],
      .node .action .continue_ [] ]

/-- The code generated for `while (a < 2) { a = a + 1; continue; }`. -/
def continue_loop_code : List OPCodeT :=
  [ ⟨.load_name, .str "a"⟩, ⟨.load_value, .null⟩, ⟨.load_const, .num 2⟩,
    ⟨.compare_below, .null⟩, ⟨.jmp_true_remove, .num 3⟩, ⟨.jmp_remove, .num 10⟩,
    ⟨.jmp, .num 9⟩, ⟨.load_name, .str "a"⟩, ⟨.load_name, .str "a"⟩, ⟨.load_value, .null⟩,
    ⟨.load_const, .num 1⟩, ⟨.add, .null⟩, ⟨.assign, .null⟩, ⟨.jmp, .num (-13)⟩,
    ⟨.jmp, .num (-14)⟩ ]

/-- The statements `num a = 0; while (a < 2) { if (a < 1) { break; } }`. -/
def break_statements : List AST :=
  [ .node .action .assign [.node .target .none [.num 1], (Expr.lit "0").ast],
    .node .action .while_ [example_cond, break_body] ]

/-- The AST of `num a = 0; while (a < 2) { if (a < 1) { break; } }`. -/
def break_program : AST :=
  .node .program .none break_statements

/-- The code object generated for `break_program`. -/
def break_code_object : CodeObject :=
  ⟨[⟨.load_name, .str "a"⟩, ⟨.load_const, .num 0⟩, ⟨.assign, .null⟩] ++ break_loop_code,
    [], [], [], []⟩

/-- The label table that the parser builds for a program declaring, in this order, a
function `f`, a name `x` inside it, and a variable `r`: the builtin `print` has id 0. -/
def call_labels (x : String) : List Label :=
  [ ⟨0, .fn, "print", none⟩, ⟨1, .fn, "f", some .num⟩, ⟨2, .num, x, none⟩,
    ⟨3, .num, "r", none⟩ ]

/-- The AST of `num fn f() { num x = 1; return x; } num r = f();`. -/
def local_program : AST :=
  .node .program .none
    [ .node .function .none
        [ .node .target .none [.num 1], .node .type .none [.str "num"],
          .node .program .none
            [ .node .action .assign [.node .target .none [.num 2], (Expr.lit "1").ast],
              .node .action .return_ [(Expr.target 2).ast] ] ],
      .node .action .assign
        [.node .target .none [.num 3], .node .action .func_call [.node .target .none [.num 1]]] ]

/-- The AST of `num fn f(num x) { return x; } num r = f(2);`. -/
def param_program : AST :=
  .node .program .none
    [ .node .function .none
        [ .node .target .none [.num 1], .node .type .none [.str "num"],
          .node .target .none [.num 2],
          .node .program .none
            [ .node .action .return_ [(Expr.target 2).ast] ] ],
      .node .action .assign
        [.node .target .none [.num 3],
         .node .action .func_call [.node .target .none [.num 1], (Expr.lit "2").ast]] ]

/-- The AST of `num a = 1; num b = 2; num c = a + b;`. -/
def sum_program : AST :=
  .node .program .none
    [ .node .action .assign [.node .target .none [.num 1], (Expr.lit "1").ast],
      .node .action .assign [.node .target .none [.num 2], (Expr.lit "2").ast],
      .node .action .assign
        [.node .target .none [.num 3], (Expr.binary .add (.target 1) (.target 2)).ast] ]

/-! ## Reference typing of expressions -/

/-- The kind named by a type tag payload: `"num"`, `"str"` or `"fn"`. -/
def kind_named (x : Option AST) : Option LabelType :=
  match x with
  | some (.str s) =>
    if s = "num" then some .num else if s = "str" then some .str
    else if s = "fn" then some .fn else none
  | _ => none

/-- A Function node whose name Target carries the label id `id`. -/
def is_function_named (id : Int) (ast : AST) : Bool :=
  match ast with
  | .node .function _ (.node .target _ (.num m :: _) :: _) => decide (m = id)
  | _ => false

/-- The declared return type of a Function node: the kind named by its type tag, the
second child. -/
def declared_kind (f : AST) : Option LabelType :=
  match f with
  | .node _ _ (_ :: .node .type _ rb :: _) => kind_named rb.head?
  | _ => none

/-- The declared return type of the callee of a call whose first child is `target`: the
callee is the first Function node of the top-level body named by the target's id. -/
def callee_kind (root_body : List AST) (target : Option AST) : Option LabelType :=
  match target with
  | some (.node _ _ (.num id :: _)) =>
    match root_body.find? (is_function_named id) with
    | some f => declared_kind f
    | none => none
  | _ => none

/-- Reference typing of expressions, following the words of the specification: a number
literal is `num`, a string literal is `str`, a Target has its label's kind, `add` has the
common type of its two operands, `sub`, `mul`, `div`, `gt`, `gte`, `lt`, `lte` are `num`
over `num` operands, `equal` and `not_equal` are `num` over operands of one common type,
and a call has its callee's declared return type; anything else has no type. -/
def expr_type (labels_table : List Label) (root_body : List AST) (ast : AST) :
    Option LabelType :=
  match ast with
  | .str _ => none
  | .num _ => none
  | .node ty op body =>
    if ty = .number_iter then some .num
    else if ty = .string_iter then some .str
    else if ty = .target then
      match find_label labels_table body.head? with
      | some label => some label.type
      | none => none
    else if op = .add then
      match body with
      | left :: right :: _ =>
        match expr_type labels_table root_body left, expr_type labels_table root_body right with
        | some a, some b => if a = b then some a else none
        | _, _ => none
      | _ => none
    else if op = .sub ∨ op = .mul ∨ op = .div ∨ op = .gt ∨ op = .gte ∨ op = .lt ∨ op = .lte then
      match body with
      | left :: right :: _ =>
        match expr_type labels_table root_body left, expr_type labels_table root_body right with
        | some .num, some .num => some .num
        | _, _ => none
      | _ => none
    else if op = .equal ∨ op = .not_equal then
      match body with
      | left :: right :: _ =>
        match expr_type labels_table root_body left, expr_type labels_table root_body right with
        | some a, some b => if a = b then some .num else none
        | _, _ => none
      | _ => none
    else if op = .func_call then callee_kind root_body body.head?
    else none
termination_by structural ast

/-- The body of the root program `ast_node_stack[0]`. -/
def root_body_of (ast_node_stack : List AST) : List AST :=
  match ast_node_stack.head? with
  | some (.node _ _ root_body) => root_body
  | _ => []

/-- A call expression: a node that `expr_checker` sends to its `func_call` branch. -/
def is_call_expr (ast : AST) : Bool :=
  match ast with
  | .node ty op _ =>
    decide (ty ≠ .number_iter ∧ ty ≠ .string_iter ∧ ty ≠ .target ∧ op = .func_call)
  | _ => false

/-- The label table of `str fn f() { return "a"; }`. -/
def call_cond_labels : List Label := [⟨0, .fn, "print", none⟩, ⟨1, .fn, "f", some .str⟩]

/-- The top-level statements of an AST that declares `str fn f() { return "a"; }` and
then tests a call of `f` as the condition of an `if` with an empty block. -/
def call_cond_statements : List AST :=
  [ .node .function .none
      [ .node .target .none [.num 1], .node .type .none [.str "str"],
        .node .program .none
          [.node .action .return_ [.node .string_iter .none [.str "a"]]] ],
    .node .action .if_
      [.node .action .func_call [.node .target .none [.num 1]], .node .program .none []] ]

/-- The label table of `str fn f() { return "a"; } num x = f();`. -/
def call_assign_labels : List Label :=
  [⟨0, .fn, "print", none⟩, ⟨1, .fn, "f", some .str⟩, ⟨2, .num, "x", none⟩]

/-- The top-level statements of `str fn f() { return "a"; } num x = f();`. -/
def call_assign_statements : List AST :=
  [ .node .function .none
      [ .node .target .none [.num 1], .node .type .none [.str "str"],
        .node .program .none
          [.node .action .return_ [.node .string_iter .none [.str "a"]]] ],
    .node .action .assign
      [.node .target .none [.num 2], .node .action .func_call [.node .target .none [.num 1]]] ]

/-! ## Arithmetic on strings in checked positions -/

/-- A str-typed operand: a string literal, or a Target whose label has kind `str`. -/
def is_str_operand (labels_table : List Label) (ast : AST) : Bool :=
  match ast with
  | .node .string_iter _ _ => true
  | .node .target _ body =>
    match find_label labels_table body.head? with
    | some label => decide (label.type = .str)
    | none => false
  | _ => false

/-- The ops `sub`, `mul`, `div`, `gt`, `gte`, `lt`, `lte`. -/
def is_arith_op (op : ASTOp) : Bool :=
  match op with
  | .sub | .mul | .div | .gt | .gte | .lt | .lte => true
  | _ => false

/-- The node types that `expr_checker` treats as leaves. -/
def is_leaf_type (ty : ASTType) : Bool :=
  match ty with
  | .number_iter | .string_iter | .target => true
  | _ => false

mutual
/-- The expression holds, at a position that `expr_checker` visits (an operand of a
binary node or an argument of a call, at any depth), a `sub`, `mul`, `div`, `gt`, `gte`,
`lt` or `lte` node with a str-typed operand. -/
def has_str_arith (labels_table : List Label) (ast : AST) : Bool :=
  match ast with
  | .node ty op body =>
    if is_leaf_type ty then false
    else if op = .func_call then
      match body with
      | _ :: args => has_str_arith_list labels_table args
      | [] => false
    else if is_arith_op op ∨ op = .add ∨ op = .equal ∨ op = .not_equal then
      match body with
      | left :: right :: _ =>
        (is_arith_op op && (is_str_operand labels_table left || is_str_operand labels_table right))
          || has_str_arith labels_table left || has_str_arith labels_table right
      | _ => false
    else false
  | _ => false
termination_by structural ast
/-- `has_str_arith` for some element of an argument list. -/
def has_str_arith_list (labels_table : List Label) (l : List AST) : Bool :=
  match l with
  | [] => false
  | a :: rest => has_str_arith labels_table a || has_str_arith_list labels_table rest
termination_by structural l
end

mutual
/-- The statement holds such a node in a checked expression position: the value of an
assignment, the condition of an `if` or `while`, the single value of a `return`, or such
a position of a statement in a block that `semanticer` visits. -/
def stmt_has_str_arith (labels_table : List Label) (ast : AST) : Bool :=
  match ast with
  | .node ty op body =>
    if ty = .action then
      if op = .assign then
        match body with
        | _ :: value :: _ => has_str_arith labels_table value
        | _ => false
      else if op = .if_ then
        match body with
        | cond :: if_true :: rest =>
          has_str_arith labels_table cond || block_has_str_arith labels_table if_true
            || (match rest with
                | [if_else] => block_has_str_arith labels_table if_else
                | _ => false)
        | _ => false
      else if op = .while_ then
        match body with
        | cond :: while_body :: _ =>
          has_str_arith labels_table cond || block_has_str_arith labels_table while_body
        | _ => false
      else if op = .return_ then
        match body with
        | [value] => has_str_arith labels_table value
        | _ => false
      else false
    else if ty = .function then last_has_str_arith labels_table body
    else false
  | _ => false
termination_by structural ast
/-- Some statement of the block holds such a node in a checked expression position. -/
def block_has_str_arith (labels_table : List Label) (ast : AST) : Bool :=
  match ast with
  | .node _ _ body => body_has_str_arith labels_table body
  | _ => false
termination_by structural ast
/-- `stmt_has_str_arith` for some element of a body. -/
def body_has_str_arith (labels_table : List Label) (body : List AST) : Bool :=
  match body with
  | [] => false
  | a :: rest => stmt_has_str_arith labels_table a || body_has_str_arith labels_table rest
termination_by structural body
/-- `block_has_str_arith` for the last element of a function node's body. -/
def last_has_str_arith (labels_table : List Label) (body : List AST) : Bool :=
  match body with
  | [] => false
  | [func_body_ast] => block_has_str_arith labels_table func_body_ast
  | _ :: next :: rest => last_has_str_arith labels_table (next :: rest)
termination_by structural body
end

/-- What `str_arith_program_rejected` states of one AST, as an expression, as a statement
and as a block. -/
def RejectsStrArith (labels_table : List Label) (ast : AST) : Prop :=
  (has_str_arith labels_table ast = true →
    ∀ (ast_node_stack : List AST) (t v : Val),
      expr_checker labels_table ast_node_stack ast t ≠ .ok v) ∧
  (stmt_has_str_arith labels_table ast = true →
    ∀ ast_node_stack : List AST, semanticer_child labels_table ast_node_stack ast ≠ .ok ()) ∧
  (block_has_str_arith labels_table ast = true →
    ∀ ast_node_stack : List AST, semanticer labels_table ast_node_stack ast ≠ .ok ())

/-! ## A function body without `return` -/

/-- The AST of the top-level program `x = d1; fn f() { x = d2; } f();`, where `x` and `f`
are the label ids of the variable and of the function. -/
def fall_program (x f : Int) (d1 d2 : String) : AST :=
  .node .program .none
    [ .node .action .assign [.node .target .none [.num x], (Expr.lit d1).ast],
      .node .function .none
        [ .node .target .none [.num f], .node .type .none [.str "num"],
          .node .program .none
            [.node .action .assign [.node .target .none [.num x], (Expr.lit d2).ast]] ],
      .node .action .func_call [.node .target .none [.num f]] ]

/-- The eleven instructions generated for `fall_program`, for the variable name `x`, the
function name `f` and the values of the two literals. -/
def fall_code (x f : String) (n1 n2 : Int) : List OPCodeT :=
  [ ⟨.load_name, .str x⟩, ⟨.load_const, .num n1⟩, ⟨.assign, .null⟩,
    ⟨.jmp, .num 4⟩,
    ⟨.load_name, .str x⟩, ⟨.load_const, .num n2⟩, ⟨.assign, .null⟩,
    ⟨.create_scope, .null⟩, ⟨.call, .str f⟩, ⟨.delete_scope, .null⟩, ⟨.seek, .num 1⟩ ]

/-- The AST of the top-level program `x = d1; fn f() { x = d2; return x; } f();`. -/
def ret_program (x f : Int) (d1 d2 : String) : AST :=
  .node .program .none
    [ .node .action .assign [.node .target .none [.num x], (Expr.lit d1).ast],
      .node .function .none
        [ .node .target .none [.num f], .node .type .none [.str "num"],
          .node .program .none
            [ .node .action .assign [.node .target .none [.num x], (Expr.lit d2).ast],
              .node .action .return_ [(Expr.target x).ast] ] ],
      .node .action .func_call [.node .target .none [.num f]] ]

/-- The fourteen instructions generated for `ret_program`. -/
def ret_code (x f : String) (n1 n2 : Int) : List OPCodeT :=
  [ ⟨.load_name, .str x⟩, ⟨.load_const, .num n1⟩, ⟨.assign, .null⟩,
    ⟨.jmp, .num 7⟩,
    ⟨.load_name, .str x⟩, ⟨.load_const, .num n2⟩, ⟨.assign, .null⟩,
    ⟨.load_name, .str x⟩, ⟨.load_value, .null⟩, ⟨.ret, .null⟩,
    ⟨.create_scope, .null⟩, ⟨.call, .str f⟩, ⟨.delete_scope, .null⟩, ⟨.seek, .num 1⟩ ]

/-- The states that the run of `fall_code` goes through: the three instructions of
`x = d1`, the jump over the body, and then, round after round, `create_scope`, `call`
and the three instructions of the body `x = d2`, from where control falls into
`create_scope` again. -/
def Falling (x : String) (n1 n2 : Int) (st : VMState) : Prop :=
  (st.ip = 0 ∧ st.op_stack = [] ∧ st.scope_stack ≠ []) ∨
  (st.ip = 1 ∧ st.op_stack = [.str x] ∧ st.scope_stack ≠ []) ∨
  (st.ip = 2 ∧ st.op_stack = [.num n1, .str x] ∧ st.scope_stack ≠ []) ∨
  (st.ip = 3 ∧ st.op_stack = []) ∨
  (st.ip = 7 ∧ st.op_stack = []) ∨
  (st.ip = 8 ∧ st.op_stack = [] ∧ st.scope_stack ≠ []) ∨
  (st.ip = 4 ∧ st.op_stack = [] ∧ st.scope_stack ≠ []) ∨
  (st.ip = 5 ∧ st.op_stack = [.str x] ∧ st.scope_stack ≠ []) ∨
  (st.ip = 6 ∧ st.op_stack = [.num n2, .str x] ∧ st.scope_stack ≠ [])

/-- The label table of `num x = 1; num fn f() { x = 2; } f();`. -/
def fall_labels : List Label :=
  [⟨0, .fn, "print", none⟩, ⟨1, .num, "x", none⟩, ⟨2, .fn, "f", some .num⟩]

/-! ## Programs for the analyzer and generator runs -/

/-- The label table of `num fn f() { return; }`. -/
def return_labels : List Label := [⟨0, .fn, "print", none⟩, ⟨1, .fn, "f", some .num⟩]

/-- The AST of `num fn f() { return; }`. -/
def return_program : AST :=
  .node .program .none
    [ .node .function .none
        [ .node .target .none [.num 1], .node .type .none [.str "num"],
          .node .program .none [.node .action .return_ []] ] ]

/-- The label table of `str s = "hi"; if (s == "hi") { num x = 1; }`. -/
def str_if_labels : List Label :=
  [⟨0, .fn, "print", none⟩, ⟨1, .str, "s", none⟩, ⟨2, .num, "x", none⟩]

/-- The AST of `str s = "hi"; if (s == "hi") { num x = 1; }`. -/
def str_if_program : AST :=
  .node .program .none
    [ .node .action .assign [.node .target .none [.num 1], .node .string_iter .none [.str "hi"]],
      .node .action .if_
        [ .node .action .equal [.node .target .none [.num 1], .node .string_iter .none [.str "hi"]],
          .node .program .none
            [.node .action .assign [.node .target .none [.num 2], (Expr.lit "1").ast]] ] ]

/-- The label table of `str fn f() { return "a" == "b"; }`. -/
def str_return_labels : List Label := [⟨0, .fn, "print", none⟩, ⟨1, .fn, "f", some .str⟩]

/-- The AST of `str fn f() { return "a" == "b"; }`. -/
def str_return_program : AST :=
  .node .program .none
    [ .node .function .none
        [ .node .target .none [.num 1], .node .type .none [.str "str"],
          .node .program .none
            [ .node .action .return_
                [ .node .action .equal
                    [.node .string_iter .none [.str "a"], .node .string_iter .none [.str "b"]] ] ] ] ]

/-- The label table of `num fn f(num a) { return a; }` followed by statements that
declare no name. -/
def arity_labels : List Label :=
  [⟨0, .fn, "print", none⟩, ⟨1, .fn, "f", some .num⟩, ⟨2, .num, "a", none⟩]

/-- The AST of `num fn f(num a) { return a; } f(1, 2);`. -/
def arity_program : AST :=
  .node .program .none
    [ .node .function .none
        [ .node .target .none [.num 1], .node .type .none [.str "num"],
          .node .target .none [.num 2],
          .node .program .none [.node .action .return_ [(Expr.target 2).ast]] ],
      .node .action .func_call
        [.node .target .none [.num 1], (Expr.lit "1").ast, (Expr.lit "2").ast] ]

/-- The label table of `num fn f(str s) { return 1; } num r = f("a" == "b");`. -/
def str_arg_labels : List Label :=
  [⟨0, .fn, "print", none⟩, ⟨1, .fn, "f", some .num⟩, ⟨2, .str, "s", none⟩, ⟨3, .num, "r", none⟩]

/-- The AST of `num fn f(str s) { return 1; } num r = f("a" == "b");`. -/
def str_arg_program : AST :=
  .node .program .none
    [ .node .function .none
        [ .node .target .none [.num 1], .node .type .none [.str "num"],
          .node .target .none [.num 2],
          .node .program .none [.node .action .return_ [(Expr.lit "1").ast]] ],
      .node .action .assign
        [ .node .target .none [.num 3],
          .node .action .func_call
            [ .node .target .none [.num 1],
              .node .action .equal
                [.node .string_iter .none [.str "a"], .node .string_iter .none [.str "b"]] ] ] ]

/-- The label table of `num fn f(num x) { return x; } num fn g() { f(1); return 0; }
num r = g();`, for the parameter name `x`. -/
def nested_labels (x : String) : List Label :=
  [ ⟨0, .fn, "print", none⟩, ⟨1, .fn, "f", some .num⟩, ⟨2, .num, x, none⟩,
    ⟨3, .fn, "g", some .num⟩, ⟨4, .num, "r", none⟩ ]

/-- The AST of `num fn f(num x) { return x; } num fn g() { f(1); return 0; } num r = g();`. -/
def nested_program : AST :=
  .node .program .none
    [ .node .function .none
        [ .node .target .none [.num 1], .node .type .none [.str "num"],
          .node .target .none [.num 2],
          .node .program .none [.node .action .return_ [(Expr.target 2).ast]] ],
      .node .function .none
        [ .node .target .none [.num 3], .node .type .none [.str "num"],
          .node .program .none
            [ .node .action .func_call [.node .target .none [.num 1], (Expr.lit "1").ast],
              .node .action .return_ [(Expr.lit "0").ast] ] ],
      .node .action .assign
        [.node .target .none [.num 4], .node .action .func_call [.node .target .none [.num 3]]] ]

/-- The label table of a program that declares no name. -/
def print_labels : List Label := [⟨0, .fn, "print", none⟩]

/-- The AST of `print("hello");`. -/
def print_program : AST :=
  .node .program .none
    [ .node .action .func_call
        [.node .target .none [.num 0], .node .string_iter .none [.str "hello"]] ]

/-- The AST of `num fn f(num a) { return a; } num a = f(1, 2);`, a reassignment of the
parameter name standing for any assignment whose value is the call. -/
def arity_assign_program : AST :=
  .node .program .none
    [ .node .function .none
        [ .node .target .none [.num 1], .node .type .none [.str "num"],
          .node .target .none [.num 2],
          .node .program .none [.node .action .return_ [(Expr.target 2).ast]] ],
      .node .action .assign
        [ .node .target .none [.num 2],
          .node .action .func_call
            [.node .target .none [.num 1], (Expr.lit "1").ast, (Expr.lit "2").ast] ] ]

/-- The comparison `"a" == "b"`. -/
def str_comparison : AST :=
  .node .action .equal [.node .string_iter .none [.str "a"], .node .string_iter .none [.str "b"]]

/-- The AST of `str s = "a" == "b";`. -/
def str_assign_program : AST :=
  .node .program .none [.node .action .assign [.node .target .none [.num 1], str_comparison]]

/-- The statement `c = a + b` of `sum_program`, as the children of its node. -/
def sum_assignment : List AST :=
  [.node .target .none [.num 3], (Expr.binary .add (.target 1) (.target 2)).ast]

/-- The label table of `num x = 1 - "a";`. -/
def str_sub_labels : List Label := [⟨0, .fn, "print", none⟩, ⟨1, .num, "x", none⟩]

/-- The AST of `num x = 1 - "a";`. -/
def str_sub_program : AST :=
  .node .program .none
    [ .node .action .assign
        [ .node .target .none [.num 1],
          .node .action .sub [(Expr.lit "1").ast, .node .string_iter .none [.str "a"]] ] ]

/-! ## Statements at the positions that the analyzer visits -/

mutual
/-- The statement `ast`, which `semanticer` reaches with the stack `ast_node_stack`, or a
statement of one of its blocks that `semanticer` visits (the blocks of an `if`, the body
of a `while`, the body of a function), satisfies `bad` together with the stack that
`semanticer` holds on reaching it. -/
def stmt_visits (bad : List AST → AST → Bool) (ast_node_stack : List AST) (ast : AST) : Bool :=
  match ast with
  | .node ty op body =>
    bad ast_node_stack (.node ty op body) ||
    (if ty = .action then
      if op = .if_ then
        match body with
        | _ :: if_true :: rest =>
          block_visits bad (ast_node_stack ++ [.node ty op body]) if_true
            || (match rest with
                | [if_else] => block_visits bad (ast_node_stack ++ [.node ty op body]) if_else
                | _ => false)
        | _ => false
      else if op = .while_ then
        match body with
        | _ :: while_body :: _ =>
          block_visits bad (ast_node_stack ++ [.node ty op body]) while_body
        | _ => false
      else false
    else if ty = .function then last_visits bad (ast_node_stack ++ [.node ty op body]) body
    else false)
  | _ => false
termination_by structural ast
/-- Some statement that `semanticer` visits in the block `ast` satisfies `bad`. -/
def block_visits (bad : List AST → AST → Bool) (ast_node_stack : List AST) (ast : AST) : Bool :=
  match ast with
  | .node _ _ body => body_visits bad ast_node_stack body
  | _ => false
termination_by structural ast
/-- `stmt_visits` for some element of a body. -/
def body_visits (bad : List AST → AST → Bool) (ast_node_stack : List AST) (body : List AST) :
    Bool :=
  match body with
  | [] => false
  | a :: rest => stmt_visits bad ast_node_stack a || body_visits bad ast_node_stack rest
termination_by structural body
/-- `block_visits` for the last element of a function node's body. -/
def last_visits (bad : List AST → AST → Bool) (ast_node_stack : List AST) (body : List AST) :
    Bool :=
  match body with
  | [] => false
  | [func_body_ast] => block_visits bad ast_node_stack func_body_ast
  | _ :: next :: rest => last_visits bad ast_node_stack (next :: rest)
termination_by structural body
end

/-- A `break` or `continue` statement under a stack of enclosing nodes that holds no
`while` node. -/
def jump_outside_while (ast_node_stack : List AST) (ast : AST) : Bool :=
  match ast with
  | .node .action .break_ _ => !(ast_node_stack.any is_while_scope)
  | .node .action .continue_ _ => !(ast_node_stack.any is_while_scope)
  | _ => false

/-- A `return` statement under a stack of enclosing nodes that holds no function node. -/
def return_outside_function (ast_node_stack : List AST) (ast : AST) : Bool :=
  match ast with
  | .node .action .return_ _ => !(ast_node_stack.any is_function_scope)
  | _ => false

/-- A `return` statement that carries more than one value. -/
def return_many (_ast_node_stack : List AST) (ast : AST) : Bool :=
  match ast with
  | .node .action .return_ body => decide (1 < body.length)
  | _ => false

/-- The statement `stmt` inside `depth` nested blocks `if (1) { ... }`. -/
def nested_ifs (depth : Nat) (stmt : AST) : AST :=
  match depth with
  | 0 => stmt
  | k + 1 =>
    .node .action .if_ [(Expr.lit "1").ast, .node .program .none [nested_ifs k stmt]]

/-- The program `while (1) { ... }` whose body is `nested_ifs depth stmt`. -/
def loop_program (depth : Nat) (stmt : AST) : AST :=
  .node .program .none
    [.node .action .while_ [(Expr.lit "1").ast, .node .program .none [nested_ifs depth stmt]]]

/-- The program `fn f() { if (1) { break; } }` with a `break` in a function body outside
any loop. -/
def stray_break_program : AST :=
  .node .program .none
    [ .node .function .none
        [ .node .target .none [.num 1], .node .type .none [.str "num"],
          .node .program .none
            [ .node .action .if_
                [(Expr.lit "1").ast, .node .program .none [.node .action .break_ []]] ] ] ]

/-- The program `while (1) { return 1; }` with a `return` outside any function. -/
def stray_return_program : AST :=
  .node .program .none
    [ .node .action .while_
        [ (Expr.lit "1").ast,
          .node .program .none [.node .action .return_ [(Expr.lit "1").ast]] ] ]

/-- The program `fn f() { return 1, 2; }` as an AST: a `return` with two values. -/
def return_two_program : AST :=
  .node .program .none
    [ .node .function .none
        [ .node .target .none [.num 1], .node .type .none [.str "num"],
          .node .program .none
            [.node .action .return_ [(Expr.lit "1").ast, (Expr.lit "2").ast]] ] ]

/-! ## Names read by checked expressions -/

mutual
/-- The expression holds, at a position that `expr_checker` visits (the expression itself,
an operand of a binary node or an argument of a call, at any depth), a Target whose id has
no label in the table or the label of a function. -/
def reads_unlabelled (labels_table : List Label) (ast : AST) : Bool :=
  match ast with
  | .node ty op body =>
    if ty = .target then
      match find_label labels_table body.head? with
      | some label => decide (label.type = .fn)
      | none => true
    else if is_leaf_type ty then false
    else if op = .func_call then
      match body with
      | _ :: args => reads_unlabelled_list labels_table args
      | [] => false
    else if is_arith_op op ∨ op = .add ∨ op = .equal ∨ op = .not_equal then
      match body with
      | left :: right :: _ =>
        reads_unlabelled labels_table left || reads_unlabelled labels_table right
      | _ => false
    else false
  | _ => false
termination_by structural ast
/-- `reads_unlabelled` for some element of an argument list. -/
def reads_unlabelled_list (labels_table : List Label) (l : List AST) : Bool :=
  match l with
  | [] => false
  | a :: rest => reads_unlabelled labels_table a || reads_unlabelled_list labels_table rest
termination_by structural l
end

/-- The statement holds such a Target in its checked expression: the value of an
assignment, the condition of an `if` or `while`, the single value of a `return`. -/
def stmt_reads_unlabelled (labels_table : List Label) (_ast_node_stack : List AST) (ast : AST) :
    Bool :=
  match ast with
  | .node .action .assign (_ :: value :: _) => reads_unlabelled labels_table value
  | .node .action .if_ (cond :: _ :: _) => reads_unlabelled labels_table cond
  | .node .action .while_ (cond :: _ :: _) => reads_unlabelled labels_table cond
  | .node .action .return_ [value] => reads_unlabelled labels_table value
  | _ => false

/-- `scope[r1] !== undefined`, the test of `load_value` on one frame: the frame holds a
value other than `undefined` under the name. -/
def frame_binds (scope : Frame) (k : String) : Bool :=
  match Dict.get scope k with
  | some v => decide (v ≠ .undefined)
  | none => false

/-! ## Label table of the parser (`src/parser.js`) -/

/-- The state that `create_labels_table` closes over: the id of the next label, the flat
table `labels_table`, and the stack `scoped_labels_table` of open frames (head = top),
each frame keyed by name. -/
structure LabelsTable where
  current_label_id : Int
  labels_table : List Label
  scoped_labels_table : List (Dict Label)
  deriving DecidableEq, Repr

/-- The initial state of `create_labels_table(buildin_apis)`. -/
def create_labels_table (buildin_apis : List Label) : LabelsTable :=
  ⟨buildin_apis.length, buildin_apis, []⟩

/-- `create_new_scope()`, exported as `create_scope`: push an empty frame. -/
def create_new_scope (t : LabelsTable) : LabelsTable :=
  { t with scoped_labels_table := [] :: t.scoped_labels_table }

/-- `delete_current_scope()`: pop the top frame; the flat table is left as it is. -/
def delete_current_scope (t : LabelsTable) : LabelsTable :=
  { t with scoped_labels_table := t.scoped_labels_table.tail }

/-- `add_label_to_current_scope(name, type, return_type)`, exported as `add_label`: store
the new label in the top frame and in the flat table, and return it.  Without an open
frame the write to `scoped_labels_table[-1][name]` throws. -/
def add_label_to_current_scope (t : LabelsTable) (name : String) (type : LabelType)
    (return_type : Option LabelType) : Res (Label × LabelsTable) :=
  match t.scoped_labels_table with
  | [] => .error .throws
  | scope :: rest =>
    .ok (⟨t.current_label_id, type, name, return_type⟩,
      ⟨t.current_label_id + 1,
        t.labels_table ++ [⟨t.current_label_id, type, name, return_type⟩],
        Dict.set scope name ⟨t.current_label_id, type, name, return_type⟩ :: rest⟩)

/-- The loop of `query_name_from_all_scope` over the open frames, top first: the first
frame with `current_scope[name] !== undefined` gives the result. -/
def query_scopes (name : String) : List (Dict Label) → Option Label
  | [] => none
  | current_scope :: rest =>
    match Dict.get current_scope name with
    | some label => some label
    | none => query_scopes name rest

/-- `query_name_from_all_scope(name)`, exported as `query_name`: the result of the loop
over the open frames, and when that is `null` the first entry of the flat table
`labels_table` with that name; `none` stands for `null`. -/
def query_name_from_all_scope (t : LabelsTable) (name : String) : Option Label :=
  match query_scopes name t.scoped_labels_table with
  | some res => some res
  | none => t.labels_table.find? (fun api_info => decide (api_info.name = name))

/-- The table of the parser module: `create_labels_table` applied to the builtin `print`. -/
def parser_labels : LabelsTable :=
  create_labels_table [⟨0, .fn, "print", none⟩]

/-- The table after `create_scope(); create_scope(); add_label("x", "num");
delete_current_scope();`, as on leaving the block of `if (...) { num x = 1; }` at top
level. -/
def closed_block_table : Res LabelsTable :=
  match add_label_to_current_scope (create_new_scope (create_new_scope parser_labels)) "x"
      .num none with
  | .error e => .error e
  | .ok (_, t) => .ok (delete_current_scope t)

/-- A table with two open frames that both bind `x`: label 2 in the top frame, label 1 in
the outer frame. -/
def shadow_table : LabelsTable :=
  ⟨3, [⟨0, .fn, "print", none⟩, ⟨1, .num, "x", none⟩, ⟨2, .str, "x", none⟩],
    [[("x", ⟨2, .str, "x", none⟩)], [("x", ⟨1, .num, "x", none⟩)]]⟩

/-! ## Programs for the runs of builtin calls and of unbound names -/

/-- Labels of `num r = print("x");`. -/
def print_value_labels : List Label := [⟨0, .fn, "print", none⟩, ⟨1, .num, "r", none⟩]

/-- The call `print("x")` as an expression. -/
def print_call : AST :=
  .node .action .func_call [.node .target .none [.num 0], .node .string_iter .none [.str "x"]]

/-- The AST of `num r = print("x");`. -/
def print_value_program : AST :=
  .node .program .none [.node .action .assign [.node .target .none [.num 1], print_call]]

/-- Labels of `num x = x;` and of `num x = 1; x();`. -/
def self_read_labels : List Label := [⟨0, .fn, "print", none⟩, ⟨1, .num, "x", none⟩]

/-- The AST of `num x = x;`. -/
def self_read_program : AST :=
  .node .program .none
    [.node .action .assign [.node .target .none [.num 1], (Expr.target 1).ast]]

/-- The code generated for `num x = x;`. -/
def self_read_code : List OPCodeT :=
  [⟨.load_name, .str "x"⟩, ⟨.load_name, .str "x"⟩, ⟨.load_value, .null⟩, ⟨.assign, .null⟩]

/-- The AST of an assignment to `x` whose value is a Target with the id 7, which has no
label in `self_read_labels`. -/
def unlabelled_read_program : AST :=
  .node .program .none
    [.node .action .assign [.node .target .none [.num 1], (Expr.target 7).ast]]

/-- The AST of `num x = 1; x();`. -/
def call_variable_program : AST :=
  .node .program .none
    [ .node .action .assign [.node .target .none [.num 1], (Expr.lit "1").ast],
      .node .action .func_call [.node .target .none [.num 1]] ]

/-- The code generated for `num x = 1; x();`. -/
def call_variable_code : List OPCodeT :=
  [ ⟨.load_name, .str "x"⟩, ⟨.load_const, .num 1⟩, ⟨.assign, .null⟩, ⟨.create_scope, .null⟩,
    ⟨.call, .str "x"⟩, ⟨.delete_scope, .null⟩, ⟨.seek, .num 1⟩ ]

/-- The AST of the bare statement `print(v0, ..., v(k-1));` for the number literals
`values`. -/
def print_many_program (values : List String) : AST :=
  .node .program .none
    [ .node .action .func_call
        (.node .target .none [.num 0] :: values.map (fun digits => (Expr.lit digits).ast)) ]

/-- The literals `0`, `1`, ..., `10`. -/
def eleven_values : List String := ["0", "1", "2", "3", "4", "5", "6", "7", "8", "9", "10"]

/-- The argument lists printed by the run of a program, when it ends. -/
def printed (ast : AST) (labels_table : List Label) (fuel : Nat) : Option (List (List Val)) :=
  match (generate [] ast labels_table).bind (vm fuel) with
  | .ok st => some st.output
  | .error _ => none

/-! ## Declarations and sequences of calls on the label table -/

/-- The check and the `add_label` of a declaration `type name = ...` in
`parse_partical_code_scope` and `parse_global_code_scope` (`src/parser.js`, lines 648-656
and 1038-1046): a name for which `query_name` returns a label throws the `mutiple_def`
error, any other name gets a new label of the declared type. -/
def declare_variable (t : LabelsTable) (name : String) (type : LabelType) :
    Res (Label × LabelsTable) :=
  match query_name_from_all_scope t name with
  | some _ => .error .throws
  | none => add_label_to_current_scope t name type none

/-- The table on reaching the block of the `if` in `num x = 1; if (1 == 1) { ... }`:
`create_scope(); add_label("x", "num"); create_scope();` on the parser's table. -/
def nested_block_table : Res LabelsTable :=
  match add_label_to_current_scope (create_new_scope parser_labels) "x" .num none with
  | .error e => .error e
  | .ok (_, t) => .ok (create_new_scope t)

/-- The table after `create_scope(); add_label("x", "num"); add_label("x", "str");` on the
parser's table. -/
def twice_added_table : Res LabelsTable :=
  match add_label_to_current_scope (create_new_scope parser_labels) "x" .num none with
  | .error e => .error e
  | .ok (_, t) =>
    match add_label_to_current_scope t "x" .str none with
    | .error e => .error e
    | .ok (_, t') => .ok t'

/-- One call of a function that `create_labels_table` returns. -/
inductive TableOp where
  | create_scope
  | delete_current_scope
  | add_label (name : String) (type : LabelType) (return_type : Option LabelType)
  | query_name (name : String)
  deriving DecidableEq, Repr

/-- The state of the table after one call.  A call of `add_label` that throws (no frame is
open) has changed nothing before it throws, and `query_name` writes nothing. -/
def TableOp.apply (t : LabelsTable) : TableOp → LabelsTable
  | .create_scope => create_new_scope t
  | .delete_current_scope => SimpleLang.delete_current_scope t
  | .add_label name type return_type =>
    match add_label_to_current_scope t name type return_type with
    | .ok (_, t') => t'
    | .error _ => t
  | .query_name _ => t

/-- The state of the table after a sequence of calls, first call first. -/
def run_ops (t : LabelsTable) (ops : List TableOp) : LabelsTable :=
  ops.foldl TableOp.apply t

/-- The ids of the labels of the flat table, in the order of the table. -/
def label_ids (t : LabelsTable) : List Int :=
  t.labels_table.map (fun label => label.id)

/-- The ids `0, 1, ..., n - 1`. -/
def first_ids (n : Nat) : List Int :=
  (List.range n).map (fun (i : Nat) => (i : Int))

/-! ## Runs of the generator one after another -/

/-- The instructions of a result of `code_generator`, without the function table. -/
def code_of (r : Res (List OPCodeT × FunctionMap)) : Res (List OPCodeT) :=
  match r with
  | .ok (code, _) => .ok code
  | .error e => .error e

/-- The instruction array of a result of the generator. -/
def instructions (r : Res CodeObject) : Res (List OPCodeT) :=
  match r with
  | .ok code_object => .ok code_object.code
  | .error e => .error e

/-- What `same_code` states of one AST: as a statement and as a block it yields the same
instructions, or the same error, whatever the content of `function_map`. -/
def SameCode (labels_table : List Label) (ast : AST) : Prop :=
  (∀ (scopes : List AST) (fm1 fm2 : FunctionMap) (len : Nat),
      code_of (code_generator_stmt labels_table scopes fm1 len ast)
        = code_of (code_generator_stmt labels_table scopes fm2 len ast)) ∧
  (∀ (scopes : List AST) (fm1 fm2 : FunctionMap),
      code_of (code_generator labels_table scopes fm1 ast)
        = code_of (code_generator labels_table scopes fm2 ast))

/-- Labels of `num fn f() { return 1; }`. -/
def one_function_labels : List Label := [⟨0, .fn, "print", none⟩, ⟨1, .fn, "f", some .num⟩]

/-- The AST of `num fn f() { return 1; }`. -/
def one_function_program : AST :=
  .node .program .none
    [ .node .function .none
        [ .node .target .none [.num 1], .node .type .none [.str "num"],
          .node .program .none [.node .action .return_ [(Expr.lit "1").ast]] ] ]

/-- The code generated for `print("hello");`. -/
def print_code : List OPCodeT :=
  [ ⟨.create_scope, .null⟩, ⟨.load_name, .str "arg_0"⟩, ⟨.load_const, .str "hello"⟩,
    ⟨.assign, .null⟩, ⟨.call, .str "print"⟩, ⟨.delete_scope, .null⟩, ⟨.seek, .num 1⟩ ]

/-! ## Programs with a number literal as condition -/

/-- The AST of `num x = 0; while (<digits>) { x = 1; break; }`. -/
def literal_loop_program (digits : String) : AST :=
  .node .program .none
    [ .node .action .assign [.node .target .none [.num 1], (Expr.lit "0").ast],
      .node .action .while_
        [ (Expr.lit digits).ast,
          .node .program .none
            [ .node .action .assign [.node .target .none [.num 1], (Expr.lit "1").ast],
              .node .action .break_ [] ] ] ]

/-- The `if` statement `if (2) { x = 1; } else { x = 3; }`. -/
def literal_if : AST :=
  .node .action .if_
    [ (Expr.lit "2").ast,
      .node .program .none
        [.node .action .assign [.node .target .none [.num 1], (Expr.lit "1").ast]],
      .node .program .none
        [.node .action .assign [.node .target .none [.num 1], (Expr.lit "3").ast]] ]

/-- The code generated for `if (2) { x = 1; } else { x = 3; }`. -/
def literal_if_code : List OPCodeT :=
  [ ⟨.load_const, .num 2⟩, ⟨.jmp_true_remove, .num 2⟩, ⟨.jmp_false_remove, .num 5⟩,
    ⟨.load_name, .str "x"⟩, ⟨.load_const, .num 1⟩, ⟨.assign, .null⟩, ⟨.jmp, .num 4⟩,
    ⟨.load_name, .str "x"⟩, ⟨.load_const, .num 3⟩, ⟨.assign, .null⟩ ]

/-- The AST of `num x = 0; if (2) { x = 1; } else { x = 3; }`. -/
def literal_if_program : AST :=
  .node .program .none
    [.node .action .assign [.node .target .none [.num 1], (Expr.lit "0").ast], literal_if]

/-- The `while` statement `while (2) { x = 1; break; }`. -/
def literal_loop : AST :=
  .node .action .while_
    [ (Expr.lit "2").ast,
      .node .program .none
        [ .node .action .assign [.node .target .none [.num 1], (Expr.lit "1").ast],
          .node .action .break_ [] ] ]

/-- The code generated for `while (2) { x = 1; break; }`. -/
def literal_loop_code : List OPCodeT :=
  [ ⟨.load_const, .num 2⟩, ⟨.jmp_true_remove, .num 3⟩, ⟨.jmp_remove, .num 7⟩,
    ⟨.jmp, .num 6⟩, ⟨.load_name, .str "x"⟩, ⟨.load_const, .num 1⟩, ⟨.assign, .null⟩,
    ⟨.jmp, .num (-4)⟩, ⟨.jmp, .num (-8)⟩ ]

/-! ## A call whose arguments name the parameters of the callee -/

/-- Labels of `swap_program`. -/
def swap_labels : List Label :=
  [ ⟨0, .fn, "print", none⟩, ⟨1, .fn, "f", some .num⟩, ⟨2, .num, "a", none⟩,
    ⟨3, .num, "b", none⟩, ⟨4, .num, "n", none⟩, ⟨5, .num, "t", none⟩, ⟨6, .num, "r", none⟩ ]

/-- The call `f(b, a, n - 1)`. -/
def swap_call : AST :=
  .node .action .func_call
    [ .node .target .none [.num 1], (Expr.target 3).ast, (Expr.target 2).ast,
      (Expr.binary .sub (.target 4) (.lit "1")).ast ]

/-- The declaration `num fn f(num a, num b, num n) { if (n == 0) { return a - b; }
num t = f(b, a, n - 1); return t; }`. -/
def swap_function : AST :=
  .node .function .none
    [ .node .target .none [.num 1], .node .type .none [.str "num"],
      .node .target .none [.num 2], .node .target .none [.num 3], .node .target .none [.num 4],
      .node .program .none
        [ .node .action .if_
            [ (Expr.binary .equal (.target 4) (.lit "0")).ast,
              .node .program .none
                [.node .action .return_ [(Expr.binary .sub (.target 2) (.target 3)).ast]] ],
          .node .action .assign [.node .target .none [.num 5], swap_call],
          .node .action .return_ [(Expr.target 5).ast] ] ]

/-- The AST of
`num fn f(num a, num b, num n) { if (n == 0) { return a - b; } num t = f(b, a, n - 1);
return t; } num r = f(1, 2, 1);`. -/
def swap_program : AST :=
  .node .program .none
    [ swap_function,
      .node .action .assign
        [ .node .target .none [.num 6],
          .node .action .func_call
            [ .node .target .none [.num 1], (Expr.lit "1").ast, (Expr.lit "2").ast,
              (Expr.lit "1").ast ] ] ]

/-- The code generated for the call `f(b, a, n - 1)`, up to the `call`: the new frame and
the bindings of the parameters `a`, `b` and `n`. -/
def swap_binding_code : List OPCodeT :=
  [ ⟨.create_scope, .null⟩,
    ⟨.load_name, .str "a"⟩, ⟨.load_name, .str "b"⟩, ⟨.load_value, .null⟩, ⟨.assign, .null⟩,
    ⟨.load_name, .str "b"⟩, ⟨.load_name, .str "a"⟩, ⟨.load_value, .null⟩, ⟨.assign, .null⟩,
    ⟨.load_name, .str "n"⟩, ⟨.load_name, .str "n"⟩, ⟨.load_value, .null⟩,
    ⟨.load_const, .num 1⟩, ⟨.sub, .null⟩, ⟨.assign, .null⟩ ]

/-! ## Lexer (`src/lexer.js`) -/

/-- A token of the lexer: `{ type, value }`. -/
structure Token where
  type : String
  value : String
  deriving DecidableEq, Repr

/-- `num_reg_start.test(char)` for `/[0-9.]/`; `undefined` is tested as the text
`undefined`, which holds no digit and no dot. -/
def num_reg_start_test (char : Option Char) : Bool :=
  match char with
  | some c => c.isDigit || c == '.'
  | none => false

/-- `num_reg_body.test(char)` for `/[0-9]/`. -/
def num_reg_body_test (char : Option Char) : Bool :=
  match char with
  | some c => c.isDigit
  | none => false

/-- `id_reg_start.test(char)` for `/[a-zA-Z_]/`; `undefined` is tested as the text
`undefined`, which holds a letter. -/
def id_reg_start_test (char : Option Char) : Bool :=
  match char with
  | some c => c.isAlpha || c == '_'
  | none => true

/-- `id_reg_body.test(char)` for `/[a-zA-Z0-9_]/`; `undefined` is tested as the text
`undefined`, which holds a letter. -/
def id_reg_body_test (char : Option Char) : Bool :=
  match char with
  | some c => c.isAlphanum || c == '_'
  | none => true

/-- The text that `value += char` appends: the character, or `undefined` past the end of
the string. -/
def appended (char : Option Char) : List Char :=
  match char with
  | some c => [c]
  | none => "undefined".data

/-- The loop `while(true)` of the number rule, cut after `fuel` iterations; it returns
`char_index` and `num_value` at its `break`. -/
def scan_number (code_str : List Char) : Nat → Nat → Bool → List Char → Res (Nat × List Char)
  | 0, _, _, _ => .error .out_of_fuel
  | fuel + 1, char_index, num_at_head, num_value =>
    if num_at_head then
      if num_reg_start_test code_str[char_index]? then
        scan_number code_str fuel (char_index + 1) (!decide (code_str[char_index]? = some '.'))
          (num_value ++ appended code_str[char_index]?)
      else .ok (char_index, num_value)
    else
      if num_reg_body_test code_str[char_index]? then
        scan_number code_str fuel (char_index + 1) false
          (num_value ++ appended code_str[char_index]?)
      else .ok (char_index, num_value)

/-- The loop `while(true)` of the string rule, cut after `fuel` iterations: it appends
characters up to and including the closing quote. -/
def scan_string (code_str : List Char) : Nat → Nat → List Char → Res (Nat × List Char)
  | 0, _, _ => .error .out_of_fuel
  | fuel + 1, char_index, str_value =>
    if code_str[char_index]? = some '"' then
      .ok (char_index + 1, str_value ++ appended code_str[char_index]?)
    else scan_string code_str fuel (char_index + 1) (str_value ++ appended code_str[char_index]?)

/-- The loop `while(true)` of the identifier rule, cut after `fuel` iterations: the first
character is taken as it is, each further one while `id_reg_body` matches it. -/
def scan_id (code_str : List Char) : Nat → Nat → Bool → List Char → Res (Nat × List Char)
  | 0, _, _, _ => .error .out_of_fuel
  | fuel + 1, char_index, id_at_head, id_value =>
    if id_at_head then
      scan_id code_str fuel (char_index + 1) false (id_value ++ appended code_str[char_index]?)
    else
      if id_reg_body_test code_str[char_index]? then
        scan_id code_str fuel (char_index + 1) false (id_value ++ appended code_str[char_index]?)
      else .ok (char_index, id_value)

/-- `code_str.substring(char_index, char_index + n) === word`, for a word of `n`
characters. -/
def substring_is (code_str : List Char) (char_index : Nat) (word : String) : Bool :=
  decide ((code_str.drop char_index).take word.length = word.data)

/-- One iteration of the loop of `lexer` at `char_index`, below the end of the string:
the rules in the order of the source, the first one that matches decides.  The result
is `char_index` at the `continue` and the tokens pushed (none for white space); when no
rule matches the lexer throws.  The loops of the number, string and identifier rules
get the budget `fuel`. -/
def lexer_step (code_str : List Char) (fuel char_index : Nat) : Res (Nat × List Token) :=
  if code_str[char_index]? = some ' ' ∨ code_str[char_index]? = some '\t'
      ∨ code_str[char_index]? = some '\n' then
    .ok (char_index + 1, [])
  else if code_str[char_index]? = some 'n' ∧ code_str[char_index + 1]? = some 'u'
      ∧ code_str[char_index + 2]? = some 'm' then
    .ok (char_index + 3, [⟨"type", "num"⟩])
  else if code_str[char_index]? = some 's' ∧ code_str[char_index + 1]? = some 't'
      ∧ code_str[char_index + 2]? = some 'r' then
    .ok (char_index + 3, [⟨"type", "str"⟩])
  else if code_str[char_index]? = some '+' then .ok (char_index + 1, [⟨"add", "+"⟩])
  else if code_str[char_index]? = some '-' then .ok (char_index + 1, [⟨"sub", "-"⟩])
  else if code_str[char_index]? = some '*' then .ok (char_index + 1, [⟨"mul", "*"⟩])
  else if code_str[char_index]? = some '/' then .ok (char_index + 1, [⟨"div", "/"⟩])
  else if code_str[char_index]? = some '>' then
    if code_str[char_index + 1]? = some '=' then .ok (char_index + 2, [⟨"gte", ">="⟩])
    else .ok (char_index + 1, [⟨"gt", ">"⟩])
  else if code_str[char_index]? = some '<' then
    if code_str[char_index + 1]? = some '=' then .ok (char_index + 2, [⟨"lte", "<="⟩])
    else .ok (char_index + 1, [⟨"lt", "<"⟩])
  else if code_str[char_index]? = some '=' then
    if code_str[char_index + 1]? = some '=' then .ok (char_index + 2, [⟨"equal", "=="⟩])
    else .ok (char_index + 1, [⟨"assign", "="⟩])
  else if code_str[char_index]? = some '!' ∧ code_str[char_index + 1]? = some '=' then
    .ok (char_index + 2, [⟨"not_equal", "!="⟩])
  else if num_reg_start_test code_str[char_index]? then
    match scan_number code_str fuel char_index true [] with
    | .error e => .error e
    | .ok (next_index, num_value) => .ok (next_index, [⟨"number", String.mk num_value⟩])
  else if code_str[char_index]? = some '"' then
    match scan_string code_str fuel (char_index + 1) ['"'] with
    | .error e => .error e
    | .ok (next_index, str_value) => .ok (next_index, [⟨"string", String.mk str_value⟩])
  else if code_str[char_index]? = some 'f' ∧ code_str[char_index + 1]? = some 'n' then
    .ok (char_index + 2, [⟨"fn_decl", "fn"⟩])
  else if substring_is code_str char_index "return" then
    .ok (char_index + 6, [⟨"return_decl", "return"⟩])
  else if substring_is code_str char_index "if" then .ok (char_index + 2, [⟨"if_decl", "if"⟩])
  else if substring_is code_str char_index "else" then
    .ok (char_index + 4, [⟨"else_decl", "else"⟩])
  else if substring_is code_str char_index "while" then
    .ok (char_index + 5, [⟨"while_decl", "while"⟩])
  else if substring_is code_str char_index "continue" then
    .ok (char_index + 8, [⟨"continue_decl", "continue"⟩])
  else if substring_is code_str char_index "break" then
    .ok (char_index + 5, [⟨"break_decl", "break"⟩])
  else if code_str[char_index]? = some '{' then .ok (char_index + 1, [⟨"open_brace", "\x7b"⟩])
  else if code_str[char_index]? = some '}' then .ok (char_index + 1, [⟨"close_brace", "\x7d"⟩])
  else if code_str[char_index]? = some '(' then .ok (char_index + 1, [⟨"open_bracket", "("⟩])
  else if code_str[char_index]? = some ')' then .ok (char_index + 1, [⟨"close_bracket", ")"⟩])
  else if code_str[char_index]? = some ';' then .ok (char_index + 1, [⟨"semi", ";"⟩])
  else if code_str[char_index]? = some ',' then .ok (char_index + 1, [⟨"comma", ","⟩])
  else if id_reg_start_test code_str[char_index]? then
    match scan_id code_str fuel char_index true [] with
    | .error e => .error e
    | .ok (next_index, id_value) => .ok (next_index, [⟨"id", String.mk id_value⟩])
  else .error .throws

/-- The loop `while (char_index !== code_str.length)` of `lexer`, cut after `fuel`
iterations; `code_str` is the string as the list of its characters. -/
def lexer_loop (code_str : List Char) : Nat → Nat → List Token → Res (List Token)
  | 0, _, _ => .error .out_of_fuel
  | fuel + 1, char_index, tokens =>
    if char_index = code_str.length then .ok tokens
    else
      match lexer_step code_str fuel char_index with
      | .error e => .error e
      | .ok (next_index, pushed) => lexer_loop code_str fuel next_index (tokens ++ pushed)

/-- `lexer(code_str)`, with at most `fuel` iterations of each loop. -/
def lexer (fuel : Nat) (code_str : String) : Res (List Token) :=
  lexer_loop code_str.data fuel 0 []

/-- A result of `lexer_step` pushes no token of type `id`. -/
def PushesNoId (r : Res (Nat × List Token)) : Prop :=
  ∀ next_index pushed, r = .ok (next_index, pushed) → ∀ t ∈ pushed, t.type ≠ "id"

/-! ## Expression parser (`_parse_expr` of `src/parser.js`) -/

mutual
/-- Equality of AST nodes is decidable. -/
def AST.decEq : (a b : AST) → Decidable (a = b)
  | .node t1 o1 b1, .node t2 o2 b2 =>
    if ht : t1 = t2 then
      if ho : o1 = o2 then
        match AST.decEqList b1 b2 with
        | isTrue hb => isTrue (by rw [ht, ho, hb])
        | isFalse hb => isFalse (fun h => hb (by cases h; rfl))
      else isFalse (fun h => ho (by cases h; rfl))
    else isFalse (fun h => ht (by cases h; rfl))
  | .str s1, .str s2 =>
    if h : s1 = s2 then isTrue (by rw [h]) else isFalse (fun h' => h (by cases h'; rfl))
  | .num n1, .num n2 =>
    if h : n1 = n2 then isTrue (by rw [h]) else isFalse (fun h' => h (by cases h'; rfl))
  | .node _ _ _, .str _ => isFalse (fun h => by cases h)
  | .node _ _ _, .num _ => isFalse (fun h => by cases h)
  | .str _, .node _ _ _ => isFalse (fun h => by cases h)
  | .str _, .num _ => isFalse (fun h => by cases h)
  | .num _, .node _ _ _ => isFalse (fun h => by cases h)
  | .num _, .str _ => isFalse (fun h => by cases h)
termination_by structural a => a
/-- Equality of bodies is decidable. -/
def AST.decEqList : (a b : List AST) → Decidable (a = b)
  | [], [] => isTrue rfl
  | [], _ :: _ => isFalse (fun h => by cases h)
  | _ :: _, [] => isFalse (fun h => by cases h)
  | a :: as, b :: bs =>
    match AST.decEq a b with
    | isTrue h1 =>
      match AST.decEqList as bs with
      | isTrue h2 => isTrue (by rw [h1, h2])
      | isFalse h2 => isFalse (fun h => h2 (by cases h; rfl))
    | isFalse h1 => isFalse (fun h => h1 (by cases h; rfl))
termination_by structural a => a
end

instance : DecidableEq AST := AST.decEq

/-- An element of the array `expr_tokens` while `_parse_expr` works on it: a token that
the first loop left as it was, or the AST node that took the place of tokens. -/
inductive ExprToken where
  | token (t : Token)
  | node (ast : AST)
  deriving Repr

/-- The `op` of the action node with an empty body that the first loop of `_parse_expr`
builds for the token types `add`, `sub`, `mul` and `div`. -/
def arith_op (type : String) : Option ASTOp :=
  if type = "add" then some .add
  else if type = "sub" then some .sub
  else if type = "mul" then some .mul
  else if type = "div" then some .div
  else none

/-- The `op` of the action node that the first loop builds for the token types of the
six comparisons; its body holds the text of the token. -/
def compare_op (type : String) : Option ASTOp :=
  if type = "gt" then some .gt
  else if type = "gte" then some .gte
  else if type = "lt" then some .lt
  else if type = "lte" then some .lte
  else if type = "equal" then some .equal
  else if type = "not_equal" then some .not_equal
  else none

/-- One iteration of the first loop of `_parse_expr`: a `number` or `string` token becomes
a literal node, an arithmetic or comparison token an action node, an `id` token the
Target of the label that `query_name` finds (`null` throws `not_def`); a token of any
other type stays. -/
def convert_token (t : LabelsTable) (token : Token) : Res ExprToken :=
  if token.type = "number" then .ok (.node (.node .number_iter .none [.str token.value]))
  else if token.type = "string" then .ok (.node (.node .string_iter .none [.str token.value]))
  else
    match arith_op token.type with
    | some op => .ok (.node (.node .action op []))
    | none =>
      if token.type = "id" then
        match query_name_from_all_scope t token.value with
        | none => .error .throws
        | some current_label_info =>
          .ok (.node (.node .target .none [.num current_label_info.id]))
      else
        match compare_op token.type with
        | some op => .ok (.node (.node .action op [.str token.value]))
        | none => .ok (.token token)

/-- The first loop of `_parse_expr` over the whole array. -/
def convert_tokens (t : LabelsTable) : List Token → Res (List ExprToken)
  | [] => .ok []
  | token :: rest =>
    match convert_token t token with
    | .error e => .error e
    | .ok item =>
      match convert_tokens t rest with
      | .error e => .error e
      | .ok items => .ok (item :: items)

/-- The test `x.type === "action" && (x.op === "mul" || x.op === "div")` of the second
loop; a token of the lexer has no `op`. -/
def is_mul_div (x : ExprToken) : Bool :=
  match x with
  | .node (.node .action .mul _) => true
  | .node (.node .action .div _) => true
  | _ => false

/-- The test of the third loop: an action node whose op is `add`, `sub` or one of the six
comparisons. -/
def is_add_sub_compare (x : ExprToken) : Bool :=
  match x with
  | .node (.node .action op _) =>
    decide (op = .add ∨ op = .sub ∨ op = .gt ∨ op = .gte ∨ op = .lt ∨ op = .lte ∨ op = .equal
      ∨ op = .not_equal)
  | _ => false

/-- The test on `left_part` in the second loop: its `type` is `action`, `string_iter` or
`number_iter`; for any other element the loop calls `throw_token`. -/
def left_part_accepted (left_part : ExprToken) : Bool :=
  match left_part with
  | .node (.node ty _ _) => decide (ty = .action ∨ ty = .string_iter ∨ ty = .number_iter)
  | .node _ => false
  | .token token =>
    decide (token.type = "action" ∨ token.type = "string_iter" ∨ token.type = "number_iter")

/-- The node `current_ast` after `current_ast.body = [left_part, right_part]`.  A body
that would hold a token of the lexer is outside the AST type. -/
def with_body (current_ast left_part right_part : ExprToken) : Res ExprToken :=
  match current_ast, left_part, right_part with
  | .node (.node ty op _), .node l, .node r => .ok (.node (.node ty op [l, r]))
  | _, _, _ => .error .unmodelled

/-- The second loop of `_parse_expr`, `while (expr_token_index < expr_tokens.length)`:
the first list holds the elements below `expr_token_index`, nearest first, the second
one those from `expr_token_index` on.  At a `mul` or `div` node the loop reads the two
neighbours, throws unless the left one passes `left_part_accepted` (reading the `type` of
a missing left neighbour throws as well), and puts the node with both as its body in
the place of the three (`splice`), which leaves `expr_token_index` on the element after
the right neighbour.  A missing right neighbour would give a body that holds
`undefined`, outside the AST type. -/
def mul_div_loop : List ExprToken → List ExprToken → Res (List ExprToken)
  | before, [] => .ok before.reverse
  | before, [current_ast] =>
    if is_mul_div current_ast then
      match before with
      | [] => .error .throws
      | left_part :: _ =>
        if left_part_accepted left_part then .error .unmodelled else .error .throws
    else .ok (current_ast :: before).reverse
  | before, current_ast :: right_part :: rest =>
    if is_mul_div current_ast then
      match before with
      | [] => .error .throws
      | left_part :: before' =>
        if left_part_accepted left_part then
          match with_body current_ast left_part right_part with
          | .error e => .error e
          | .ok combined => mul_div_loop (combined :: before') rest
        else .error .throws
    else mul_div_loop (current_ast :: before) (right_part :: rest)

/-- The third loop of `_parse_expr`, in the same representation: it stops when
`expr_tokens.length === 1`; at an `add`, `sub` or comparison node it puts the node with
its two neighbours as body in the place of the three, without a test on them.  A missing
neighbour would give a body that holds `undefined`, outside the AST type. -/
def add_sub_loop : List ExprToken → List ExprToken → Res (List ExprToken)
  | before, [] => .ok before.reverse
  | before, [current_ast] =>
    if before.length + 1 = 1 then .ok [current_ast]
    else if is_add_sub_compare current_ast then .error .unmodelled
    else .ok (current_ast :: before).reverse
  | before, current_ast :: right_part :: rest =>
    if is_add_sub_compare current_ast then
      match before with
      | [] => .error .unmodelled
      | left_part :: before' =>
        match with_body current_ast left_part right_part with
        | .error e => .error e
        | .ok combined => add_sub_loop (combined :: before') rest
    else add_sub_loop (current_ast :: before) (right_part :: rest)

/-- `_parse_expr(expr_tokens)` with the label table in the state `t`: the three loops,
then `expr_tokens[0]`, which the model returns when it is an AST node. -/
def _parse_expr (t : LabelsTable) (expr_tokens : List Token) : Res AST :=
  match convert_tokens t expr_tokens with
  | .error e => .error e
  | .ok items =>
    match mul_div_loop [] items with
    | .error e => .error e
    | .ok items' =>
      match add_sub_loop [] items' with
      | .error e => .error e
      | .ok (.node ast :: _) => .ok ast
      | .ok _ => .error .unmodelled

/-- The label table in a scope that declares `x`, `a`, `b` and `c` after the builtin. -/
def expr_table : LabelsTable :=
  ⟨5, [⟨0, .fn, "print", none⟩, ⟨1, .num, "x", none⟩, ⟨2, .num, "a", none⟩,
      ⟨3, .num, "b", none⟩, ⟨4, .num, "c", none⟩],
    [[("x", ⟨1, .num, "x", none⟩), ("a", ⟨2, .num, "a", none⟩), ("b", ⟨3, .num, "b", none⟩),
      ("c", ⟨4, .num, "c", none⟩)]]⟩

/-! ## Execution lemmas -/

theorem CodeAt.left {code : List OPCodeT} {n : Nat} {c1 c2 : List OPCodeT}
    (h : CodeAt code n (c1 ++ c2)) : CodeAt code n c1 := by
  obtain ⟨pre, post, hc, hn⟩ := h
  exact ⟨pre, c2 ++ post, by simp [hc], hn⟩

theorem CodeAt.right {code : List OPCodeT} {n : Nat} {c1 c2 : List OPCodeT}
    (h : CodeAt code n (c1 ++ c2)) : CodeAt code (n + c1.length) c2 := by
  obtain ⟨pre, post, hc, hn⟩ := h
  exact ⟨pre ++ c1, post, by simp [hc], by simp [hn]⟩

theorem CodeAt.get {code : List OPCodeT} {n : Nat} {op : OPCodeT} {c : List OPCodeT}
    (h : CodeAt code n (op :: c)) : code[n]? = some op := by
  obtain ⟨pre, post, hc, hn⟩ := h
  subst hn
  rw [hc, List.append_assoc, List.getElem?_append_right (Nat.le_refl _)]
  simp

theorem CodeAt.self (c : List OPCodeT) : CodeAt c 0 c :=
  ⟨[], [], by simp, rfl⟩

/-- One loop iteration: when `code[n]` is `op` and executing it from `st` (with
`ip = n`) gives `st'`, the loop continues from `st'` with one iteration less. -/
theorem Reaches.exec {code : List OPCodeT} (function_map : FunctionMap) (st st' : VMState)
    {op : OPCodeT} {n : Nat} (hget : code[n]? = some op) (hip : st.ip = (n : Int))
    (hex : exec function_map st op = .ok st') :
    Reaches code function_map st [(n : Int)] st' := by
  intro fuel
  have hlt : n < code.length := by
    rcases Nat.lt_or_ge n code.length with h | h
    · exact h
    · rw [List.getElem?_eq_none h] at hget; cases hget
  have hne : ¬ st.ip = (code.length : Int) := by rw [hip]; omega
  have hstep : step code function_map st = .ok st' := by
    unfold step
    rw [hip]
    simp [hget, hex]
  constructor
  · show run code function_map (fuel + 1) st = _
    rw [run]
    simp [hne, hstep]
  · show trace code function_map (fuel + 1) st = _
    rw [trace, if_neg hne, hstep, hip]
    rfl

theorem Reaches.refl (code : List OPCodeT) (function_map : FunctionMap) (st : VMState) :
    Reaches code function_map st [] st := by
  intro fuel
  simp

theorem Reaches.trans {code : List OPCodeT} {function_map : FunctionMap} {st1 st2 st3 : VMState}
    {l1 l2 : List Int} (h1 : Reaches code function_map st1 l1 st2)
    (h2 : Reaches code function_map st2 l2 st3) :
    Reaches code function_map st1 (l1 ++ l2) st3 := by
  intro fuel
  have e : fuel + (l1 ++ l2).length = (fuel + l2.length) + l1.length := by
    simp; omega
  rw [e, (h1 _).1, (h1 _).2, (h2 _).1, (h2 _).2]
  simp

theorem run_halted (code : List OPCodeT) (function_map : FunctionMap) (fuel : Nat)
    (st : VMState) (h : st.ip = code.length) : run code function_map fuel st = .ok st := by
  cases fuel <;> simp [run, h]

theorem trace_halted (code : List OPCodeT) (function_map : FunctionMap) (fuel : Nat)
    (st : VMState) (h : st.ip = code.length) : trace code function_map fuel st = [] := by
  cases fuel <;> simp [trace, h]

/-- A run that reaches a state with `ip = code.length` stops there, for every
budget of at least `fetched.length` iterations. -/
theorem Reaches.run_eq {code : List OPCodeT} {function_map : FunctionMap} {st st' : VMState}
    {fetched : List Int} (h : Reaches code function_map st fetched st')
    (hend : st'.ip = code.length) (fuel : Nat) (hfuel : fetched.length ≤ fuel) :
    run code function_map fuel st = .ok st' ∧ trace code function_map fuel st = fetched := by
  obtain ⟨k, rfl⟩ : ∃ k, fuel = k + fetched.length := ⟨fuel - fetched.length, by omega⟩
  rw [(h k).1, (h k).2, run_halted _ _ _ _ hend, trace_halted _ _ _ _ hend]
  simp

theorem indices_append (n a b : Nat) : indices n (a + b) = indices n a ++ indices (n + a) b := by
  induction a generalizing n with
  | zero => simp [indices]
  | succ a ih =>
    have e : a + 1 + b = (a + b) + 1 := by omega
    rw [e, indices, indices, ih (n + 1)]
    have e2 : n + 1 + a = n + (a + 1) := by omega
    rw [e2]
    rfl

theorem indices_length (n len : Nat) : (indices n len).length = len := by
  induction len generalizing n with
  | zero => rfl
  | succ len ih => simp [indices, ih]

/-- An integer of magnitude at most 2^53 is a double: rounding leaves it as it is. -/
theorem number_exact (n : Int) (h : n.natAbs ≤ 9007199254740992) : number n = .ok (.num n) := by
  unfold number round_to_double
  rw [if_pos h]
  by_cases hn : n < 0
  · simp only [hn, if_true]
    congr 2
    omega
  · simp only [hn, if_false]
    congr 2
    omega

theorem to_number_exact (digits : String) (hd : digits.data.all Char.isDigit = true)
    (hr : digits_value digits.data ≤ 9007199254740992) :
    to_number (some (.str digits)) = .ok (.num (digits_value digits.data)) := by
  simp only [to_number, if_pos hd]
  exact number_exact _ (by simpa using hr)

theorem expr_generator_lit (labels_table : List Label) (scopes : List AST) (digits : String) :
    expr_generator labels_table scopes (Expr.lit digits).ast =
      match to_number (some (.str digits)) with
      | .ok v => .ok [⟨.load_const, v⟩]
      | .error e => .error e := rfl

theorem expr_generator_lit_exact (labels_table : List Label) (scopes : List AST)
    (digits : String) (hd : digits.data.all Char.isDigit = true)
    (hr : digits_value digits.data ≤ 9007199254740992) :
    expr_generator labels_table scopes (Expr.lit digits).ast =
      .ok [⟨.load_const, .num (digits_value digits.data)⟩] := by
  rw [expr_generator_lit, to_number_exact digits hd hr]

theorem expr_generator_target (labels_table : List Label) (scopes : List AST) (id : Int) :
    expr_generator labels_table scopes (Expr.target id).ast =
      .ok [⟨.load_name, label_name (labels_table.find? (fun label => decide (label.id = id)))⟩,
           ⟨.load_value, .null⟩] := rfl

theorem expr_generator_binary (labels_table : List Label) (scopes : List AST) (op : BinOp)
    (left right : Expr) :
    expr_generator labels_table scopes (Expr.binary op left right).ast =
      match expr_generator labels_table (scopes ++ [(Expr.binary op left right).ast]) left.ast with
      | .error e => .error e
      | .ok left_part_code =>
        match expr_generator labels_table (scopes ++ [(Expr.binary op left right).ast])
            right.ast with
        | .error e => .error e
        | .ok right_part_code =>
          .ok (left_part_code ++ right_part_code ++ [⟨op.action, .null⟩]) := by
  cases op <;> rfl

theorem exec_binary (function_map : FunctionMap) (op : BinOp) (ip a b : Int) (s : List Val)
    (cs : List Int) (ss : List Frame) (out : List (List Val))
    (h : (op.apply a b).natAbs ≤ 9007199254740992) :
    exec function_map ⟨ip, .num b :: .num a :: s, cs, ss, out⟩ ⟨op.action, .null⟩ =
      .ok ⟨ip + 1, .num (op.apply a b) :: s, cs, ss, out⟩ := by
  cases op
  case add =>
    simp only [BinOp.apply] at h
    simp [exec, BinOp.action, BinOp.apply, binary_step, pop, js_add, number_exact _ h,
      VMState.next]
  case sub =>
    simp only [BinOp.apply] at h
    simp [exec, BinOp.action, BinOp.apply, binary_step, pop, js_sub, number_exact _ h,
      VMState.next]
  case mul =>
    simp only [BinOp.apply] at h
    simp [exec, BinOp.action, BinOp.apply, binary_step, pop, js_mul, number_exact _ h,
      VMState.next]
  all_goals
    simp [exec, BinOp.action, BinOp.apply, binary_step, pop, js_compare, VMState.next]

/-- Running the code of a call-free expression that sits at offset `n` of `code`:
every instruction is fetched once, and the value of the expression is pushed. -/
theorem reaches_expr_code (labels_table : List Label) (function_map : FunctionMap)
    (env : String → Option Int) (code : List OPCodeT) (cs : List Int) (ss : List Frame)
    (out : List (List Val))
    (henv : ∀ x m, env x = some m → lookup_value x ss = .num m) (e : Expr) :
    ∀ (scopes : List AST) (v : Int) (c : List OPCodeT) (n : Nat) (s : List Val),
      e.value labels_table env = some v →
      e.exact labels_table env = true →
      expr_generator labels_table scopes e.ast = .ok c →
      CodeAt code n c →
      Reaches code function_map ⟨(n : Nat), s, cs, ss, out⟩ (indices n c.length)
        ⟨((n + c.length : Nat) : Int), .num v :: s, cs, ss, out⟩ := by
  induction e with
  | lit digits =>
    intro scopes v c n s hv hex hgen hat
    simp only [Expr.value] at hv
    simp only [Expr.exact, decide_eq_true_eq] at hex
    by_cases hd : digits.data.all Char.isDigit = true
    · rw [expr_generator_lit_exact labels_table scopes digits hd hex] at hgen
      rw [if_pos hd] at hv
      cases hgen; cases hv
      exact Reaches.exec function_map _ _ hat.get rfl (by simp [exec, VMState.next])
    · rw [if_neg hd] at hv; cases hv
  | target id =>
    intro scopes v c n s hv hex hgen hat
    rw [expr_generator_target] at hgen
    cases hgen
    simp only [Expr.value] at hv
    cases hfind : labels_table.find? (fun label => decide (label.id = id)) with
    | none => rw [hfind] at hv; cases hv
    | some label =>
      rw [hfind] at hv hat
      have h1 := hat.get
      have h2 : code[n + 1]? = some ⟨.load_value, .null⟩ :=
        (@CodeAt.right code n [_] _ hat).get
      have r1 := Reaches.exec function_map
        ⟨(n : Nat), s, cs, ss, out⟩
        ⟨((n + 1 : Nat) : Int), .str label.name :: s, cs, ss, out⟩ h1 rfl
        (by simp [exec, VMState.next, label_name])
      have r2 := Reaches.exec function_map
        ⟨((n + 1 : Nat) : Int), .str label.name :: s, cs, ss, out⟩
        ⟨((n + 2 : Nat) : Int), .num v :: s, cs, ss, out⟩ h2 rfl
        (by simp [exec, VMState.next, pop, key_of, henv _ _ hv]; omega)
      exact r1.trans r2
  | binary op left right ihl ihr =>
    intro scopes v c n s hv hex hgen hat
    rw [expr_generator_binary] at hgen
    simp only [Expr.value] at hv
    cases hl : left.value labels_table env with
    | none => rw [hl] at hv; cases hv
    | some a =>
      cases hr : right.value labels_table env with
      | none => rw [hl, hr] at hv; cases hv
      | some b =>
        rw [hl, hr] at hv; cases hv
        simp only [Expr.exact, hl, hr, Bool.and_eq_true, decide_eq_true_eq] at hex
        obtain ⟨⟨hexl, hexr⟩, hrange⟩ := hex
        cases hgl : expr_generator labels_table (scopes ++ [(Expr.binary op left right).ast])
            left.ast with
        | error e => rw [hgl] at hgen; cases hgen
        | ok cl =>
          cases hgr : expr_generator labels_table (scopes ++ [(Expr.binary op left right).ast])
              right.ast with
          | error e => rw [hgl, hgr] at hgen; cases hgen
          | ok cr =>
            rw [hgl, hgr] at hgen; cases hgen
            have hatl : CodeAt code n cl := by
              have := hat; rw [List.append_assoc] at this; exact this.left
            have hatr : CodeAt code (n + cl.length) cr := by
              have := hat; rw [List.append_assoc] at this; exact this.right.left
            have hop : code[n + cl.length + cr.length]? = some ⟨op.action, .null⟩ := by
              have := hat; rw [List.append_assoc] at this
              exact this.right.right.get
            have r3 := Reaches.exec function_map _ _ hop rfl
              (exec_binary function_map op _ a b s cs ss out hrange)
            have r := ((ihl _ a cl n s hl hexl hgl hatl).trans
              (ihr _ b cr _ _ hr hexr hgr hatr)).trans r3
            have e1 : indices n (cl ++ cr ++ [(⟨op.action, .null⟩ : OPCodeT)]).length
                = indices n cl.length ++ indices (n + cl.length) cr.length
                  ++ [((n + cl.length + cr.length : Nat) : Int)] := by
              rw [List.length_append, List.length_append, indices_append, indices_append]
              simp only [indices, List.length_singleton]
              rw [Nat.add_assoc]
            rw [e1]
            have e2 : (((n + (cl ++ cr ++ [(⟨op.action, .null⟩ : OPCodeT)]).length : Nat)) : Int)
                = ((n + cl.length + cr.length : Nat) : Int) + 1 := by
              have e3 : (cl ++ cr ++ [(⟨op.action, .null⟩ : OPCodeT)]).length
                  = cl.length + cr.length + 1 := by simp [Nat.add_assoc]
              rw [e3]; push_cast; omega
            rw [e2]
            exact r

theorem expr_generator_ok (labels_table : List Label) (env : String → Option Int) (e : Expr) :
    ∀ (scopes : List AST) (v : Int), e.value labels_table env = some v →
      e.exact labels_table env = true →
      ∃ c, expr_generator labels_table scopes e.ast = .ok c := by
  induction e with
  | lit digits =>
    intro scopes v hv hex
    simp only [Expr.value] at hv
    simp only [Expr.exact, decide_eq_true_eq] at hex
    by_cases hd : digits.data.all Char.isDigit = true
    · exact ⟨_, expr_generator_lit_exact labels_table scopes digits hd hex⟩
    · rw [if_neg hd] at hv; cases hv
  | target id =>
    intro scopes v _ _
    exact ⟨_, expr_generator_target labels_table scopes id⟩
  | binary op left right ihl ihr =>
    intro scopes v hv hex
    rw [expr_generator_binary]
    simp only [Expr.value] at hv
    cases hl : left.value labels_table env with
    | none => rw [hl] at hv; cases hv
    | some a =>
      cases hr : right.value labels_table env with
      | none => rw [hl, hr] at hv; cases hv
      | some b =>
        simp only [Expr.exact, hl, hr, Bool.and_eq_true, decide_eq_true_eq] at hex
        obtain ⟨cl, hcl⟩ := ihl (scopes ++ [(Expr.binary op left right).ast]) a hl hex.1.1
        obtain ⟨cr, hcr⟩ := ihr (scopes ++ [(Expr.binary op left right).ast]) b hr hex.1.2
        rw [hcl, hcr]
        exact ⟨_, rfl⟩

/-- C1 as stated fails, the VM computing with doubles: the literal
`9007199254740993` = 2^53 + 1 has that reference value, and the generated code
pushes 9007199254740992; the sum `9007199254740992 + 1` of two literals that are
doubles has the reference value 2^53 + 1, and the run of its code pushes
9007199254740992. -/
theorem literal_rounded_to_double :
    (Expr.lit "9007199254740993").value [] (fun _ => none) = some 9007199254740993 ∧
    expr_generator [] [] (Expr.lit "9007199254740993").ast
      = .ok [⟨.load_const, .num 9007199254740992⟩] ∧
    run [⟨.load_const, .num 9007199254740992⟩] [] 1 ⟨0, [], [], [[]], []⟩
      = .ok ⟨1, [.num 9007199254740992], [], [[]], []⟩ ∧
    (Expr.binary .add (.lit "9007199254740992") (.lit "1")).value [] (fun _ => none)
      = some 9007199254740993 ∧
    expr_generator [] [] (Expr.binary .add (.lit "9007199254740992") (.lit "1")).ast
      = .ok [⟨.load_const, .num 9007199254740992⟩, ⟨.load_const, .num 1⟩, ⟨.add, .null⟩] ∧
    run [⟨.load_const, .num 9007199254740992⟩, ⟨.load_const, .num 1⟩, ⟨.add, .null⟩] [] 3
        ⟨0, [], [], [[]], []⟩
      = .ok ⟨3, [.num 9007199254740992], [], [[]], []⟩ := by
  refine ⟨by decide, by decide, by decide, by decide, by decide, by decide⟩

/-- C1 (amended): for a call-free expression `e` whose reference value under the
integer bindings `env` of the scope stack is `v`, and in which every literal and the
reference value of every binary node has a magnitude of at most 2^53 (`e.exact`),
`expr_generator` succeeds and the VM loop run on its code from `ip = 0` with operand
stack `s` stops at `ip = code.length` with `v` pushed on `s`, the scope stack, the call
stack and the output unchanged. -/
theorem expr_generator_vm_correct (labels_table : List Label) (scopes : List AST)
    (function_map : FunctionMap) (env : String → Option Int) (e : Expr) (v : Int)
    (s : List Val) (cs : List Int) (ss : List Frame) (out : List (List Val))
    (henv : ∀ x m, env x = some m → lookup_value x ss = .num m)
    (hv : e.value labels_table env = some v)
    (hexact : e.exact labels_table env = true) :
    ∃ code, expr_generator labels_table scopes e.ast = .ok code ∧
      ∀ fuel, code.length ≤ fuel →
        run code function_map fuel ⟨0, s, cs, ss, out⟩
          = .ok ⟨code.length, .num v :: s, cs, ss, out⟩ := by
  obtain ⟨code, hcode⟩ := expr_generator_ok labels_table env e scopes v hv hexact
  refine ⟨code, hcode, fun fuel hfuel => ?_⟩
  have h := reaches_expr_code labels_table function_map env code cs ss out henv e scopes v code 0 s
    hv hexact hcode (CodeAt.self code)
  have h2 := h.run_eq (by simp) fuel (by rw [indices_length]; exact hfuel)
  simpa using h2.1

/-! ## Unfolding the statement generator -/

theorem code_generator_node (labels_table : List Label) (scopes : List AST)
    (function_map : FunctionMap) (ty : ASTType) (op : ASTOp) (body : List AST) :
    code_generator labels_table scopes function_map (.node ty op body)
      = code_generator_body labels_table scopes function_map [] body := rfl

theorem code_generator_body_nil (labels_table : List Label) (scopes : List AST)
    (function_map : FunctionMap) (code : List OPCodeT) :
    code_generator_body labels_table scopes function_map code [] = .ok (code, function_map) := rfl

theorem code_generator_body_cons (labels_table : List Label) (scopes : List AST)
    (function_map : FunctionMap) (code : List OPCodeT) (current_ast : AST) (rest : List AST) :
    code_generator_body labels_table scopes function_map code (current_ast :: rest) =
      match code_generator_stmt labels_table scopes function_map code.length current_ast with
      | .error e => .error e
      | .ok (stmt_code, fm) =>
        code_generator_body labels_table scopes fm (code ++ stmt_code) rest := rfl

theorem code_generator_stmt_assign (labels_table : List Label) (scopes : List AST)
    (function_map : FunctionMap) (code_length : Nat) (tb : List AST) (t1 : ASTType) (o1 : ASTOp)
    (value : AST) (rest : List AST) :
    code_generator_stmt labels_table scopes function_map code_length
        (.node .action .assign (.node t1 o1 tb :: value :: rest)) =
      match expr_generator labels_table
          (scopes ++ [.node .action .assign (.node t1 o1 tb :: value :: rest)]) value with
      | .error e => .error e
      | .ok assign_value_code =>
        .ok ([⟨.load_name, label_name (find_label labels_table tb.head?)⟩]
          ++ assign_value_code ++ [⟨.assign, .null⟩], function_map) := rfl

theorem code_generator_stmt_if (labels_table : List Label) (scopes : List AST)
    (function_map : FunctionMap) (code_length : Nat) (if_cond_ast if_true_ast : AST) :
    code_generator_stmt labels_table scopes function_map code_length
        (.node .action .if_ [if_cond_ast, if_true_ast]) =
      match expr_generator labels_table
          (scopes ++ [.node .action .if_ [if_cond_ast, if_true_ast]]) if_cond_ast with
      | .error e => .error e
      | .ok if_cond_code =>
        match code_generator labels_table
            (scopes ++ [.node .action .if_ [if_cond_ast, if_true_ast]]) function_map
            if_true_ast with
        | .error e => .error e
        | .ok (if_true_code, fm) =>
          .ok (if_cond_code ++ [⟨.jmp_true_remove, .num 2⟩]
            ++ [⟨.jmp_false_remove, .num (if_true_code.length + 1)⟩] ++ if_true_code, fm) := rfl

theorem code_generator_stmt_if_else (labels_table : List Label) (scopes : List AST)
    (function_map : FunctionMap) (code_length : Nat) (if_cond_ast if_true_ast if_else_ast : AST)
    (rest : List AST) :
    code_generator_stmt labels_table scopes function_map code_length
        (.node .action .if_ (if_cond_ast :: if_true_ast :: if_else_ast :: rest)) =
      match expr_generator labels_table
          (scopes ++ [.node .action .if_ (if_cond_ast :: if_true_ast :: if_else_ast :: rest)])
          if_cond_ast with
      | .error e => .error e
      | .ok if_cond_code =>
        match code_generator labels_table
            (scopes ++ [.node .action .if_ (if_cond_ast :: if_true_ast :: if_else_ast :: rest)])
            function_map if_true_ast with
        | .error e => .error e
        | .ok (if_true_code, fm) =>
          match code_generator labels_table
              (scopes ++ [.node .action .if_ (if_cond_ast :: if_true_ast :: if_else_ast :: rest)])
              fm if_else_ast with
          | .error e => .error e
          | .ok (if_else_code, fm') =>
            .ok (if_cond_code ++ [⟨.jmp_true_remove, .num 2⟩]
              ++ [⟨.jmp_false_remove, .num (if_true_code.length + 2)⟩] ++ if_true_code
              ++ [⟨.jmp, .num (if_else_code.length + 1)⟩] ++ if_else_code, fm') := rfl

theorem code_generator_stmt_while (labels_table : List Label) (scopes : List AST)
    (function_map : FunctionMap) (code_length : Nat) (while_cond_ast while_body_ast : AST)
    (rest : List AST) :
    code_generator_stmt labels_table scopes function_map code_length
        (.node .action .while_ (while_cond_ast :: while_body_ast :: rest)) =
      match expr_generator labels_table
          (scopes ++ [.node .action .while_ (while_cond_ast :: while_body_ast :: rest)])
          while_cond_ast with
      | .error e => .error e
      | .ok while_cond_code =>
        match code_generator labels_table
            (scopes ++ [.node .action .while_ (while_cond_ast :: while_body_ast :: rest)])
            function_map while_body_ast with
        | .error e => .error e
        | .ok (while_body_code, fm) =>
          .ok (resolve_placeholders (while_cond_code.length + 2) 0
            (while_cond_code ++ [⟨.jmp_true_remove, .num 3⟩]
              ++ [⟨.jmp_remove, .num (while_body_code.length + 3)⟩,
                  ⟨.jmp, .num (while_body_code.length + 2)⟩]
              ++ while_body_code
              ++ [⟨.jmp, .num (-((while_cond_code.length + 3 + while_body_code.length : Nat) : Int))⟩]),
            fm) := by
  have h : code_generator_stmt labels_table scopes function_map code_length
        (.node .action .while_ (while_cond_ast :: while_body_ast :: rest)) =
      match expr_generator labels_table
          (scopes ++ [.node .action .while_ (while_cond_ast :: while_body_ast :: rest)])
          while_cond_ast with
      | .error e => .error e
      | .ok while_cond_code =>
        match code_generator labels_table
            (scopes ++ [.node .action .while_ (while_cond_ast :: while_body_ast :: rest)])
            function_map while_body_ast with
        | .error e => .error e
        | .ok (while_body_code, fm) =>
          .ok (resolve_placeholders
            ((while_cond_code ++ [(⟨.jmp_true_remove, .num 3⟩ : OPCodeT)]
              ++ [(⟨.jmp_remove, .num (while_body_code.length + 3)⟩ : OPCodeT),
                  (⟨.jmp, .num (while_body_code.length + 2)⟩ : OPCodeT)]).length - 1) 0
            (while_cond_code ++ [⟨.jmp_true_remove, .num 3⟩]
              ++ [⟨.jmp_remove, .num (while_body_code.length + 3)⟩,
                  ⟨.jmp, .num (while_body_code.length + 2)⟩]
              ++ while_body_code
              ++ [⟨.jmp, .num (-((while_cond_code ++ [(⟨.jmp_true_remove, .num 3⟩ : OPCodeT)]
              ++ [(⟨.jmp_remove, .num (while_body_code.length + 3)⟩ : OPCodeT),
                  (⟨.jmp, .num (while_body_code.length + 2)⟩ : OPCodeT)]
              ++ while_body_code).length : Int))⟩]),
            fm) := rfl
  rw [h]
  cases expr_generator labels_table
      (scopes ++ [.node .action .while_ (while_cond_ast :: while_body_ast :: rest)])
      while_cond_ast with
  | error e => rfl
  | ok cc =>
    cases code_generator labels_table
        (scopes ++ [.node .action .while_ (while_cond_ast :: while_body_ast :: rest)])
        function_map while_body_ast with
    | error e => rfl
    | ok p =>
      obtain ⟨bc, fm⟩ := p
      simp only [List.length_append, List.length_cons, List.length_nil, List.length_singleton]
      have e1 : cc.length + 1 + (0 + 1 + 1) - 1 = cc.length + 2 := by omega
      have e2 : cc.length + 1 + (0 + 1 + 1) + bc.length = cc.length + 3 + bc.length := by omega
      rw [e1, e2]

/-! ## Layout of `if` and `while` -/

theorem CodeAt.intro (pre c post : List OPCodeT) : CodeAt (pre ++ c ++ post) pre.length c :=
  ⟨pre, post, rfl, rfl⟩

theorem action_at_of_get {code : List OPCodeT} {i : Nat} {op : OPCodeT}
    (h : code[i]? = some op) : action_at code i = some op.action := by
  simp [action_at, h]

theorem jump_target_of_get {code : List OPCodeT} {i : Nat} {a : OPT} {d : Int}
    (h : code[i]? = some ⟨a, .num d⟩) : jump_target code i = some ((i : Int) + d) := by
  simp [jump_target, h]

theorem layout_if (cc tc : List OPCodeT) (j1 j2 : OPCodeT) :
    CodeAt (cc ++ [j1] ++ [j2] ++ tc) 0 cc ∧
    (cc ++ [j1] ++ [j2] ++ tc)[cc.length]? = some j1 ∧
    (cc ++ [j1] ++ [j2] ++ tc)[cc.length + 1]? = some j2 ∧
    CodeAt (cc ++ [j1] ++ [j2] ++ tc) (cc.length + 2) tc ∧
    (cc ++ [j1] ++ [j2] ++ tc).length = cc.length + 2 + tc.length := by
  refine ⟨⟨[], [j1] ++ [j2] ++ tc, by simp, rfl⟩, ?_, ?_, ⟨cc ++ [j1] ++ [j2], [], by simp, by simp⟩,
    by simp; omega⟩
  · exact @CodeAt.get (cc ++ [j1] ++ [j2] ++ tc) cc.length j1 [] ⟨cc, [j2] ++ tc, by simp, rfl⟩
  · exact @CodeAt.get (cc ++ [j1] ++ [j2] ++ tc) (cc.length + 1) j2 []
      ⟨cc ++ [j1], tc, by simp, by simp⟩

theorem layout_if_else (cc tc ec : List OPCodeT) (j1 j2 j3 : OPCodeT) :
    CodeAt (cc ++ [j1] ++ [j2] ++ tc ++ [j3] ++ ec) 0 cc ∧
    (cc ++ [j1] ++ [j2] ++ tc ++ [j3] ++ ec)[cc.length]? = some j1 ∧
    (cc ++ [j1] ++ [j2] ++ tc ++ [j3] ++ ec)[cc.length + 1]? = some j2 ∧
    CodeAt (cc ++ [j1] ++ [j2] ++ tc ++ [j3] ++ ec) (cc.length + 2) tc ∧
    (cc ++ [j1] ++ [j2] ++ tc ++ [j3] ++ ec)[cc.length + 2 + tc.length]? = some j3 ∧
    CodeAt (cc ++ [j1] ++ [j2] ++ tc ++ [j3] ++ ec) (cc.length + 3 + tc.length) ec ∧
    (cc ++ [j1] ++ [j2] ++ tc ++ [j3] ++ ec).length = cc.length + 3 + tc.length + ec.length := by
  refine ⟨⟨[], [j1] ++ [j2] ++ tc ++ [j3] ++ ec, by simp, rfl⟩, ?_, ?_,
    ⟨cc ++ [j1] ++ [j2], [j3] ++ ec, by simp, by simp⟩, ?_,
    ⟨cc ++ [j1] ++ [j2] ++ tc ++ [j3], [], by simp, by simp; omega⟩, by simp; omega⟩
  · exact @CodeAt.get (cc ++ [j1] ++ [j2] ++ tc ++ [j3] ++ ec) cc.length j1 []
      ⟨cc, [j2] ++ tc ++ [j3] ++ ec, by simp, rfl⟩
  · exact @CodeAt.get (cc ++ [j1] ++ [j2] ++ tc ++ [j3] ++ ec) (cc.length + 1) j2 []
      ⟨cc ++ [j1], tc ++ [j3] ++ ec, by simp, by simp⟩
  · exact @CodeAt.get (cc ++ [j1] ++ [j2] ++ tc ++ [j3] ++ ec) (cc.length + 2 + tc.length) j3 []
      ⟨cc ++ [j1] ++ [j2] ++ tc, ec, by simp, by simp; omega⟩

/-- The parts of the code of an `if` statement, with or without an else block. -/
theorem code_generator_stmt_if_parts (labels_table : List Label) (scopes : List AST) (function_map : FunctionMap)
    (code_length : Nat) (if_cond_ast if_true_ast : AST) (rest : List AST)
    (code : List OPCodeT) (fm' : FunctionMap)
    (h : code_generator_stmt labels_table scopes function_map code_length
      (.node .action .if_ (if_cond_ast :: if_true_ast :: rest)) = .ok (code, fm')) :
    ∃ cc tc fm1,
      expr_generator labels_table
        (scopes ++ [.node .action .if_ (if_cond_ast :: if_true_ast :: rest)]) if_cond_ast
          = .ok cc ∧
      code_generator labels_table
        (scopes ++ [.node .action .if_ (if_cond_ast :: if_true_ast :: rest)]) function_map
        if_true_ast = .ok (tc, fm1) ∧
      CodeAt code 0 cc ∧
      action_at code cc.length = some .jmp_true_remove ∧
      jump_target code cc.length = some ((cc.length + 2 : Nat) : Int) ∧
      action_at code (cc.length + 1) = some .jmp_false_remove ∧
      CodeAt code (cc.length + 2) tc ∧
      match rest with
      | [] =>
        fm' = fm1 ∧ code.length = cc.length + 2 + tc.length ∧
        jump_target code (cc.length + 1) = some ((cc.length + 2 + tc.length : Nat) : Int)
      | if_else_ast :: _ =>
        ∃ ec,
          code_generator labels_table
            (scopes ++ [.node .action .if_ (if_cond_ast :: if_true_ast :: rest)]) fm1
            if_else_ast = .ok (ec, fm') ∧
          code.length = cc.length + 3 + tc.length + ec.length ∧
          jump_target code (cc.length + 1) = some ((cc.length + 3 + tc.length : Nat) : Int) ∧
          action_at code (cc.length + 2 + tc.length) = some .jmp ∧
          jump_target code (cc.length + 2 + tc.length)
            = some ((cc.length + 3 + tc.length + ec.length : Nat) : Int) ∧
          CodeAt code (cc.length + 3 + tc.length) ec := by
  cases rest with
  | nil =>
    rw [code_generator_stmt_if] at h
    cases hc : expr_generator labels_table
        (scopes ++ [.node .action .if_ [if_cond_ast, if_true_ast]]) if_cond_ast with
    | error e => rw [hc] at h; cases h
    | ok cc =>
      cases ht : code_generator labels_table
          (scopes ++ [.node .action .if_ [if_cond_ast, if_true_ast]]) function_map
          if_true_ast with
      | error e => rw [hc, ht] at h; cases h
      | ok p =>
        obtain ⟨tc, fm1⟩ := p
        rw [hc, ht] at h
        simp only [Except.ok.injEq, Prod.mk.injEq] at h
        obtain ⟨h1, h2⟩ := h
        subst h1 h2
        obtain ⟨g0, g1, g2, g3, g4⟩ := layout_if cc tc ⟨.jmp_true_remove, .num 2⟩
          ⟨.jmp_false_remove, .num (tc.length + 1)⟩
        refine ⟨cc, tc, fm1, rfl, rfl, g0, action_at_of_get g1, ?_, action_at_of_get g2, g3,
          rfl, g4, ?_⟩
        · rw [jump_target_of_get g1]; push_cast; rfl
        · rw [jump_target_of_get g2]; push_cast; congr 1; omega
  | cons if_else_ast rest' =>
    rw [code_generator_stmt_if_else] at h
    cases hc : expr_generator labels_table
        (scopes ++ [.node .action .if_ (if_cond_ast :: if_true_ast :: if_else_ast :: rest')])
        if_cond_ast with
    | error e => rw [hc] at h; cases h
    | ok cc =>
      cases ht : code_generator labels_table
          (scopes ++ [.node .action .if_ (if_cond_ast :: if_true_ast :: if_else_ast :: rest')])
          function_map if_true_ast with
      | error e => rw [hc, ht] at h; cases h
      | ok p =>
        obtain ⟨tc, fm1⟩ := p
        cases he : code_generator labels_table
            (scopes ++ [.node .action .if_ (if_cond_ast :: if_true_ast :: if_else_ast :: rest')])
            fm1 if_else_ast with
        | error e => rw [hc, ht] at h; dsimp only at h; rw [he] at h; cases h
        | ok q =>
          obtain ⟨ec, fm2⟩ := q
          rw [hc, ht] at h; dsimp only at h; rw [he] at h
          simp only [Except.ok.injEq, Prod.mk.injEq] at h
          obtain ⟨h1, h2⟩ := h
          subst h1 h2
          obtain ⟨g0, g1, g2, g3, g4, g5, g6⟩ := layout_if_else cc tc ec
            ⟨.jmp_true_remove, .num 2⟩ ⟨.jmp_false_remove, .num (tc.length + 2)⟩
            ⟨.jmp, .num (ec.length + 1)⟩
          refine ⟨cc, tc, fm1, rfl, rfl, g0, action_at_of_get g1, ?_, action_at_of_get g2, g3,
            ec, he, g6, ?_, action_at_of_get g4, ?_, g5⟩
          · rw [jump_target_of_get g1]; push_cast; rfl
          · rw [jump_target_of_get g2]; push_cast; congr 1; omega
          · rw [jump_target_of_get g4]; push_cast; congr 1; omega

/-! ## Structural induction on the AST -/

mutual
theorem AST.induct {P : AST → Prop} (hstr : ∀ s, P (.str s)) (hnum : ∀ n, P (.num n))
    (hnode : ∀ ty op body, (∀ a ∈ body, P a) → P (.node ty op body)) (a : AST) : P a :=
  match a with
  | .str s => hstr s
  | .num n => hnum n
  | .node ty op body => hnode ty op body (AST.induct_list hstr hnum hnode body)
termination_by structural a
theorem AST.induct_list {P : AST → Prop} (hstr : ∀ s, P (.str s)) (hnum : ∀ n, P (.num n))
    (hnode : ∀ ty op body, (∀ a ∈ body, P a) → P (.node ty op body)) (l : List AST) :
    ∀ a ∈ l, P a :=
  match l with
  | [] => fun _ h => absurd h (List.not_mem_nil _)
  | b :: rest => fun a h =>
    (List.mem_cons.mp h).elim (fun e => e ▸ AST.induct hstr hnum hnode b)
      (fun h' => AST.induct_list hstr hnum hnode rest a h')
termination_by structural l
end

/-! ## Expression code contains no jump -/

/-- C5: the code of an `if` node is the condition code (length `c`), `jmp_true_remove`
targeting `c + 2`, `jmp_false_remove`, and the true block (length `t`) at `c + 2`;
without an else block its length is `c + 2 + t` and `jmp_false_remove` targets
`c + 2 + t`; with an else block (length `e`) its length is `c + 3 + t + e`,
`jmp_false_remove` targets `c + 3 + t` where the else block starts, and the `jmp`
at `c + 2 + t` targets `c + 3 + t + e`. -/
theorem if_layout (labels_table : List Label) (scopes : List AST) (function_map : FunctionMap)
    (code_length : Nat) (if_cond_ast if_true_ast : AST) (rest : List AST)
    (code : List OPCodeT) (fm' : FunctionMap)
    (h : code_generator_stmt labels_table scopes function_map code_length
      (.node .action .if_ (if_cond_ast :: if_true_ast :: rest)) = .ok (code, fm')) :
    ∃ cc tc fm1,
      expr_generator labels_table
        (scopes ++ [.node .action .if_ (if_cond_ast :: if_true_ast :: rest)]) if_cond_ast
          = .ok cc ∧
      code_generator labels_table
        (scopes ++ [.node .action .if_ (if_cond_ast :: if_true_ast :: rest)]) function_map
        if_true_ast = .ok (tc, fm1) ∧
      CodeAt code 0 cc ∧
      action_at code cc.length = some .jmp_true_remove ∧
      jump_target code cc.length = some ((cc.length + 2 : Nat) : Int) ∧
      action_at code (cc.length + 1) = some .jmp_false_remove ∧
      CodeAt code (cc.length + 2) tc ∧
      match rest with
      | [] =>
        fm' = fm1 ∧ code.length = cc.length + 2 + tc.length ∧
        jump_target code (cc.length + 1) = some ((cc.length + 2 + tc.length : Nat) : Int)
      | if_else_ast :: _ =>
        ∃ ec,
          code_generator labels_table
            (scopes ++ [.node .action .if_ (if_cond_ast :: if_true_ast :: rest)]) fm1
            if_else_ast = .ok (ec, fm') ∧
          code.length = cc.length + 3 + tc.length + ec.length ∧
          jump_target code (cc.length + 1) = some ((cc.length + 3 + tc.length : Nat) : Int) ∧
          action_at code (cc.length + 2 + tc.length) = some .jmp ∧
          jump_target code (cc.length + 2 + tc.length)
            = some ((cc.length + 3 + tc.length + ec.length : Nat) : Int) ∧
          CodeAt code (cc.length + 3 + tc.length) ec :=
  code_generator_stmt_if_parts labels_table scopes function_map code_length if_cond_ast if_true_ast rest code fm' h

theorem expr_generator_node (labels_table : List Label) (scopes : List AST) (ty : ASTType)
    (op : ASTOp) (body : List AST) :
    expr_generator labels_table scopes (.node ty op body) =
    if ty = .string_iter then
      match literal_value body.head? with
      | .ok v => .ok [⟨.load_const, v⟩]
      | .error e => .error e
    else if ty = .number_iter then
      match to_number body.head? with
      | .ok v => .ok [⟨.load_const, v⟩]
      | .error e => .error e
    else if ty = .type then .ok []
    else if ty = .target then
      .ok [⟨.load_name, label_name (find_label labels_table body.head?)⟩, ⟨.load_value, .null⟩]
    else
      match binary_action op with
      | some action =>
        match body with
        | left :: right :: _ =>
          match expr_generator labels_table (scopes ++ [.node ty op body]) left with
          | .error e => .error e
          | .ok left_part_code =>
            match expr_generator labels_table (scopes ++ [.node ty op body]) right with
            | .error e => .error e
            | .ok right_part_code => .ok (left_part_code ++ right_part_code ++ [⟨action, .null⟩])
        | [left] =>
          match expr_generator labels_table (scopes ++ [.node ty op body]) left with
          | .error e => .error e
          | .ok _ => .error .throws
        | [] => .error .throws
      | none =>
        if op = .func_call then
          match find_label_of labels_table body.head? with
          | .error e => .error e
          | .ok func_label =>
            match body with
            | [] =>
              .ok ([⟨.create_scope, .null⟩]
                ++ [⟨.call, label_name func_label⟩, ⟨.delete_scope, .null⟩])
            | _ :: args =>
              match expr_generator_args labels_table scopes (.node ty op body) func_label
                  (is_builtin func_label) 0 args with
              | .error e => .error e
              | .ok args_code =>
                .ok ([⟨.create_scope, .null⟩] ++ args_code
                  ++ [⟨.call, label_name func_label⟩, ⟨.delete_scope, .null⟩])
        else .error .throws := by
  cases body with
  | nil => cases ty <;> cases op <;> rfl
  | cons a rest =>
    cases rest with
    | nil => cases a <;> cases ty <;> cases op <;> rfl
    | cons b rest' => cases a <;> cases ty <;> cases op <;> rfl

theorem expr_generator_args_cons (labels_table : List Label) (scopes : List AST) (call_ast : AST)
    (func_label : Option Label) (is_builtin_function : Bool) (i : Nat) (arg : AST)
    (rest : List AST) :
    expr_generator_args labels_table scopes call_ast func_label is_builtin_function i
        (arg :: rest) =
      match expr_generator labels_table (scopes ++ [call_ast]) arg with
      | .error e => .error e
      | .ok arg_code =>
        match (if is_builtin_function then .ok (.str ("arg_" ++ toString i))
               else param_name labels_table scopes func_label i) with
        | .error e => .error e
        | .ok name =>
          match expr_generator_args labels_table scopes call_ast func_label
              is_builtin_function (i + 1) rest with
          | .error e => .error e
          | .ok rest_code =>
            .ok ([⟨.load_name, name⟩] ++ arg_code ++ [⟨.assign, .null⟩] ++ rest_code) := rfl

theorem binary_action_not_jump (op : ASTOp) (a : OPT) (h : binary_action op = some a) :
    is_jump a = false := by
  cases op <;> simp [binary_action] at h <;> subst h <;> rfl

theorem expr_generator_args_no_jump (labels_table : List Label) (call_ast : AST)
    (func_label : Option Label) (is_builtin_function : Bool) (args : List AST)
    (ih : ∀ a ∈ args, ∀ (scopes : List AST) (c : List OPCodeT),
      expr_generator labels_table scopes a = .ok c → ∀ op ∈ c, is_jump op.action = false) :
    ∀ (scopes : List AST) (i : Nat) (c : List OPCodeT),
      expr_generator_args labels_table scopes call_ast func_label is_builtin_function i args
        = .ok c → ∀ op ∈ c, is_jump op.action = false := by
  induction args with
  | nil =>
    intro scopes i c h op hop
    cases h
    cases hop
  | cons arg rest ihr =>
    intro scopes i c h op hop
    rw [expr_generator_args_cons] at h
    split at h
    · cases h
    · rename_i arg_code harg
      split at h
      · cases h
      · rename_i name hname
        split at h
        · cases h
        · rename_i rest_code hrest
          cases h
          simp only [List.mem_append, List.mem_singleton, List.mem_cons, List.not_mem_nil,
            or_false] at hop
          rcases hop with ((rfl | hop) | rfl) | hop
          · rfl
          · exact ih arg (List.mem_cons_self _ _) _ _ harg op hop
          · rfl
          · exact ihr (fun a ha => ih a (List.mem_cons_of_mem _ ha)) _ _ _ hrest op hop

/-- The code of an expression holds no jump instruction. -/
theorem expr_generator_no_jump (labels_table : List Label) (ast : AST) :
    ∀ (scopes : List AST) (c : List OPCodeT),
      expr_generator labels_table scopes ast = .ok c → ∀ op ∈ c, is_jump op.action = false := by
  refine AST.induct (P := fun ast => ∀ (scopes : List AST) (c : List OPCodeT),
      expr_generator labels_table scopes ast = .ok c → ∀ op ∈ c, is_jump op.action = false)
    ?_ ?_ ?_ ast
  · intro s scopes c h; cases h
  · intro n scopes c h; cases h
  · intro ty op body ih scopes c h o ho
    rw [expr_generator_node] at h
    by_cases h1 : ty = .string_iter
    · rw [if_pos h1] at h
      split at h
      · cases h; simp at ho; subst ho; rfl
      · cases h
    rw [if_neg h1] at h
    by_cases h2 : ty = .number_iter
    · rw [if_pos h2] at h
      split at h
      · cases h; simp at ho; subst ho; rfl
      · cases h
    rw [if_neg h2] at h
    by_cases h3 : ty = .type
    · rw [if_pos h3] at h; cases h; cases ho
    rw [if_neg h3] at h
    by_cases h4 : ty = .target
    · rw [if_pos h4] at h; cases h; simp at ho; rcases ho with rfl | rfl <;> rfl
    rw [if_neg h4] at h
    split at h
    · rename_i action hact
      split at h
      · rename_i left right rest'
        split at h
        · cases h
        · rename_i cl hl
          split at h
          · cases h
          · rename_i cr hr
            cases h
            simp only [List.mem_append, List.mem_singleton] at ho
            rcases ho with (ho | ho) | rfl
            · exact ih left (by simp) _ _ hl o ho
            · exact ih right (by simp) _ _ hr o ho
            · exact binary_action_not_jump op action hact
      · split at h <;> cases h
      · cases h
    · by_cases h5 : op = .func_call
      · rw [if_pos h5] at h
        split at h
        · cases h
        · rename_i func_label hfl
          split at h
          · cases h
            simp only [List.mem_append, List.mem_singleton, List.mem_cons, List.not_mem_nil,
              or_false] at ho
            rcases ho with rfl | (rfl | rfl) <;> rfl
          · rename_i target args
            split at h
            · cases h
            · rename_i args_code hargs
              cases h
              simp only [List.mem_append, List.mem_singleton, List.mem_cons, List.not_mem_nil,
                or_false] at ho
              rcases ho with (rfl | ho) | (rfl | rfl)
              · rfl
              · exact expr_generator_args_no_jump labels_table _ _ _ args
                  (fun a ha => ih a (List.mem_cons_of_mem _ ha)) _ _ _ hargs o ho
              · rfl
              · rfl
      · rw [if_neg h5] at h; cases h

/-! ## Placeholder resolution -/

theorem resolve_placeholders_length (break_index : Nat) (l : List OPCodeT) :
    ∀ i, (resolve_placeholders break_index i l).length = l.length := by
  induction l with
  | nil => intro i; rfl
  | cons op rest ih => intro i; simp [resolve_placeholders, ih]

theorem resolve_placeholders_append (break_index : Nat) (l1 l2 : List OPCodeT) :
    ∀ i, resolve_placeholders break_index i (l1 ++ l2) =
      resolve_placeholders break_index i l1
        ++ resolve_placeholders break_index (i + l1.length) l2 := by
  induction l1 with
  | nil => intro i; simp [resolve_placeholders]
  | cons op rest ih =>
    intro i
    have e : i + 1 + rest.length = i + (rest.length + 1) := by omega
    show resolve_placeholder break_index i op
        :: resolve_placeholders break_index (i + 1) (rest ++ l2) = _
    rw [ih (i + 1), e]
    rfl

theorem resolve_placeholder_of_not (break_index i : Nat) (op : OPCodeT)
    (h : is_placeholder op = false) : resolve_placeholder break_index i op = op := by
  simp only [is_placeholder, decide_eq_false_iff_not] at h
  simp [resolve_placeholder, h]

theorem is_placeholder_of_not_jump (op : OPCodeT) (h : is_jump op.action = false) :
    is_placeholder op = false := by
  simp only [is_placeholder, decide_eq_false_iff_not]
  rintro ⟨h1, _⟩
  rw [h1] at h
  cases h

theorem resolve_placeholders_of_not (break_index : Nat) (l : List OPCodeT)
    (h : ∀ op ∈ l, is_placeholder op = false) :
    ∀ i, resolve_placeholders break_index i l = l := by
  induction l with
  | nil => intro i; rfl
  | cons op rest ih =>
    intro i
    simp only [resolve_placeholders]
    rw [resolve_placeholder_of_not _ _ _ (h op (List.mem_cons_self _ _)),
      ih (fun o ho => h o (List.mem_cons_of_mem _ ho))]

theorem resolve_placeholder_resolved (break_index i : Nat) (op : OPCodeT) :
    is_placeholder (resolve_placeholder break_index i op) = false := by
  by_cases h : op.action = .jmp ∧ (op.value = .str "break" ∨ op.value = .str "continue")
  · simp only [resolve_placeholder, if_pos h]
    split <;> simp [is_placeholder]
  · simp only [resolve_placeholder, if_neg h]
    simp only [is_placeholder, decide_eq_false_iff_not]
    exact h

theorem resolve_placeholders_resolved (break_index : Nat) (l : List OPCodeT) :
    ∀ i, ∀ op ∈ resolve_placeholders break_index i l, is_placeholder op = false := by
  induction l with
  | nil => intro i op h; cases h
  | cons o rest ih =>
    intro i op h
    simp only [resolve_placeholders, List.mem_cons] at h
    rcases h with rfl | h
    · exact resolve_placeholder_resolved _ _ _
    · exact ih _ op h

theorem layout_while (cc bc : List OPCodeT) (j1 j2 j3 j4 : OPCodeT) :
    CodeAt (cc ++ [j1] ++ [j2, j3] ++ bc ++ [j4]) 0 cc ∧
    (cc ++ [j1] ++ [j2, j3] ++ bc ++ [j4])[cc.length]? = some j1 ∧
    (cc ++ [j1] ++ [j2, j3] ++ bc ++ [j4])[cc.length + 1]? = some j2 ∧
    (cc ++ [j1] ++ [j2, j3] ++ bc ++ [j4])[cc.length + 2]? = some j3 ∧
    CodeAt (cc ++ [j1] ++ [j2, j3] ++ bc ++ [j4]) (cc.length + 3) bc ∧
    (cc ++ [j1] ++ [j2, j3] ++ bc ++ [j4])[cc.length + 3 + bc.length]? = some j4 ∧
    (cc ++ [j1] ++ [j2, j3] ++ bc ++ [j4]).length = cc.length + 4 + bc.length := by
  refine ⟨⟨[], [j1] ++ [j2, j3] ++ bc ++ [j4], by simp, rfl⟩, ?_, ?_, ?_,
    ⟨cc ++ [j1] ++ [j2, j3], [j4], by simp, by simp⟩, ?_, by simp; omega⟩
  · exact @CodeAt.get (cc ++ [j1] ++ [j2, j3] ++ bc ++ [j4]) cc.length j1 []
      ⟨cc, [j2, j3] ++ bc ++ [j4], by simp, rfl⟩
  · exact @CodeAt.get (cc ++ [j1] ++ [j2, j3] ++ bc ++ [j4]) (cc.length + 1) j2 []
      ⟨cc ++ [j1], [j3] ++ bc ++ [j4], by simp, by simp⟩
  · exact @CodeAt.get (cc ++ [j1] ++ [j2, j3] ++ bc ++ [j4]) (cc.length + 2) j3 []
      ⟨cc ++ [j1] ++ [j2], bc ++ [j4], by simp, by simp⟩
  · exact @CodeAt.get (cc ++ [j1] ++ [j2, j3] ++ bc ++ [j4]) (cc.length + 3 + bc.length) j4 []
      ⟨cc ++ [j1] ++ [j2, j3] ++ bc, [], by simp, by simp; omega⟩

/-- The code of a `while` node before and after placeholder resolution: the
condition code and the four jumps of the frame are left as they are, the body is
resolved with `break_index = c + 2` from index `c + 3` on. -/
theorem resolve_while_code (cc bc : List OPCodeT)
    (hcc : ∀ op ∈ cc, is_placeholder op = false) (d1 d2 d3 d4 : Int) :
    resolve_placeholders (cc.length + 2) 0
      (cc ++ [⟨.jmp_true_remove, .num d1⟩] ++ [⟨.jmp_remove, .num d2⟩, ⟨.jmp, .num d3⟩]
        ++ bc ++ [⟨.jmp, .num d4⟩])
    = cc ++ [⟨.jmp_true_remove, .num d1⟩] ++ [⟨.jmp_remove, .num d2⟩, ⟨.jmp, .num d3⟩]
        ++ resolve_placeholders (cc.length + 2) (cc.length + 3) bc ++ [⟨.jmp, .num d4⟩] := by
  rw [resolve_placeholders_append, resolve_placeholders_append, resolve_placeholders_append,
    resolve_placeholders_append, resolve_placeholders_of_not _ cc hcc]
  have e : 0 + (cc ++ [(⟨.jmp_true_remove, .num d1⟩ : OPCodeT)]
      ++ [(⟨.jmp_remove, .num d2⟩ : OPCodeT), (⟨.jmp, .num d3⟩ : OPCodeT)]).length
      = cc.length + 3 := by simp
  rw [e]
  simp [resolve_placeholders, resolve_placeholder]

/-- The generated code of a `while` node, in terms of its condition code `cc` and body
code `bc`. -/
theorem code_generator_stmt_while_ok (labels_table : List Label) (scopes : List AST)
    (function_map : FunctionMap) (code_length : Nat) (while_cond_ast while_body_ast : AST)
    (rest : List AST) (code : List OPCodeT) (fm' : FunctionMap)
    (h : code_generator_stmt labels_table scopes function_map code_length
      (.node .action .while_ (while_cond_ast :: while_body_ast :: rest)) = .ok (code, fm')) :
    ∃ cc bc,
      expr_generator labels_table
        (scopes ++ [.node .action .while_ (while_cond_ast :: while_body_ast :: rest)])
        while_cond_ast = .ok cc ∧
      code_generator labels_table
        (scopes ++ [.node .action .while_ (while_cond_ast :: while_body_ast :: rest)])
        function_map while_body_ast = .ok (bc, fm') ∧
      code = cc ++ [⟨.jmp_true_remove, .num 3⟩]
        ++ [⟨.jmp_remove, .num (bc.length + 3)⟩, ⟨.jmp, .num (bc.length + 2)⟩]
        ++ resolve_placeholders (cc.length + 2) (cc.length + 3) bc
        ++ [⟨.jmp, .num (-((cc.length + 3 + bc.length : Nat) : Int))⟩] := by
  rw [code_generator_stmt_while] at h
  cases hc : expr_generator labels_table
      (scopes ++ [.node .action .while_ (while_cond_ast :: while_body_ast :: rest)])
      while_cond_ast with
  | error e => rw [hc] at h; cases h
  | ok cc =>
    cases hb : code_generator labels_table
        (scopes ++ [.node .action .while_ (while_cond_ast :: while_body_ast :: rest)])
        function_map while_body_ast with
    | error e => rw [hc, hb] at h; cases h
    | ok p =>
      obtain ⟨bc, fm1⟩ := p
      rw [hc, hb] at h
      simp only [Except.ok.injEq, Prod.mk.injEq] at h
      obtain ⟨h1, h2⟩ := h
      subst h2
      refine ⟨cc, bc, rfl, rfl, ?_⟩
      rw [← h1]
      exact resolve_while_code cc bc
        (fun op hop => is_placeholder_of_not_jump op
          (expr_generator_no_jump labels_table while_cond_ast _ cc hc op hop)) _ _ _ _

/-- C6: the code of a `while` node has length `c + 4 + b`; its `jmp_true_remove` at
offset `c` targets `c + 3`, where the body code starts; the `jmp_remove` at `c + 1` and
the `jmp` at `c + 2` both target `c + 4 + b`; the trailing `jmp` at `c + 3 + b` targets
offset 0, where the condition code starts. -/
theorem while_layout (labels_table : List Label) (scopes : List AST)
    (function_map : FunctionMap) (code_length : Nat) (while_cond_ast while_body_ast : AST)
    (rest : List AST) (code : List OPCodeT) (fm' : FunctionMap)
    (h : code_generator_stmt labels_table scopes function_map code_length
      (.node .action .while_ (while_cond_ast :: while_body_ast :: rest)) = .ok (code, fm')) :
    ∃ cc bc,
      expr_generator labels_table
        (scopes ++ [.node .action .while_ (while_cond_ast :: while_body_ast :: rest)])
        while_cond_ast = .ok cc ∧
      code_generator labels_table
        (scopes ++ [.node .action .while_ (while_cond_ast :: while_body_ast :: rest)])
        function_map while_body_ast = .ok (bc, fm') ∧
      code.length = cc.length + 4 + bc.length ∧
      CodeAt code 0 cc ∧
      action_at code cc.length = some .jmp_true_remove ∧
      jump_target code cc.length = some ((cc.length + 3 : Nat) : Int) ∧
      CodeAt code (cc.length + 3) (resolve_placeholders (cc.length + 2) (cc.length + 3) bc) ∧
      action_at code (cc.length + 1) = some .jmp_remove ∧
      jump_target code (cc.length + 1) = some ((cc.length + 4 + bc.length : Nat) : Int) ∧
      action_at code (cc.length + 2) = some .jmp ∧
      jump_target code (cc.length + 2) = some ((cc.length + 4 + bc.length : Nat) : Int) ∧
      action_at code (cc.length + 3 + bc.length) = some .jmp ∧
      jump_target code (cc.length + 3 + bc.length) = some 0 := by
  obtain ⟨cc, bc, hc, hb, hcode⟩ := code_generator_stmt_while_ok labels_table scopes
    function_map code_length while_cond_ast while_body_ast rest code fm' h
  obtain ⟨g0, g1, g2, g3, g4, g5, g6⟩ := layout_while cc
    (resolve_placeholders (cc.length + 2) (cc.length + 3) bc)
    ⟨.jmp_true_remove, .num 3⟩ ⟨.jmp_remove, .num (bc.length + 3)⟩ ⟨.jmp, .num (bc.length + 2)⟩
    ⟨.jmp, .num (-((cc.length + 3 + bc.length : Nat) : Int))⟩
  rw [resolve_placeholders_length] at g5 g6
  rw [← hcode] at g0 g1 g2 g3 g4 g5 g6
  refine ⟨cc, bc, hc, hb, g6, g0, action_at_of_get g1, ?_, g4, action_at_of_get g2, ?_,
    action_at_of_get g3, ?_, action_at_of_get g5, ?_⟩
  · rw [jump_target_of_get g1]; push_cast; rfl
  · rw [jump_target_of_get g2]; push_cast; congr 1; omega
  · rw [jump_target_of_get g3]; push_cast; congr 1; omega
  · rw [jump_target_of_get g5]; push_cast; congr 1; omega

/-! ## `break` and `continue` -/

/-- The loop over the children only appends to the code emitted so far. -/
theorem code_generator_body_prefix (labels_table : List Label) (scopes : List AST)
    (body : List AST) :
    ∀ (function_map : FunctionMap) (code c : List OPCodeT) (fm' : FunctionMap),
      code_generator_body labels_table scopes function_map code body = .ok (c, fm') →
      ∃ c', c = code ++ c' := by
  induction body with
  | nil =>
    intro function_map code c fm' h
    rw [code_generator_body_nil] at h
    cases h
    exact ⟨[], by simp⟩
  | cons a rest ih =>
    intro function_map code c fm' h
    rw [code_generator_body_cons] at h
    split at h
    · cases h
    · rename_i sc fm1 hs
      obtain ⟨c', hc'⟩ := ih _ _ _ _ h
      exact ⟨sc ++ c', by rw [hc', List.append_assoc]⟩

theorem code_generator_body_append (labels_table : List Label) (scopes : List AST)
    (pre rest : List AST) :
    ∀ (function_map : FunctionMap) (code : List OPCodeT),
      code_generator_body labels_table scopes function_map code (pre ++ rest) =
        match code_generator_body labels_table scopes function_map code pre with
        | .error e => .error e
        | .ok (c1, fm1) => code_generator_body labels_table scopes fm1 c1 rest := by
  induction pre with
  | nil => intro function_map code; rfl
  | cons a pre' ih =>
    intro function_map code
    rw [List.cons_append, code_generator_body_cons, code_generator_body_cons]
    split
    · rfl
    · rename_i sc fm1 hs
      exact ih fm1 (code ++ sc)

/-- The code of a block whose body is `pre ++ current_ast :: post`: the code of `pre`,
then the code of `current_ast`, then the rest. -/
theorem code_generator_body_split (labels_table : List Label) (scopes : List AST)
    (function_map : FunctionMap) (pre : List AST) (current_ast : AST) (post : List AST)
    (code : List OPCodeT) (fm' : FunctionMap) (cpre : List OPCodeT) (fm1 : FunctionMap)
    (h : code_generator_body labels_table scopes function_map [] (pre ++ current_ast :: post)
      = .ok (code, fm'))
    (hpre : code_generator_body labels_table scopes function_map [] pre = .ok (cpre, fm1)) :
    ∃ sc fm2 cpost,
      code_generator_stmt labels_table scopes fm1 cpre.length current_ast = .ok (sc, fm2) ∧
      code_generator_body labels_table scopes fm2 (cpre ++ sc) post = .ok (code, fm') ∧
      code = cpre ++ sc ++ cpost := by
  rw [code_generator_body_append, hpre] at h
  dsimp only at h
  rw [code_generator_body_cons] at h
  split at h
  · cases h
  · rename_i sc fm2 hs
    obtain ⟨cpost, hc⟩ := code_generator_body_prefix labels_table scopes post _ _ _ _ h
    exact ⟨sc, fm2, cpost, hs, h, hc⟩

theorem code_generator_stmt_jump (labels_table : List Label) (scopes : List AST)
    (function_map : FunctionMap) (code_length : Nat) (kind : ASTOp)
    (hk : kind = .break_ ∨ kind = .continue_) (payload : List AST) :
    code_generator_stmt labels_table scopes function_map code_length
      (.node .action kind payload) = .ok ([⟨.jmp, .str (placeholder_text kind)⟩], function_map) := by
  rcases hk with rfl | rfl <;> rfl

/-- The instruction at a jump site is the placeholder emitted for its statement. -/
theorem JumpSite.placeholder {labels_table : List Label} {kind : ASTOp} {scopes : List AST}
    {function_map : FunctionMap} {block : AST} {k : Nat}
    (hs : JumpSite labels_table kind scopes function_map block k) :
    ∀ (code : List OPCodeT) (fm' : FunctionMap),
      code_generator labels_table scopes function_map block = .ok (code, fm') →
      code[k]? = some ⟨.jmp, .str (placeholder_text kind)⟩ := by
  induction hs with
  | direct scopes function_map ty op pre payload post cpre fm1 hk hpre =>
    intro code fm' h
    rw [code_generator_node] at h
    obtain ⟨sc, fm2, cpost, hsc, _, hcode⟩ := code_generator_body_split labels_table scopes
      function_map pre _ post code fm' cpre fm1 h hpre
    rw [code_generator_stmt_jump _ _ _ _ _ hk] at hsc
    simp only [Except.ok.injEq, Prod.mk.injEq] at hsc
    obtain ⟨h1, _⟩ := hsc
    subst h1
    exact @CodeAt.get code cpre.length _ [] ⟨cpre, cpost, hcode, rfl⟩
  | if_true scopes function_map ty op pre if_cond_ast if_true_ast rest post cpre fm1 cc k hpre
      hcc _ ih =>
    intro code fm' h
    rw [code_generator_node] at h
    obtain ⟨sc, fm2, cpost, hsc, _, hcode⟩ := code_generator_body_split labels_table scopes
      function_map pre _ post code fm' cpre fm1 h hpre
    obtain ⟨cc', tc, fm3, hcc', htc, _, _, _, _, hat, _⟩ := code_generator_stmt_if_parts labels_table scopes fm1
      cpre.length if_cond_ast if_true_ast rest sc fm2 hsc
    rw [hcc] at hcc'
    cases hcc'
    have hk := ih tc fm3 htc
    obtain ⟨p1, p2, hp, hpl⟩ := hat
    have hk' : (tc ++ p2 ++ cpost)[k]? = some ⟨.jmp, .str (placeholder_text kind)⟩ := by
      have hlt : k < tc.length := by
        rcases Nat.lt_or_ge k tc.length with hl | hl
        · exact hl
        · rw [List.getElem?_eq_none hl] at hk; cases hk
      rw [List.append_assoc, List.getElem?_append_left hlt]
      exact hk
    rw [hcode, hp]
    have e : cpre ++ (p1 ++ tc ++ p2) ++ cpost = (cpre ++ p1) ++ (tc ++ p2 ++ cpost) := by simp
    rw [e, List.getElem?_append_right (by simp; omega)]
    have e2 : cpre.length + cc.length + 2 + k - (cpre ++ p1).length = k := by
      simp; omega
    rw [e2]
    exact hk'
  | if_else scopes function_map ty op pre if_cond_ast if_true_ast if_else_ast rest post cpre fm1
      cc tc fm2 k hpre hcc htc _ ih =>
    intro code fm' h
    rw [code_generator_node] at h
    obtain ⟨sc, fm3, cpost, hsc, _, hcode⟩ := code_generator_body_split labels_table scopes
      function_map pre _ post code fm' cpre fm1 h hpre
    obtain ⟨cc', tc', fm4, hcc', htc', _, _, _, _, _, ec, hec, _, _, _, _, hat⟩ :=
      code_generator_stmt_if_parts labels_table scopes fm1 cpre.length if_cond_ast if_true_ast (if_else_ast :: rest)
        sc fm3 hsc
    rw [hcc] at hcc'
    cases hcc'
    rw [htc] at htc'
    simp only [Except.ok.injEq, Prod.mk.injEq] at htc'
    obtain ⟨h1, h2⟩ := htc'
    subst h1 h2
    have hk := ih ec fm3 hec
    obtain ⟨p1, p2, hp, hpl⟩ := hat
    have hk' : (ec ++ p2 ++ cpost)[k]? = some ⟨.jmp, .str (placeholder_text kind)⟩ := by
      have hlt : k < ec.length := by
        rcases Nat.lt_or_ge k ec.length with hl | hl
        · exact hl
        · rw [List.getElem?_eq_none hl] at hk; cases hk
      rw [List.append_assoc, List.getElem?_append_left hlt]
      exact hk
    rw [hcode, hp]
    have e : cpre ++ (p1 ++ ec ++ p2) ++ cpost = (cpre ++ p1) ++ (ec ++ p2 ++ cpost) := by simp
    rw [e, List.getElem?_append_right (by simp; omega)]
    have e2 : cpre.length + cc.length + 2 + tc.length + 1 + k - (cpre ++ p1).length = k := by
      simp; omega
    rw [e2]
    exact hk'

theorem CodeAt.get_at {code : List OPCodeT} {n : Nat} {seg : List OPCodeT}
    (h : CodeAt code n seg) {j : Nat} {op : OPCodeT} (hj : seg[j]? = some op) :
    code[n + j]? = some op := by
  obtain ⟨pre, post, hc, hn⟩ := h
  subst hn
  have hlt : j < seg.length := by
    rcases Nat.lt_or_ge j seg.length with hl | hl
    · exact hl
    · rw [List.getElem?_eq_none hl] at hj; cases hj
  rw [hc, List.append_assoc, List.getElem?_append_right (by omega)]
  have e : pre.length + j - pre.length = j := by omega
  rw [e, List.getElem?_append_left hlt]
  exact hj

theorem resolve_placeholders_get (break_index : Nat) (l : List OPCodeT) :
    ∀ (i k : Nat) (op : OPCodeT), l[k]? = some op →
      (resolve_placeholders break_index i l)[k]?
        = some (resolve_placeholder break_index (i + k) op) := by
  induction l with
  | nil => intro i k op h; cases h
  | cons o rest ih =>
    intro i k op h
    cases k with
    | zero =>
      simp only [List.getElem?_cons_zero, Option.some.injEq] at h
      subst h
      simp [resolve_placeholders]
    | succ k =>
      simp only [List.getElem?_cons_succ] at h
      simp only [resolve_placeholders, List.getElem?_cons_succ]
      rw [ih (i + 1) k op h]
      have e : i + 1 + k = i + (k + 1) := by omega
      rw [e]

/-- C7: a `break` statement whose nearest enclosing loop is the given `while` node
(it sits directly in the loop body or nested in `if` blocks, its placeholder at offset
`k` of the body code) is resolved to a `jmp` at offset `c + 3 + k` of the loop code;
executing it from any state goes, through the `jmp` at offset `c + 2`, to the first
index after the loop code, and leaves the operand stack, the call stack, the scope
stack and the output as they were. -/
theorem break_leaves_loop (labels_table : List Label) (scopes : List AST)
    (function_map : FunctionMap) (code_length : Nat) (while_cond_ast while_body_ast : AST)
    (rest : List AST) (while_code : List OPCodeT) (fm' : FunctionMap) (k : Nat)
    (hgen : code_generator_stmt labels_table scopes function_map code_length
      (.node .action .while_ (while_cond_ast :: while_body_ast :: rest)) = .ok (while_code, fm'))
    (hsite : JumpSite labels_table .break_
      (scopes ++ [.node .action .while_ (while_cond_ast :: while_body_ast :: rest)])
      function_map while_body_ast k) :
    ∃ cc bc,
      expr_generator labels_table
        (scopes ++ [.node .action .while_ (while_cond_ast :: while_body_ast :: rest)])
        while_cond_ast = .ok cc ∧
      code_generator labels_table
        (scopes ++ [.node .action .while_ (while_cond_ast :: while_body_ast :: rest)])
        function_map while_body_ast = .ok (bc, fm') ∧
      bc[k]? = some ⟨.jmp, .str "break"⟩ ∧
      action_at while_code (cc.length + 3 + k) = some .jmp ∧
      ∀ (code : List OPCodeT) (base : Nat) (fm : FunctionMap) (s : List Val) (cs : List Int)
        (ss : List Frame) (out : List (List Val)),
        CodeAt code base while_code →
        Reaches code fm ⟨((base + (cc.length + 3 + k) : Nat) : Int), s, cs, ss, out⟩
          [((base + (cc.length + 3 + k) : Nat) : Int), ((base + (cc.length + 2) : Nat) : Int)]
          ⟨((base + while_code.length : Nat) : Int), s, cs, ss, out⟩ := by
  obtain ⟨cc, bc, hc, hb, hcode⟩ := code_generator_stmt_while_ok labels_table scopes
    function_map code_length while_cond_ast while_body_ast rest while_code fm' hgen
  have hk : bc[k]? = some ⟨.jmp, .str "break"⟩ := hsite.placeholder bc fm' hb
  obtain ⟨g0, g1, g2, g3, g4, g5, g6⟩ := layout_while cc
    (resolve_placeholders (cc.length + 2) (cc.length + 3) bc)
    ⟨.jmp_true_remove, .num 3⟩ ⟨.jmp_remove, .num (bc.length + 3)⟩ ⟨.jmp, .num (bc.length + 2)⟩
    ⟨.jmp, .num (-((cc.length + 3 + bc.length : Nat) : Int))⟩
  rw [resolve_placeholders_length] at g6
  rw [← hcode] at g3 g4 g6
  have hres : while_code[cc.length + 3 + k]?
      = some ⟨.jmp, .num (-(((cc.length + 3 + k : Nat) : Int) - ((cc.length + 2 : Nat) : Int)))⟩ := by
    have := g4.get_at (resolve_placeholders_get (cc.length + 2) bc (cc.length + 3) k _ hk)
    rw [this]
    simp [resolve_placeholder]
  refine ⟨cc, bc, hc, hb, hk, action_at_of_get hres, ?_⟩
  intro code base fm s cs ss out hat
  have r1 := Reaches.exec fm ⟨((base + (cc.length + 3 + k) : Nat) : Int), s, cs, ss, out⟩
    ⟨((base + (cc.length + 2) : Nat) : Int), s, cs, ss, out⟩ (hat.get_at hres) rfl
    (by simp [exec, jump_step])
  have r2 := Reaches.exec fm ⟨((base + (cc.length + 2) : Nat) : Int), s, cs, ss, out⟩
    ⟨((base + while_code.length : Nat) : Int), s, cs, ss, out⟩ (hat.get_at g3) rfl
    (by simp [exec, jump_step, g6]; omega)
  exact r1.trans r2

/-- C8: a `continue` statement whose nearest enclosing loop is the given `while` node
is resolved to a `jmp` at offset `c + 3 + k` of the loop code that lands on offset 0 of
the loop code, where the condition code starts, and leaves the stacks as they were. -/
theorem continue_retests_loop (labels_table : List Label) (scopes : List AST)
    (function_map : FunctionMap) (code_length : Nat) (while_cond_ast while_body_ast : AST)
    (rest : List AST) (while_code : List OPCodeT) (fm' : FunctionMap) (k : Nat)
    (hgen : code_generator_stmt labels_table scopes function_map code_length
      (.node .action .while_ (while_cond_ast :: while_body_ast :: rest)) = .ok (while_code, fm'))
    (hsite : JumpSite labels_table .continue_
      (scopes ++ [.node .action .while_ (while_cond_ast :: while_body_ast :: rest)])
      function_map while_body_ast k) :
    ∃ cc bc,
      expr_generator labels_table
        (scopes ++ [.node .action .while_ (while_cond_ast :: while_body_ast :: rest)])
        while_cond_ast = .ok cc ∧
      code_generator labels_table
        (scopes ++ [.node .action .while_ (while_cond_ast :: while_body_ast :: rest)])
        function_map while_body_ast = .ok (bc, fm') ∧
      bc[k]? = some ⟨.jmp, .str "continue"⟩ ∧
      action_at while_code (cc.length + 3 + k) = some .jmp ∧
      jump_target while_code (cc.length + 3 + k) = some 0 ∧
      CodeAt while_code 0 cc ∧
      ∀ (code : List OPCodeT) (base : Nat) (fm : FunctionMap) (s : List Val) (cs : List Int)
        (ss : List Frame) (out : List (List Val)),
        CodeAt code base while_code →
        CodeAt code base cc ∧
        Reaches code fm ⟨((base + (cc.length + 3 + k) : Nat) : Int), s, cs, ss, out⟩
          [((base + (cc.length + 3 + k) : Nat) : Int)]
          ⟨((base : Nat) : Int), s, cs, ss, out⟩ := by
  obtain ⟨cc, bc, hc, hb, hcode⟩ := code_generator_stmt_while_ok labels_table scopes
    function_map code_length while_cond_ast while_body_ast rest while_code fm' hgen
  have hk : bc[k]? = some ⟨.jmp, .str "continue"⟩ := hsite.placeholder bc fm' hb
  obtain ⟨g0, g1, g2, g3, g4, g5, g6⟩ := layout_while cc
    (resolve_placeholders (cc.length + 2) (cc.length + 3) bc)
    ⟨.jmp_true_remove, .num 3⟩ ⟨.jmp_remove, .num (bc.length + 3)⟩ ⟨.jmp, .num (bc.length + 2)⟩
    ⟨.jmp, .num (-((cc.length + 3 + bc.length : Nat) : Int))⟩
  rw [← hcode] at g0 g4
  have hres : while_code[cc.length + 3 + k]?
      = some ⟨.jmp, .num (-((cc.length + 3 + k : Nat) : Int))⟩ := by
    have := g4.get_at (resolve_placeholders_get (cc.length + 2) bc (cc.length + 3) k _ hk)
    rw [this]
    simp [resolve_placeholder]
  refine ⟨cc, bc, hc, hb, hk, action_at_of_get hres, ?_, g0, ?_⟩
  · rw [jump_target_of_get hres]; congr 1; omega
  · intro code base fm s cs ss out hat
    refine ⟨?_, Reaches.exec fm _ _ (hat.get_at hres) rfl (by simp [exec, jump_step]; omega)⟩
    obtain ⟨p1, p2, hp, hpl⟩ := hat
    obtain ⟨q1, q2, hq, hql⟩ := g0
    have hq1 : q1 = [] := List.length_eq_zero.mp hql
    subst hq1
    exact ⟨p1, q2 ++ p2, by rw [hp, hq]; simp, hpl⟩

/-! ## Assignment statements -/

/-- Running the code `load_name x, <code of e>, assign` of an assignment at offset `n`:
when no operand below has a property named `x` (`found_at_scope` finds nothing) and
doubles compute `e` exactly, `x` is bound to the value of `e` in the innermost frame and
the operand stack is as before. -/
theorem reaches_assign_code (labels_table : List Label) (function_map : FunctionMap)
    (env : String → Option Int) (code : List OPCodeT) (cs : List Int) (scope : Frame)
    (rest : List Frame) (out : List (List Val))
    (henv : ∀ x m, env x = some m → lookup_value x (scope :: rest) = .num m) (e : Expr)
    (scopes : List AST) (v : Int) (c : List OPCodeT) (n : Nat) (s : List Val) (x : String)
    (hv : e.value labels_table env = some v)
    (hexact : e.exact labels_table env = true)
    (hgen : expr_generator labels_table scopes e.ast = .ok c)
    (hat : CodeAt code n ([⟨.load_name, .str x⟩] ++ c ++ [⟨.assign, .null⟩]))
    (hs : found_at_scope x s = .ok false) :
    Reaches code function_map ⟨(n : Nat), s, cs, scope :: rest, out⟩
      (indices n (1 + c.length + 1))
      ⟨((n + (1 + c.length + 1) : Nat) : Int), s, cs, Dict.set scope x (.num v) :: rest, out⟩ := by
  have h1 : code[n]? = some ⟨.load_name, .str x⟩ := by
    have := hat; rw [List.append_assoc] at this; exact this.left.get
  have hc : CodeAt code (n + 1) c := by
    have := hat; rw [List.append_assoc] at this; exact this.right.left
  have h3 : code[n + 1 + c.length]? = some ⟨.assign, .null⟩ := by
    have := hat; rw [List.append_assoc] at this; exact this.right.right.get
  have r1 := Reaches.exec function_map ⟨(n : Nat), s, cs, scope :: rest, out⟩
    ⟨((n + 1 : Nat) : Int), .str x :: s, cs, scope :: rest, out⟩ h1 rfl
    (by simp [exec, VMState.next])
  have r2 := reaches_expr_code labels_table function_map env code cs (scope :: rest) out henv e
    scopes v c (n + 1) (.str x :: s) hv hexact hgen hc
  have r3 := Reaches.exec function_map
    ⟨((n + 1 + c.length : Nat) : Int), .num v :: .str x :: s, cs, scope :: rest, out⟩
    ⟨((n + (1 + c.length + 1) : Nat) : Int), s, cs, Dict.set scope x (.num v) :: rest, out⟩
    h3 rfl (by simp [exec, pop, key_of, hs]; omega)
  have r := (r1.trans r2).trans r3
  have e1 : indices n (1 + c.length + 1)
      = [(n : Int)] ++ indices (n + 1) c.length ++ [((n + 1 + c.length : Nat) : Int)] := by
    rw [indices_append, indices_append]
    have e2 : n + (1 + c.length) = n + 1 + c.length := by omega
    rw [e2]
    rfl
  rw [e1]
  exact r

/-! ## The counting loop -/

theorem expr_generator_zero (labels_table : List Label) (scopes : List AST) :
    expr_generator labels_table scopes (Expr.lit "0").ast = .ok [⟨.load_const, .num 0⟩] :=
  (expr_generator_lit labels_table scopes "0").trans (by decide)

theorem expr_generator_one (labels_table : List Label) (scopes : List AST) :
    expr_generator labels_table scopes (Expr.lit "1").ast = .ok [⟨.load_const, .num 1⟩] :=
  (expr_generator_lit labels_table scopes "1").trans (by decide)

/-- The code of the counting program, for a literal that `to_number` reads as `n`. -/
theorem generate_count_program (labels_table : List Label) (id : Int) (label : Label)
    (digits : String) (n : Int)
    (hlabel : labels_table.find? (fun l => decide (l.id = id)) = some label)
    (hdigits : to_number (some (.str digits)) = .ok (.num n)) :
    generate [] (count_program id digits) labels_table
      = .ok ⟨count_code label.name n, [], [], [], []⟩ := by
  have hlit : ∀ (lt : List Label) (sc : List AST),
      expr_generator lt sc (Expr.lit digits).ast = .ok [⟨.load_const, .num n⟩] := by
    intro lt sc
    rw [expr_generator_lit, hdigits]
  simp only [generate, count_program, code_generator_node, code_generator_body_cons,
    code_generator_body_nil, code_generator_stmt_assign, code_generator_stmt_while,
    expr_generator_zero, expr_generator_one, hlit, expr_generator_binary,
    expr_generator_target, find_label, List.head?, hlabel, if_true, label_name]
  simp [resolve_placeholders, resolve_placeholder, count_code, BinOp.action]

theorem lookup_value_single (x : String) (v : Val) (hv : v ≠ .undefined) :
    lookup_value x [[(x, v)]] = v := by
  simp [lookup_value, Dict.get, hv]

/-- The statement `i = 0` at the start of the counting program. -/
theorem count_init (x : String) (n : Int) :
    Reaches (count_code x n) [] ⟨0, [], [], [[]], []⟩ (indices 0 3)
      ⟨3, [], [], [[(x, .num 0)]], []⟩ := by
  have h := reaches_assign_code [] [] (fun _ => none) (count_code x n) [] [] [] []
    (by intro y m hy; cases hy) (.lit "0") [] 0 [⟨.load_const, .num 0⟩] 0 [] x
    (by decide) (by decide) (by decide)
    ⟨[], _, rfl, rfl⟩ rfl
  exact h

/-- One turn of the loop: with `i = m < n`, the test, the body and the backward jump
lead back to the test with `i = m + 1`; the first body instruction (index 10) is
fetched once. -/
theorem count_iteration (labels_table : List Label) (id : Int) (label : Label)
    (digits : String)
    (hlabel : labels_table.find? (fun l => decide (l.id = id)) = some label)
    (hdigits : digits.data.all Char.isDigit = true)
    (hrange : digits_value digits.data ≤ 9007199254740992) (m : Nat)
    (hm : m < digits_value digits.data) :
    Reaches (count_code label.name (digits_value digits.data)) []
      ⟨3, [], [], [[(label.name, .num m)]], []⟩
      (indices 3 4 ++ [7] ++ indices 10 6 ++ [16])
      ⟨3, [], [], [[(label.name, .num ((m + 1 : Nat) : Int))]], []⟩ := by
  have henv : ∀ y k, (fun y => if y = label.name then some (m : Int) else none) y = some k →
      lookup_value y [[(label.name, Val.num (m : Int))]] = .num k := by
    intro y k hy
    by_cases hyx : y = label.name
    · subst hyx
      simp only [if_true, Option.some.injEq] at hy
      subst hy
      exact lookup_value_single _ _ (by simp)
    · simp [hyx] at hy
  have r1 := reaches_expr_code labels_table [] _ (count_code label.name (digits_value digits.data))
    [] [[(label.name, .num m)]] [] henv (.binary .lt (.target id) (.lit digits)) [] 1
    [⟨.load_name, .str label.name⟩, ⟨.load_value, .null⟩,
      ⟨.load_const, .num (digits_value digits.data)⟩, ⟨.compare_below, .null⟩] 3 []
    (by simp [Expr.value, hlabel, hdigits, BinOp.apply]; omega)
    (by
      simp only [Expr.exact, Expr.value, hlabel, hdigits, if_true, BinOp.apply, Bool.and_eq_true,
        decide_eq_true_eq, Bool.true_and]
      refine ⟨hrange, ?_⟩
      split <;> decide)
    (by simp [expr_generator_binary, expr_generator_target,
        expr_generator_lit_exact _ _ _ hdigits hrange, hlabel, label_name, BinOp.action])
    ⟨[_, _, _], _, rfl, rfl⟩
  have r2 := Reaches.exec [] ⟨7, [.num 1], [], [[(label.name, .num m)]], []⟩
    ⟨10, [], [], [[(label.name, .num m)]], []⟩
    (show (count_code label.name (digits_value digits.data))[7]? = some ⟨.jmp_true_remove, .num 3⟩
      from rfl) rfl (by simp [exec, pop, jump_step])
  have r3 := reaches_assign_code labels_table [] _
    (count_code label.name (digits_value digits.data)) [] [(label.name, .num m)] [] [] henv
    (.binary .add (.target id) (.lit "1")) [] ((m : Int) + 1)
    [⟨.load_name, .str label.name⟩, ⟨.load_value, .null⟩, ⟨.load_const, .num 1⟩, ⟨.add, .null⟩]
    10 [] label.name
    (by
      have h1 : ("1".data.all Char.isDigit) = true := by decide
      have v1 : digits_value "1".data = 1 := by decide
      simp [Expr.value, hlabel, h1, v1, BinOp.apply])
    (by
      have h1 : ("1".data.all Char.isDigit) = true := by decide
      have v1 : digits_value "1".data = 1 := by decide
      simp only [Expr.exact, Expr.value, hlabel, h1, v1, if_true, BinOp.apply, Bool.and_eq_true,
        decide_eq_true_eq, Bool.true_and]
      refine ⟨by decide, ?_⟩
      push_cast
      omega)
    (by simp [expr_generator_binary, expr_generator_target, expr_generator_one, hlabel,
        label_name, BinOp.action])
    ⟨[_, _, _, _, _, _, _, _, _, _], _, rfl, rfl⟩ rfl
  have r4 := Reaches.exec []
    ⟨16, [], [], [[(label.name, .num ((m : Int) + 1))]], []⟩
    ⟨3, [], [], [[(label.name, .num ((m : Int) + 1))]], []⟩
    (show (count_code label.name (digits_value digits.data))[16]? = some ⟨.jmp, .num (-13)⟩
      from rfl) rfl (by simp [exec, jump_step])
  have e : Dict.set [(label.name, Val.num (m : Int))] label.name (Val.num ((m : Int) + 1))
      = [(label.name, .num ((m : Int) + 1))] := by simp [Dict.set]
  rw [e] at r3
  have r := ((r1.trans r2).trans r3).trans r4
  push_cast
  exact r

/-- Leaving the loop: with `i = m` and `m < n` false, the test pushes 0, the
`jmp_true_remove` falls through and the `jmp_remove` pops it and lands after the loop. -/
theorem count_exit (labels_table : List Label) (id : Int) (label : Label)
    (digits : String)
    (hlabel : labels_table.find? (fun l => decide (l.id = id)) = some label)
    (hdigits : digits.data.all Char.isDigit = true)
    (hrange : digits_value digits.data ≤ 9007199254740992) (m : Nat)
    (hm : ¬ m < digits_value digits.data) :
    Reaches (count_code label.name (digits_value digits.data)) []
      ⟨3, [], [], [[(label.name, .num m)]], []⟩
      (indices 3 4 ++ [7] ++ [8])
      ⟨17, [], [], [[(label.name, .num m)]], []⟩ := by
  have henv : ∀ y k, (fun y => if y = label.name then some (m : Int) else none) y = some k →
      lookup_value y [[(label.name, Val.num (m : Int))]] = .num k := by
    intro y k hy
    by_cases hyx : y = label.name
    · subst hyx
      simp only [if_true, Option.some.injEq] at hy
      subst hy
      exact lookup_value_single _ _ (by simp)
    · simp [hyx] at hy
  have r1 := reaches_expr_code labels_table [] _ (count_code label.name (digits_value digits.data))
    [] [[(label.name, .num m)]] [] henv (.binary .lt (.target id) (.lit digits)) [] 0
    [⟨.load_name, .str label.name⟩, ⟨.load_value, .null⟩,
      ⟨.load_const, .num (digits_value digits.data)⟩, ⟨.compare_below, .null⟩] 3 []
    (by simp [Expr.value, hlabel, hdigits, BinOp.apply]; omega)
    (by
      simp only [Expr.exact, Expr.value, hlabel, hdigits, if_true, BinOp.apply, Bool.and_eq_true,
        decide_eq_true_eq, Bool.true_and]
      refine ⟨hrange, ?_⟩
      split <;> decide)
    (by simp [expr_generator_binary, expr_generator_target,
        expr_generator_lit_exact _ _ _ hdigits hrange, hlabel, label_name, BinOp.action])
    ⟨[_, _, _], _, rfl, rfl⟩
  have r2 := Reaches.exec [] ⟨7, [.num 0], [], [[(label.name, .num m)]], []⟩
    ⟨8, [.num 0], [], [[(label.name, .num m)]], []⟩
    (show (count_code label.name (digits_value digits.data))[7]? = some ⟨.jmp_true_remove, .num 3⟩
      from rfl) rfl (by simp [exec, pop, VMState.next])
  have r3 := Reaches.exec [] ⟨8, [.num 0], [], [[(label.name, .num m)]], []⟩
    ⟨17, [], [], [[(label.name, .num m)]], []⟩
    (show (count_code label.name (digits_value digits.data))[8]? = some ⟨.jmp_remove, .num 9⟩
      from rfl) rfl (by simp [exec, pop, jump_step])
  exact (r1.trans r2).trans r3

/-- From the loop test with `i = m` and `k` turns to go, the loop runs to the end of the
code with `i = n`, fetching the first body instruction `k` times. -/
theorem count_loop (labels_table : List Label) (id : Int) (label : Label)
    (digits : String)
    (hlabel : labels_table.find? (fun l => decide (l.id = id)) = some label)
    (hdigits : digits.data.all Char.isDigit = true)
    (hrange : digits_value digits.data ≤ 9007199254740992) (k : Nat) :
    ∀ m : Nat, m + k = digits_value digits.data →
      ∃ fetched : List Int,
        Reaches (count_code label.name (digits_value digits.data)) []
          ⟨3, [], [], [[(label.name, .num m)]], []⟩ fetched
          ⟨17, [], [], [[(label.name, .num (digits_value digits.data))]], []⟩ ∧
        fetched.count 10 = k := by
  induction k with
  | zero =>
    intro m hm
    have hm' : m = digits_value digits.data := by omega
    subst hm'
    exact ⟨_, count_exit labels_table id label digits hlabel hdigits hrange _ (by omega),
      by decide⟩
  | succ k ih =>
    intro m hm
    obtain ⟨fetched, hr, hc⟩ := ih (m + 1) (by omega)
    refine ⟨_, (count_iteration labels_table id label digits hlabel hdigits hrange m
      (by omega)).trans hr, ?_⟩
    rw [List.count_append, hc]
    have : (indices 3 4 ++ [7] ++ indices 10 6 ++ [16]).count 10 = 1 := by decide
    omega

/-- The counting program with the literal `digits`, whose value is `n` and at most 2^53,
runs to `i = n` in `n` passes through the loop body. -/
theorem count_program_runs (labels_table : List Label) (id : Int) (label : Label)
    (digits : String) (n : Nat)
    (hlabel : labels_table.find? (fun l => decide (l.id = id)) = some label)
    (hdigits : digits.data.all Char.isDigit = true)
    (hn : digits_value digits.data = n) (hrange : n ≤ 9007199254740992) :
    ∃ code_object, generate [] (count_program id digits) labels_table = .ok code_object ∧
      code_object.code[10]? = some ⟨.load_name, .str label.name⟩ ∧
      ∃ fuel0, ∀ fuel, fuel0 ≤ fuel →
        vm fuel code_object
          = .ok ⟨code_object.code.length, [], [], [[(label.name, .num n)]], []⟩ ∧
        (vm_trace fuel code_object).count 10 = n := by
  subst hn
  refine ⟨_, generate_count_program labels_table id label digits _ hlabel
    (to_number_exact digits hdigits hrange), rfl, ?_⟩
  obtain ⟨fetched, hr, hc⟩ := count_loop labels_table id label digits hlabel hdigits hrange
    (digits_value digits.data) 0 (by omega)
  have hall := (count_init label.name (digits_value digits.data)).trans hr
  refine ⟨(indices 0 3 ++ fetched).length, fun fuel hfuel => ?_⟩
  have h := hall.run_eq rfl fuel hfuel
  refine ⟨h.1, ?_⟩
  show (trace _ _ fuel _).count 10 = _
  rw [h.2, List.count_append, hc]
  have : (indices 0 3).count 10 = 0 := by decide
  omega

theorem digit_char (r : Nat) (h : r < 10) :
    (Char.ofNat (48 + r)).isDigit = true ∧ (Char.ofNat (48 + r)).toNat - 48 = r := by
  interval_cases r <;> exact ⟨by decide, by decide⟩

theorem digits_value_append (l : List Char) (c : Char) :
    digits_value (l ++ [c]) = 10 * digits_value l + (c.toNat - 48) := by
  simp [digits_value, List.foldl_append]

theorem decimal_fuel_spec (fuel : Nat) :
    ∀ n, n < fuel → (decimal_fuel fuel n).all Char.isDigit = true ∧
      digits_value (decimal_fuel fuel n) = n := by
  induction fuel with
  | zero => intro n h; omega
  | succ fuel ih =>
    intro n h
    unfold decimal_fuel
    by_cases h10 : n < 10
    · rw [if_pos h10]
      obtain ⟨h1, h2⟩ := digit_char n h10
      refine ⟨by simp [h1], ?_⟩
      simp [digits_value, h2]
    · rw [if_neg h10]
      obtain ⟨h1, h2⟩ := digit_char (n % 10) (Nat.mod_lt _ (by omega))
      obtain ⟨g1, g2⟩ := ih (n / 10) (by omega)
      refine ⟨by simp [List.all_append, g1, h1], ?_⟩
      rw [digits_value_append, g2, h2]
      omega

theorem digits_value_onto (n : Nat) :
    ∃ digits : String, digits.data.all Char.isDigit = true ∧ digits_value digits.data = n :=
  ⟨⟨decimal_fuel (n + 1) n⟩, decimal_fuel_spec (n + 1) n (by omega)⟩

/-- C4 as stated fails, the VM computing with doubles: for n = 2^53 + 1, the literal
`9007199254740993` of the program `i = 0; while (i < n) { i = i + 1; }` is generated
as the constant 9007199254740992, and the run stops with `i = 9007199254740992`,
which is not `n`, after 9007199254740992 passes through the loop body. -/
theorem count_bound_rounded :
    "9007199254740993".data.all Char.isDigit = true ∧
    digits_value "9007199254740993".data = 9007199254740993 ∧
    ∃ code_object,
      generate [] (count_program 1 "9007199254740993") count_labels = .ok code_object ∧
      code_object.code[5]? = some ⟨.load_const, .num 9007199254740992⟩ ∧
      code_object.code[10]? = some ⟨.load_name, .str "i"⟩ ∧
      ∃ fuel0, ∀ fuel, fuel0 ≤ fuel →
        vm fuel code_object
          = .ok ⟨code_object.code.length, [], [], [[("i", .num 9007199254740992)]], []⟩ ∧
        (vm_trace fuel code_object).count 10 = 9007199254740992 := by
  refine ⟨by decide, by decide, ?_⟩
  obtain ⟨code_object, hgen, h10, hrun⟩ := count_program_runs count_labels 1
    ⟨1, .num, "i", none⟩ "9007199254740992" 9007199254740992 (by decide) (by decide)
    (by decide) (by decide)
  have hsame : generate [] (count_program 1 "9007199254740993") count_labels
      = generate [] (count_program 1 "9007199254740992") count_labels := by decide
  have hcode : code_object = ⟨count_code "i" 9007199254740992, [], [], [], []⟩ := by
    have h2 : generate [] (count_program 1 "9007199254740992") count_labels
        = .ok ⟨count_code "i" 9007199254740992, [], [], [], []⟩ := by decide
    rw [h2] at hgen
    cases hgen
    rfl
  subst hcode
  exact ⟨_, hsame.trans hgen, rfl, h10, hrun⟩

/-- C4 (amended): every natural number `n` up to 2^53 = 9007199254740992 is denoted by
a literal (a string of digits), and for every literal `digits` denoting `n` the program
`i = 0; while (i < n) { i = i + 1; }` is generated and, for every large enough step
budget, the VM stops at `ip = code.length` with an empty operand stack and frame 0
holding `i = n`, having fetched the first instruction of the loop body (index 10)
exactly `n` times. -/
theorem while_counts_to_n (labels_table : List Label) (id : Int) (label : Label) (n : Nat)
    (hlabel : labels_table.find? (fun l => decide (l.id = id)) = some label)
    (hrange : n ≤ 9007199254740992) :
    (∃ digits : String, digits.data.all Char.isDigit = true ∧ digits_value digits.data = n) ∧
    ∀ digits : String, digits.data.all Char.isDigit = true → digits_value digits.data = n →
      ∃ code_object, generate [] (count_program id digits) labels_table = .ok code_object ∧
        code_object.code[10]? = some ⟨.load_name, .str label.name⟩ ∧
        ∃ fuel0, ∀ fuel, fuel0 ≤ fuel →
          vm fuel code_object
            = .ok ⟨code_object.code.length, [], [], [[(label.name, .num n)]], []⟩ ∧
          (vm_trace fuel code_object).count 10 = n :=
  ⟨digits_value_onto n, fun digits hd hn =>
    count_program_runs labels_table id label digits n hlabel hd hn hrange⟩

/-! ## The function table -/

theorem Dict.get_set_same {α : Type} (d : Dict α) (k : String) (v : α) :
    Dict.get (Dict.set d k v) k = some v := by
  induction d with
  | nil => simp [Dict.set, Dict.get]
  | cons p rest ih =>
    obtain ⟨k', v'⟩ := p
    by_cases h : k' = k
    · simp [Dict.set, Dict.get, h]
    · simp [Dict.set, Dict.get, h, ih]

theorem Dict.get_set_other {α : Type} (d : Dict α) (k k' : String) (v : α) (h : k' ≠ k) :
    Dict.get (Dict.set d k' v) k = Dict.get d k := by
  induction d with
  | nil => simp [Dict.set, Dict.get, h]
  | cons p rest ih =>
    obtain ⟨k'', v''⟩ := p
    by_cases h1 : k'' = k'
    · subst h1
      simp [Dict.set, Dict.get, h]
    · by_cases h2 : k'' = k
      · subst h2
        simp [Dict.set, Dict.get, h1]
      · simp [Dict.set, Dict.get, h1, h2, ih]

theorem declares_node (labels_table : List Label) (key : String) (ty : ASTType) (op : ASTOp)
    (body : List AST) :
    declares labels_table key (.node ty op body) =
      ((decide (ty = .function) &&
        (match find_label_of labels_table body.head? with
          | .ok func_label => decide (function_key func_label = key)
          | .error _ => false))
      || declares_list labels_table key body) := by
  cases body with
  | nil => rfl
  | cons a rest => cases a <;> rfl

theorem declares_list_cons (labels_table : List Label) (key : String) (a : AST)
    (rest : List AST) :
    declares_list labels_table key (a :: rest)
      = (declares labels_table key a || declares_list labels_table key rest) := rfl

theorem declares_list_append (labels_table : List Label) (key : String) (l1 l2 : List AST) :
    declares_list labels_table key (l1 ++ l2)
      = (declares_list labels_table key l1 || declares_list labels_table key l2) := by
  induction l1 with
  | nil => rfl
  | cons a rest ih =>
    rw [List.cons_append, declares_list_cons, declares_list_cons, ih, Bool.or_assoc]

theorem declares_list_mem (labels_table : List Label) (key : String) (l : List AST)
    (h : declares_list labels_table key l = false) : ∀ a ∈ l, declares labels_table key a = false := by
  induction l with
  | nil => intro a ha; cases ha
  | cons b rest ih =>
    intro a ha
    rw [declares_list_cons, Bool.or_eq_false_iff] at h
    rcases List.mem_cons.mp ha with rfl | ha'
    · exact h.1
    · exact ih h.2 a ha'

theorem code_generator_stmt_node (labels_table : List Label) (scopes : List AST)
    (function_map : FunctionMap) (code_length : Nat) (ty : ASTType) (op : ASTOp)
    (body : List AST) :
    code_generator_stmt labels_table scopes function_map code_length (.node ty op body) =
    if ty = .action then
      if op = .none then .error .throws
      else if op = .assign then
        match find_label_of labels_table body.head? with
        | .error e => .error e
        | .ok assign_target_label_info =>
          match expr_generator_at labels_table (scopes ++ [.node ty op body]) body.tail.head? with
          | .error e => .error e
          | .ok assign_value_code =>
            .ok ([⟨.load_name, label_name assign_target_label_info⟩]
              ++ assign_value_code ++ [⟨.assign, .null⟩], function_map)
      else if op = .if_ then
        match body with
        | [] => .error .throws
        | [if_cond_ast] =>
          match expr_generator labels_table (scopes ++ [.node ty op body]) if_cond_ast with
          | .error e => .error e
          | .ok _ => .error .throws
        | [if_cond_ast, if_true_ast] =>
          match expr_generator labels_table (scopes ++ [.node ty op body]) if_cond_ast with
          | .error e => .error e
          | .ok if_cond_code =>
            match code_generator labels_table (scopes ++ [.node ty op body]) function_map
                if_true_ast with
            | .error e => .error e
            | .ok (if_true_code, fm) =>
              .ok (if_cond_code ++ [⟨.jmp_true_remove, .num 2⟩]
                ++ [⟨.jmp_false_remove, .num (if_true_code.length + 1)⟩] ++ if_true_code, fm)
        | if_cond_ast :: if_true_ast :: if_else_ast :: _ =>
          match expr_generator labels_table (scopes ++ [.node ty op body]) if_cond_ast with
          | .error e => .error e
          | .ok if_cond_code =>
            match code_generator labels_table (scopes ++ [.node ty op body]) function_map
                if_true_ast with
            | .error e => .error e
            | .ok (if_true_code, fm) =>
              match code_generator labels_table (scopes ++ [.node ty op body]) fm if_else_ast with
              | .error e => .error e
              | .ok (if_else_code, fm') =>
                .ok (if_cond_code ++ [⟨.jmp_true_remove, .num 2⟩]
                  ++ [⟨.jmp_false_remove, .num (if_true_code.length + 2)⟩] ++ if_true_code
                  ++ [⟨.jmp, .num (if_else_code.length + 1)⟩] ++ if_else_code, fm')
      else if op = .while_ then
        match body with
        | [] => .error .throws
        | [while_cond_ast] =>
          match expr_generator labels_table (scopes ++ [.node ty op body]) while_cond_ast with
          | .error e => .error e
          | .ok _ => .error .throws
        | while_cond_ast :: while_body_ast :: _ =>
          match expr_generator labels_table (scopes ++ [.node ty op body]) while_cond_ast with
          | .error e => .error e
          | .ok while_cond_code =>
            match code_generator labels_table (scopes ++ [.node ty op body]) function_map
                while_body_ast with
            | .error e => .error e
            | .ok (while_body_code, fm) =>
              let while_code := while_cond_code ++ [⟨.jmp_true_remove, .num 3⟩]
                ++ [⟨.jmp_remove, .num (while_body_code.length + 3)⟩,
                    ⟨.jmp, .num (while_body_code.length + 2)⟩]
              let break_index := while_code.length - 1
              let while_code := while_code ++ while_body_code
              let while_code := while_code ++ [⟨.jmp, .num (-(while_code.length : Int))⟩]
              .ok (resolve_placeholders break_index 0 while_code, fm)
      else if op = .break_ ∨ op = .continue_ then
        .ok ([⟨.jmp, .str (placeholder_text op)⟩], function_map)
      else if op = .return_ then
        match expr_generator_at labels_table (scopes ++ [.node ty op body]) body.head? with
        | .error e => .error e
        | .ok return_body_code => .ok (return_body_code ++ [⟨.ret, .null⟩], function_map)
      else if op = .func_call then
        match expr_generator labels_table (scopes ++ [.node ty op body]) (.node ty op body) with
        | .error e => .error e
        | .ok func_call_code => .ok (func_call_code ++ [⟨.seek, .num 1⟩], function_map)
      else .ok ([], function_map)
    else if ty = .function then
      match find_label_of labels_table body.head? with
      | .error e => .error e
      | .ok func_label =>
        match code_generator_last labels_table (scopes ++ [.node ty op body])
            (Dict.set function_map (function_key func_label) (code_length + 1)) body with
        | .error e => .error e
        | .ok (func_code, fm) => .ok ([⟨.jmp, .num (func_code.length + 1)⟩] ++ func_code, fm)
    else if ty = .program then
      code_generator_body labels_table (scopes ++ [.node ty op body]) function_map [] body
    else .ok ([], function_map) := by
  cases body with
  | nil => cases ty <;> cases op <;> rfl
  | cons a rest =>
    cases rest with
    | nil => cases a <;> cases ty <;> cases op <;> rfl
    | cons b rest' =>
      cases rest' with
      | nil => cases a <;> cases ty <;> cases op <;> rfl
      | cons c rest'' => cases a <;> cases ty <;> cases op <;> rfl

theorem code_generator_last_nil (labels_table : List Label) (scopes : List AST)
    (function_map : FunctionMap) :
    code_generator_last labels_table scopes function_map [] = .error .throws := rfl

theorem code_generator_last_single (labels_table : List Label) (scopes : List AST)
    (function_map : FunctionMap) (a : AST) :
    code_generator_last labels_table scopes function_map [a]
      = code_generator labels_table scopes function_map a := rfl

theorem code_generator_last_cons (labels_table : List Label) (scopes : List AST)
    (function_map : FunctionMap) (a b : AST) (rest : List AST) :
    code_generator_last labels_table scopes function_map (a :: b :: rest)
      = code_generator_last labels_table scopes function_map (b :: rest) := rfl

theorem keeps_key_body (labels_table : List Label) (key : String) (body : List AST)
    (ih : ∀ a ∈ body, KeepsKey labels_table key a) :
    ∀ (scopes : List AST) (fm : FunctionMap) (acc code : List OPCodeT) (fm' : FunctionMap),
      code_generator_body labels_table scopes fm acc body = .ok (code, fm') →
      declares_list labels_table key body = false → Dict.get fm' key = Dict.get fm key := by
  induction body with
  | nil =>
    intro scopes fm acc code fm' h _
    rw [code_generator_body_nil] at h
    cases h
    rfl
  | cons a rest ihr =>
    intro scopes fm acc code fm' h hd
    rw [code_generator_body_cons] at h
    rw [declares_list_cons, Bool.or_eq_false_iff] at hd
    split at h
    · cases h
    · rename_i sc fm1 hs
      rw [ihr (fun b hb => ih b (List.mem_cons_of_mem _ hb)) _ _ _ _ _ h hd.2]
      exact (ih a (List.mem_cons_self _ _)).1 _ _ _ _ _ hs hd.1

theorem keeps_key_last (labels_table : List Label) (key : String) (body : List AST)
    (ih : ∀ a ∈ body, KeepsKey labels_table key a) :
    ∀ (scopes : List AST) (fm : FunctionMap) (code : List OPCodeT) (fm' : FunctionMap),
      code_generator_last labels_table scopes fm body = .ok (code, fm') →
      declares_list labels_table key body = false → Dict.get fm' key = Dict.get fm key := by
  induction body with
  | nil =>
    intro scopes fm code fm' h _
    rw [code_generator_last_nil] at h
    cases h
  | cons a rest ihr =>
    intro scopes fm code fm' h hd
    rw [declares_list_cons, Bool.or_eq_false_iff] at hd
    cases rest with
    | nil =>
      rw [code_generator_last_single] at h
      exact (ih a (List.mem_cons_self _ _)).2 _ _ _ _ h hd.1
    | cons b rest' =>
      rw [code_generator_last_cons] at h
      exact ihr (fun c hc => ih c (List.mem_cons_of_mem _ hc)) _ _ _ _ h hd.2

/-- Generating an AST that declares no function under `key` leaves the entry of `key`
in the function table as it was. -/
theorem function_map_frame (labels_table : List Label) (key : String) (ast : AST) :
    KeepsKey labels_table key ast := by
  refine AST.induct (P := KeepsKey labels_table key) ?_ ?_ ?_ ast
  · intro s
    exact And.intro (fun scopes fm len code fm' h _ => by cases h)
      (fun scopes fm code fm' h _ => by cases h)
  · intro n
    exact And.intro (fun scopes fm len code fm' h _ => by cases h)
      (fun scopes fm code fm' h _ => by cases h)
  · intro ty op body ih
    have hblock : ∀ (scopes : List AST) (fm : FunctionMap) (code : List OPCodeT)
        (fm' : FunctionMap),
        code_generator labels_table scopes fm (.node ty op body) = .ok (code, fm') →
        declares labels_table key (.node ty op body) = false →
        Dict.get fm' key = Dict.get fm key := by
      intro scopes fm code fm' h hd
      rw [code_generator_node] at h
      rw [declares_node, Bool.or_eq_false_iff] at hd
      exact keeps_key_body labels_table key body ih _ _ _ _ _ h hd.2
    refine And.intro ?_ hblock
    intro scopes fm len code fm' h hd
    rw [declares_node, Bool.or_eq_false_iff] at hd
    obtain ⟨hd1, hd2⟩ := hd
    have hmem := declares_list_mem labels_table key body hd2
    rw [code_generator_stmt_node] at h
    by_cases h1 : ty = .action
    · rw [if_pos h1] at h
      by_cases h2 : op = .none
      · rw [if_pos h2] at h; cases h
      rw [if_neg h2] at h
      by_cases h3 : op = .assign
      · rw [if_pos h3] at h
        split at h
        · cases h
        · split at h
          · cases h
          · cases h; rfl
      rw [if_neg h3] at h
      by_cases h4 : op = .if_
      · rw [if_pos h4] at h
        split at h
        · cases h
        · split at h <;> cases h
        · rename_i c t
          split at h
          · cases h
          · split at h
            · cases h
            · rename_i tc fm1 ht
              cases h
              exact (ih t (by simp)).2 _ _ _ _ ht (hmem t (by simp))
        · rename_i c t e rest'
          split at h
          · cases h
          · split at h
            · cases h
            · rename_i tc fm1 ht
              split at h
              · cases h
              · rename_i ec fm2 he
                cases h
                rw [(ih e (by simp)).2 _ _ _ _ he (hmem e (by simp))]
                exact (ih t (by simp)).2 _ _ _ _ ht (hmem t (by simp))
      rw [if_neg h4] at h
      by_cases h5 : op = .while_
      · rw [if_pos h5] at h
        split at h
        · cases h
        · split at h <;> cases h
        · rename_i c b rest'
          split at h
          · cases h
          · split at h
            · cases h
            · rename_i bc fm1 hb
              cases h
              exact (ih b (by simp)).2 _ _ _ _ hb (hmem b (by simp))
      rw [if_neg h5] at h
      by_cases h6 : op = .break_ ∨ op = .continue_
      · rw [if_pos h6] at h; cases h; rfl
      rw [if_neg h6] at h
      by_cases h7 : op = .return_
      · rw [if_pos h7] at h
        split at h
        · cases h
        · cases h; rfl
      rw [if_neg h7] at h
      by_cases h8 : op = .func_call
      · rw [if_pos h8] at h
        split at h
        · cases h
        · cases h; rfl
      rw [if_neg h8] at h
      cases h
      rfl
    rw [if_neg h1] at h
    by_cases h2 : ty = .function
    · rw [if_pos h2] at h
      split at h
      · cases h
      · rename_i func_label hfl
        split at h
        · cases h
        · rename_i fc fm2 hl
          cases h
          rw [keeps_key_last labels_table key body ih _ _ _ _ hl hd2]
          apply Dict.get_set_other
          rw [hfl] at hd1
          simpa [h2] using hd1
    rw [if_neg h2] at h
    by_cases h3 : ty = .program
    · rw [if_pos h3] at h
      exact keeps_key_body labels_table key body ih _ _ _ _ _ h hd2
    rw [if_neg h3] at h
    cases h
    rfl

/-- C10: for a function declaration in the body of the root program whose name is not
declared again (in its own body or later in the program), with `p` the length of the
code generated for the statements before it and `L` the length of its body code: the
final code holds `jmp L + 1` at index `p`, landing on `p + 1 + L`, the body code
occupies the indices from `p + 1` on, and the function table maps the name to `p + 1`. -/
theorem function_table_entry (labels_table : List Label) (fm0 : FunctionMap) (ty : ASTType)
    (op : ASTOp) (pre post : List AST) (fop : ASTOp) (fb : List AST) (t1 : ASTType)
    (o1 : ASTOp) (nb : List AST) (code_object : CodeObject)
    (hname : fb.head? = some (.node t1 o1 nb))
    (hgen : generate fm0 (.node ty op (pre ++ .node .function fop fb :: post)) labels_table
      = .ok code_object)
    (hlater : declares_list labels_table (function_key (find_label labels_table nb.head?))
      (fb ++ post) = false) :
    ∃ cpre fm1 func_code fm2,
      code_generator_body labels_table
        [.node ty op (pre ++ .node .function fop fb :: post)] fm0 [] pre = .ok (cpre, fm1) ∧
      code_generator_last labels_table
        ([.node ty op (pre ++ .node .function fop fb :: post)] ++ [.node .function fop fb])
        (Dict.set fm1 (function_key (find_label labels_table nb.head?)) (cpre.length + 1)) fb
          = .ok (func_code, fm2) ∧
      code_object.code[cpre.length]? = some ⟨.jmp, .num (func_code.length + 1)⟩ ∧
      jump_target code_object.code cpre.length
        = some ((cpre.length + 1 + func_code.length : Nat) : Int) ∧
      CodeAt code_object.code (cpre.length + 1) func_code ∧
      Dict.get code_object.function_map (function_key (find_label labels_table nb.head?))
        = some (cpre.length + 1) := by
  rw [declares_list_append, Bool.or_eq_false_iff] at hlater
  obtain ⟨hl1, hl2⟩ := hlater
  unfold generate at hgen
  split at hgen
  · cases hgen
  · rename_i code fm' hcg
    cases hgen
    rw [code_generator_node] at hcg
    cases hpre : code_generator_body labels_table
        [.node ty op (pre ++ .node .function fop fb :: post)] fm0 [] pre with
    | error e =>
      rw [code_generator_body_append, hpre] at hcg
      cases hcg
    | ok p =>
      obtain ⟨cpre, fm1⟩ := p
      obtain ⟨sc, fm3, cpost, hsc, hpost, hcode⟩ := code_generator_body_split labels_table _
        fm0 pre _ post code fm' cpre fm1 hcg hpre
      rw [code_generator_stmt_node] at hsc
      simp only [reduceCtorEq, if_false, if_true, hname, find_label_of] at hsc
      split at hsc
      · cases hsc
      · rename_i func_code fm2 hlast
        simp only [Except.ok.injEq, Prod.mk.injEq] at hsc
        obtain ⟨h1, h2⟩ := hsc
        subst h1 h2
        have hj : (cpre ++ ([⟨.jmp, .num (func_code.length + 1)⟩] ++ func_code) ++ cpost)[cpre.length]?
            = some ⟨.jmp, .num (func_code.length + 1)⟩ :=
          @CodeAt.get _ cpre.length _ func_code ⟨cpre, cpost, rfl, rfl⟩
        refine ⟨cpre, fm1, func_code, fm2, rfl, hlast, ?_, ?_, ?_, ?_⟩
        · rw [hcode]; exact hj
        · rw [hcode, jump_target_of_get hj]; push_cast; congr 1; omega
        · rw [hcode]
          exact ⟨cpre ++ [⟨.jmp, .num (func_code.length + 1)⟩], cpost, by simp, by simp⟩
        · show Dict.get fm' _ = _
          rw [keeps_key_body labels_table _ post
              (fun a _ => function_map_frame labels_table _ a) _ _ _ _ _ hpost hl2,
            keeps_key_last labels_table _ fb
              (fun a _ => function_map_frame labels_table _ a) _ _ _ _ hlast hl1,
            Dict.get_set_same]

/-! ## Accepted programs leave no placeholder -/

theorem semanticer_node (labels_table : List Label) (ast_node_stack : List AST) (ty : ASTType)
    (op : ASTOp) (body : List AST) :
    semanticer labels_table ast_node_stack (.node ty op body) =
      if ty ≠ .program then .error .throws
      else semanticer_body labels_table ast_node_stack body := rfl

theorem semanticer_body_nil (labels_table : List Label) (ast_node_stack : List AST) :
    semanticer_body labels_table ast_node_stack [] = .ok () := rfl

theorem semanticer_body_cons (labels_table : List Label) (ast_node_stack : List AST)
    (child_ast : AST) (rest : List AST) :
    semanticer_body labels_table ast_node_stack (child_ast :: rest) =
      match semanticer_child labels_table ast_node_stack child_ast with
      | .error e => .error e
      | .ok _ => semanticer_body labels_table ast_node_stack rest := rfl

theorem semanticer_last_nil (labels_table : List Label) (ast_node_stack : List AST) :
    semanticer_last labels_table ast_node_stack [] = .error .throws := rfl

theorem semanticer_last_single (labels_table : List Label) (ast_node_stack : List AST)
    (a : AST) :
    semanticer_last labels_table ast_node_stack [a]
      = semanticer labels_table ast_node_stack a := rfl

theorem semanticer_last_cons (labels_table : List Label) (ast_node_stack : List AST)
    (a b : AST) (rest : List AST) :
    semanticer_last labels_table ast_node_stack (a :: b :: rest)
      = semanticer_last labels_table ast_node_stack (b :: rest) := rfl

theorem semanticer_child_node (labels_table : List Label) (ast_node_stack : List AST)
    (ty : ASTType) (op : ASTOp) (body : List AST) :
    semanticer_child labels_table ast_node_stack (.node ty op body) =
    if ty = .action then
      if op = .none then .error .throws
      else if op = .assign then
        match body.head? with
        | some (.node .target _ tb) =>
          match find_label labels_table tb.head? with
          | none => .error .throws
          | some assign_target_label_info =>
            match expr_checker_at labels_table ast_node_stack body.tail.head?
                assign_target_label_info.type.val with
            | .error e => .error e
            | .ok assign_value_type =>
              if assign_value_type ≠ assign_target_label_info.type.val then .error .throws
              else .ok ()
        | _ => .error .throws
      else if op = .if_ then
        match body with
        | if_cond_ast :: if_true_ast :: rest =>
          if is_payload if_cond_ast ∨ is_payload if_true_ast then .error .throws
          else
            match expr_checker labels_table ast_node_stack if_cond_ast (.str "num") with
            | .error e => .error e
            | .ok _ =>
              match semanticer labels_table (ast_node_stack ++ [.node ty op body])
                  if_true_ast with
              | .error e => .error e
              | .ok _ =>
                match rest with
                | [if_else_ast] =>
                  semanticer labels_table (ast_node_stack ++ [.node ty op body]) if_else_ast
                | _ => .ok ()
        | _ => .error .throws
      else if op = .while_ then
        match body with
        | while_cond_ast :: while_body_ast :: _ =>
          if is_payload while_cond_ast ∨ is_payload while_body_ast then .error .throws
          else
            match expr_checker labels_table ast_node_stack while_cond_ast (.str "num") with
            | .error e => .error e
            | .ok _ =>
              semanticer labels_table (ast_node_stack ++ [.node ty op body]) while_body_ast
        | _ => .error .throws
      else if op = .break_ ∨ op = .continue_ then
        if ast_node_stack.any is_while_scope then .ok () else .error .throws
      else if op = .return_ then check_return labels_table ast_node_stack body
      else .ok ()
    else if ty = .function then
      match find_label_of labels_table body.head? with
      | .error e => .error e
      | .ok none => .error .throws
      | .ok (some target_label_info) =>
        if target_label_info.type ≠ .fn then .error .throws
        else
          match body.tail.head? with
          | some (.node .type _ _) =>
            if body.length > 3 ∧ params_are_targets body = false then .error .throws
            else semanticer_last labels_table (ast_node_stack ++ [.node ty op body]) body
          | _ => .error .throws
    else .ok () := by
  cases body with
  | nil => cases ty <;> cases op <;> rfl
  | cons a rest =>
    cases rest with
    | nil => cases a <;> cases ty <;> cases op <;> rfl
    | cons b rest' =>
      cases rest' with
      | nil => cases a <;> cases ty <;> cases op <;> rfl
      | cons c rest'' =>
        cases rest'' with
        | nil => cases a <;> cases ty <;> cases op <;> rfl
        | cons d rest3 => cases a <;> cases ty <;> cases op <;> rfl

theorem shaped_node (ty : ASTType) (op : ASTOp) (body : List AST) :
    shaped (.node ty op body) =
      (decide (op = .while_ → ty = .action)
        && decide (ty = .action ∧ op = .if_ → body.length ≤ 3)
        && (decide (ty ≠ .program) || body.all (fun a => !is_program_node a))
        && shaped_list body) := rfl

theorem shaped_list_cons (a : AST) (rest : List AST) :
    shaped_list (a :: rest) = (shaped a && shaped_list rest) := rfl

theorem shaped_list_mem (l : List AST) (h : shaped_list l = true) :
    ∀ a ∈ l, shaped a = true := by
  induction l with
  | nil => intro a ha; cases ha
  | cons b rest ih =>
    intro a ha
    rw [shaped_list_cons, Bool.and_eq_true] at h
    rcases List.mem_cons.mp ha with rfl | ha'
    · exact h.1
    · exact ih h.2 a ha'

theorem Good.nil (b : Bool) : Good b [] := by
  intro op h; cases h

theorem Good.append {b : Bool} {c1 c2 : List OPCodeT} (h1 : Good b c1) (h2 : Good b c2) :
    Good b (c1 ++ c2) := by
  intro op h hj
  rcases List.mem_append.mp h with h | h
  · exact h1 op h hj
  · exact h2 op h hj

theorem Good.of_no_jump {b : Bool} {c : List OPCodeT}
    (h : ∀ op ∈ c, is_jump op.action = false) : Good b c := by
  intro op hop hj
  rw [h op hop] at hj
  cases hj

theorem Good.numeric (b : Bool) (a : OPT) (d : Int) : Good b [⟨a, .num d⟩] := by
  intro op h _
  simp only [List.mem_singleton] at h
  subst h
  exact Or.inl ⟨d, rfl⟩

theorem Good.weaken {c : List OPCodeT} (h : Good false c) (b : Bool) : Good b c := by
  intro op hop hj
  rcases h op hop hj with h1 | ⟨_, h2⟩
  · exact Or.inl h1
  · cases h2

theorem Good.resolve {b : Bool} (code : List OPCodeT) (h : Good b code) (break_index : Nat) :
    ∀ i, Good false (resolve_placeholders break_index i code) := by
  induction code with
  | nil => intro i; exact Good.nil false
  | cons o rest ih =>
    intro i op hop hj
    simp only [resolve_placeholders, List.mem_cons] at hop
    rcases hop with rfl | hop
    · left
      by_cases hp : o.action = .jmp ∧ (o.value = .str "break" ∨ o.value = .str "continue")
      · simp only [resolve_placeholder, if_pos hp]
        split <;> exact ⟨_, rfl⟩
      · simp only [resolve_placeholder, if_neg hp] at hj ⊢
        rcases h o (List.mem_cons_self _ _) hj with h1 | ⟨h2, _⟩
        · exact h1
        · simp only [is_placeholder, decide_eq_true_eq] at h2
          exact absurd h2 hp
    · exact ih (fun o' ho' => h o' (List.mem_cons_of_mem _ ho')) (i + 1) op hop hj

theorem expr_generator_at_no_jump (labels_table : List Label) (scopes : List AST)
    (x : Option AST) (c : List OPCodeT)
    (h : expr_generator_at labels_table scopes x = .ok c) :
    ∀ op ∈ c, is_jump op.action = false := by
  cases x with
  | none => cases h
  | some ast => exact expr_generator_no_jump labels_table ast scopes c h

theorem leaves_no_placeholder_body (labels_table : List Label) (body : List AST)
    (ih : ∀ a ∈ body, LeavesNoPlaceholder labels_table a) :
    ∀ (stack scopes : List AST) (fm : FunctionMap) (acc code : List OPCodeT)
      (fm' : FunctionMap),
      shaped_list body = true → body.all (fun a => !is_program_node a) = true →
      semanticer_body labels_table stack body = .ok () →
      code_generator_body labels_table scopes fm acc body = .ok (code, fm') →
      Good (stack.any is_while_scope) acc → Good (stack.any is_while_scope) code := by
  induction body with
  | nil =>
    intro stack scopes fm acc code fm' _ _ _ h hacc
    rw [code_generator_body_nil] at h
    cases h
    exact hacc
  | cons a rest ihr =>
    intro stack scopes fm acc code fm' hsh hnp hsem h hacc
    rw [shaped_list_cons, Bool.and_eq_true] at hsh
    rw [List.all_cons, Bool.and_eq_true] at hnp
    rw [semanticer_body_cons] at hsem
    rw [code_generator_body_cons] at h
    split at hsem
    · cases hsem
    · rename_i u hchild
      split at h
      · cases h
      · rename_i sc fm1 hs
        have hg := (ih a (List.mem_cons_self _ _)).1 stack scopes fm acc.length sc fm1 hsh.1
          (by simpa using hnp.1) hchild hs
        exact ihr (fun b hb => ih b (List.mem_cons_of_mem _ hb)) stack scopes fm1 (acc ++ sc)
          code fm' hsh.2 hnp.2 hsem h (hacc.append hg)

theorem leaves_no_placeholder_last (labels_table : List Label) (body : List AST)
    (ih : ∀ a ∈ body, LeavesNoPlaceholder labels_table a) :
    ∀ (stack scopes : List AST) (fm : FunctionMap) (code : List OPCodeT) (fm' : FunctionMap),
      shaped_list body = true →
      semanticer_last labels_table stack body = .ok () →
      code_generator_last labels_table scopes fm body = .ok (code, fm') →
      Good (stack.any is_while_scope) code := by
  induction body with
  | nil =>
    intro stack scopes fm code fm' _ hsem _
    rw [semanticer_last_nil] at hsem
    cases hsem
  | cons a rest ihr =>
    intro stack scopes fm code fm' hsh hsem h
    rw [shaped_list_cons, Bool.and_eq_true] at hsh
    cases rest with
    | nil =>
      rw [semanticer_last_single] at hsem
      rw [code_generator_last_single] at h
      exact (ih a (List.mem_cons_self _ _)).2 stack scopes fm code fm' hsh.1 hsem h
    | cons b rest' =>
      rw [semanticer_last_cons] at hsem
      rw [code_generator_last_cons] at h
      exact ihr (fun c hc => ih c (List.mem_cons_of_mem _ hc)) stack scopes fm code fm' hsh.2
        hsem h

theorem is_while_scope_node (ty : ASTType) (op : ASTOp) (body : List AST) :
    is_while_scope (.node ty op body) = decide (op = .while_) := by
  cases op <;> rfl

theorem any_while_push (stack : List AST) (ty : ASTType) (op : ASTOp) (body : List AST)
    (h : op ≠ .while_) :
    (stack ++ [AST.node ty op body]).any is_while_scope = stack.any is_while_scope := by
  rw [List.any_append]
  simp [is_while_scope_node, h]

/-- For a shaped AST that the analyzer accepts, every jump of the generated code is
numeric, or is a placeholder while the analyzer is inside a `while`. -/
theorem accepted_code_good (labels_table : List Label) (ast : AST) :
    LeavesNoPlaceholder labels_table ast := by
  refine AST.induct (P := LeavesNoPlaceholder labels_table) ?_ ?_ ?_ ast
  · intro s
    exact And.intro (fun _ _ _ _ _ _ _ _ _ h => by cases h) (fun _ _ _ _ _ _ _ h => by cases h)
  · intro n
    exact And.intro (fun _ _ _ _ _ _ _ _ _ h => by cases h) (fun _ _ _ _ _ _ _ h => by cases h)
  · intro ty op body ih
    have hblock : ∀ (stack scopes : List AST) (fm : FunctionMap) (code : List OPCodeT)
        (fm' : FunctionMap), shaped (.node ty op body) = true →
        semanticer labels_table stack (.node ty op body) = .ok () →
        code_generator labels_table scopes fm (.node ty op body) = .ok (code, fm') →
        Good (stack.any is_while_scope) code := by
      intro stack scopes fm code fm' hsh hsem h
      rw [semanticer_node] at hsem
      by_cases hp : ty = .program
      · rw [if_neg (by simp [hp])] at hsem
        rw [code_generator_node] at h
        rw [shaped_node] at hsh
        simp only [Bool.and_eq_true, Bool.or_eq_true, decide_eq_true_eq] at hsh
        obtain ⟨⟨⟨_, _⟩, hnp⟩, hlist⟩ := hsh
        have hnp' : body.all (fun a => !is_program_node a) = true := by
          rcases hnp with hnp | hnp
          · exact absurd hp hnp
          · exact hnp
        exact leaves_no_placeholder_body labels_table body ih stack scopes fm [] code fm' hlist
          hnp' hsem h (Good.nil _)
      · rw [if_pos hp] at hsem; cases hsem
    refine And.intro ?_ hblock
    intro stack scopes fm len code fm' hsh hnprog hsem h
    rw [shaped_node] at hsh
    simp only [Bool.and_eq_true, Bool.or_eq_true, decide_eq_true_eq] at hsh
    obtain ⟨⟨⟨hw, hif⟩, _⟩, hlist⟩ := hsh
    have hmem := shaped_list_mem body hlist
    rw [semanticer_child_node] at hsem
    rw [code_generator_stmt_node] at h
    by_cases h1 : ty = .action
    · rw [if_pos h1] at hsem h
      by_cases h2 : op = .none
      · rw [if_pos h2] at h; cases h
      rw [if_neg h2] at hsem h
      by_cases h3 : op = .assign
      · rw [if_pos h3] at h
        split at h
        · cases h
        · split at h
          · cases h
          · rename_i c hc
            cases h
            apply Good.of_no_jump
            intro o ho
            simp only [List.mem_append, List.mem_singleton] at ho
            rcases ho with (rfl | ho) | rfl
            · rfl
            · exact expr_generator_at_no_jump _ _ _ _ hc o ho
            · rfl
      rw [if_neg h3] at hsem h
      by_cases h4 : op = .if_
      · rw [if_pos h4] at hsem h
        subst h1 h4
        have hpush : ∀ b : List AST, (stack ++ [AST.node .action .if_ b]).any is_while_scope
            = stack.any is_while_scope :=
          fun b => any_while_push stack _ _ b (by simp)
        rcases body with _ | ⟨cond, _ | ⟨t, rest⟩⟩
        · cases hsem
        · cases hsem
        · have hlen := hif ⟨rfl, rfl⟩
          dsimp only at hsem
          split at hsem
          · cases hsem
          · split at hsem
            · cases hsem
            · split at hsem
              · cases hsem
              · rename_i u ht
                rcases rest with _ | ⟨e, rest'⟩
                · dsimp only at h
                  split at h
                  · cases h
                  · rename_i cc hcc
                    split at h
                    · cases h
                    · rename_i tc fm1 htc
                      cases h
                      have g := (ih t (by simp)).2 _ _ _ _ _ (hmem t (by simp)) ht htc
                      rw [hpush] at g
                      exact (((Good.of_no_jump (expr_generator_no_jump _ _ _ _ hcc)).append
                        (Good.numeric _ _ _)).append (Good.numeric _ _ _)).append g
                · rcases rest' with _ | ⟨x, rest''⟩
                  · dsimp only at h hsem
                    split at h
                    · cases h
                    · rename_i cc hcc
                      split at h
                      · cases h
                      · rename_i tc fm1 htc
                        split at h
                        · cases h
                        · rename_i ec fm2 hec
                          cases h
                          have g := (ih t (by simp)).2 _ _ _ _ _ (hmem t (by simp)) ht htc
                          have g2 := (ih e (by simp)).2 _ _ _ _ _ (hmem e (by simp)) hsem hec
                          rw [hpush] at g g2
                          exact (((((Good.of_no_jump (expr_generator_no_jump _ _ _ _ hcc)).append
                            (Good.numeric _ _ _)).append (Good.numeric _ _ _)).append g).append
                            (Good.numeric _ _ _)).append g2
                  · simp at hlen
      rw [if_neg h4] at hsem h
      by_cases h5 : op = .while_
      · rw [if_pos h5] at hsem h
        subst h1 h5
        rcases body with _ | ⟨cond, _ | ⟨b, rest⟩⟩
        · cases hsem
        · cases hsem
        · dsimp only at hsem h
          split at hsem
          · cases hsem
          · split at hsem
            · cases hsem
            · split at h
              · cases h
              · rename_i cc hcc
                split at h
                · cases h
                · rename_i bc fm1 hbc
                  cases h
                  have g := (ih b (by simp)).2 _ _ _ _ _ (hmem b (by simp)) hsem hbc
                  have g1 := Good.append (Good.append
                    (Good.of_no_jump (b := (stack ++
                      [AST.node .action .while_ (cond :: b :: rest)]).any is_while_scope)
                      (expr_generator_no_jump _ _ _ _ hcc))
                    (Good.numeric _ .jmp_true_remove 3))
                    (Good.append (Good.numeric _ .jmp_remove ((bc.length : Int) + 3))
                      (Good.numeric _ .jmp ((bc.length : Int) + 2)))
                  have g2 := Good.append (Good.append g1 g)
                    (Good.numeric _ .jmp (-((cc ++ [(⟨.jmp_true_remove, .num 3⟩ : OPCodeT)] ++
                      [(⟨.jmp_remove, .num ((bc.length : Int) + 3)⟩ : OPCodeT),
                        ⟨.jmp, .num ((bc.length : Int) + 2)⟩] ++ bc).length : Int)))
                  exact (Good.resolve _ g2 _ 0).weaken _
      rw [if_neg h5] at hsem h
      by_cases h6 : op = .break_ ∨ op = .continue_
      · rw [if_pos h6] at hsem h
        cases h
        split at hsem
        · rename_i hin
          intro o ho _
          simp only [List.mem_singleton] at ho
          subst ho
          right
          refine ⟨?_, hin⟩
          rcases h6 with rfl | rfl <;> decide
        · cases hsem
      rw [if_neg h6] at hsem h
      by_cases h7 : op = .return_
      · rw [if_pos h7] at h
        split at h
        · cases h
        · rename_i c hc
          cases h
          apply Good.of_no_jump
          intro o ho
          simp only [List.mem_append, List.mem_singleton] at ho
          rcases ho with ho | rfl
          · exact expr_generator_at_no_jump _ _ _ _ hc o ho
          · rfl
      rw [if_neg h7] at h
      by_cases h8 : op = .func_call
      · rw [if_pos h8] at h
        split at h
        · cases h
        · rename_i c hc
          cases h
          apply Good.of_no_jump
          intro o ho
          simp only [List.mem_append, List.mem_singleton] at ho
          rcases ho with ho | rfl
          · exact expr_generator_no_jump _ _ _ _ hc o ho
          · rfl
      rw [if_neg h8] at h
      cases h
      exact Good.nil _
    rw [if_neg h1] at hsem h
    by_cases h2 : ty = .function
    · rw [if_pos h2] at hsem h
      have hop : op ≠ .while_ := by
        intro hop
        have := hw hop
        rw [h2] at this
        cases this
      split at h
      · cases h
      · rename_i func_label hfl
        split at h
        · cases h
        · rename_i fc fm2 hl
          cases h
          rw [hfl] at hsem
          split at hsem
          · cases hsem
          · cases hsem
          · rename_i lbl heq
            split at hsem
            · cases hsem
            · split at hsem
              · split at hsem
                · cases hsem
                · have g := leaves_no_placeholder_last labels_table body ih _ _ _ _ _ hlist hsem hl
                  rw [any_while_push stack ty op body hop] at g
                  exact (Good.numeric _ _ _).append g
              · cases hsem
    rw [if_neg h2] at h
    by_cases h3 : ty = .program
    · subst h3
      cases hnprog
    rw [if_neg h3] at h
    cases h
    exact Good.nil _

/-- C9: the code returned for a `while` node holds no unresolved placeholder (no `jmp`
whose operand is the string `break` or `continue`), so the resolution pass of an
enclosing loop, whatever its break index and offset, leaves that code as it is; and
in the code generated for a program that the analyzer accepts, every jump has a numeric
operand. The last part is for programs of the shape the parser builds (`shaped`). -/
theorem placeholders_resolved (labels_table : List Label) :
    (∀ (scopes : List AST) (function_map : FunctionMap) (code_length : Nat)
        (body : List AST) (code : List OPCodeT) (fm' : FunctionMap),
        code_generator_stmt labels_table scopes function_map code_length
          (.node .action .while_ body) = .ok (code, fm') →
        (∀ op ∈ code, is_placeholder op = false) ∧
        ∀ break_index i, resolve_placeholders break_index i code = code) ∧
    (∀ (function_map : FunctionMap) (op : ASTOp) (body : List AST)
        (code_object : CodeObject),
        shaped (.node .program op body) = true →
        analyze (.node .program op body) labels_table = .ok () →
        generate function_map (.node .program op body) labels_table = .ok code_object →
        ∀ o ∈ code_object.code, is_jump o.action = true → ∃ d, o.value = .num d) := by
  constructor
  · intro scopes function_map code_length body code fm' h
    have hres : ∀ op ∈ code, is_placeholder op = false := by
      rcases body with _ | ⟨cond, _ | ⟨b, rest⟩⟩
      · cases h
      · rw [code_generator_stmt_node] at h
        simp only [if_true, if_pos] at h
        revert h
        cases expr_generator labels_table
          (scopes ++ [AST.node ASTType.action ASTOp.while_ [cond]]) cond <;>
          intro h <;> cases h
      · rw [code_generator_stmt_while] at h
        split at h
        · cases h
        · split at h
          · cases h
          · cases h
            exact resolve_placeholders_resolved _ _ _
    exact And.intro hres (fun break_index i => resolve_placeholders_of_not break_index code hres i)
  · intro function_map op body code_object hsh hacc hgen o ho hj
    unfold analyze at hacc
    unfold generate at hgen
    split at hgen
    · cases hgen
    · rename_i code fm hcode
      cases hgen
      have g := (accepted_code_good labels_table (.node .program op body)).2
        [.node .program op body] [.node .program op body] function_map code fm hsh hacc hcode
      rcases g o ho hj with h1 | ⟨_, h2⟩
      · exact h1
      · rw [shaped_node] at hsh
        simp only [Bool.and_eq_true, decide_eq_true_eq] at hsh
        have hop : op ≠ .while_ := by
          intro hop
          have := hsh.1.1.1 hop
          cases this
        have : ([AST.node .program op body].any is_while_scope) = false := by
          cases op <;> first | rfl | exact absurd rfl hop
        rw [this] at h2
        cases h2

/-! ## Runs of concrete programs -/

/-- C2 (defect of `assign` in `vm.js`, which walks `op_stack` where it means
`scope_stack`): the program `num fn f() { num length = 1; return length; } num r = f();`
passes the analyzer, and its run throws at the assignment `length = 1`, executed while
the name token `r` lies on the operand stack; the same program with the variable called
`x` ends with `r = 1`, and `num a = 1; num b = 2; num c = a + b;` ends with frame 0
holding `a = 1`, `b = 2`, `c = 3` and an empty operand stack. -/
theorem assign_walks_operand_stack :
    analyze local_program (call_labels "length") = .ok () ∧
    (generate [] local_program (call_labels "length")).bind (vm 100) = .error .throws ∧
    exec [("f", 1)] ⟨3, [.num 1, .str "length", .str "r"], [10], [[], []], []⟩
      ⟨.assign, .null⟩ = .error .throws ∧
    (generate [] local_program (call_labels "x")).bind (vm 100)
      = .ok ⟨12, [], [], [[("r", .num 1)]], []⟩ ∧
    (generate [] sum_program sum_labels).bind (vm 100)
      = .ok ⟨13, [], [], [[("a", .num 1), ("b", .num 2), ("c", .num 3)]], []⟩ := by
  refine ⟨by decide, by decide, by decide, by decide, by decide⟩

/-- C3 (same defect of `assign` in `vm.js`): the program
`num fn f(num length) { return length; } num r = f(2);` passes the analyzer, and its
run throws at the assignment that binds the parameter `length`, executed while the name
token `r` lies on the operand stack; with the parameter called `x` the run ends with
`r = 2`, and `num fn add(num a, num b) { return a + b; } num r = add(2,3);` ends with
`r = 5` in frame 0. -/
theorem call_argument_walks_operand_stack :
    analyze param_program (call_labels "length") = .ok () ∧
    (generate [] param_program (call_labels "length")).bind (vm 100) = .error .throws ∧
    exec [("f", 1)] ⟨8, [.num 2, .str "length", .str "r"], [], [[], []], []⟩
      ⟨.assign, .null⟩ = .error .throws ∧
    (generate [] param_program (call_labels "x")).bind (vm 100)
      = .ok ⟨12, [], [], [[("r", .num 2)]], []⟩ ∧
    (generate [] add_program add_labels).bind (vm 100)
      = .ok ⟨18, [], [], [[("r", .num 5)]], []⟩ := by
  refine ⟨by decide, by decide, by decide, by decide, by decide⟩

/-! ## Instances of the theorems above -/

/-- Instance: the expression `a + 3` with `a` bound to 4 runs to the value 7. -/
theorem expr_generator_vm_correct_witness :
    (∀ x m, example_env x = some m → lookup_value x [[("a", .num 4)]] = .num m) ∧
    example_expr.value sum_labels example_env = some 7 ∧
    example_expr.exact sum_labels example_env = true ∧
    ∃ code, expr_generator sum_labels [] example_expr.ast = .ok code ∧
      ∀ fuel, code.length ≤ fuel →
        run code [] fuel ⟨0, [], [], [[("a", .num 4)]], []⟩
          = .ok ⟨code.length, [.num 7], [], [[("a", .num 4)]], []⟩ := by
  have henv : ∀ x m, example_env x = some m → lookup_value x [[("a", .num 4)]] = .num m := by
    intro x m h
    unfold example_env at h
    by_cases hx : x = "a"
    · subst hx
      simp only [if_true, Option.some.injEq] at h
      subst h
      decide
    · rw [if_neg hx] at h
      cases h
  exact ⟨henv, by decide, by decide, expr_generator_vm_correct sum_labels [] [] example_env
    example_expr 7 [] [] [[("a", .num 4)]] [] henv (by decide) (by decide)⟩

/-- Instance: the layout of `if (a < 2) { b = 1; } else { b = 0; }`. -/
theorem if_layout_witness :
    code_generator_stmt sum_labels [] [] 0
      (.node .action .if_ [example_cond, branch_true, branch_else]) = .ok (branch_code, []) ∧
    ∃ cc tc fm1,
      expr_generator sum_labels
        ([] ++ [.node .action .if_ [example_cond, branch_true, branch_else]]) example_cond
          = .ok cc ∧
      code_generator sum_labels
        ([] ++ [.node .action .if_ [example_cond, branch_true, branch_else]]) []
        branch_true = .ok (tc, fm1) ∧
      CodeAt branch_code 0 cc ∧
      action_at branch_code cc.length = some .jmp_true_remove ∧
      jump_target branch_code cc.length = some ((cc.length + 2 : Nat) : Int) ∧
      action_at branch_code (cc.length + 1) = some .jmp_false_remove ∧
      CodeAt branch_code (cc.length + 2) tc ∧
      ∃ ec,
        code_generator sum_labels
          ([] ++ [.node .action .if_ [example_cond, branch_true, branch_else]]) fm1
          branch_else = .ok (ec, []) ∧
        branch_code.length = cc.length + 3 + tc.length + ec.length ∧
        jump_target branch_code (cc.length + 1) = some ((cc.length + 3 + tc.length : Nat) : Int) ∧
        action_at branch_code (cc.length + 2 + tc.length) = some .jmp ∧
        jump_target branch_code (cc.length + 2 + tc.length)
          = some ((cc.length + 3 + tc.length + ec.length : Nat) : Int) ∧
        CodeAt branch_code (cc.length + 3 + tc.length) ec :=
  ⟨by decide, if_layout sum_labels [] [] 0 example_cond branch_true [branch_else] branch_code []
    (by decide)⟩

/-- Instance: the layout of `while (a < 2) { if (a < 1) { break; } }`. -/
theorem while_layout_witness :
    code_generator_stmt sum_labels [] [] 0
      (.node .action .while_ [example_cond, break_body]) = .ok (break_loop_code, []) ∧
    ∃ cc bc,
      expr_generator sum_labels
        ([] ++ [.node .action .while_ [example_cond, break_body]]) example_cond = .ok cc ∧
      code_generator sum_labels
        ([] ++ [.node .action .while_ [example_cond, break_body]]) [] break_body
          = .ok (bc, []) ∧
      break_loop_code.length = cc.length + 4 + bc.length ∧
      CodeAt break_loop_code 0 cc ∧
      action_at break_loop_code cc.length = some .jmp_true_remove ∧
      jump_target break_loop_code cc.length = some ((cc.length + 3 : Nat) : Int) ∧
      CodeAt break_loop_code (cc.length + 3)
        (resolve_placeholders (cc.length + 2) (cc.length + 3) bc) ∧
      action_at break_loop_code (cc.length + 1) = some .jmp_remove ∧
      jump_target break_loop_code (cc.length + 1) = some ((cc.length + 4 + bc.length : Nat) : Int) ∧
      action_at break_loop_code (cc.length + 2) = some .jmp ∧
      jump_target break_loop_code (cc.length + 2) = some ((cc.length + 4 + bc.length : Nat) : Int) ∧
      action_at break_loop_code (cc.length + 3 + bc.length) = some .jmp ∧
      jump_target break_loop_code (cc.length + 3 + bc.length) = some 0 :=
  ⟨by decide, while_layout sum_labels [] [] 0 example_cond break_body [] break_loop_code []
    (by decide)⟩

/-- Instance: the `break` of `while (a < 2) { if (a < 1) { break; } }`, at offset 6 of
the body code. -/
theorem break_leaves_loop_witness :
    code_generator_stmt sum_labels [] [] 0
      (.node .action .while_ [example_cond, break_body]) = .ok (break_loop_code, []) ∧
    JumpSite sum_labels .break_ ([] ++ [.node .action .while_ [example_cond, break_body]]) []
      break_body 6 ∧
    ∃ cc bc,
      expr_generator sum_labels
        ([] ++ [.node .action .while_ [example_cond, break_body]]) example_cond = .ok cc ∧
      code_generator sum_labels
        ([] ++ [.node .action .while_ [example_cond, break_body]]) [] break_body
          = .ok (bc, []) ∧
      bc[6]? = some ⟨.jmp, .str "break"⟩ ∧
      action_at break_loop_code (cc.length + 3 + 6) = some .jmp ∧
      ∀ (code : List OPCodeT) (base : Nat) (fm : FunctionMap) (s : List Val) (cs : List Int)
        (ss : List Frame) (out : List (List Val)),
        CodeAt code base break_loop_code →
        Reaches code fm ⟨((base + (cc.length + 3 + 6) : Nat) : Int), s, cs, ss, out⟩
          [((base + (cc.length + 3 + 6) : Nat) : Int), ((base + (cc.length + 2) : Nat) : Int)]
          ⟨((base + break_loop_code.length : Nat) : Int), s, cs, ss, out⟩ := by
  have hsite : JumpSite sum_labels .break_
      ([] ++ [.node .action .while_ [example_cond, break_body]]) [] break_body 6 :=
    JumpSite.if_true _ [] .program .none [] inner_cond
      (.node .program .none [.node .action .break_ []]) [] [] [] []
      [⟨.load_name, .str "a"⟩, ⟨.load_value, .null⟩, ⟨.load_const, .num 1⟩,
        ⟨.compare_below, .null⟩] 0 rfl (by decide)
      (JumpSite.direct _ [] .program .none [] [] [] [] [] (Or.inl rfl) rfl)
  exact ⟨by decide, hsite, break_leaves_loop sum_labels [] [] 0 example_cond break_body []
    break_loop_code [] 6 (by decide) hsite⟩

/-- Instance: the `continue` of `while (a < 2) { a = a + 1; continue; }`, at offset 6 of
the body code. -/
theorem continue_retests_loop_witness :
    code_generator_stmt sum_labels [] [] 0
      (.node .action .while_ [example_cond, continue_body]) = .ok (continue_loop_code, []) ∧
    JumpSite sum_labels .continue_
      ([] ++ [.node .action .while_ [example_cond, continue_body]]) [] continue_body 6 ∧
    ∃ cc bc,
      expr_generator sum_labels
        ([] ++ [.node .action .while_ [example_cond, continue_body]]) example_cond = .ok cc ∧
      code_generator sum_labels
        ([] ++ [.node .action .while_ [example_cond, continue_body]]) [] continue_body
          = .ok (bc, []) ∧
      bc[6]? = some ⟨.jmp, .str "continue"⟩ ∧
      action_at continue_loop_code (cc.length + 3 + 6) = some .jmp ∧
      jump_target continue_loop_code (cc.length + 3 + 6) = some 0 ∧
      CodeAt continue_loop_code 0 cc ∧
      ∀ (code : List OPCodeT) (base : Nat) (fm : FunctionMap) (s : List Val) (cs : List Int)
        (ss : List Frame) (out : List (List Val)),
        CodeAt code base continue_loop_code →
        CodeAt code base cc ∧
        Reaches code fm ⟨((base + (cc.length + 3 + 6) : Nat) : Int), s, cs, ss, out⟩
          [((base + (cc.length + 3 + 6) : Nat) : Int)]
          ⟨((base : Nat) : Int), s, cs, ss, out⟩ := by
  have hsite : JumpSite sum_labels .continue_
      ([] ++ [.node .action .while_ [example_cond, continue_body]]) [] continue_body 6 :=
    JumpSite.direct _ [] .program .none
      [ .node .action .assign
          [.node .target .none [.num 1], (Expr.binary .add (.target 1) (.lit "1")).ast] ]
      [] []
      [ ⟨.load_name, .str "a"⟩, ⟨.load_name, .str "a"⟩, ⟨.load_value, .null⟩,
        ⟨.load_const, .num 1⟩, ⟨.add, .null⟩, ⟨.assign, .null⟩ ] [] (Or.inr rfl) (by decide)
  exact ⟨by decide, hsite, continue_retests_loop sum_labels [] [] 0 example_cond continue_body
    [] continue_loop_code [] 6 (by decide) hsite⟩

/-- Instance: the loop `while (a < 2) { if (a < 1) { break; } }` and the program
`num a = 0;` followed by that loop. -/
theorem placeholders_resolved_witness :
    code_generator_stmt sum_labels [] [] 0
      (.node .action .while_ [example_cond, break_body]) = .ok (break_loop_code, []) ∧
    ((∀ op ∈ break_loop_code, is_placeholder op = false) ∧
      ∀ break_index i, resolve_placeholders break_index i break_loop_code = break_loop_code) ∧
    shaped break_program = true ∧
    analyze break_program sum_labels = .ok () ∧
    generate [] break_program sum_labels = .ok break_code_object ∧
    ∀ o ∈ break_code_object.code, is_jump o.action = true → ∃ d, o.value = .num d :=
  ⟨by decide,
    (placeholders_resolved sum_labels).1 [] [] 0 [example_cond, break_body] break_loop_code []
      (by decide),
    by decide, by decide, by decide,
    (placeholders_resolved sum_labels).2 [] .none break_statements break_code_object
      (by decide) (by decide) (by decide)⟩

/-- Instance: the declaration of `add` in
`num fn add(num a, num b) { return a + b; } num r = add(2,3);`. -/
theorem function_table_entry_witness :
    add_function_body.head? = some (.node .target .none [.num 1]) ∧
    generate [] (.node .program .none ([] ++ .node .function .none add_function_body :: [add_call]))
      add_labels = .ok add_code_object ∧
    declares_list add_labels (function_key (find_label add_labels [AST.num 1].head?))
      (add_function_body ++ [add_call]) = false ∧
    ∃ cpre fm1 func_code fm2,
      code_generator_body add_labels
        [.node .program .none ([] ++ .node .function .none add_function_body :: [add_call])]
        [] [] [] = .ok (cpre, fm1) ∧
      code_generator_last add_labels
        ([.node .program .none ([] ++ .node .function .none add_function_body :: [add_call])]
          ++ [.node .function .none add_function_body])
        (Dict.set fm1 (function_key (find_label add_labels [AST.num 1].head?))
          (cpre.length + 1)) add_function_body = .ok (func_code, fm2) ∧
      add_code_object.code[cpre.length]? = some ⟨.jmp, .num (func_code.length + 1)⟩ ∧
      jump_target add_code_object.code cpre.length
        = some ((cpre.length + 1 + func_code.length : Nat) : Int) ∧
      CodeAt add_code_object.code (cpre.length + 1) func_code ∧
      Dict.get add_code_object.function_map
        (function_key (find_label add_labels [AST.num 1].head?)) = some (cpre.length + 1) :=
  ⟨rfl, by decide, by decide,
    function_table_entry add_labels [] .program .none [] [add_call] .none add_function_body
      .target .none [.num 1] add_code_object rfl (by decide) (by decide)⟩

/-- Instance: the counting program with the literal `3`. -/
theorem while_counts_to_n_witness :
    count_labels.find? (fun l => decide (l.id = 1)) = some ⟨1, .num, "i", none⟩ ∧
    3 ≤ 9007199254740992 ∧
    ∃ code_object, generate [] (count_program 1 "3") count_labels = .ok code_object ∧
      code_object.code[10]? = some ⟨.load_name, .str "i"⟩ ∧
      ∃ fuel0, ∀ fuel, fuel0 ≤ fuel →
        vm fuel code_object
          = .ok ⟨code_object.code.length, [], [], [[("i", .num (3 : Nat))]], []⟩ ∧
        (vm_trace fuel code_object).count 10 = 3 :=
  ⟨by decide, by decide,
    (while_counts_to_n count_labels 1 ⟨1, .num, "i", none⟩ 3 (by decide) (by decide)).2 "3"
      (by decide) (by decide)⟩

/-! ## The analyzer and the reference typing -/

theorem expr_checker_node (labels_table : List Label) (ast_node_stack : List AST)
    (ty : ASTType) (op : ASTOp) (body : List AST) (target_type : Val) :
    expr_checker labels_table ast_node_stack (.node ty op body) target_type =
    if ty = .number_iter then
      if body.length ≠ 1 then .error .throws
      else
        match body.head? with
        | some (.str s) =>
          if has_digit_or_dot s = false then .error .throws
          else if target_type = .str "str" then .error .throws
          else .ok (.str "num")
        | _ => .error .throws
    else if ty = .string_iter then
      if body.length ≠ 1 then .error .throws
      else
        match body.head? with
        | some (.str _) =>
          if target_type = .str "num" then .error .throws else .ok (.str "str")
        | _ => .error .throws
    else if ty = .target then
      match find_label labels_table body.head? with
      | none => .error .throws
      | some target_label_info =>
        if target_label_info.type = .fn then .error .throws
        else if target_label_info.type.val ≠ target_type then .error .throws
        else .ok target_label_info.type.val
    else if op = .add ∨ op = .equal ∨ op = .not_equal then
      match body with
      | [] => .error .throws
      | [left_part] =>
        match expr_checker labels_table ast_node_stack left_part target_type with
        | .error e => .error e
        | .ok _ => .error .throws
      | left_part :: right_part :: _ =>
        match expr_checker labels_table ast_node_stack left_part target_type with
        | .error e => .error e
        | .ok left_part_check_res =>
          match expr_checker labels_table ast_node_stack right_part target_type with
          | .error e => .error e
          | .ok right_part_check_res =>
            if left_part_check_res = right_part_check_res then
              if left_part_check_res ≠ target_type then .error .throws
              else if left_part_check_res = .str "num" ∨ left_part_check_res = .str "str" then
                if op = .add then .ok left_part_check_res else .ok (.str "num")
              else .error .throws
            else .error .throws
    else if op = .sub ∨ op = .mul ∨ op = .div ∨ op = .gt ∨ op = .gte ∨ op = .lt ∨ op = .lte then
      match body with
      | [] => .error .throws
      | [left_part] =>
        match expr_checker labels_table ast_node_stack left_part target_type with
        | .error e => .error e
        | .ok _ => .error .throws
      | left_part :: right_part :: _ =>
        match expr_checker labels_table ast_node_stack left_part target_type with
        | .error e => .error e
        | .ok left_part_check_res =>
          match expr_checker labels_table ast_node_stack right_part target_type with
          | .error e => .error e
          | .ok right_part_check_res =>
            if left_part_check_res = right_part_check_res then
              if left_part_check_res ≠ target_type then .error .throws
              else if left_part_check_res = .str "num" then .ok left_part_check_res
              else .error .throws
            else .error .throws
    else if op = .func_call then
      match find_label_of labels_table body.head? with
      | .error e => .error e
      | .ok none => .error .throws
      | .ok (some func_labels_info) =>
        match ast_node_stack.head? with
        | some (.node _ _ root_body) =>
          match find_function_ast func_labels_info.id root_body with
          | .error e => .error e
          | .ok (some (.node _ _ fb)) =>
            if ((fb.take (fb.length - 1)).drop 2).all is_target_node = false then .error .throws
            else if body.tail.length ≠ ((fb.take (fb.length - 1)).drop 2).length then
              .error .throws
            else
              match body with
              | [] => declared_return_type_checked fb
              | _ :: func_call_args =>
                match expr_checker_args labels_table ast_node_stack func_call_args
                    ((fb.take (fb.length - 1)).drop 2) with
                | .error e => .error e
                | .ok _ => declared_return_type_checked fb
          | .ok _ => .error .throws
        | _ => .error .throws
    else .error .throws := by
  cases body with
  | nil => cases ty <;> cases op <;> rfl
  | cons a rest =>
    cases rest with
    | nil => cases a <;> cases ty <;> cases op <;> rfl
    | cons b rest' => cases a <;> cases ty <;> cases op <;> rfl

theorem expr_checker_args_cons (labels_table : List Label) (ast_node_stack : List AST)
    (arg_value_ast : AST) (rest : List AST) (func_decl_args_info : List AST) :
    expr_checker_args labels_table ast_node_stack (arg_value_ast :: rest) func_decl_args_info =
    match arg_value_ast with
    | .str _ => .error .throws
    | .num _ => .error .throws
    | .node aty aop abody =>
      match func_decl_args_info with
      | [] => .error .throws
      | arg_must_info :: rest_info =>
        match arg_must_info with
        | .node .target _ ib =>
          match find_label labels_table ib.head? with
          | none => .error .throws
          | some arg_must_label_info =>
            match expr_checker labels_table ast_node_stack (.node aty aop abody)
                arg_must_label_info.type.val with
            | .error e => .error e
            | .ok _ => expr_checker_args labels_table ast_node_stack rest rest_info
        | _ => .error .throws := by
  cases arg_value_ast <;> cases func_decl_args_info <;> rfl

theorem expr_type_node (labels_table : List Label) (root_body : List AST) (ty : ASTType)
    (op : ASTOp) (body : List AST) :
    expr_type labels_table root_body (.node ty op body) =
    if ty = .number_iter then some .num
    else if ty = .string_iter then some .str
    else if ty = .target then
      match find_label labels_table body.head? with
      | some label => some label.type
      | none => none
    else if op = .add then
      match body with
      | left :: right :: _ =>
        match expr_type labels_table root_body left, expr_type labels_table root_body right with
        | some a, some b => if a = b then some a else none
        | _, _ => none
      | _ => none
    else if op = .sub ∨ op = .mul ∨ op = .div ∨ op = .gt ∨ op = .gte ∨ op = .lt ∨ op = .lte then
      match body with
      | left :: right :: _ =>
        match expr_type labels_table root_body left, expr_type labels_table root_body right with
        | some .num, some .num => some .num
        | _, _ => none
      | _ => none
    else if op = .equal ∨ op = .not_equal then
      match body with
      | left :: right :: _ =>
        match expr_type labels_table root_body left, expr_type labels_table root_body right with
        | some a, some b => if a = b then some .num else none
        | _, _ => none
      | _ => none
    else if op = .func_call then callee_kind root_body body.head?
    else none := by
  cases body with
  | nil => cases ty <;> cases op <;> rfl
  | cons a rest =>
    cases rest with
    | nil => cases a <;> cases ty <;> cases op <;> rfl
    | cons b rest' => cases a <;> cases ty <;> cases op <;> rfl

theorem kind_val_injective (a b : LabelType) (h : a.val = b.val) : a = b := by
  cases a <;> cases b <;> first | rfl | (exact absurd h (by decide))

theorem kind_named_val (x : Option AST) (k : LabelType) (v : Val)
    (h : literal_value x = .ok v) (hv : v = k.val) : kind_named x = some k := by
  cases x with
  | none => simp [literal_value] at h; subst h; cases k <;> cases hv
  | some a =>
    cases a with
    | node _ _ _ => simp [literal_value] at h
    | num n => simp [literal_value] at h; subst h; cases k <;> cases hv
    | str s =>
      simp only [literal_value, Except.ok.injEq] at h
      subst h
      cases k <;> simp only [LabelType.val, Val.str.injEq] at hv <;> subst hv <;> rfl

/-- The scan of `find_function_ast` finds the first Function node named by `id`. -/
theorem find_function_ast_find (id : Int) (root_body : List AST) (f : AST)
    (h : find_function_ast id root_body = .ok (some f)) :
    root_body.find? (is_function_named id) = some f := by
  induction root_body with
  | nil => simp [find_function_ast] at h
  | cons a rest ih =>
    rw [List.find?_cons]
    cases a with
    | str s => exact ih h
    | num n => exact ih h
    | node ty op fb =>
      by_cases hty : ty = .function
      · subst hty
        rcases fb with _ | ⟨nm, fb'⟩
        · simp [find_function_ast] at h
        · cases nm with
          | str s => exact ih h
          | num n => exact ih h
          | node nty nop nb =>
            by_cases hnty : nty = .target
            · subst hnty
              rcases nb with _ | ⟨p, nb'⟩
              · exact ih h
              · cases p with
                | str s => exact ih h
                | node _ _ _ => exact ih h
                | num m =>
                  by_cases hm : m = id
                  · subst hm
                    simp only [find_function_ast, List.head?_cons, if_true,
                      Except.ok.injEq, Option.some.injEq] at h
                    subst h
                    simp [is_function_named]
                  · have hne : is_function_named id
                        (.node .function op (.node .target nop (.num m :: nb') :: fb')) = false := by
                      simp [is_function_named, hm]
                    rw [hne]
                    simp only [find_function_ast, List.head?_cons, if_neg hm] at h
                    exact ih h
            · have hne : is_function_named id
                  (.node .function op (.node nty nop nb :: fb')) = false := by
                cases nty <;> first | rfl | exact absurd rfl hnty
              rw [hne]
              have h2 : find_function_ast id (.node .function op (.node nty nop nb :: fb') :: rest)
                  = find_function_ast id rest := by
                cases nty <;> first | rfl | exact absurd rfl hnty
              rw [h2] at h
              exact ih h
      · have hne : is_function_named id (.node ty op fb) = false := by
          cases ty <;> first | rfl | exact absurd rfl hty
        rw [hne]
        have h2 : find_function_ast id (.node ty op fb :: rest) = find_function_ast id rest := by
          cases ty <;> first | rfl | exact absurd rfl hty
        rw [h2] at h
        exact ih h

theorem find_label_of_some (labels_table : List Label) (x : Option AST) (info : Label)
    (h : find_label_of labels_table x = .ok (some info)) :
    ∃ ty op n rest, x = some (.node ty op (.num n :: rest)) ∧ info.id = n := by
  cases x with
  | none => cases labels_table <;> simp [find_label_of] at h
  | some a =>
    cases a with
    | str s => cases labels_table <;> simp [find_label_of] at h
    | num n => cases labels_table <;> simp [find_label_of] at h
    | node ty op b =>
      simp only [find_label_of, Except.ok.injEq] at h
      rcases b with _ | ⟨p, b'⟩
      · simp [find_label] at h
      · cases p with
        | str s => simp [find_label] at h
        | node _ _ _ => simp [find_label] at h
        | num n =>
          simp only [find_label, List.head?_cons] at h
          have := List.find?_some h
          simp only [decide_eq_true_eq] at this
          exact ⟨ty, op, n, b', rfl, this⟩

theorem declared_return_type_checked_kind (fty : ASTType) (fop : ASTOp) (fb : List AST)
    (r : Val) (k : LabelType) (h : declared_return_type_checked fb = .ok r) (hr : r = k.val) :
    declared_kind (.node fty fop fb) = some k := by
  rcases fb with _ | ⟨a, _ | ⟨b, rest⟩⟩
  · simp [declared_return_type_checked] at h
  · simp [declared_return_type_checked] at h
  · cases b with
    | str s => simp [declared_return_type_checked] at h
    | num n => simp [declared_return_type_checked] at h
    | node bty bop rb =>
      by_cases hb : bty = .type
      · subst hb
        simp only [declared_return_type_checked, List.tail_cons, List.head?_cons] at h
        exact kind_named_val rb.head? k r h hr
      · cases bty <;> first | exact absurd rfl hb | simp [declared_return_type_checked] at h

/-- Every result of `expr_checker` that names a kind is the reference type of the
expression. -/
theorem expr_checker_type (labels_table : List Label) (ast_node_stack : List AST) (ast : AST) :
    ∀ (target_type r : Val) (k : LabelType),
      expr_checker labels_table ast_node_stack ast target_type = .ok r → r = k.val →
      expr_type labels_table (root_body_of ast_node_stack) ast = some k := by
  refine AST.induct (P := fun ast => ∀ (target_type r : Val) (k : LabelType),
      expr_checker labels_table ast_node_stack ast target_type = .ok r → r = k.val →
      expr_type labels_table (root_body_of ast_node_stack) ast = some k) ?_ ?_ ?_ ast
  · intro s t r k h; cases h
  · intro n t r k h; cases h
  · intro ty op body ih t r k h hr
    rw [expr_checker_node] at h
    rw [expr_type_node]
    by_cases h1 : ty = .number_iter
    · rw [if_pos h1] at h
      rw [if_pos h1]
      split at h
      · cases h
      · split at h
        · split at h
          · cases h
          · split at h
            · cases h
            · cases h
              cases k <;> first | rfl | (simp [LabelType.val] at hr)
        · cases h
    rw [if_neg h1] at h
    rw [if_neg h1]
    by_cases h2 : ty = .string_iter
    · rw [if_pos h2] at h
      rw [if_pos h2]
      split at h
      · cases h
      · split at h
        · split at h
          · cases h
          · cases h
            cases k <;> first | rfl | (simp [LabelType.val] at hr)
        · cases h
    rw [if_neg h2] at h
    rw [if_neg h2]
    by_cases h3 : ty = .target
    · rw [if_pos h3] at h
      rw [if_pos h3]
      split at h
      · cases h
      · rename_i l hl
        rw [hl]
        split at h
        · cases h
        · split at h
          · cases h
          · cases h
            show some l.type = some k
            rw [kind_val_injective _ _ hr]
    rw [if_neg h3] at h
    rw [if_neg h3]
    by_cases h4 : op = .add
    · rw [if_pos (Or.inl h4)] at h
      rw [if_pos h4]
      rcases body with _ | ⟨left, _ | ⟨right, rest⟩⟩
      · cases h
      · dsimp only at h
        split at h <;> cases h
      · dsimp only at h ⊢
        split at h
        · cases h
        · rename_i r1 hl
          split at h
          · cases h
          · rename_i r2 hrr
            split at h
            · rename_i he
              split at h
              · cases h
              · split at h
                · cases h
                  rw [ih left (by simp) t _ k hl hr,
                    ih right (by simp) t _ k hrr (he ▸ hr)]
                  simp
                · cases h
            · cases h
    rw [if_neg h4]
    by_cases h5 : op = .sub ∨ op = .mul ∨ op = .div ∨ op = .gt ∨ op = .gte ∨ op = .lt ∨ op = .lte
    · have h5n : ¬ (op = .add ∨ op = .equal ∨ op = .not_equal) := by
        rcases h5 with h | h | h | h | h | h | h <;> subst h <;> decide
      rw [if_neg h5n, if_pos h5] at h
      rw [if_pos h5]
      rcases body with _ | ⟨left, _ | ⟨right, rest⟩⟩
      · cases h
      · dsimp only at h
        split at h <;> cases h
      · dsimp only at h ⊢
        split at h
        · cases h
        · rename_i r1 hl
          split at h
          · cases h
          · rename_i r2 hrr
            split at h
            · rename_i he
              split at h
              · cases h
              · split at h
                · rename_i hnum
                  cases h
                  rw [ih left (by simp) t _ .num hl hnum,
                    ih right (by simp) t _ .num hrr (he ▸ hnum)]
                  rw [kind_val_injective k .num (hr.symm.trans hnum)]
                · cases h
            · cases h
    rw [if_neg h5]
    by_cases h6 : op = .equal ∨ op = .not_equal
    · have h6p : op = .add ∨ op = .equal ∨ op = .not_equal := Or.inr h6
      rw [if_pos h6p] at h
      rw [if_pos h6]
      rcases body with _ | ⟨left, _ | ⟨right, rest⟩⟩
      · cases h
      · dsimp only at h
        split at h <;> cases h
      · dsimp only at h ⊢
        split at h
        · cases h
        · rename_i r1 hl
          split at h
          · cases h
          · rename_i r2 hrr
            split at h
            · rename_i he
              split at h
              · cases h
              · split at h
                · rename_i hk
                  cases h
                  have hkk : ∃ k1 : LabelType, r1 = k1.val := by
                    rcases hk with hk | hk
                    · exact ⟨.num, hk⟩
                    · exact ⟨.str, hk⟩
                  obtain ⟨k1, hk1⟩ := hkk
                  rw [ih left (by simp) t _ k1 hl hk1,
                    ih right (by simp) t _ k1 hrr (he ▸ hk1)]
                  simp only [if_true]
                  cases k <;> first | rfl | (simp [LabelType.val] at hr)
                · cases h
            · cases h
    rw [if_neg h6]
    have h6n : ¬ (op = .add ∨ op = .equal ∨ op = .not_equal) := by
      rintro (h | h | h)
      · exact h4 h
      · exact h6 (Or.inl h)
      · exact h6 (Or.inr h)
    rw [if_neg h6n, if_neg h5] at h
    by_cases h7 : op = .func_call
    · rw [if_pos h7] at h
      rw [if_pos h7]
      split at h
      · cases h
      · cases h
      · rename_i info hinfo
        obtain ⟨tty, top, n, trest, hhead, hid⟩ :=
          find_label_of_some labels_table body.head? info hinfo
        split at h
        · rename_i rty rop root_body hroot
          have hrb : root_body_of ast_node_stack = root_body := by
            simp [root_body_of, hroot]
          split at h
          · cases h
          · rename_i fty fop fb hf
            have hfind := find_function_ast_find info.id root_body _ hf
            have hret : declared_return_type_checked fb = .ok r := by
              split at h
              · cases h
              · split at h
                · cases h
                · split at h
                  · exact h
                  · split at h
                    · cases h
                    · exact h
            rw [hhead, hrb]
            simp only [callee_kind]
            rw [← hid, hfind]
            exact declared_return_type_checked_kind fty fop fb r k hret hr
          · cases h
        · cases h
    · rw [if_neg h7] at h
      cases h

theorem expr_checker_at_some (labels_table : List Label) (ast_node_stack : List AST)
    (x : Option AST) (t r : Val) (h : expr_checker_at labels_table ast_node_stack x t = .ok r) :
    ∃ e, x = some e ∧ expr_checker labels_table ast_node_stack e t = .ok r := by
  cases x with
  | none => cases h
  | some e => exact ⟨e, rfl, h⟩

/-- What the `assign` branch of `semanticer` has checked when it accepts. -/
theorem semanticer_child_assign_ok (labels_table : List Label) (ast_node_stack : List AST)
    (body : List AST)
    (h : semanticer_child labels_table ast_node_stack (.node .action .assign body) = .ok ()) :
    ∃ top tb e rest label,
      body = .node .target top tb :: e :: rest ∧
      find_label labels_table tb.head? = some label ∧
      expr_checker labels_table ast_node_stack e label.type.val = .ok label.type.val := by
  rw [semanticer_child_node] at h
  rw [if_pos rfl, if_neg (by decide), if_pos rfl] at h
  split at h
  · rename_i top tb hhead
    split at h
    · cases h
    · rename_i label hlabel
      split at h
      · cases h
      · rename_i v hv
        split at h
        · cases h
        · rename_i hne
          simp only [ne_eq, not_not] at hne
          obtain ⟨e, he, hchk⟩ := expr_checker_at_some _ _ _ _ _ hv
          rcases body with _ | ⟨a, _ | ⟨b, rest⟩⟩
          · cases hhead
          · cases he
          · simp only [List.head?_cons, Option.some.injEq] at hhead
            simp only [List.tail_cons, List.head?_cons, Option.some.injEq] at he
            subst hhead he
            exact ⟨top, tb, b, rest, label, rfl, hlabel, hne ▸ hchk⟩
  · cases h

/-- C14: whenever `semanticer` accepts an assignment `x = e`, the statement has a Target
`x` with a label and a value `e` whose reference type (`expr_type`: literals, Targets by
their label's kind, `add` by the common operand type, arithmetic and order comparisons
`num` over `num`, `equal`/`not_equal` `num` over a common operand type, calls by the
callee's declared return type) is the declared kind of `x`. -/
theorem assignment_type_sound (labels_table : List Label) (ast_node_stack : List AST)
    (body : List AST)
    (h : semanticer_child labels_table ast_node_stack (.node .action .assign body) = .ok ()) :
    ∃ top tb e rest label,
      body = .node .target top tb :: e :: rest ∧
      find_label labels_table tb.head? = some label ∧
      expr_type labels_table (root_body_of ast_node_stack) e = some label.type := by
  obtain ⟨top, tb, e, rest, label, hb, hl, hc⟩ :=
    semanticer_child_assign_ok labels_table ast_node_stack body h
  exact ⟨top, tb, e, rest, label, hb, hl,
    expr_checker_type labels_table ast_node_stack e _ _ label.type hc rfl⟩

/-- Checked against the expected type `num`, an expression that is not a call yields
`num` when it yields anything. -/
theorem expr_checker_num (labels_table : List Label) (ast_node_stack : List AST) (ast : AST)
    (r : Val) (h : expr_checker labels_table ast_node_stack ast (.str "num") = .ok r)
    (hcall : is_call_expr ast = false) : r = .str "num" := by
  cases ast with
  | str s => cases h
  | num n => cases h
  | node ty op body =>
    rw [expr_checker_node] at h
    by_cases h1 : ty = .number_iter
    · rw [if_pos h1] at h
      split at h
      · cases h
      · split at h
        · split at h
          · cases h
          · split at h
            · cases h
            · cases h; rfl
        · cases h
    rw [if_neg h1] at h
    by_cases h2 : ty = .string_iter
    · rw [if_pos h2] at h
      split at h
      · cases h
      · split at h
        · simp at h
        · cases h
    rw [if_neg h2] at h
    by_cases h3 : ty = .target
    · rw [if_pos h3] at h
      split at h
      · cases h
      · split at h
        · cases h
        · split at h
          · cases h
          · rename_i hne
            simp only [ne_eq, not_not] at hne
            cases h
            exact hne
    rw [if_neg h3] at h
    by_cases h4 : op = .add ∨ op = .equal ∨ op = .not_equal
    · rw [if_pos h4] at h
      split at h
      · cases h
      · split at h <;> cases h
      · split at h
        · cases h
        · split at h
          · cases h
          · split at h
            · split at h
              · cases h
              · rename_i hne
                simp only [ne_eq, not_not] at hne
                split at h
                · split at h
                  · cases h; exact hne
                  · cases h; rfl
                · cases h
            · cases h
    rw [if_neg h4] at h
    by_cases h5 : op = .sub ∨ op = .mul ∨ op = .div ∨ op = .gt ∨ op = .gte ∨ op = .lt ∨ op = .lte
    · rw [if_pos h5] at h
      split at h
      · cases h
      · split at h <;> cases h
      · split at h
        · cases h
        · split at h
          · cases h
          · split at h
            · split at h
              · cases h
              · split at h
                · rename_i hn
                  cases h; exact hn
                · cases h
            · cases h
    rw [if_neg h5] at h
    by_cases h7 : op = .func_call
    · simp [is_call_expr, h1, h2, h3, h7] at hcall
    · rw [if_neg h7] at h
      cases h

/-- An `if` or `while` statement that is accepted has a condition that `expr_checker`
accepts against the expected type `num`. -/
theorem semanticer_child_cond_ok (labels_table : List Label) (ast_node_stack : List AST)
    (op : ASTOp) (cond : AST) (rest : List AST) (hop : op = .if_ ∨ op = .while_)
    (h : semanticer_child labels_table ast_node_stack (.node .action op (cond :: rest)) = .ok ()) :
    ∃ r, expr_checker labels_table ast_node_stack cond (.str "num") = .ok r := by
  rw [semanticer_child_node] at h
  rcases hop with rfl | rfl
  · rw [if_pos rfl, if_neg (by decide), if_neg (by decide), if_pos rfl] at h
    rcases rest with _ | ⟨t, rest'⟩
    · cases h
    · dsimp only at h
      split at h
      · cases h
      · split at h
        · cases h
        · rename_i r hr
          exact ⟨r, hr⟩
  · rw [if_pos rfl, if_neg (by decide), if_neg (by decide), if_neg (by decide), if_pos rfl] at h
    rcases rest with _ | ⟨t, rest'⟩
    · cases h
    · dsimp only at h
      split at h
      · cases h
      · split at h
        · cases h
        · rename_i r hr
          exact ⟨r, hr⟩

/-- The analyzer rejects every `if` and every `while` statement whose condition is not
a call expression and does not have the reference type `num`. -/
theorem condition_checked_num (labels_table : List Label) (ast_node_stack : List AST)
    (op : ASTOp) (cond : AST) (rest : List AST) (hop : op = .if_ ∨ op = .while_)
    (hcall : is_call_expr cond = false)
    (htype : expr_type labels_table (root_body_of ast_node_stack) cond ≠ some .num) :
    semanticer_child labels_table ast_node_stack (.node .action op (cond :: rest)) ≠ .ok () := by
  intro h
  obtain ⟨r, hr⟩ := semanticer_child_cond_ok labels_table ast_node_stack op cond rest hop h
  have hnum := expr_checker_num labels_table ast_node_stack cond r hr hcall
  exact htype (expr_checker_type labels_table ast_node_stack cond _ r .num hr hnum)

/-- The `func_call` branch of `expr_checker` does not read the expected type. -/
theorem expr_checker_call (labels_table : List Label) (ast_node_stack : List AST) (cond : AST)
    (t : Val) (hcall : is_call_expr cond = true) :
    expr_checker labels_table ast_node_stack cond t
      = expr_checker labels_table ast_node_stack cond (.str "num") := by
  cases cond with
  | str _ => cases hcall
  | num _ => cases hcall
  | node ty op body =>
    simp only [is_call_expr, decide_eq_true_eq] at hcall
    obtain ⟨h1, h2, h3, h4⟩ := hcall
    subst h4
    rw [expr_checker_node, expr_checker_node]
    simp only [if_neg h1, if_neg h2, if_neg h3]
    rfl

/-- C17 (the `if` and `while` branches of `semanticer` discard the type that
`expr_checker` returns, where the `assign` branch compares it with the type it
expects): a condition that is not a call expression and does not have the reference
type `num` is rejected, as claimed; for a call expression `expr_checker` returns the
same result under every expected type, and an `if` or a `while` whose condition is a
call that checks, with whatever type `r` as its result, gets the verdict of its blocks
alone.  The `if` whose condition is a call of the function `f` declared `str` is
accepted, the type of its condition being `str`; the assignment `num x = f();` of the
same call is rejected. -/
theorem call_condition_type_discarded :
    (∀ (labels_table : List Label) (ast_node_stack : List AST) (op : ASTOp) (cond : AST)
        (rest : List AST), (op = .if_ ∨ op = .while_) → is_call_expr cond = false →
        expr_type labels_table (root_body_of ast_node_stack) cond ≠ some .num →
        semanticer_child labels_table ast_node_stack (.node .action op (cond :: rest))
          ≠ .ok ()) ∧
    (∀ (labels_table : List Label) (ast_node_stack : List AST) (cond : AST) (t : Val),
        is_call_expr cond = true →
        expr_checker labels_table ast_node_stack cond t
          = expr_checker labels_table ast_node_stack cond (.str "num")) ∧
    (∀ (labels_table : List Label) (ast_node_stack : List AST) (cond : AST) (bty : ASTType)
        (bop : ASTOp) (bbody rest : List AST) (t r : Val),
        is_call_expr cond = true →
        expr_checker labels_table ast_node_stack cond t = .ok r →
        semanticer_child labels_table ast_node_stack
            (.node .action .if_ (cond :: .node bty bop bbody :: rest))
          = match semanticer labels_table
                (ast_node_stack ++ [.node .action .if_ (cond :: .node bty bop bbody :: rest)])
                (.node bty bop bbody) with
            | .error e => .error e
            | .ok _ =>
              match rest with
              | [if_else_ast] =>
                semanticer labels_table
                  (ast_node_stack ++ [.node .action .if_ (cond :: .node bty bop bbody :: rest)])
                  if_else_ast
              | _ => .ok ()) ∧
    (∀ (labels_table : List Label) (ast_node_stack : List AST) (cond : AST) (bty : ASTType)
        (bop : ASTOp) (bbody rest : List AST) (t r : Val),
        is_call_expr cond = true →
        expr_checker labels_table ast_node_stack cond t = .ok r →
        semanticer_child labels_table ast_node_stack
            (.node .action .while_ (cond :: .node bty bop bbody :: rest))
          = semanticer labels_table
              (ast_node_stack ++ [.node .action .while_ (cond :: .node bty bop bbody :: rest)])
              (.node bty bop bbody)) ∧
    analyze (.node .program .none call_cond_statements) call_cond_labels = .ok () ∧
    expr_type call_cond_labels call_cond_statements
      (.node .action .func_call [.node .target .none [.num 1]]) = some .str ∧
    analyze (.node .program .none call_assign_statements) call_assign_labels
      = .error .throws := by
  refine ⟨?_, ?_, ?_, ?_, by decide, by decide, by decide⟩
  · intro labels_table ast_node_stack op cond rest hop hcall htype
    exact condition_checked_num labels_table ast_node_stack op cond rest hop hcall htype
  · intro labels_table ast_node_stack cond t hcall
    exact expr_checker_call labels_table ast_node_stack cond t hcall
  · intro labels_table ast_node_stack cond bty bop bbody rest t r hcall hr
    rw [expr_checker_call labels_table ast_node_stack cond t hcall] at hr
    rw [semanticer_child_node]
    rw [if_pos rfl, if_neg (by decide), if_neg (by decide), if_pos rfl]
    cases cond with
    | str _ => cases hcall
    | num _ => cases hcall
    | node cty cop cbody =>
      simp only [is_payload, hr]
      rfl
  · intro labels_table ast_node_stack cond bty bop bbody rest t r hcall hr
    rw [expr_checker_call labels_table ast_node_stack cond t hcall] at hr
    rw [semanticer_child_node]
    rw [if_pos rfl, if_neg (by decide), if_neg (by decide), if_neg (by decide), if_pos rfl]
    cases cond with
    | str _ => cases hcall
    | num _ => cases hcall
    | node cty cop cbody =>
      simp only [is_payload, hr]
      rfl

/-! ## Rejection of arithmetic on strings -/

theorem has_str_arith_node (labels_table : List Label) (ty : ASTType) (op : ASTOp)
    (body : List AST) :
    has_str_arith labels_table (.node ty op body) =
    if is_leaf_type ty then false
    else if op = .func_call then
      match body with
      | _ :: args => has_str_arith_list labels_table args
      | [] => false
    else if is_arith_op op ∨ op = .add ∨ op = .equal ∨ op = .not_equal then
      match body with
      | left :: right :: _ =>
        (is_arith_op op && (is_str_operand labels_table left || is_str_operand labels_table right))
          || has_str_arith labels_table left || has_str_arith labels_table right
      | _ => false
    else false := by
  cases body with
  | nil => cases ty <;> cases op <;> rfl
  | cons a rest =>
    cases rest with
    | nil => cases a <;> cases ty <;> cases op <;> rfl
    | cons b rest' => cases a <;> cases ty <;> cases op <;> rfl

theorem has_str_arith_list_cons (labels_table : List Label) (a : AST) (rest : List AST) :
    has_str_arith_list labels_table (a :: rest)
      = (has_str_arith labels_table a || has_str_arith_list labels_table rest) := rfl

theorem stmt_has_str_arith_node (labels_table : List Label) (ty : ASTType) (op : ASTOp)
    (body : List AST) :
    stmt_has_str_arith labels_table (.node ty op body) =
    if ty = .action then
      if op = .assign then
        match body with
        | _ :: value :: _ => has_str_arith labels_table value
        | _ => false
      else if op = .if_ then
        match body with
        | cond :: if_true :: rest =>
          has_str_arith labels_table cond || block_has_str_arith labels_table if_true
            || (match rest with
                | [if_else] => block_has_str_arith labels_table if_else
                | _ => false)
        | _ => false
      else if op = .while_ then
        match body with
        | cond :: while_body :: _ =>
          has_str_arith labels_table cond || block_has_str_arith labels_table while_body
        | _ => false
      else if op = .return_ then
        match body with
        | [value] => has_str_arith labels_table value
        | _ => false
      else false
    else if ty = .function then last_has_str_arith labels_table body
    else false := by
  cases body with
  | nil => cases ty <;> cases op <;> rfl
  | cons a rest =>
    cases rest with
    | nil => cases a <;> cases ty <;> cases op <;> rfl
    | cons b rest' =>
      cases rest' with
      | nil => cases a <;> cases ty <;> cases op <;> rfl
      | cons c rest'' =>
        cases rest'' with
        | nil => cases a <;> cases ty <;> cases op <;> rfl
        | cons d rest3 => cases a <;> cases ty <;> cases op <;> rfl

theorem block_has_str_arith_node (labels_table : List Label) (ty : ASTType) (op : ASTOp)
    (body : List AST) :
    block_has_str_arith labels_table (.node ty op body)
      = body_has_str_arith labels_table body := by
  cases body <;> rfl

theorem body_has_str_arith_cons (labels_table : List Label) (a : AST) (rest : List AST) :
    body_has_str_arith labels_table (a :: rest)
      = (stmt_has_str_arith labels_table a || body_has_str_arith labels_table rest) := rfl

theorem last_has_str_arith_single (labels_table : List Label) (a : AST) :
    last_has_str_arith labels_table [a] = block_has_str_arith labels_table a := rfl

theorem last_has_str_arith_cons (labels_table : List Label) (a b : AST) (rest : List AST) :
    last_has_str_arith labels_table (a :: b :: rest)
      = last_has_str_arith labels_table (b :: rest) := rfl

/-- A str-typed operand checks as `str` when it checks at all. -/
theorem expr_checker_str_operand (labels_table : List Label) (ast_node_stack : List AST)
    (ast : AST) (t v : Val) (hs : is_str_operand labels_table ast = true)
    (h : expr_checker labels_table ast_node_stack ast t = .ok v) : v = .str "str" := by
  cases ast with
  | str s => cases h
  | num n => cases h
  | node ty op body =>
    rw [expr_checker_node] at h
    by_cases h1 : ty = .number_iter
    · subst h1; simp [is_str_operand] at hs
    rw [if_neg h1] at h
    by_cases h2 : ty = .string_iter
    · rw [if_pos h2] at h
      split at h
      · cases h
      · split at h
        · split at h
          · cases h
          · cases h; rfl
        · cases h
    rw [if_neg h2] at h
    by_cases h3 : ty = .target
    · subst h3
      rw [if_pos rfl] at h
      simp only [is_str_operand] at hs
      split at h
      · cases h
      · rename_i l hl
        rw [hl] at hs
        simp only [decide_eq_true_eq] at hs
        split at h
        · cases h
        · split at h
          · cases h
          · cases h
            rw [hs]; rfl
    · cases ty <;>
        first
        | exact absurd rfl h1
        | exact absurd rfl h2
        | exact absurd rfl h3
        | simp [is_str_operand] at hs

/-- The first part of C16, for every expected type: `expr_checker` fails on a `sub`,
`mul`, `div`, `gt`, `gte`, `lt` or `lte` node with a str-typed operand on either side. -/
theorem expr_checker_str_arith (labels_table : List Label) (ast_node_stack : List AST)
    (ty : ASTType) (op : ASTOp) (left right : AST) (rest : List AST) (t v : Val)
    (hty : is_leaf_type ty = false) (hop : is_arith_op op = true)
    (hs : is_str_operand labels_table left = true ∨ is_str_operand labels_table right = true) :
    expr_checker labels_table ast_node_stack (.node ty op (left :: right :: rest)) t ≠ .ok v := by
  intro h
  rw [expr_checker_node] at h
  have h1 : ty ≠ .number_iter := by rintro rfl; cases hty
  have h2 : ty ≠ .string_iter := by rintro rfl; cases hty
  have h3 : ty ≠ .target := by rintro rfl; cases hty
  have h4 : ¬ (op = .add ∨ op = .equal ∨ op = .not_equal) := by
    rintro (h | h | h) <;> subst h <;> cases hop
  have h5 : op = .sub ∨ op = .mul ∨ op = .div ∨ op = .gt ∨ op = .gte ∨ op = .lt ∨ op = .lte := by
    cases op <;> simp [is_arith_op] at hop ⊢
  rw [if_neg h1, if_neg h2, if_neg h3, if_neg h4, if_pos h5] at h
  dsimp only at h
  split at h
  · cases h
  · rename_i r1 hl
    split at h
    · cases h
    · rename_i r2 hr
      split at h
      · rename_i he
        split at h
        · cases h
        · split at h
          · rename_i hnum
            rcases hs with hs | hs
            · have := expr_checker_str_operand _ _ _ _ _ hs hl
              rw [this] at hnum
              simp at hnum
            · have := expr_checker_str_operand _ _ _ _ _ hs hr
              rw [← he, hnum] at this
              simp at this
          · cases h
      · cases h

theorem rejects_str_arith_args (labels_table : List Label) (args : List AST)
    (ih : ∀ a ∈ args, RejectsStrArith labels_table a)
    (h : has_str_arith_list labels_table args = true) :
    ∀ (ast_node_stack : List AST) (func_decl_args_info : List AST),
      expr_checker_args labels_table ast_node_stack args func_decl_args_info ≠ .ok () := by
  induction args with
  | nil => cases h
  | cons a rest ihr =>
    intro stack decls hok
    rw [expr_checker_args_cons] at hok
    rw [has_str_arith_list_cons, Bool.or_eq_true] at h
    split at hok
    · cases hok
    · cases hok
    · rename_i aty aop abody
      split at hok
      · cases hok
      · split at hok
        · split at hok
          · cases hok
          · split at hok
            · cases hok
            · rename_i v hv
              rcases h with h | h
              · exact (ih _ (List.mem_cons_self _ _)).1 h stack _ v hv
              · exact ihr (fun x hx => ih x (List.mem_cons_of_mem _ hx)) h stack _ hok
        · cases hok

theorem rejects_str_arith_body (labels_table : List Label) (body : List AST)
    (ih : ∀ a ∈ body, RejectsStrArith labels_table a)
    (h : body_has_str_arith labels_table body = true) :
    ∀ ast_node_stack : List AST, semanticer_body labels_table ast_node_stack body ≠ .ok () := by
  induction body with
  | nil => cases h
  | cons a rest ihr =>
    intro stack hok
    rw [semanticer_body_cons] at hok
    rw [body_has_str_arith_cons, Bool.or_eq_true] at h
    split at hok
    · cases hok
    · rename_i u hu
      rcases h with h | h
      · exact (ih _ (List.mem_cons_self _ _)).2.1 h stack hu
      · exact ihr (fun x hx => ih x (List.mem_cons_of_mem _ hx)) h stack hok

theorem rejects_str_arith_last (labels_table : List Label) (body : List AST)
    (ih : ∀ a ∈ body, RejectsStrArith labels_table a)
    (h : last_has_str_arith labels_table body = true) :
    ∀ ast_node_stack : List AST, semanticer_last labels_table ast_node_stack body ≠ .ok () := by
  induction body with
  | nil => cases h
  | cons a rest ihr =>
    intro stack hok
    cases rest with
    | nil =>
      rw [semanticer_last_single] at hok
      rw [last_has_str_arith_single] at h
      exact (ih _ (List.mem_cons_self _ _)).2.2 h stack hok
    | cons b rest' =>
      rw [semanticer_last_cons] at hok
      rw [last_has_str_arith_cons] at h
      exact ihr (fun x hx => ih x (List.mem_cons_of_mem _ hx)) h stack hok

/-- A binary node that checks has two operands that check. -/
theorem expr_checker_binary_ok (labels_table : List Label) (ast_node_stack : List AST)
    (ty : ASTType) (op : ASTOp) (left right : AST) (rest : List AST) (t v : Val)
    (hty : is_leaf_type ty = false)
    (hop : is_arith_op op = true ∨ op = .add ∨ op = .equal ∨ op = .not_equal)
    (h : expr_checker labels_table ast_node_stack (.node ty op (left :: right :: rest)) t = .ok v) :
    ∃ r1 r2, expr_checker labels_table ast_node_stack left t = .ok r1 ∧
      expr_checker labels_table ast_node_stack right t = .ok r2 := by
  rw [expr_checker_node] at h
  have h1 : ty ≠ .number_iter := by rintro rfl; cases hty
  have h2 : ty ≠ .string_iter := by rintro rfl; cases hty
  have h3 : ty ≠ .target := by rintro rfl; cases hty
  rw [if_neg h1, if_neg h2, if_neg h3] at h
  by_cases h4 : op = .add ∨ op = .equal ∨ op = .not_equal
  · rw [if_pos h4] at h
    dsimp only at h
    split at h
    · cases h
    · rename_i r1 hl
      split at h
      · cases h
      · rename_i r2 hr
        exact ⟨r1, r2, hl, hr⟩
  · rw [if_neg h4] at h
    have h5 : op = .sub ∨ op = .mul ∨ op = .div ∨ op = .gt ∨ op = .gte ∨ op = .lt ∨ op = .lte := by
      rcases hop with hop | hop
      · cases op <;> simp [is_arith_op] at hop ⊢
      · exact absurd hop h4
    rw [if_pos h5] at h
    dsimp only at h
    split at h
    · cases h
    · rename_i r1 hl
      split at h
      · cases h
      · rename_i r2 hr
        exact ⟨r1, r2, hl, hr⟩

/-- A call that checks has arguments that check against the declared parameters. -/
theorem expr_checker_call_ok (labels_table : List Label) (ast_node_stack : List AST)
    (ty : ASTType) (target : AST) (args : List AST) (t v : Val)
    (hty : is_leaf_type ty = false)
    (h : expr_checker labels_table ast_node_stack (.node ty .func_call (target :: args)) t
      = .ok v) :
    ∃ func_decl_args_info,
      expr_checker_args labels_table ast_node_stack args func_decl_args_info = .ok () := by
  rw [expr_checker_node] at h
  have h1 : ty ≠ .number_iter := by rintro rfl; cases hty
  have h2 : ty ≠ .string_iter := by rintro rfl; cases hty
  have h3 : ty ≠ .target := by rintro rfl; cases hty
  rw [if_neg h1, if_neg h2, if_neg h3, if_neg (by decide), if_neg (by decide), if_pos rfl] at h
  split at h
  · cases h
  · cases h
  · split at h
    · split at h
      · cases h
      · split at h
        · cases h
        · split at h
          · cases h
          · dsimp only at h
            split at h
            · cases h
            · rename_i u hu
              exact ⟨_, hu⟩
      · cases h
    · cases h

/-- What the `if` branch of `semanticer` has checked when it accepts. -/
theorem semanticer_child_if_ok (labels_table : List Label) (ast_node_stack : List AST)
    (cond if_true : AST) (rest : List AST)
    (h : semanticer_child labels_table ast_node_stack
      (.node .action .if_ (cond :: if_true :: rest)) = .ok ()) :
    (∃ r, expr_checker labels_table ast_node_stack cond (.str "num") = .ok r) ∧
    semanticer labels_table
      (ast_node_stack ++ [.node .action .if_ (cond :: if_true :: rest)]) if_true = .ok () ∧
    ∀ if_else, rest = [if_else] →
      semanticer labels_table
        (ast_node_stack ++ [.node .action .if_ (cond :: if_true :: rest)]) if_else = .ok () := by
  rw [semanticer_child_node] at h
  rw [if_pos rfl, if_neg (by decide), if_neg (by decide), if_pos rfl] at h
  dsimp only at h
  split at h
  · cases h
  · split at h
    · cases h
    · rename_i r hr
      split at h
      · cases h
      · rename_i u hu
        refine ⟨⟨r, hr⟩, hu, ?_⟩
        intro e he
        subst he
        exact h

/-- What the `while` branch of `semanticer` has checked when it accepts. -/
theorem semanticer_child_while_ok (labels_table : List Label) (ast_node_stack : List AST)
    (cond while_body : AST) (rest : List AST)
    (h : semanticer_child labels_table ast_node_stack
      (.node .action .while_ (cond :: while_body :: rest)) = .ok ()) :
    (∃ r, expr_checker labels_table ast_node_stack cond (.str "num") = .ok r) ∧
    semanticer labels_table
      (ast_node_stack ++ [.node .action .while_ (cond :: while_body :: rest)]) while_body
        = .ok () := by
  rw [semanticer_child_node] at h
  rw [if_pos rfl, if_neg (by decide), if_neg (by decide), if_neg (by decide), if_pos rfl] at h
  dsimp only at h
  split at h
  · cases h
  · split at h
    · cases h
    · rename_i r hr
      exact ⟨⟨r, hr⟩, h⟩

/-- What the `return` branch of `semanticer` has checked when it accepts a `return` with
one value. -/
theorem semanticer_child_return_ok (labels_table : List Label) (ast_node_stack : List AST)
    (value : AST)
    (h : semanticer_child labels_table ast_node_stack (.node .action .return_ [value]) = .ok ()) :
    ∃ fty fop fb return_type r,
      (ast_node_stack.reverse).find? is_function_scope = some (.node fty fop fb) ∧
      declared_return_type fb = .ok return_type ∧
      expr_checker labels_table ast_node_stack value return_type = .ok r := by
  rw [semanticer_child_node] at h
  rw [if_pos rfl, if_neg (by decide), if_neg (by decide), if_neg (by decide),
    if_neg (by decide), if_neg (by decide), if_pos rfl] at h
  unfold check_return at h
  split at h
  · rename_i fty fop fb hscope
    rw [if_pos (by simp), if_pos (by simp)] at h
    split at h
    · cases h
    · rename_i return_type hrt
      split at h
      · cases h
      · rename_i r hr
        exact ⟨fty, fop, fb, return_type, r, hscope, hrt, hr⟩
  · cases h

/-- What the `function` branch of `semanticer` has checked when it accepts. -/
theorem semanticer_child_function_ok (labels_table : List Label) (ast_node_stack : List AST)
    (op : ASTOp) (body : List AST)
    (h : semanticer_child labels_table ast_node_stack (.node .function op body) = .ok ()) :
    semanticer_last labels_table (ast_node_stack ++ [.node .function op body]) body = .ok () := by
  rw [semanticer_child_node] at h
  rw [if_neg (by decide), if_pos rfl] at h
  split at h
  · cases h
  · cases h
  · split at h
    · cases h
    · split at h
      · split at h
        · cases h
        · exact h
      · cases h

/-- No expression, statement or block that holds a `sub`, `mul`, `div`, `gt`, `gte`, `lt`
or `lte` node with a str-typed operand in a checked expression position is accepted. -/
theorem rejects_str_arith (labels_table : List Label) (ast : AST) :
    RejectsStrArith labels_table ast := by
  refine AST.induct (P := RejectsStrArith labels_table) ?_ ?_ ?_ ast
  · intro s
    exact And.intro (fun h => by cases h) (And.intro (fun h => by cases h) (fun h => by cases h))
  · intro n
    exact And.intro (fun h => by cases h) (And.intro (fun h => by cases h) (fun h => by cases h))
  · intro ty op body ih
    refine And.intro ?_ (And.intro ?_ ?_)
    · intro h stack t v hok
      rw [has_str_arith_node] at h
      by_cases hleaf : is_leaf_type ty = true
      · rw [if_pos hleaf] at h; cases h
      rw [if_neg hleaf] at h
      simp only [Bool.not_eq_true] at hleaf
      by_cases hcall : op = .func_call
      · rw [if_pos hcall] at h
        subst hcall
        rcases body with _ | ⟨target, args⟩
        · cases h
        · obtain ⟨decls, hd⟩ := expr_checker_call_ok _ _ _ _ _ _ _ hleaf hok
          exact rejects_str_arith_args labels_table args
            (fun x hx => ih x (List.mem_cons_of_mem _ hx)) h stack decls hd
      rw [if_neg hcall] at h
      by_cases hbin : is_arith_op op = true ∨ op = .add ∨ op = .equal ∨ op = .not_equal
      · rw [if_pos hbin] at h
        rcases body with _ | ⟨left, _ | ⟨right, rest⟩⟩
        · cases h
        · cases h
        · dsimp only at h
          simp only [Bool.or_eq_true, Bool.and_eq_true] at h
          obtain ⟨r1, r2, hl, hr⟩ := expr_checker_binary_ok _ _ _ _ _ _ _ _ _ hleaf hbin hok
          rcases h with (⟨hop, hs⟩ | hl') | hr'
          · exact expr_checker_str_arith _ _ _ _ _ _ _ _ _ hleaf hop hs hok
          · exact (ih left (by simp)).1 hl' stack t r1 hl
          · exact (ih right (by simp)).1 hr' stack t r2 hr
      · rw [if_neg hbin] at h; cases h
    · intro h stack hok
      rw [stmt_has_str_arith_node] at h
      by_cases hact : ty = .action
      · rw [if_pos hact] at h
        subst hact
        by_cases h1 : op = .assign
        · rw [if_pos h1] at h
          subst h1
          obtain ⟨top, tb, e, rest, label, hb, _, hc⟩ :=
            semanticer_child_assign_ok labels_table stack body hok
          subst hb
          exact (ih e (by simp)).1 h stack _ _ hc
        rw [if_neg h1] at h
        by_cases h2 : op = .if_
        · rw [if_pos h2] at h
          subst h2
          rcases body with _ | ⟨cond, _ | ⟨t, rest⟩⟩
          · cases h
          · cases h
          · dsimp only at h
            simp only [Bool.or_eq_true] at h
            obtain ⟨⟨r, hr⟩, ht, he⟩ := semanticer_child_if_ok _ _ _ _ _ hok
            rcases h with (hc | hb) | hel
            · exact (ih cond (by simp)).1 hc stack _ r hr
            · exact (ih t (by simp)).2.2 hb _ ht
            · rcases rest with _ | ⟨e, _ | ⟨e2, rest'⟩⟩
              · cases hel
              · exact (ih e (by simp)).2.2 hel _ (he e rfl)
              · cases hel
        rw [if_neg h2] at h
        by_cases h3 : op = .while_
        · rw [if_pos h3] at h
          subst h3
          rcases body with _ | ⟨cond, _ | ⟨b, rest⟩⟩
          · cases h
          · cases h
          · dsimp only at h
            simp only [Bool.or_eq_true] at h
            obtain ⟨⟨r, hr⟩, hb⟩ := semanticer_child_while_ok _ _ _ _ _ hok
            rcases h with hc | hbl
            · exact (ih cond (by simp)).1 hc stack _ r hr
            · exact (ih b (by simp)).2.2 hbl _ hb
        rw [if_neg h3] at h
        by_cases h4 : op = .return_
        · rw [if_pos h4] at h
          subst h4
          rcases body with _ | ⟨value, _ | ⟨x, rest⟩⟩
          · cases h
          · dsimp only at h
            obtain ⟨_, _, _, rt, r, _, _, hr⟩ := semanticer_child_return_ok _ _ _ hok
            exact (ih value (by simp)).1 h stack rt r hr
          · cases h
        rw [if_neg h4] at h
        cases h
      rw [if_neg hact] at h
      by_cases hfun : ty = .function
      · rw [if_pos hfun] at h
        subst hfun
        exact rejects_str_arith_last labels_table body ih h _
          (semanticer_child_function_ok _ _ _ _ hok)
      · rw [if_neg hfun] at h; cases h
    · intro h stack hok
      rw [block_has_str_arith_node] at h
      rw [semanticer_node] at hok
      split at hok
      · cases hok
      · exact rejects_str_arith_body labels_table body ih h stack hok

/-- C16: for every expected type, `expr_checker` fails on every `sub`, `mul`, `div`,
`gt`, `gte`, `lt` or `lte` node with a str-typed operand (a string literal or a Target of
kind `str`) on either side; and the analyzer accepts no program that holds such a node in
a checked expression position (the value of an assignment, the condition of an `if` or
`while`, the value of a `return`, at any depth of operands, call arguments and blocks). -/
theorem str_arith_rejected (labels_table : List Label) :
    (∀ (ast_node_stack : List AST) (ty : ASTType) (op : ASTOp) (left right : AST)
        (rest : List AST) (t v : Val),
        is_leaf_type ty = false → is_arith_op op = true →
        is_str_operand labels_table left = true ∨ is_str_operand labels_table right = true →
        expr_checker labels_table ast_node_stack (.node ty op (left :: right :: rest)) t
          ≠ .ok v) ∧
    (∀ ast : AST, block_has_str_arith labels_table ast = true →
        analyze ast labels_table ≠ .ok ()) :=
  ⟨fun stack ty op left right rest t v hty hop hs =>
      expr_checker_str_arith labels_table stack ty op left right rest t v hty hop hs,
    fun ast h => (rejects_str_arith labels_table ast).2.2 h [ast]⟩

/-! ## Runs of a function body with and without `return` -/

theorem generate_fall_program (labels_table : List Label) (x f : Int) (lx lf : Label)
    (d1 d2 : String) (n1 n2 : Int)
    (hx : labels_table.find? (fun l => decide (l.id = x)) = some lx)
    (hf : labels_table.find? (fun l => decide (l.id = f)) = some lf)
    (h1 : to_number (some (.str d1)) = .ok (.num n1))
    (h2 : to_number (some (.str d2)) = .ok (.num n2)) :
    generate [] (fall_program x f d1 d2) labels_table
      = .ok ⟨fall_code lx.name lf.name n1 n2, [(lf.name, 4)], [], [], []⟩ := by
  have g1 : ∀ (lt : List Label) (sc : List AST),
      expr_generator lt sc (Expr.lit d1).ast = .ok [⟨.load_const, .num n1⟩] := by
    intro lt sc
    rw [expr_generator_lit, h1]
  have g2 : ∀ (lt : List Label) (sc : List AST),
      expr_generator lt sc (Expr.lit d2).ast = .ok [⟨.load_const, .num n2⟩] := by
    intro lt sc
    rw [expr_generator_lit, h2]
  simp only [generate, fall_program, code_generator_node, code_generator_body_cons,
    code_generator_body_nil, code_generator_stmt_assign, code_generator_stmt_node,
    code_generator_last_cons, code_generator_last_single, expr_generator_at, List.tail,
    g1, g2, expr_generator_node, find_label, find_label_of, List.head?,
    hx, hf, if_true, label_name, function_key]
  simp [fall_code, Dict.set, binary_action, expr_generator_args]

theorem generate_ret_program (labels_table : List Label) (x f : Int) (lx lf : Label)
    (d1 d2 : String) (n1 n2 : Int)
    (hx : labels_table.find? (fun l => decide (l.id = x)) = some lx)
    (hf : labels_table.find? (fun l => decide (l.id = f)) = some lf)
    (h1 : to_number (some (.str d1)) = .ok (.num n1))
    (h2 : to_number (some (.str d2)) = .ok (.num n2)) :
    generate [] (ret_program x f d1 d2) labels_table
      = .ok ⟨ret_code lx.name lf.name n1 n2, [(lf.name, 4)], [], [], []⟩ := by
  have g1 : ∀ (lt : List Label) (sc : List AST),
      expr_generator lt sc (Expr.lit d1).ast = .ok [⟨.load_const, .num n1⟩] := by
    intro lt sc
    rw [expr_generator_lit, h1]
  have g2 : ∀ (lt : List Label) (sc : List AST),
      expr_generator lt sc (Expr.lit d2).ast = .ok [⟨.load_const, .num n2⟩] := by
    intro lt sc
    rw [expr_generator_lit, h2]
  simp only [generate, ret_program, code_generator_node, code_generator_body_cons,
    code_generator_body_nil, code_generator_stmt_assign, code_generator_stmt_node,
    code_generator_last_cons, code_generator_last_single, expr_generator_at, List.tail,
    g1, g2, expr_generator_target, expr_generator_node, find_label, find_label_of, List.head?,
    hx, hf, if_true, label_name, function_key]
  simp [ret_code, Dict.set, binary_action, expr_generator_args]

/-- A run that stays in a set of states closed under `step`, none of them final,
uses up every step budget. -/
theorem run_out_of_fuel (code : List OPCodeT) (function_map : FunctionMap)
    (Inv : VMState → Prop)
    (hstep : ∀ st, Inv st → st.ip ≠ (code.length : Int) ∧
      ∃ st', step code function_map st = .ok st' ∧ Inv st') :
    ∀ (fuel : Nat) (st : VMState), Inv st → run code function_map fuel st = .error .out_of_fuel := by
  intro fuel
  induction fuel with
  | zero =>
    intro st h
    simp [run, (hstep st h).1]
  | succ fuel ih =>
    intro st h
    obtain ⟨hne, st', hs, hi⟩ := hstep st h
    simp only [run, if_neg hne, hs]
    exact ih st' hi

/-- Every index fetched by such a run is the `ip` of a state of the set. -/
theorem trace_within (code : List OPCodeT) (function_map : FunctionMap)
    (Inv : VMState → Prop)
    (hstep : ∀ st, Inv st → st.ip ≠ (code.length : Int) ∧
      ∃ st', step code function_map st = .ok st' ∧ Inv st') :
    ∀ (fuel : Nat) (st : VMState), Inv st →
      ∀ i ∈ trace code function_map fuel st, ∃ st', Inv st' ∧ st'.ip = i := by
  intro fuel
  induction fuel with
  | zero => intro st _ i hi; simp [trace] at hi
  | succ fuel ih =>
    intro st h i hi
    obtain ⟨hne, st', hs, hinv⟩ := hstep st h
    simp only [trace, if_neg hne, hs, List.mem_cons] at hi
    rcases hi with rfl | hi
    · exact ⟨st, h, rfl⟩
    · exact ih st' hinv i hi

theorem falling_step (x f : String) (n1 n2 : Int) (hf : f ≠ "print") (st : VMState)
    (h : Falling x n1 n2 st) :
    st.ip ≠ ((fall_code x f n1 n2).length : Int) ∧
      ∃ st', step (fall_code x f n1 n2) [(f, 4)] st = .ok st' ∧ Falling x n1 n2 st' := by
  obtain ⟨ip, op, cs, ss, out⟩ := st
  simp only [Falling] at h
  rcases h with ⟨h1, h2, h3⟩ | ⟨h1, h2, h3⟩ | ⟨h1, h2, h3⟩ | ⟨h1, h2⟩ | ⟨h1, h2⟩ | ⟨h1, h2, h3⟩ |
    ⟨h1, h2, h3⟩ | ⟨h1, h2, h3⟩ | ⟨h1, h2, h3⟩
  all_goals (subst h1; subst h2)
  · exact ⟨by simp [fall_code], ⟨1, [.str x], cs, ss, out⟩,
      by simp [step, fall_code, exec, VMState.next], Or.inr (Or.inl ⟨rfl, rfl, h3⟩)⟩
  · exact ⟨by simp [fall_code], ⟨2, [.num n1, .str x], cs, ss, out⟩,
      by simp [step, fall_code, exec, VMState.next],
      Or.inr (Or.inr (Or.inl ⟨rfl, rfl, h3⟩))⟩
  · rcases ss with _ | ⟨scope, rest⟩
    · exact absurd rfl h3
    · exact ⟨by simp [fall_code], ⟨3, [], cs, Dict.set scope x (.num n1) :: rest, out⟩,
        by simp [step, fall_code, exec, pop, key_of, found_at_scope],
        Or.inr (Or.inr (Or.inr (Or.inl ⟨rfl, rfl⟩)))⟩
  · exact ⟨by simp [fall_code], ⟨7, [], cs, ss, out⟩,
      by simp [step, fall_code, exec, jump_step],
      Or.inr (Or.inr (Or.inr (Or.inr (Or.inl ⟨rfl, rfl⟩))))⟩
  · exact ⟨by simp [fall_code], ⟨8, [], cs, [] :: ss, out⟩,
      by simp [step, fall_code, exec],
      Or.inr (Or.inr (Or.inr (Or.inr (Or.inr (Or.inl ⟨rfl, rfl, by simp⟩)))))⟩
  · exact ⟨by simp [fall_code], ⟨4, [], 9 :: cs, ss, out⟩,
      by simp [step, fall_code, exec, key_of, builtins_functions, hf, Dict.get],
      Or.inr (Or.inr (Or.inr (Or.inr (Or.inr (Or.inr (Or.inl ⟨rfl, rfl, h3⟩))))))⟩
  · exact ⟨by simp [fall_code], ⟨5, [.str x], cs, ss, out⟩,
      by simp [step, fall_code, exec, VMState.next],
      Or.inr (Or.inr (Or.inr (Or.inr (Or.inr (Or.inr (Or.inr (Or.inl ⟨rfl, rfl, h3⟩)))))))⟩
  · exact ⟨by simp [fall_code], ⟨6, [.num n2, .str x], cs, ss, out⟩,
      by simp [step, fall_code, exec, VMState.next],
      Or.inr (Or.inr (Or.inr (Or.inr (Or.inr (Or.inr (Or.inr (Or.inr ⟨rfl, rfl, h3⟩)))))))⟩
  · rcases ss with _ | ⟨scope, rest⟩
    · exact absurd rfl h3
    · exact ⟨by simp [fall_code], ⟨7, [], cs, Dict.set scope x (.num n2) :: rest, out⟩,
        by simp [step, fall_code, exec, pop, key_of, found_at_scope],
        Or.inr (Or.inr (Or.inr (Or.inr (Or.inl ⟨rfl, rfl⟩))))⟩

/-- The run of `ret_code`: the assignment, the jump over the body, the call, the body
with its `ret`, and back to the two instructions after the call. -/
theorem ret_code_run (x f : String) (n1 n2 : Int) (hf : f ≠ "print") :
    Reaches (ret_code x f n1 n2) [(f, 4)] ⟨0, [], [], [[]], []⟩
      [0, 1, 2, 3, 10, 11, 4, 5, 6, 7, 8, 9, 12, 13]
      ⟨14, [], [], [[(x, .num n1)]], []⟩ := by
  have r0 := @Reaches.exec (ret_code x f n1 n2) [(f, 4)] ⟨0, [], [], [[]], []⟩
    ⟨1, [.str x], [], [[]], []⟩ _ _
    (show (ret_code x f n1 n2)[0]? = some ⟨.load_name, .str x⟩ from rfl) rfl (by simp [exec, VMState.next])
  have r1 := @Reaches.exec (ret_code x f n1 n2) [(f, 4)] ⟨1, [.str x], [], [[]], []⟩
    ⟨2, [.num n1, .str x], [], [[]], []⟩ _ _
    (show (ret_code x f n1 n2)[1]? = some ⟨.load_const, .num n1⟩ from rfl) rfl (by simp [exec, VMState.next])
  have r2 := @Reaches.exec (ret_code x f n1 n2) [(f, 4)] ⟨2, [.num n1, .str x], [], [[]], []⟩
    ⟨3, [], [], [[(x, .num n1)]], []⟩ _ _
    (show (ret_code x f n1 n2)[2]? = some ⟨.assign, .null⟩ from rfl) rfl (by simp [exec, pop, key_of, found_at_scope, Dict.set])
  have r3 := @Reaches.exec (ret_code x f n1 n2) [(f, 4)] ⟨3, [], [], [[(x, .num n1)]], []⟩
    ⟨10, [], [], [[(x, .num n1)]], []⟩ _ _
    (show (ret_code x f n1 n2)[3]? = some ⟨.jmp, .num 7⟩ from rfl) rfl (by simp [exec, jump_step])
  have r4 := @Reaches.exec (ret_code x f n1 n2) [(f, 4)] ⟨10, [], [], [[(x, .num n1)]], []⟩
    ⟨11, [], [], [[], [(x, .num n1)]], []⟩ _ _
    (show (ret_code x f n1 n2)[10]? = some ⟨.create_scope, .null⟩ from rfl) rfl (by simp [exec])
  have r5 := @Reaches.exec (ret_code x f n1 n2) [(f, 4)] ⟨11, [], [], [[], [(x, .num n1)]], []⟩
    ⟨4, [], [12], [[], [(x, .num n1)]], []⟩ _ _
    (show (ret_code x f n1 n2)[11]? = some ⟨.call, .str f⟩ from rfl) rfl (by simp [exec, key_of, builtins_functions, hf, Dict.get])
  have r6 := @Reaches.exec (ret_code x f n1 n2) [(f, 4)] ⟨4, [], [12], [[], [(x, .num n1)]], []⟩
    ⟨5, [.str x], [12], [[], [(x, .num n1)]], []⟩ _ _
    (show (ret_code x f n1 n2)[4]? = some ⟨.load_name, .str x⟩ from rfl) rfl (by simp [exec, VMState.next])
  have r7 := @Reaches.exec (ret_code x f n1 n2) [(f, 4)] ⟨5, [.str x], [12], [[], [(x, .num n1)]], []⟩
    ⟨6, [.num n2, .str x], [12], [[], [(x, .num n1)]], []⟩ _ _
    (show (ret_code x f n1 n2)[5]? = some ⟨.load_const, .num n2⟩ from rfl) rfl (by simp [exec, VMState.next])
  have r8 := @Reaches.exec (ret_code x f n1 n2) [(f, 4)] ⟨6, [.num n2, .str x], [12], [[], [(x, .num n1)]], []⟩
    ⟨7, [], [12], [[(x, .num n2)], [(x, .num n1)]], []⟩ _ _
    (show (ret_code x f n1 n2)[6]? = some ⟨.assign, .null⟩ from rfl) rfl (by simp [exec, pop, key_of, found_at_scope, Dict.set])
  have r9 := @Reaches.exec (ret_code x f n1 n2) [(f, 4)] ⟨7, [], [12], [[(x, .num n2)], [(x, .num n1)]], []⟩
    ⟨8, [.str x], [12], [[(x, .num n2)], [(x, .num n1)]], []⟩ _ _
    (show (ret_code x f n1 n2)[7]? = some ⟨.load_name, .str x⟩ from rfl) rfl (by simp [exec, VMState.next])
  have r10 := @Reaches.exec (ret_code x f n1 n2) [(f, 4)] ⟨8, [.str x], [12], [[(x, .num n2)], [(x, .num n1)]], []⟩
    ⟨9, [.num n2], [12], [[(x, .num n2)], [(x, .num n1)]], []⟩ _ _
    (show (ret_code x f n1 n2)[8]? = some ⟨.load_value, .null⟩ from rfl) rfl (by simp [exec, VMState.next, pop, key_of, lookup_value, Dict.get])
  have r11 := @Reaches.exec (ret_code x f n1 n2) [(f, 4)] ⟨9, [.num n2], [12], [[(x, .num n2)], [(x, .num n1)]], []⟩
    ⟨12, [.num n2], [], [[(x, .num n2)], [(x, .num n1)]], []⟩ _ _
    (show (ret_code x f n1 n2)[9]? = some ⟨.ret, .null⟩ from rfl) rfl (by simp [exec])
  have r12 := @Reaches.exec (ret_code x f n1 n2) [(f, 4)] ⟨12, [.num n2], [], [[(x, .num n2)], [(x, .num n1)]], []⟩
    ⟨13, [.num n2], [], [[(x, .num n1)]], []⟩ _ _
    (show (ret_code x f n1 n2)[12]? = some ⟨.delete_scope, .null⟩ from rfl) rfl (by simp [exec])
  have r13 := @Reaches.exec (ret_code x f n1 n2) [(f, 4)] ⟨13, [.num n2], [], [[(x, .num n1)]], []⟩
    ⟨14, [], [], [[(x, .num n1)]], []⟩ _ _
    (show (ret_code x f n1 n2)[13]? = some ⟨.seek, .num 1⟩ from rfl) rfl (by simp [exec, VMState.next])
  exact (((((((((((((r0.trans r1).trans r2).trans r3).trans r4).trans r5).trans r6).trans r7).trans r8).trans r9).trans r10).trans r11).trans r12).trans r13)

/-- The run of `fall_code` never stops, and never fetches the instruction after the
call (index 9). -/
theorem fall_code_diverges (x f : String) (n1 n2 : Int) (hf : f ≠ "print") (fuel : Nat) :
    vm fuel ⟨fall_code x f n1 n2, [(f, 4)], [], [], []⟩ = .error .out_of_fuel ∧
    (9 : Int) ∉ vm_trace fuel ⟨fall_code x f n1 n2, [(f, 4)], [], [], []⟩ := by
  have h0 : Falling x n1 n2 ⟨0, [], [], [[]], []⟩ := Or.inl ⟨rfl, rfl, by simp⟩
  refine ⟨run_out_of_fuel _ _ (Falling x n1 n2) (falling_step x f n1 n2 hf) fuel _ h0, ?_⟩
  intro h9
  obtain ⟨st', hinv, hip⟩ :=
    trace_within _ _ (Falling x n1 n2) (falling_step x f n1 n2 hf) fuel _ h0 9 h9
  simp only [Falling, hip] at hinv
  rcases hinv with h | h | h | h | h | h | h | h | h <;> exact absurd h.1 (by decide)

/-- C13 as stated fails: the program `num x = 1; num fn f() { x = 2; } f();` passes
the analyzer, and the run of its code uses up every step budget. -/
theorem fall_through_never_halts :
    analyze (fall_program 1 2 "1" "2") fall_labels = .ok () ∧
    generate [] (fall_program 1 2 "1" "2") fall_labels
      = .ok ⟨fall_code "x" "f" 1 2, [("f", 4)], [], [], []⟩ ∧
    ∀ fuel, vm fuel ⟨fall_code "x" "f" 1 2, [("f", 4)], [], [], []⟩ = .error .out_of_fuel :=
  ⟨by decide, by decide, fun fuel => (fall_code_diverges "x" "f" 1 2 (by decide) fuel).1⟩

/-- C13 (amended): for a program of the shape `x = d1; fn f() { x = d2; return x; } f();`,
whose function body ends with a `return` and whose literals `d1`, `d2` are read by the
generator as the numbers `n1`, `n2`, the run of the generated code stops at
`ip = code.length` after 14 steps, control having returned from the `ret` (index 9) to
the instruction after the call (index 12), with frame 0 holding `x = n1`; for the shape
without the `return`, `x = d1; fn f() { x = d2; } f();`, the run uses up every step
budget and never fetches the instruction after the call (index 9). -/
theorem function_needs_return (labels_table : List Label) (x f : Int) (lx lf : Label)
    (d1 d2 : String) (n1 n2 : Int)
    (hx : labels_table.find? (fun l => decide (l.id = x)) = some lx)
    (hf : labels_table.find? (fun l => decide (l.id = f)) = some lf)
    (h1 : to_number (some (.str d1)) = .ok (.num n1))
    (h2 : to_number (some (.str d2)) = .ok (.num n2))
    (hname : lf.name ≠ "print") :
    (∃ code_object, generate [] (ret_program x f d1 d2) labels_table = .ok code_object ∧
      ∀ fuel, 14 ≤ fuel →
        vm fuel code_object = .ok ⟨code_object.code.length, [], [],
          [[(lx.name, .num n1)]], []⟩ ∧
        vm_trace fuel code_object = [0, 1, 2, 3, 10, 11, 4, 5, 6, 7, 8, 9, 12, 13]) ∧
    (∃ code_object, generate [] (fall_program x f d1 d2) labels_table = .ok code_object ∧
      ∀ fuel, vm fuel code_object = .error .out_of_fuel ∧
        (9 : Int) ∉ vm_trace fuel code_object) := by
  refine ⟨⟨_, generate_ret_program labels_table x f lx lf d1 d2 n1 n2 hx hf h1 h2, ?_⟩,
    ⟨_, generate_fall_program labels_table x f lx lf d1 d2 n1 n2 hx hf h1 h2, ?_⟩⟩
  · intro fuel hfuel
    exact (ret_code_run lx.name lf.name _ _ hname).run_eq rfl fuel hfuel
  · intro fuel
    exact fall_code_diverges lx.name lf.name _ _ hname fuel

/-- Instance: the programs `num x = 1; num fn f() { x = 2; return x; } f();` and
`num x = 1; num fn f() { x = 2; } f();`. -/
theorem function_needs_return_witness :
    fall_labels.find? (fun l => decide (l.id = 1)) = some ⟨1, .num, "x", none⟩ ∧
    fall_labels.find? (fun l => decide (l.id = 2)) = some ⟨2, .fn, "f", some .num⟩ ∧
    to_number (some (.str "1")) = .ok (.num 1) ∧ to_number (some (.str "2")) = .ok (.num 2) ∧
    "f" ≠ "print" ∧
    (∃ code_object, generate [] (ret_program 1 2 "1" "2") fall_labels = .ok code_object ∧
      ∀ fuel, 14 ≤ fuel →
        vm fuel code_object = .ok ⟨code_object.code.length, [], [],
          [[("x", .num 1)]], []⟩ ∧
        vm_trace fuel code_object = [0, 1, 2, 3, 10, 11, 4, 5, 6, 7, 8, 9, 12, 13]) ∧
    (∃ code_object, generate [] (fall_program 1 2 "1" "2") fall_labels = .ok code_object ∧
      ∀ fuel, vm fuel code_object = .error .out_of_fuel ∧
        (9 : Int) ∉ vm_trace fuel code_object) :=
  ⟨by decide, by decide, by decide, by decide, by decide,
    function_needs_return fall_labels 1 2 ⟨1, .num, "x", none⟩ ⟨2, .fn, "f", some .num⟩ "1" "2"
      1 2 (by decide) (by decide) (by decide) (by decide) (by decide)⟩

/-! ## Runs of the analyzer and the generator on concrete programs -/

theorem code_generator_stmt_return (labels_table : List Label) (scopes : List AST)
    (function_map : FunctionMap) (code_length : Nat) (body : List AST) :
    code_generator_stmt labels_table scopes function_map code_length (.node .action .return_ body) =
      match expr_generator_at labels_table (scopes ++ [.node .action .return_ body]) body.head? with
      | .error e => .error e
      | .ok return_body_code => .ok (return_body_code ++ [⟨.ret, .null⟩], function_map) := by
  rw [code_generator_stmt_node]
  rfl

/-- C12 (defect of the `return` branch of `code_generator`, whose guard
`body.length >= 0` always holds): for a `return` with no value the generator throws
instead of emitting `[ret]`; for a `return` with a value it emits the code of the value
followed by `ret`; the program `num fn f() { return; }` passes the analyzer and makes
the generator throw. -/
theorem return_without_value_throws :
    (∀ (labels_table : List Label) (scopes : List AST) (function_map : FunctionMap)
        (code_length : Nat),
        code_generator_stmt labels_table scopes function_map code_length
          (.node .action .return_ []) = .error .throws) ∧
    (∀ (labels_table : List Label) (scopes : List AST) (function_map : FunctionMap)
        (code_length : Nat) (value : AST) (rest : List AST),
        code_generator_stmt labels_table scopes function_map code_length
          (.node .action .return_ (value :: rest)) =
        match expr_generator labels_table
            (scopes ++ [.node .action .return_ (value :: rest)]) value with
        | .error e => .error e
        | .ok return_body_code => .ok (return_body_code ++ [⟨.ret, .null⟩], function_map)) ∧
    analyze return_program return_labels = .ok () ∧
    generate [] return_program return_labels = .error .throws := by
  refine ⟨?_, ?_, by decide, by decide⟩
  · intro labels_table scopes function_map code_length
    rw [code_generator_stmt_return]
    rfl
  · intro labels_table scopes function_map code_length value rest
    rw [code_generator_stmt_return]
    rfl

/-- C11 (same defect of `assign` in `vm.js` as C2 and C3): in
`num fn f(num length) { return length; } num fn g() { f(1); return 0; } num r = g();` the
bare-statement call `f(1);` runs while the name token `r` lies on the operand stack, and
the assignment that binds the parameter `length` throws; with the parameter called `x`
the run ends with `r = 0`, and `print("hello");` leaves the operand stack empty and the
scope stack at depth 1. -/
theorem bare_call_argument_walks_operand_stack :
    analyze nested_program (nested_labels "length") = .ok () ∧
    (generate [] nested_program (nested_labels "length")).bind (vm 100) = .error .throws ∧
    exec [("f", 1), ("g", 5)] ⟨8, [.num 1, .str "length", .str "r"], [17], [[], [], []], []⟩
      ⟨.assign, .null⟩ = .error .throws ∧
    (generate [] nested_program (nested_labels "x")).bind (vm 100)
      = .ok ⟨19, [], [], [[("r", .num 0)]], []⟩ ∧
    (generate [] print_program print_labels).bind (vm 100)
      = .ok ⟨7, [], [], [[]], [[.str "hello"]]⟩ := by
  refine ⟨by decide, by decide, by decide, by decide, by decide⟩

/-- C15 (defect of the `equal`/`not_equal` branch of `expr_checker`, which compares the
type of the operands, not the type `num` of the comparison, with the expected type): the
program `str s = "hi"; if (s == "hi") { num x = 1; }` is rejected, as is every `if` whose
condition is an `equal` or `not_equal` node with a string literal as left operand;
against the expected type `str` the same comparison checks and yields `num`. -/
theorem str_equality_condition_rejected :
    analyze str_if_program str_if_labels = .error .throws ∧
    (∀ (labels_table : List Label) (ast_node_stack : List AST) (lop : ASTOp)
        (lbody : List AST) (right : AST) (crest rest : List AST),
        semanticer_child labels_table ast_node_stack
          (.node .action .if_
            (.node .action .equal (.node .string_iter lop lbody :: right :: crest) :: rest))
          ≠ .ok () ∧
        semanticer_child labels_table ast_node_stack
          (.node .action .if_
            (.node .action .not_equal (.node .string_iter lop lbody :: right :: crest) :: rest))
          ≠ .ok ()) ∧
    expr_checker str_if_labels []
      (.node .action .equal [.node .target .none [.num 1], .node .string_iter .none [.str "hi"]])
      (.str "str") = .ok (.str "num") := by
  refine ⟨by decide, ?_, by decide⟩
  intro labels_table stack lop lbody right crest rest
  have hleft : ∀ v, expr_checker labels_table stack (.node .string_iter lop lbody) (.str "num")
      ≠ .ok v := by
    intro v h
    rw [expr_checker_node] at h
    rw [if_neg (by decide), if_pos rfl] at h
    split at h
    · cases h
    · split at h
      · simp at h
      · cases h
  constructor
  · intro h
    obtain ⟨r, hr⟩ := semanticer_child_cond_ok _ _ .if_ _ _ (Or.inl rfl) h
    obtain ⟨r1, _, hl, _⟩ := expr_checker_binary_ok _ _ .action .equal _ _ _ _ _ rfl
      (Or.inr (Or.inr (Or.inl rfl))) hr
    exact hleft r1 hl
  · intro h
    obtain ⟨r, hr⟩ := semanticer_child_cond_ok _ _ .if_ _ _ (Or.inl rfl) h
    obtain ⟨r1, _, hl, _⟩ := expr_checker_binary_ok _ _ .action .not_equal _ _ _ _ _ rfl
      (Or.inr (Or.inr (Or.inr rfl))) hr
    exact hleft r1 hl

/-- C18 (same defect of the `equal`/`not_equal` branch of `expr_checker` as C15): the
program `str fn f() { return "a" == "b"; }` is accepted although the value of the
`return` has type `num` and `f` is declared `str`; the assignment `str s = "a" == "b";`,
whose branch compares the type that `expr_checker` returns, is rejected. -/
theorem str_function_returns_comparison :
    analyze str_return_program str_return_labels = .ok () ∧
    expr_type str_return_labels [] str_comparison = some .num ∧
    analyze str_assign_program str_if_labels = .error .throws := by
  refine ⟨by decide, by decide, by decide⟩

/-- C19 (defect of `semanticer`, whose statement dispatch has no `func_call` branch):
every bare-statement call is accepted whatever its arguments; the program
`num fn f(num a) { return a; } f(1, 2);` passes the analyzer and makes the generator
throw, while the same call as the value of an assignment is rejected. -/
theorem bare_call_unchecked :
    (∀ (labels_table : List Label) (ast_node_stack : List AST) (body : List AST),
        semanticer_child labels_table ast_node_stack (.node .action .func_call body) = .ok ()) ∧
    analyze arity_program arity_labels = .ok () ∧
    generate [] arity_program arity_labels = .error .throws ∧
    analyze arity_assign_program arity_labels = .error .throws := by
  refine ⟨?_, by decide, by decide, by decide⟩
  intro labels_table stack body
  rw [semanticer_child_node]
  rfl

/-- C20 (same defect of the `equal`/`not_equal` branch of `expr_checker` as C15): the
program `num fn f(str s) { return 1; } num r = f("a" == "b");` is accepted although the
argument has type `num` and the parameter `s` has kind `str`. -/
theorem str_parameter_takes_comparison :
    analyze str_arg_program str_arg_labels = .ok () ∧
    expr_type str_arg_labels [] str_comparison = some .num ∧
    find_label str_arg_labels (some (.num 2)) = some ⟨2, .str, "s", none⟩ := by
  refine ⟨by decide, by decide, by decide⟩

/-! ## Instances for the analyzer theorems -/

/-- Instance: the statement `c = a + b` of `num a = 1; num b = 2; num c = a + b;`. -/
theorem assignment_type_sound_witness :
    semanticer_child sum_labels [sum_program] (.node .action .assign sum_assignment) = .ok () ∧
    ∃ top tb e rest label,
      sum_assignment = .node .target top tb :: e :: rest ∧
      find_label sum_labels tb.head? = some label ∧
      expr_type sum_labels (root_body_of [sum_program]) e = some label.type :=
  ⟨by decide, assignment_type_sound sum_labels [sum_program] sum_assignment (by decide)⟩

/-- Instance: the node `1 - "a"` and the program `num x = 1 - "a";`. -/
theorem str_arith_rejected_witness :
    is_leaf_type .action = false ∧ is_arith_op .sub = true ∧
    (is_str_operand str_sub_labels (Expr.lit "1").ast = true ∨
      is_str_operand str_sub_labels (.node .string_iter .none [.str "a"]) = true) ∧
    expr_checker str_sub_labels []
      (.node .action .sub [(Expr.lit "1").ast, .node .string_iter .none [.str "a"]])
      (.str "num") ≠ .ok (.str "num") ∧
    block_has_str_arith str_sub_labels str_sub_program = true ∧
    analyze str_sub_program str_sub_labels ≠ .ok () :=
  ⟨rfl, rfl, Or.inr rfl,
    (str_arith_rejected str_sub_labels).1 [] .action .sub _ _ [] (.str "num") (.str "num")
      rfl rfl (Or.inr rfl),
    by decide,
    (str_arith_rejected str_sub_labels).2 str_sub_program (by decide)⟩

/-- Instance: the `if` with the string literal `"a"` as condition is rejected; the
call of `f`, declared `str`, checks to `str` under the expected types `str` and `num`,
and the `if` and the `while` with that call as condition and an empty block have the
verdict of the block. -/
theorem call_condition_type_discarded_witness :
    (ASTOp.if_ = .if_ ∨ ASTOp.if_ = .while_) ∧
    is_call_expr (.node .string_iter .none [.str "a"]) = false ∧
    expr_type sum_labels (root_body_of [sum_program]) (.node .string_iter .none [.str "a"])
      ≠ some .num ∧
    semanticer_child sum_labels [sum_program]
      (.node .action .if_ [.node .string_iter .none [.str "a"], .node .program .none []])
      ≠ .ok () ∧
    is_call_expr (.node .action .func_call [.node .target .none [.num 1]]) = true ∧
    expr_checker call_cond_labels [.node .program .none call_cond_statements]
        (.node .action .func_call [.node .target .none [.num 1]]) (.str "str")
      = .ok (.str "str") ∧
    expr_checker call_cond_labels [.node .program .none call_cond_statements]
        (.node .action .func_call [.node .target .none [.num 1]]) (.str "str")
      = expr_checker call_cond_labels [.node .program .none call_cond_statements]
        (.node .action .func_call [.node .target .none [.num 1]]) (.str "num") ∧
    semanticer_child call_cond_labels [.node .program .none call_cond_statements]
        (.node .action .if_
          [.node .action .func_call [.node .target .none [.num 1]], .node .program .none []])
      = .ok () ∧
    semanticer_child call_cond_labels [.node .program .none call_cond_statements]
        (.node .action .while_
          [.node .action .func_call [.node .target .none [.num 1]], .node .program .none []])
      = .ok () :=
  ⟨Or.inl rfl, rfl, by decide,
    call_condition_type_discarded.1 sum_labels [sum_program] .if_
      (.node .string_iter .none [.str "a"]) [.node .program .none []] (Or.inl rfl) rfl
      (by decide),
    rfl, by decide,
    call_condition_type_discarded.2.1 call_cond_labels
      [.node .program .none call_cond_statements]
      (.node .action .func_call [.node .target .none [.num 1]]) (.str "str") rfl,
    (call_condition_type_discarded.2.2.1 call_cond_labels
      [.node .program .none call_cond_statements]
      (.node .action .func_call [.node .target .none [.num 1]]) .program .none [] []
      (.str "str") (.str "str") rfl (by decide)).trans (by decide),
    (call_condition_type_discarded.2.2.2.1 call_cond_labels
      [.node .program .none call_cond_statements]
      (.node .action .func_call [.node .target .none [.num 1]]) .program .none [] []
      (.str "str") (.str "str") rfl (by decide)).trans (by decide)⟩

/-! ## Break, continue and return in their places -/

theorem stmt_visits_node (bad : List AST → AST → Bool) (ast_node_stack : List AST)
    (ty : ASTType) (op : ASTOp) (body : List AST) :
    stmt_visits bad ast_node_stack (.node ty op body) =
    (bad ast_node_stack (.node ty op body) ||
    (if ty = .action then
      if op = .if_ then
        match body with
        | _ :: if_true :: rest =>
          block_visits bad (ast_node_stack ++ [.node ty op body]) if_true
            || (match rest with
                | [if_else] => block_visits bad (ast_node_stack ++ [.node ty op body]) if_else
                | _ => false)
        | _ => false
      else if op = .while_ then
        match body with
        | _ :: while_body :: _ =>
          block_visits bad (ast_node_stack ++ [.node ty op body]) while_body
        | _ => false
      else false
    else if ty = .function then last_visits bad (ast_node_stack ++ [.node ty op body]) body
    else false)) := by
  cases body with
  | nil => cases ty <;> cases op <;> rfl
  | cons a rest =>
    cases rest with
    | nil => cases a <;> cases ty <;> cases op <;> rfl
    | cons b rest2 =>
      cases rest2 with
      | nil => cases a <;> cases ty <;> cases op <;> rfl
      | cons c rest3 =>
        cases rest3 with
        | nil => cases a <;> cases ty <;> cases op <;> rfl
        | cons d rest4 => cases a <;> cases ty <;> cases op <;> rfl

theorem block_visits_node (bad : List AST → AST → Bool) (ast_node_stack : List AST)
    (ty : ASTType) (op : ASTOp) (body : List AST) :
    block_visits bad ast_node_stack (.node ty op body) = body_visits bad ast_node_stack body := by
  cases body <;> rfl

theorem body_visits_cons (bad : List AST → AST → Bool) (ast_node_stack : List AST)
    (a : AST) (rest : List AST) :
    body_visits bad ast_node_stack (a :: rest)
      = (stmt_visits bad ast_node_stack a || body_visits bad ast_node_stack rest) := by
  cases a <;> rfl

theorem last_visits_single (bad : List AST → AST → Bool) (ast_node_stack : List AST) (a : AST) :
    last_visits bad ast_node_stack [a] = block_visits bad ast_node_stack a := by
  cases a <;> rfl

theorem last_visits_cons (bad : List AST → AST → Bool) (ast_node_stack : List AST)
    (a b : AST) (rest : List AST) :
    last_visits bad ast_node_stack (a :: b :: rest) = last_visits bad ast_node_stack (b :: rest) := by
  rfl

/-- The step of `visits_rejected` over the statements of a body. -/
theorem visits_rejected_body (labels_table : List Label) (bad : List AST → AST → Bool)
    (body : List AST)
    (ih : ∀ a ∈ body, ∀ stack, stmt_visits bad stack a = true →
      semanticer_child labels_table stack a ≠ .ok ()) :
    ∀ stack, body_visits bad stack body = true →
      semanticer_body labels_table stack body ≠ .ok () := by
  induction body with
  | nil => intro stack h; cases h
  | cons a rest ihr =>
    intro stack h hok
    rw [body_visits_cons] at h
    rw [semanticer_body_cons] at hok
    simp only [Bool.or_eq_true] at h
    split at hok
    · cases hok
    · rename_i u hu
      cases u
      rcases h with h | h
      · exact ih a (by simp) stack h hu
      · exact ihr (fun x hx => ih x (List.mem_cons_of_mem _ hx)) stack h hok

theorem visits_rejected_last (labels_table : List Label) (bad : List AST → AST → Bool)
    (body : List AST)
    (ih : ∀ a ∈ body, ∀ stack, block_visits bad stack a = true →
      semanticer labels_table stack a ≠ .ok ()) :
    ∀ stack, last_visits bad stack body = true →
      semanticer_last labels_table stack body ≠ .ok () := by
  induction body with
  | nil => intro stack h; cases h
  | cons a rest ihr =>
    intro stack h hok
    cases rest with
    | nil =>
      rw [last_visits_single] at h
      rw [semanticer_last_single] at hok
      exact ih a (by simp) stack h hok
    | cons b rest2 =>
      rw [last_visits_cons] at h
      rw [semanticer_last_cons] at hok
      exact ihr (fun x hx => ih x (List.mem_cons_of_mem _ hx)) stack h hok

/-- When `semanticer` rejects every statement that satisfies `bad` under the stack it is
reached with, it rejects every statement and every block in which it visits one. -/
theorem visits_rejected (labels_table : List Label) (bad : List AST → AST → Bool)
    (hbad : ∀ stack s, bad stack s = true → semanticer_child labels_table stack s ≠ .ok ())
    (ast : AST) :
    (∀ stack, stmt_visits bad stack ast = true →
      semanticer_child labels_table stack ast ≠ .ok ()) ∧
    (∀ stack, block_visits bad stack ast = true →
      semanticer labels_table stack ast ≠ .ok ()) := by
  refine AST.induct
    (P := fun ast =>
      (∀ stack, stmt_visits bad stack ast = true →
        semanticer_child labels_table stack ast ≠ .ok ()) ∧
      (∀ stack, block_visits bad stack ast = true →
        semanticer labels_table stack ast ≠ .ok ())) ?_ ?_ ?_ ast
  · intro s
    exact And.intro (fun stack h => by cases h) (fun stack h => by cases h)
  · intro n
    exact And.intro (fun stack h => by cases h) (fun stack h => by cases h)
  · intro ty op body ih
    refine ⟨?_, ?_⟩
    · intro stack h hok
      rw [stmt_visits_node] at h
      simp only [Bool.or_eq_true] at h
      rcases h with h | h
      · exact hbad stack _ h hok
      by_cases hact : ty = .action
      · rw [if_pos hact] at h
        subst hact
        by_cases h2 : op = .if_
        · rw [if_pos h2] at h
          subst h2
          rcases body with _ | ⟨cond, _ | ⟨t, rest⟩⟩
          · cases h
          · cases h
          · dsimp only at h
            simp only [Bool.or_eq_true] at h
            obtain ⟨_, ht, he⟩ := semanticer_child_if_ok _ _ _ _ _ hok
            rcases h with hb | hel
            · exact (ih t (by simp)).2 _ hb ht
            · rcases rest with _ | ⟨e, _ | ⟨e2, rest2⟩⟩
              · cases hel
              · exact (ih e (by simp)).2 _ hel (he e rfl)
              · cases hel
        rw [if_neg h2] at h
        by_cases h3 : op = .while_
        · rw [if_pos h3] at h
          subst h3
          rcases body with _ | ⟨cond, _ | ⟨b, rest⟩⟩
          · cases h
          · cases h
          · dsimp only at h
            obtain ⟨_, hb⟩ := semanticer_child_while_ok _ _ _ _ _ hok
            exact (ih b (by simp)).2 _ h hb
        rw [if_neg h3] at h
        cases h
      rw [if_neg hact] at h
      by_cases hfun : ty = .function
      · rw [if_pos hfun] at h
        subst hfun
        exact visits_rejected_last labels_table bad body (fun a ha => (ih a ha).2) _ h
          (semanticer_child_function_ok _ _ _ _ hok)
      · rw [if_neg hfun] at h; cases h
    · intro stack h hok
      rw [block_visits_node] at h
      rw [semanticer_node] at hok
      split at hok
      · cases hok
      · exact visits_rejected_body labels_table bad body (fun a ha => (ih a ha).1) stack h hok

/-- The `break`/`continue` branch of `semanticer` accepts exactly under a stack that holds
a `while` node. -/
theorem semanticer_child_jump (labels_table : List Label) (ast_node_stack : List AST)
    (op : ASTOp) (body : List AST) (hop : op = .break_ ∨ op = .continue_) :
    semanticer_child labels_table ast_node_stack (.node .action op body)
      = if ast_node_stack.any is_while_scope then .ok () else .error .throws := by
  rw [semanticer_child_node]
  rcases hop with h | h <;> subst h <;> rfl

theorem jump_outside_while_rejected (labels_table : List Label) (stack : List AST) (s : AST)
    (h : jump_outside_while stack s = true) :
    semanticer_child labels_table stack s ≠ .ok () := by
  unfold jump_outside_while at h
  split at h
  · rw [semanticer_child_jump _ _ _ _ (Or.inl rfl)]
    simp only [Bool.not_eq_true'] at h
    rw [h]
    simp
  · rw [semanticer_child_jump _ _ _ _ (Or.inr rfl)]
    simp only [Bool.not_eq_true'] at h
    rw [h]
    simp
  · cases h

theorem expr_checker_one (labels_table : List Label) (ast_node_stack : List AST) :
    expr_checker labels_table ast_node_stack (Expr.lit "1").ast (.str "num")
      = .ok (.str "num") := by
  rw [Expr.ast, expr_checker_node]
  rfl

/-- A jump statement below any number of `if (1) { ... }` blocks is accepted under a stack
that holds a `while` node. -/
theorem nested_ifs_accepted (labels_table : List Label) (op : ASTOp) (body : List AST)
    (hop : op = .break_ ∨ op = .continue_) (depth : Nat) :
    ∀ stack : List AST, stack.any is_while_scope = true →
      semanticer_child labels_table stack (nested_ifs depth (.node .action op body)) = .ok () := by
  induction depth with
  | zero =>
    intro stack h
    rw [nested_ifs, semanticer_child_jump _ _ _ _ hop, h]
    rfl
  | succ k ih =>
    intro stack h
    have hk := ih
      (stack ++ [.node .action .if_
        [(Expr.lit "1").ast, .node .program .none [nested_ifs k (.node .action op body)]]])
      (by simp [h])
    show semanticer_child labels_table stack
      (.node .action .if_
        [(Expr.lit "1").ast, .node .program .none [nested_ifs k (.node .action op body)]])
        = .ok ()
    rw [semanticer_child_node]
    rw [if_pos rfl, if_neg (by decide), if_neg (by decide), if_pos rfl]
    dsimp only
    rw [if_neg (by simp [is_payload, Expr.ast]), expr_checker_one]
    dsimp only
    rw [semanticer_node, if_neg (by simp), semanticer_body_cons, hk]
    rfl

theorem loop_program_accepted (labels_table : List Label) (op : ASTOp) (body : List AST)
    (hop : op = .break_ ∨ op = .continue_) (depth : Nat) :
    analyze (loop_program depth (.node .action op body)) labels_table = .ok () := by
  have hk := nested_ifs_accepted labels_table op body hop depth
    ([loop_program depth (.node .action op body)] ++
      [.node .action .while_
        [(Expr.lit "1").ast, .node .program .none [nested_ifs depth (.node .action op body)]]])
    (by simp [is_while_scope])
  unfold analyze
  show semanticer labels_table [loop_program depth (.node .action op body)]
    (.node .program .none
      [.node .action .while_
        [(Expr.lit "1").ast, .node .program .none [nested_ifs depth (.node .action op body)]]])
      = .ok ()
  rw [semanticer_node, if_neg (by simp), semanticer_body_cons, semanticer_child_node]
  rw [if_pos rfl, if_neg (by decide), if_neg (by decide), if_neg (by decide), if_pos rfl]
  dsimp only
  rw [if_neg (by simp [is_payload, Expr.ast]), expr_checker_one]
  dsimp only
  rw [semanticer_node, if_neg (by simp), semanticer_body_cons, hk]
  rfl

theorem find_function_scope_none (stack : List AST) (h : stack.any is_function_scope = false) :
    (stack.reverse).find? is_function_scope = none := by
  rw [List.find?_eq_none]
  intro x hx
  rw [List.any_eq_false] at h
  exact fun hf => h x (List.mem_reverse.mp hx) hf

theorem return_outside_function_rejected (labels_table : List Label) (stack : List AST)
    (s : AST) (h : return_outside_function stack s = true) :
    semanticer_child labels_table stack s ≠ .ok () := by
  unfold return_outside_function at h
  split at h
  · rename_i body
    simp only [Bool.not_eq_true'] at h
    rw [semanticer_child_node]
    rw [if_pos rfl, if_neg (by decide), if_neg (by decide), if_neg (by decide),
      if_neg (by decide), if_neg (by decide), if_pos rfl]
    unfold check_return
    rw [find_function_scope_none stack h]
    simp
  · cases h

theorem return_many_rejected (labels_table : List Label) (stack : List AST)
    (s : AST) (h : return_many stack s = true) :
    semanticer_child labels_table stack s ≠ .ok () := by
  unfold return_many at h
  split at h
  · rename_i body
    simp only [decide_eq_true_eq] at h
    rw [semanticer_child_node]
    rw [if_pos rfl, if_neg (by decide), if_neg (by decide), if_neg (by decide),
      if_neg (by decide), if_neg (by decide), if_pos rfl]
    unfold check_return
    split
    · rw [if_pos (by omega), if_neg (by omega)]
      simp
    · simp
  · cases h

/-- C21: the analyzer accepts no program in which it visits a `break` or `continue`
statement with no `while` node among the enclosing nodes (at top level, in the blocks of
an `if`, in a function body); a `break` or `continue` statement is accepted exactly when
an enclosing node is a `while`; and `while (1) { ... }` around a `break` or `continue`
below any number of nested `if (1) { ... }` blocks is accepted. -/
theorem jump_needs_while (labels_table : List Label) :
    (∀ ast : AST, block_visits jump_outside_while [ast] ast = true →
        analyze ast labels_table ≠ .ok ()) ∧
    (∀ (ast_node_stack : List AST) (op : ASTOp) (body : List AST),
        op = .break_ ∨ op = .continue_ →
        (semanticer_child labels_table ast_node_stack (.node .action op body) = .ok ()
          ↔ ast_node_stack.any is_while_scope = true)) ∧
    (∀ (depth : Nat) (op : ASTOp) (body : List AST), op = .break_ ∨ op = .continue_ →
        analyze (loop_program depth (.node .action op body)) labels_table = .ok ()) := by
  refine ⟨fun ast h =>
      (visits_rejected labels_table jump_outside_while
        (jump_outside_while_rejected labels_table) ast).2 [ast] h, ?_,
    fun depth op body hop => loop_program_accepted labels_table op body hop depth⟩
  intro stack op body hop
  rw [semanticer_child_jump _ _ _ _ hop]
  cases stack.any is_while_scope <;> simp

/-- C22: the analyzer accepts no program in which it visits a `return` statement with no
function node among the enclosing nodes (at top level, in the blocks of an `if`, in the
body of a `while`), and none in which it visits a `return` statement that carries more
than one value. -/
theorem return_needs_function (labels_table : List Label) :
    (∀ ast : AST, block_visits return_outside_function [ast] ast = true →
        analyze ast labels_table ≠ .ok ()) ∧
    (∀ ast : AST, block_visits return_many [ast] ast = true →
        analyze ast labels_table ≠ .ok ()) ∧
    (∀ (ast_node_stack : List AST) (body : List AST), 1 < body.length →
        semanticer_child labels_table ast_node_stack (.node .action .return_ body) ≠ .ok ()) :=
  ⟨fun ast h =>
      (visits_rejected labels_table return_outside_function
        (return_outside_function_rejected labels_table) ast).2 [ast] h,
    fun ast h =>
      (visits_rejected labels_table return_many (return_many_rejected labels_table) ast).2
        [ast] h,
    fun stack body h =>
      return_many_rejected labels_table stack (.node .action .return_ body)
        (by simp [return_many, h])⟩

/-- Instance: `fn f() { if (1) { break; } }` is rejected, and `while (1) { if (1) { if (1)
{ continue; } } }` is accepted. -/
theorem jump_needs_while_witness :
    block_visits jump_outside_while [stray_break_program] stray_break_program = true ∧
    analyze stray_break_program add_labels ≠ .ok () ∧
    (ASTOp.break_ = .break_ ∨ ASTOp.break_ = .continue_) ∧
    (semanticer_child add_labels [loop_program 0 (.node .action .break_ [])]
        (.node .action .break_ []) = .ok ()
      ↔ [loop_program 0 (.node .action .break_ [])].any is_while_scope = true) ∧
    (ASTOp.continue_ = .break_ ∨ ASTOp.continue_ = .continue_) ∧
    analyze (loop_program 2 (.node .action .continue_ [])) add_labels = .ok () :=
  ⟨by decide, (jump_needs_while add_labels).1 stray_break_program (by decide), Or.inl rfl,
    (jump_needs_while add_labels).2.1 [loop_program 0 (.node .action .break_ [])] .break_ []
      (Or.inl rfl), Or.inr rfl,
    (jump_needs_while add_labels).2.2 2 .continue_ [] (Or.inr rfl)⟩

/-- Instance: `while (1) { return 1; }` and `fn f() { return 1, 2; }` are rejected. -/
theorem return_needs_function_witness :
    block_visits return_outside_function [stray_return_program] stray_return_program = true ∧
    analyze stray_return_program add_labels ≠ .ok () ∧
    block_visits return_many [return_two_program] return_two_program = true ∧
    analyze return_two_program add_labels ≠ .ok () ∧
    1 < [(Expr.lit "1").ast, (Expr.lit "2").ast].length ∧
    semanticer_child add_labels [return_two_program]
      (.node .action .return_ [(Expr.lit "1").ast, (Expr.lit "2").ast]) ≠ .ok () :=
  ⟨by decide, (return_needs_function add_labels).1 stray_return_program (by decide),
    by decide, (return_needs_function add_labels).2.1 return_two_program (by decide),
    by decide,
    (return_needs_function add_labels).2.2 [return_two_program]
      [(Expr.lit "1").ast, (Expr.lit "2").ast] (by decide)⟩

/-! ## Unbound names, builtin calls and the label table -/

theorem reads_unlabelled_node (labels_table : List Label) (ty : ASTType) (op : ASTOp)
    (body : List AST) :
    reads_unlabelled labels_table (.node ty op body) =
    if ty = .target then
      match find_label labels_table body.head? with
      | some label => decide (label.type = .fn)
      | none => true
    else if is_leaf_type ty then false
    else if op = .func_call then
      match body with
      | _ :: args => reads_unlabelled_list labels_table args
      | [] => false
    else if is_arith_op op ∨ op = .add ∨ op = .equal ∨ op = .not_equal then
      match body with
      | left :: right :: _ =>
        reads_unlabelled labels_table left || reads_unlabelled labels_table right
      | _ => false
    else false := by
  cases body with
  | nil => cases ty <;> cases op <;> rfl
  | cons a rest =>
    cases rest with
    | nil => cases a <;> cases ty <;> cases op <;> rfl
    | cons b rest2 => cases a <;> cases ty <;> cases op <;> rfl

theorem reads_unlabelled_list_cons (labels_table : List Label) (a : AST) (rest : List AST) :
    reads_unlabelled_list labels_table (a :: rest)
      = (reads_unlabelled labels_table a || reads_unlabelled_list labels_table rest) := rfl

/-- Every argument of an argument list that checks has checked against some type. -/
theorem expr_checker_args_mem (labels_table : List Label) (ast_node_stack : List AST)
    (args : List AST) :
    ∀ func_decl_args_info : List AST,
      expr_checker_args labels_table ast_node_stack args func_decl_args_info = .ok () →
      ∀ a ∈ args, ∃ t r, expr_checker labels_table ast_node_stack a t = .ok r := by
  induction args with
  | nil => intro decls _ a ha; cases ha
  | cons x rest ihr =>
    intro decls hok a ha
    rw [expr_checker_args_cons] at hok
    split at hok
    · cases hok
    · cases hok
    · rename_i aty aop abody
      split at hok
      · cases hok
      · split at hok
        · split at hok
          · cases hok
          · split at hok
            · cases hok
            · rename_i v hv
              rcases List.mem_cons.mp ha with rfl | hmem
              · exact ⟨_, v, hv⟩
              · exact ihr _ hok a hmem
        · cases hok

/-- No expression that reads a Target without a variable label is accepted by
`expr_checker`. -/
theorem reads_unlabelled_rejected (labels_table : List Label) (ast : AST) :
    reads_unlabelled labels_table ast = true →
    ∀ (ast_node_stack : List AST) (t v : Val),
      expr_checker labels_table ast_node_stack ast t ≠ .ok v := by
  refine AST.induct
    (P := fun ast => reads_unlabelled labels_table ast = true →
      ∀ (ast_node_stack : List AST) (t v : Val),
        expr_checker labels_table ast_node_stack ast t ≠ .ok v) ?_ ?_ ?_ ast
  · intro s h; cases h
  · intro n h; cases h
  · intro ty op body ih h stack t v hok
    rw [reads_unlabelled_node] at h
    by_cases htar : ty = .target
    · rw [if_pos htar] at h
      subst htar
      rw [expr_checker_node] at hok
      rw [if_neg (by decide), if_neg (by decide), if_pos rfl] at hok
      split at hok
      · cases hok
      · rename_i label hl
        rw [hl] at h
        simp only [decide_eq_true_eq] at h
        rw [if_pos h] at hok
        cases hok
    rw [if_neg htar] at h
    by_cases hleaf : is_leaf_type ty = true
    · rw [if_pos hleaf] at h; cases h
    rw [if_neg hleaf] at h
    simp only [Bool.not_eq_true] at hleaf
    by_cases hcall : op = .func_call
    · rw [if_pos hcall] at h
      subst hcall
      rcases body with _ | ⟨target, args⟩
      · cases h
      · obtain ⟨decls, hd⟩ := expr_checker_call_ok _ _ _ _ _ _ _ hleaf hok
        have hmem := expr_checker_args_mem labels_table stack args decls hd
        dsimp only at h
        have : ∃ a ∈ args, reads_unlabelled labels_table a = true := by
          clear hmem hd hok ih
          induction args with
          | nil => cases h
          | cons x rest ihr =>
            rw [reads_unlabelled_list_cons, Bool.or_eq_true] at h
            rcases h with h | h
            · exact ⟨x, by simp, h⟩
            · obtain ⟨a, ha, hr⟩ := ihr h
              exact ⟨a, List.mem_cons_of_mem _ ha, hr⟩
        obtain ⟨a, ha, hr⟩ := this
        obtain ⟨t2, r2, hc⟩ := hmem a ha
        exact ih a (List.mem_cons_of_mem _ ha) hr stack t2 r2 hc
    rw [if_neg hcall] at h
    by_cases hbin : is_arith_op op = true ∨ op = .add ∨ op = .equal ∨ op = .not_equal
    · rw [if_pos hbin] at h
      rcases body with _ | ⟨left, _ | ⟨right, rest⟩⟩
      · cases h
      · cases h
      · dsimp only at h
        simp only [Bool.or_eq_true] at h
        obtain ⟨r1, r2, hl, hr⟩ := expr_checker_binary_ok _ _ _ _ _ _ _ _ _ hleaf hbin hok
        rcases h with hl2 | hr2
        · exact ih left (by simp) hl2 stack t r1 hl
        · exact ih right (by simp) hr2 stack t r2 hr
    · rw [if_neg hbin] at h; cases h

theorem stmt_reads_unlabelled_rejected (labels_table : List Label) (stack : List AST) (s : AST)
    (h : stmt_reads_unlabelled labels_table stack s = true) :
    semanticer_child labels_table stack s ≠ .ok () := by
  intro hok
  unfold stmt_reads_unlabelled at h
  split at h
  · obtain ⟨top, tb, e, rest, label, hb, _, hc⟩ :=
      semanticer_child_assign_ok labels_table stack _ hok
    simp only [List.cons.injEq] at hb
    obtain ⟨_, rfl, _⟩ := hb
    exact reads_unlabelled_rejected labels_table _ h stack _ _ hc
  · obtain ⟨r, hr⟩ := semanticer_child_cond_ok labels_table stack .if_ _ _ (Or.inl rfl) hok
    exact reads_unlabelled_rejected labels_table _ h stack _ _ hr
  · obtain ⟨r, hr⟩ := semanticer_child_cond_ok labels_table stack .while_ _ _ (Or.inr rfl) hok
    exact reads_unlabelled_rejected labels_table _ h stack _ _ hr
  · obtain ⟨_, _, _, rt, r, _, _, hr⟩ := semanticer_child_return_ok _ _ _ hok
    exact reads_unlabelled_rejected labels_table _ h stack _ _ hr
  · cases h

theorem lookup_value_append (k : String) (inner rest : List Frame)
    (h : ∀ scope ∈ inner, frame_binds scope k = false) :
    lookup_value k (inner ++ rest) = lookup_value k rest := by
  induction inner with
  | nil => rfl
  | cons scope more ih =>
    have h1 := h scope (by simp)
    have h2 := ih (fun s hs => h s (List.mem_cons_of_mem _ hs))
    unfold frame_binds at h1
    cases hg : Dict.get scope k with
    | none => simp only [List.cons_append, lookup_value, hg]; exact h2
    | some v =>
      rw [hg] at h1
      simp only [ne_eq, decide_not, Bool.not_eq_false', decide_eq_true_eq] at h1
      simp only [List.cons_append, lookup_value, hg, h1, if_true]
      exact h2

theorem lookup_value_unbound (k : String) (scope_stack : List Frame)
    (h : ∀ scope ∈ scope_stack, frame_binds scope k = false) :
    lookup_value k scope_stack = .undefined := by
  have := lookup_value_append k scope_stack [] h
  rw [List.append_nil] at this
  exact this

theorem query_scopes_append (name : String) (inner rest : List (Dict Label))
    (h : ∀ s ∈ inner, Dict.get s name = none) :
    query_scopes name (inner ++ rest) = query_scopes name rest := by
  induction inner with
  | nil => rfl
  | cons scope more ih =>
    rw [List.cons_append, query_scopes, h scope (by simp)]
    exact ih (fun s hs => h s (List.mem_cons_of_mem _ hs))

/-- C23 (the `func_call` branch of `expr_checker` looks for a Function node of the callee
in the top-level body, and the builtin `print` has none): the analyzer rejects
`num r = print("x");`, the call `print("x")` failing against every expected type; the code
generated for the program runs, prints `x` and ends with `r = 0` in frame 0; as a bare
statement `print("hello");` is accepted. -/
theorem print_value_rejected :
    analyze print_value_program print_value_labels = .error .throws ∧
    (∀ t : Val,
      expr_checker print_value_labels [print_value_program] print_call t = .error .throws) ∧
    (generate [] print_value_program print_value_labels).bind (vm 100)
      = .ok ⟨8, [], [], [[("r", .num 0)]], [[.str "x"]]⟩ ∧
    analyze print_program print_labels = .ok () := by
  refine ⟨by decide, ?_, by decide, by decide⟩
  intro t
  rw [print_call, expr_checker_node]
  rfl

/-- C24 fails as stated: the analyzer accepts `num x = x;`, and the run of the generated
code reaches the `load_value` at index 2 with the name `x` on top of the operand stack
and the single empty frame on the scope stack; the lookup yields `undefined`, which the
run binds to `x`. -/
theorem unbound_name_read :
    analyze self_read_program self_read_labels = .ok () ∧
    generate [] self_read_program self_read_labels = .ok ⟨self_read_code, [], [], [], []⟩ ∧
    (step self_read_code [] ⟨0, [], [], [[]], []⟩).bind (step self_read_code [])
      = .ok ⟨2, [.str "x", .str "x"], [], [[]], []⟩ ∧
    self_read_code[2]? = some ⟨.load_value, .null⟩ ∧
    lookup_value "x" [[]] = .undefined ∧
    vm 100 ⟨self_read_code, [], [], [], []⟩
      = .ok ⟨4, [], [], [[("x", .undefined)]], []⟩ := by
  refine ⟨by decide, by decide, by decide, by decide, by decide, by decide⟩

/-- C24, amended: the analyzer accepts no program in which it visits a checked expression
(the value of an assignment, the condition of an `if` or `while`, the value of a
`return`) that reads a Target without a variable label in the flat table; it does not
check that the name is bound when it is read, and `load_value` on a name that no frame
binds pushes `undefined` and goes on to the next instruction, with the scope stack as it
was. -/
theorem read_names_are_labelled (labels_table : List Label) :
    (∀ ast : AST, block_visits (stmt_reads_unlabelled labels_table) [ast] ast = true →
        analyze ast labels_table ≠ .ok ()) ∧
    (∀ (function_map : FunctionMap) (ip : Int) (name : String) (op_stack : List Val)
        (call_stack : List Int) (scope_stack : List Frame) (output : List (List Val)) (x : Val),
        (∀ scope ∈ scope_stack, frame_binds scope name = false) →
        exec function_map ⟨ip, .str name :: op_stack, call_stack, scope_stack, output⟩
            ⟨.load_value, x⟩
          = .ok ⟨ip + 1, .undefined :: op_stack, call_stack, scope_stack, output⟩) := by
  refine ⟨fun ast h =>
    (visits_rejected labels_table (stmt_reads_unlabelled labels_table)
      (stmt_reads_unlabelled_rejected labels_table) ast).2 [ast] h, ?_⟩
  intro fm ip name s cs ss out x h
  simp only [exec, pop, key_of, VMState.next, lookup_value_unbound name ss h]

/-- C25 (same defect as C19, `semanticer` has no branch for bare `func_call` statements):
the analyzer accepts `num x = 1; x();`; the generated code holds `call x` at index 4 and
the returned function table is empty; the run throws at that instruction. -/
theorem call_names_unmapped_function :
    analyze call_variable_program self_read_labels = .ok () ∧
    generate [] call_variable_program self_read_labels
      = .ok ⟨call_variable_code, [], [], [], []⟩ ∧
    call_variable_code[4]? = some ⟨.call, .str "x"⟩ ∧
    ("x" ∈ builtins_functions) = False ∧
    Dict.get ([] : FunctionMap) "x" = none ∧
    exec [] ⟨4, [], [], [[], [("x", .num 1)]], []⟩ ⟨.call, .str "x"⟩ = .error .throws ∧
    vm 100 ⟨call_variable_code, [], [], [], []⟩ = .error .throws := by
  refine ⟨by decide, by decide, by decide, by simp [builtins_functions], by decide, by decide,
    by decide⟩

/-- C26: `load_value` with the name `name` on top of the operand stack, under a scope
stack whose frames above `scope` do not bind `name` and whose frame `scope` holds the
value `v` for it, replaces the name by `v` and goes on to the next instruction; the frames
below `scope` play no part, and the scope stack is left as it was.  A frame binds a name
when it passes the test `scope[r1] !== undefined` of the code. -/
theorem load_value_innermost (function_map : FunctionMap) (ip : Int) (name : String)
    (op_stack : List Val) (call_stack : List Int) (inner outer : List Frame) (scope : Frame)
    (output : List (List Val)) (v x : Val)
    (hinner : ∀ s ∈ inner, frame_binds s name = false)
    (hv : Dict.get scope name = some v) (hdef : v ≠ .undefined) :
    exec function_map ⟨ip, .str name :: op_stack, call_stack, inner ++ scope :: outer, output⟩
        ⟨.load_value, x⟩
      = .ok ⟨ip + 1, v :: op_stack, call_stack, inner ++ scope :: outer, output⟩ := by
  have hl : lookup_value name (inner ++ scope :: outer) = v := by
    rw [lookup_value_append name inner _ hinner, lookup_value, hv]
    simp [hdef]
  simp only [exec, pop, key_of, VMState.next, hl]

/-- C27 (same defect as C2, C3 and C11, `assign` walks `op_stack` where it means
`scope_stack`): `assign` pops the value and the name and then searches the rest of the
operand stack for an operand that has a property of that name, own or inherited; when
there is one it writes to that operand, which throws for every name but `__proto__`,
whose setter leaves all as it was; only when there is none does it bind the name in the
top frame, the other frames unchanged.  With the name token `r` below the pair, the
assignments of `length` (an own property of `r`) and of `big` (inherited from
`String.prototype`) throw, and so do the runs of the programs
`num fn f() { num length = 1; return length; } num r = f();` and the same with `big`;
with the number 2 below the pair, the assignment of `toFixed` throws; with no operand
below, `x = 2` under frames that both bind `x` updates the top frame only and keeps its
binding of `y`. -/
theorem assign_searches_operand_stack :
    (∀ (function_map : FunctionMap) (ip : Int) (v x : Val) (name : String)
        (op_stack : List Val) (call_stack : List Int) (scope : Frame) (rest : List Frame)
        (output : List (List Val)),
        exec function_map ⟨ip, v :: .str name :: op_stack, call_stack, scope :: rest, output⟩
            ⟨.assign, x⟩
          = match found_at_scope name op_stack with
            | .error e => .error e
            | .ok true =>
              match set_on_primitive name with
              | .error e => .error e
              | .ok _ => .ok ⟨ip + 1, op_stack, call_stack, scope :: rest, output⟩
            | .ok false =>
              .ok ⟨ip + 1, op_stack, call_stack, Dict.set scope name v :: rest, output⟩) ∧
    exec [("f", 1)] ⟨3, [.num 1, .str "length", .str "r"], [10], [[], []], []⟩
      ⟨.assign, .null⟩ = .error .throws ∧
    exec [("f", 1)] ⟨3, [.num 1, .str "big", .str "r"], [10], [[], []], []⟩
      ⟨.assign, .null⟩ = .error .throws ∧
    exec [] ⟨0, [.num 1, .str "toFixed", .num 2], [], [[]], []⟩
      ⟨.assign, .null⟩ = .error .throws ∧
    (generate [] local_program (call_labels "length")).bind (vm 100) = .error .throws ∧
    (generate [] local_program (call_labels "big")).bind (vm 100) = .error .throws ∧
    exec [] ⟨0, [.num 2, .str "x"], [], [[("y", .num 5), ("x", .num 0)], [("x", .num 1)]], []⟩
      ⟨.assign, .null⟩
      = .ok ⟨1, [], [], [[("y", .num 5), ("x", .num 2)], [("x", .num 1)]], []⟩ := by
  refine ⟨?_, by decide, by decide, by decide, by decide, by decide, by decide⟩
  intro fm ip v x name s cs scope rest out
  rfl

/-- C28 (`func_args_map_keys` is sorted by `.sort()` without a comparator, which orders
the numeric keys as text): the bare statement `print(0, 1, ..., 10);` is accepted and
its run hands the builtin the arguments in the order 0, 1, 10, 2, ..., 9; the keys
`0 .. 10` sort to that order; with at most ten literals `0, 1, ...` the arguments arrive
in positional order. -/
theorem print_arguments_sorted_as_text :
    analyze (print_many_program eleven_values) print_labels = .ok () ∧
    printed (print_many_program eleven_values) print_labels 100
      = some [[.num 0, .num 1, .num 10, .num 2, .num 3, .num 4, .num 5, .num 6, .num 7,
          .num 8, .num 9]] ∧
    eleven_values.foldr sort_insert [] = ["0", "1", "10", "2", "3", "4", "5", "6", "7", "8", "9"] ∧
    (List.range 11).all (fun k =>
      decide (printed (print_many_program (eleven_values.take k)) print_labels 100
        = some [(List.range k).map (fun i => Val.num i)])) = true := by
  refine ⟨by decide, by decide, by decide, by decide⟩

/-- C29: `query_name(name)` returns the label that the nearest open frame holding `name`
stores for it: with the frames `inner` above `scope` not holding `name` and `scope`
holding `label`, the result is `label`, whatever the frames below `scope` and the flat
table hold. -/
theorem query_name_innermost (t : LabelsTable) (name : String)
    (inner outer : List (Dict Label)) (scope : Dict Label) (label : Label)
    (hstack : t.scoped_labels_table = inner ++ scope :: outer)
    (hinner : ∀ s ∈ inner, Dict.get s name = none)
    (hlabel : Dict.get scope name = some label) :
    query_name_from_all_scope t name = some label := by
  unfold query_name_from_all_scope
  rw [hstack, query_scopes_append name inner _ hinner, query_scopes, hlabel]

/-- C30 (the fallback of `query_name_from_all_scope`, commented as the check for a name
that the language defines such as `print`, searches the whole flat table, which keeps the
labels of closed frames): after `add_label(name, ...)` in the top frame and
`delete_current_scope()`, `query_name(name)` returns a label, for every state with an
open frame; after `create_scope(); create_scope(); add_label("x", "num");
delete_current_scope();` on the parser's table, where no open frame holds `x`,
`query_name("x")` returns the label of `x`. -/
theorem closed_scope_name_visible :
    (∀ (current_label_id : Int) (labels_table : List Label) (scope : Dict Label)
        (rest : List (Dict Label)) (name : String) (type : LabelType)
        (return_type : Option LabelType),
        ∃ label t,
          add_label_to_current_scope ⟨current_label_id, labels_table, scope :: rest⟩ name
            type return_type = .ok (label, t) ∧
          (query_name_from_all_scope (delete_current_scope t) name).isSome = true) ∧
    closed_block_table
      = .ok ⟨2, [⟨0, .fn, "print", none⟩, ⟨1, .num, "x", none⟩], [[]]⟩ ∧
    query_scopes "x" [[]] = none ∧
    query_name_from_all_scope ⟨2, [⟨0, .fn, "print", none⟩, ⟨1, .num, "x", none⟩], [[]]⟩ "x"
      = some ⟨1, .num, "x", none⟩ ∧
    query_name_from_all_scope ⟨2, [⟨0, .fn, "print", none⟩, ⟨1, .num, "x", none⟩], [[]]⟩ "y"
      = none := by
  refine ⟨?_, by decide, by decide, by decide, by decide⟩
  intro id labels scope rest name type rt
  refine ⟨_, _, rfl, ?_⟩
  unfold query_name_from_all_scope delete_current_scope
  dsimp only [List.tail]
  cases query_scopes name rest with
  | some res => rfl
  | none =>
    dsimp only
    rw [List.find?_isSome]
    exact ⟨⟨id, type, name, rt⟩, by simp, by simp⟩

/-- Instance: the assignment of a Target without a label is rejected, and `load_value` of
`x` under the single empty frame pushes `undefined`. -/
theorem read_names_are_labelled_witness :
    block_visits (stmt_reads_unlabelled self_read_labels) [unlabelled_read_program]
      unlabelled_read_program = true ∧
    analyze unlabelled_read_program self_read_labels ≠ .ok () ∧
    (∀ scope ∈ ([[]] : List Frame), frame_binds scope "x" = false) ∧
    exec [] ⟨2, [.str "x", .str "x"], [], [[]], []⟩ ⟨.load_value, .null⟩
      = .ok ⟨2 + 1, [.undefined, .str "x"], [], [[]], []⟩ :=
  ⟨by decide,
    (read_names_are_labelled self_read_labels).1 unlabelled_read_program (by decide),
    by decide,
    (read_names_are_labelled self_read_labels).2 [] 2 "x" [.str "x"] [] [[]] [] .null
      (by decide)⟩

/-- Instance: `x` read under the frames `{y: 5}`, `{x: 2}`, `{x: 1}`, top first. -/
theorem load_value_innermost_witness :
    (∀ s ∈ ([[("y", .num 5)]] : List Frame), frame_binds s "x" = false) ∧
    Dict.get ([("x", .num 2)] : Frame) "x" = some (.num 2) ∧ Val.num 2 ≠ .undefined ∧
    exec [] ⟨0, [.str "x"], [], [[("y", .num 5)]] ++ [("x", .num 2)] :: [[("x", .num 1)]], []⟩
        ⟨.load_value, .null⟩
      = .ok ⟨0 + 1, [.num 2], [], [[("y", .num 5)]] ++ [("x", .num 2)] :: [[("x", .num 1)]],
          []⟩ :=
  ⟨by decide, by decide, by decide,
    load_value_innermost [] 0 "x" [] [] [[("y", .num 5)]] [[("x", .num 1)]] [("x", .num 2)] []
      (.num 2) .null (by decide) (by decide) (by decide)⟩

/-- Instance: `x` queried with two open frames that both hold it. -/
theorem query_name_innermost_witness :
    shadow_table.scoped_labels_table
      = [] ++ [("x", (⟨2, .str, "x", none⟩ : Label))] :: [[("x", ⟨1, .num, "x", none⟩)]] ∧
    (∀ s ∈ ([] : List (Dict Label)), Dict.get s "x" = none) ∧
    Dict.get ([("x", ⟨2, .str, "x", none⟩)] : Dict Label) "x" = some ⟨2, .str, "x", none⟩ ∧
    query_name_from_all_scope shadow_table "x" = some ⟨2, .str, "x", none⟩ :=
  ⟨rfl, by decide, by decide,
    query_name_innermost shadow_table "x" [] [[("x", ⟨1, .num, "x", none⟩)]]
      [("x", ⟨2, .str, "x", none⟩)] ⟨2, .str, "x", none⟩ rfl (by decide) (by decide)⟩

/-! ## Numbering of the flat label table and declarations -/

theorem first_ids_succ (n : Nat) : first_ids (n + 1) = first_ids n ++ [(n : Int)] := by
  simp [first_ids, List.range_succ]

theorem first_ids_pairwise (n : Nat) : (first_ids n).Pairwise (fun a b => a < b) := by
  unfold first_ids
  exact List.Pairwise.map (fun i : Nat => (i : Int)) (fun a b h => Int.ofNat_lt.mpr h)
    (List.pairwise_lt_range n)

/-- Each call keeps the flat table numbered by position and extends it at the end. -/
theorem table_op_apply (t : LabelsTable) (op : TableOp)
    (h : label_ids t = first_ids t.labels_table.length ∧
      t.current_label_id = t.labels_table.length) :
    (label_ids (op.apply t) = first_ids (op.apply t).labels_table.length ∧
      (op.apply t).current_label_id = (op.apply t).labels_table.length) ∧
    t.labels_table <+: (op.apply t).labels_table := by
  cases op with
  | create_scope => exact ⟨h, List.prefix_refl _⟩
  | delete_current_scope => exact ⟨h, List.prefix_refl _⟩
  | query_name name => exact ⟨h, List.prefix_refl _⟩
  | add_label name type return_type =>
    unfold TableOp.apply add_label_to_current_scope
    cases hs : t.scoped_labels_table with
    | nil => exact ⟨h, List.prefix_refl _⟩
    | cons scope rest =>
      dsimp only
      refine ⟨⟨?_, ?_⟩, List.prefix_append _ _⟩
      · have h1 := h.1
        unfold label_ids at h1 ⊢
        dsimp only
        rw [List.map_append, h1, List.length_append, List.length_singleton, first_ids_succ, h.2]
        rfl
      · dsimp only
        rw [h.2, List.length_append, List.length_singleton]
        push_cast
        rfl

theorem run_ops_invariant (ops : List TableOp) :
    ∀ t : LabelsTable,
      (label_ids t = first_ids t.labels_table.length ∧
        t.current_label_id = t.labels_table.length) →
      (label_ids (run_ops t ops) = first_ids (run_ops t ops).labels_table.length ∧
        (run_ops t ops).current_label_id = (run_ops t ops).labels_table.length) ∧
      t.labels_table <+: (run_ops t ops).labels_table := by
  induction ops with
  | nil => intro t h; exact ⟨h, List.prefix_refl _⟩
  | cons op rest ih =>
    intro t h
    obtain ⟨h1, h2⟩ := table_op_apply t op h
    obtain ⟨h3, h4⟩ := ih (op.apply t) h1
    exact ⟨h3, h2.trans h4⟩

theorem run_ops_append (t : LabelsTable) (ops1 ops2 : List TableOp) :
    run_ops t (ops1 ++ ops2) = run_ops (run_ops t ops1) ops2 := by
  simp [run_ops, List.foldl_append]

/-- C31 (the declaration branch asks `query_name`, which searches every open frame and
then the whole flat table, where the comment of `create_labels_table` says a declaration
checks the current frame only): a declaration of a name that the enclosing frame binds
throws in a new, empty frame, for every state of the table; in the block of the `if` of
`num x = 1; if (1 == 1) { num x = 2; }` the current frame does not hold `x`, the
declaration of `x` throws, and `add_label` alone would give `x` the fresh id 2. -/
theorem shadowing_declaration_rejected :
    (∀ (current_label_id : Int) (labels_table : List Label) (scope : Dict Label)
        (rest : List (Dict Label)) (name : String) (type inner_type : LabelType)
        (return_type : Option LabelType),
        ∃ label t,
          add_label_to_current_scope ⟨current_label_id, labels_table, scope :: rest⟩ name
            type return_type = .ok (label, t) ∧
          (create_new_scope t).scoped_labels_table.head? = some [] ∧
          declare_variable (create_new_scope t) name inner_type = .error .throws) ∧
    nested_block_table
      = .ok ⟨2, [⟨0, .fn, "print", none⟩, ⟨1, .num, "x", none⟩],
          [[], [("x", ⟨1, .num, "x", none⟩)]]⟩ ∧
    declare_variable
        ⟨2, [⟨0, .fn, "print", none⟩, ⟨1, .num, "x", none⟩], [[], [("x", ⟨1, .num, "x", none⟩)]]⟩
        "x" .num = .error .throws ∧
    declare_variable
        ⟨2, [⟨0, .fn, "print", none⟩, ⟨1, .num, "x", none⟩], [[], [("x", ⟨1, .num, "x", none⟩)]]⟩
        "y" .num
      = .ok (⟨2, .num, "y", none⟩,
          ⟨3, [⟨0, .fn, "print", none⟩, ⟨1, .num, "x", none⟩, ⟨2, .num, "y", none⟩],
            [[("y", ⟨2, .num, "y", none⟩)], [("x", ⟨1, .num, "x", none⟩)]]⟩) ∧
    add_label_to_current_scope
        ⟨2, [⟨0, .fn, "print", none⟩, ⟨1, .num, "x", none⟩], [[], [("x", ⟨1, .num, "x", none⟩)]]⟩
        "x" .num none
      = .ok (⟨2, .num, "x", none⟩,
          ⟨3, [⟨0, .fn, "print", none⟩, ⟨1, .num, "x", none⟩, ⟨2, .num, "x", none⟩],
            [[("x", ⟨2, .num, "x", none⟩)], [("x", ⟨1, .num, "x", none⟩)]]⟩) := by
  refine ⟨?_, by decide, by decide, by decide, by decide⟩
  intro id labels scope rest name type inner_type rt
  refine ⟨_, _, rfl, rfl, ?_⟩
  unfold declare_variable query_name_from_all_scope create_new_scope
  dsimp only
  rw [query_scopes]
  have h0 : Dict.get ([] : Dict Label) name = none := rfl
  rw [h0]
  dsimp only
  rw [query_scopes, Dict.get_set_same]

/-- C32 fails as stated: `add_label` makes no check.  After `create_scope();
add_label("x", "num");` a second `add_label("x", "str")` in the same frame returns a label
with the id 2; the flat table then holds two labels named `x`, and the frame holds the
second one under `x`. -/
theorem add_label_twice_succeeds :
    add_label_to_current_scope
        ⟨2, [⟨0, .fn, "print", none⟩, ⟨1, .num, "x", none⟩], [[("x", ⟨1, .num, "x", none⟩)]]⟩
        "x" .str none
      = .ok (⟨2, .str, "x", none⟩,
          ⟨3, [⟨0, .fn, "print", none⟩, ⟨1, .num, "x", none⟩, ⟨2, .str, "x", none⟩],
            [[("x", ⟨2, .str, "x", none⟩)]]⟩) ∧
    twice_added_table
      = .ok ⟨3, [⟨0, .fn, "print", none⟩, ⟨1, .num, "x", none⟩, ⟨2, .str, "x", none⟩],
          [[("x", ⟨2, .str, "x", none⟩)]]⟩ := by
  refine ⟨by decide, by decide⟩

/-- C32, amended: with a frame open, `add_label(name, type, return_type)` never fails,
whether or not the current frame already holds `name`: it returns the label with the
table's next id, the given name, type and return type; afterwards the current frame holds
that label under `name`, the frames below are as they were, the flat table is the old
one with the label appended, and the next id is one higher.  With no frame open it
throws. -/
theorem add_label_appends (t : LabelsTable) (name : String) (type : LabelType)
    (return_type : Option LabelType) (scope : Dict Label) (rest : List (Dict Label))
    (hopen : t.scoped_labels_table = scope :: rest) :
    ∃ t',
      add_label_to_current_scope t name type return_type
        = .ok (⟨t.current_label_id, type, name, return_type⟩, t') ∧
      (∃ scope', t'.scoped_labels_table = scope' :: rest ∧
        Dict.get scope' name = some ⟨t.current_label_id, type, name, return_type⟩ ∧
        ∀ other, other ≠ name → Dict.get scope' other = Dict.get scope other) ∧
      t'.labels_table = t.labels_table ++ [⟨t.current_label_id, type, name, return_type⟩] ∧
      t'.current_label_id = t.current_label_id + 1 ∧
      add_label_to_current_scope { t with scoped_labels_table := [] } name type return_type
        = .error .throws := by
  unfold add_label_to_current_scope
  rw [hopen]
  exact ⟨_, rfl, ⟨_, rfl, Dict.get_set_same _ _ _,
    fun other ho => Dict.get_set_other _ _ _ _ (Ne.symm ho)⟩, rfl, rfl, rfl⟩

/-- Instance: `add_label("x", "str")` in a frame that already holds `x`. -/
theorem add_label_appends_witness :
    shadow_table.scoped_labels_table
      = [("x", (⟨2, .str, "x", none⟩ : Label))] :: [[("x", ⟨1, .num, "x", none⟩)]] ∧
    ∃ t',
      add_label_to_current_scope shadow_table "x" .num none
        = .ok (⟨shadow_table.current_label_id, .num, "x", none⟩, t') ∧
      (∃ scope', t'.scoped_labels_table = scope' :: [[("x", ⟨1, .num, "x", none⟩)]] ∧
        Dict.get scope' "x" = some ⟨shadow_table.current_label_id, .num, "x", none⟩ ∧
        ∀ other, other ≠ "x" →
          Dict.get scope' other = Dict.get [("x", (⟨2, .str, "x", none⟩ : Label))] other) ∧
      t'.labels_table
        = shadow_table.labels_table ++ [⟨shadow_table.current_label_id, .num, "x", none⟩] ∧
      t'.current_label_id = shadow_table.current_label_id + 1 ∧
      add_label_to_current_scope { shadow_table with scoped_labels_table := [] } "x" .num none
        = .error .throws :=
  ⟨rfl, add_label_appends shadow_table "x" .num none [("x", ⟨2, .str, "x", none⟩)]
    [[("x", ⟨1, .num, "x", none⟩)]] rfl⟩

/-- C33: start from `create_labels_table(buildin_apis)` with the builtins numbered
`0 .. n - 1`.  After any sequence `ops` of calls of `create_scope`,
`delete_current_scope`, `add_label` and `query_name`, the label at position `i` of the
flat table has the id `i` and the next id is the length of the table, so the ids are
strictly increasing along the table; any further calls `more` leave the table reached a
prefix of the later one; and `delete_current_scope` leaves the flat table as it is. -/
theorem flat_table_numbered (buildin_apis : List Label) (ops more : List TableOp)
    (hbuiltin : buildin_apis.map (fun label => label.id) = first_ids buildin_apis.length) :
    label_ids (run_ops (create_labels_table buildin_apis) ops)
      = first_ids (run_ops (create_labels_table buildin_apis) ops).labels_table.length ∧
    (run_ops (create_labels_table buildin_apis) ops).current_label_id
      = (run_ops (create_labels_table buildin_apis) ops).labels_table.length ∧
    (label_ids (run_ops (create_labels_table buildin_apis) ops)).Pairwise (fun a b => a < b) ∧
    buildin_apis <+: (run_ops (create_labels_table buildin_apis) ops).labels_table ∧
    (run_ops (create_labels_table buildin_apis) ops).labels_table
      <+: (run_ops (create_labels_table buildin_apis) (ops ++ more)).labels_table ∧
    (delete_current_scope (run_ops (create_labels_table buildin_apis) ops)).labels_table
      = (run_ops (create_labels_table buildin_apis) ops).labels_table := by
  have h0 : label_ids (create_labels_table buildin_apis)
        = first_ids (create_labels_table buildin_apis).labels_table.length ∧
      (create_labels_table buildin_apis).current_label_id
        = (create_labels_table buildin_apis).labels_table.length := ⟨hbuiltin, rfl⟩
  obtain ⟨h1, h2⟩ := run_ops_invariant ops _ h0
  obtain ⟨_, h4⟩ := run_ops_invariant more _ h1
  refine ⟨h1.1, h1.2, ?_, h2, ?_, rfl⟩
  · rw [h1.1]; exact first_ids_pairwise _
  · rw [run_ops_append]; exact h4

/-- Instance: the parser's table, whose only builtin `print` has the id 0, after the calls
made for `num x = 1; if (...) { num y = 2; }`, with a later `add_label`. -/
theorem flat_table_numbered_witness :
    ([⟨0, .fn, "print", none⟩] : List Label).map (fun label => label.id) = first_ids 1 ∧
    run_ops (create_labels_table [⟨0, .fn, "print", none⟩])
        [.create_scope, .query_name "x", .add_label "x" .num none, .create_scope,
          .query_name "y", .add_label "y" .num none, .delete_current_scope]
      = ⟨3, [⟨0, .fn, "print", none⟩, ⟨1, .num, "x", none⟩, ⟨2, .num, "y", none⟩],
          [[("x", ⟨1, .num, "x", none⟩)]]⟩ ∧
    label_ids (run_ops (create_labels_table [⟨0, .fn, "print", none⟩])
        [.create_scope, .query_name "x", .add_label "x" .num none, .create_scope,
          .query_name "y", .add_label "y" .num none, .delete_current_scope])
      = first_ids (run_ops (create_labels_table [⟨0, .fn, "print", none⟩])
        [.create_scope, .query_name "x", .add_label "x" .num none, .create_scope,
          .query_name "y", .add_label "y" .num none, .delete_current_scope]).labels_table.length :=
  ⟨by decide, by decide,
    (flat_table_numbered [⟨0, .fn, "print", none⟩]
      [.create_scope, .query_name "x", .add_label "x" .num none, .create_scope,
        .query_name "y", .add_label "y" .num none, .delete_current_scope]
      [.add_label "z" .str none] (by decide)).1⟩

/-! ## The function table across runs of the generator -/

theorem code_of_cases (r1 r2 : Res (List OPCodeT × FunctionMap))
    (h : code_of r1 = code_of r2) :
    (∃ e, r1 = .error e ∧ r2 = .error e) ∨
    (∃ code fm1 fm2, r1 = .ok (code, fm1) ∧ r2 = .ok (code, fm2)) := by
  cases r1 with
  | error e1 =>
    cases r2 with
    | error e2 =>
      simp only [code_of, Except.error.injEq] at h
      subst h
      exact Or.inl ⟨e1, rfl, rfl⟩
    | ok p2 => obtain ⟨c2, f2⟩ := p2; simp [code_of] at h
  | ok p1 =>
    obtain ⟨c1, f1⟩ := p1
    cases r2 with
    | error e2 => simp [code_of] at h
    | ok p2 =>
      obtain ⟨c2, f2⟩ := p2
      simp only [code_of, Except.ok.injEq] at h
      subst h
      exact Or.inr ⟨c1, f1, f2, rfl, rfl⟩

theorem same_code_body (labels_table : List Label) (body : List AST)
    (ih : ∀ a ∈ body, SameCode labels_table a) :
    ∀ (scopes : List AST) (fm1 fm2 : FunctionMap) (acc : List OPCodeT),
      code_of (code_generator_body labels_table scopes fm1 acc body)
        = code_of (code_generator_body labels_table scopes fm2 acc body) := by
  induction body with
  | nil => intro scopes fm1 fm2 acc; rfl
  | cons a rest ihr =>
    intro scopes fm1 fm2 acc
    rw [code_generator_body_cons, code_generator_body_cons]
    rcases code_of_cases _ _ ((ih a (List.mem_cons_self _ _)).1 scopes fm1 fm2 acc.length)
      with ⟨e, h1, h2⟩ | ⟨code, f1, f2, h1, h2⟩
    · rw [h1, h2]
    · rw [h1, h2]
      exact ihr (fun b hb => ih b (List.mem_cons_of_mem _ hb)) scopes f1 f2 (acc ++ code)

theorem same_code_last (labels_table : List Label) (body : List AST)
    (ih : ∀ a ∈ body, SameCode labels_table a) :
    ∀ (scopes : List AST) (fm1 fm2 : FunctionMap),
      code_of (code_generator_last labels_table scopes fm1 body)
        = code_of (code_generator_last labels_table scopes fm2 body) := by
  induction body with
  | nil => intro scopes fm1 fm2; rfl
  | cons a rest ihr =>
    intro scopes fm1 fm2
    cases rest with
    | nil =>
      rw [code_generator_last_single, code_generator_last_single]
      exact (ih a (List.mem_cons_self _ _)).2 scopes fm1 fm2
    | cons b rest' =>
      rw [code_generator_last_cons, code_generator_last_cons]
      exact ihr (fun c hc => ih c (List.mem_cons_of_mem _ hc)) scopes fm1 fm2

/-- The instructions generated for an AST do not depend on the content of the function
table at the start. -/
theorem same_code (labels_table : List Label) (ast : AST) : SameCode labels_table ast := by
  refine AST.induct (P := SameCode labels_table) ?_ ?_ ?_ ast
  · intro s
    exact And.intro (fun scopes fm1 fm2 len => rfl) (fun scopes fm1 fm2 => rfl)
  · intro n
    exact And.intro (fun scopes fm1 fm2 len => rfl) (fun scopes fm1 fm2 => rfl)
  · intro ty op body ih
    have hblock : ∀ (scopes : List AST) (fm1 fm2 : FunctionMap),
        code_of (code_generator labels_table scopes fm1 (.node ty op body))
          = code_of (code_generator labels_table scopes fm2 (.node ty op body)) := by
      intro scopes fm1 fm2
      rw [code_generator_node, code_generator_node]
      exact same_code_body labels_table body ih _ _ _ _
    refine And.intro ?_ hblock
    intro scopes fm1 fm2 len
    rw [code_generator_stmt_node, code_generator_stmt_node]
    by_cases h1 : ty = .action
    · rw [if_pos h1, if_pos h1]
      by_cases h2 : op = .none
      · rw [if_pos h2, if_pos h2]
      rw [if_neg h2, if_neg h2]
      by_cases h3 : op = .assign
      · rw [if_pos h3, if_pos h3]
        cases find_label_of labels_table body.head? with
        | error e => rfl
        | ok info =>
          dsimp only
          cases expr_generator_at labels_table (scopes ++ [.node ty op body]) body.tail.head? with
          | error e => rfl
          | ok c => rfl
      rw [if_neg h3, if_neg h3]
      by_cases h4 : op = .if_
      · rw [if_pos h4, if_pos h4]
        match body, ih with
        | [], _ => rfl
        | [c], _ => rfl
        | [c, t], ih =>
          dsimp only
          cases expr_generator labels_table (scopes ++ [.node ty op [c, t]]) c with
          | error e => rfl
          | ok cc =>
            dsimp only
            rcases code_of_cases _ _ ((ih t (by simp)).2 (scopes ++ [.node ty op [c, t]]) fm1 fm2)
              with ⟨e, g1, g2⟩ | ⟨code, f1, f2, g1, g2⟩
            · rw [g1, g2]
            · rw [g1, g2]; rfl
        | c :: t :: e :: rest, ih =>
          dsimp only
          cases expr_generator labels_table (scopes ++ [.node ty op (c :: t :: e :: rest)]) c with
          | error e => rfl
          | ok cc =>
            dsimp only
            rcases code_of_cases _ _
              ((ih t (by simp)).2 (scopes ++ [.node ty op (c :: t :: e :: rest)]) fm1 fm2)
              with ⟨e1, g1, g2⟩ | ⟨code, f1, f2, g1, g2⟩
            · rw [g1, g2]
            · rw [g1, g2]
              dsimp only
              rcases code_of_cases _ _
                ((ih e (by simp)).2 (scopes ++ [.node ty op (c :: t :: e :: rest)]) f1 f2)
                with ⟨e2, k1, k2⟩ | ⟨ecode, f3, f4, k1, k2⟩
              · rw [k1, k2]
              · rw [k1, k2]; rfl
      rw [if_neg h4, if_neg h4]
      by_cases h5 : op = .while_
      · rw [if_pos h5, if_pos h5]
        match body, ih with
        | [], _ => rfl
        | [c], _ => rfl
        | c :: b :: rest, ih =>
          dsimp only
          cases expr_generator labels_table (scopes ++ [.node ty op (c :: b :: rest)]) c with
          | error e => rfl
          | ok cc =>
            dsimp only
            rcases code_of_cases _ _
              ((ih b (by simp)).2 (scopes ++ [.node ty op (c :: b :: rest)]) fm1 fm2)
              with ⟨e1, g1, g2⟩ | ⟨code, f1, f2, g1, g2⟩
            · rw [g1, g2]
            · rw [g1, g2]; rfl
      rw [if_neg h5, if_neg h5]
      by_cases h6 : op = .break_ ∨ op = .continue_
      · rw [if_pos h6, if_pos h6]; rfl
      rw [if_neg h6, if_neg h6]
      by_cases h7 : op = .return_
      · rw [if_pos h7, if_pos h7]
        cases expr_generator_at labels_table (scopes ++ [.node ty op body]) body.head? <;> rfl
      rw [if_neg h7, if_neg h7]
      by_cases h8 : op = .func_call
      · rw [if_pos h8, if_pos h8]
        cases expr_generator labels_table (scopes ++ [.node ty op body]) (.node ty op body) <;> rfl
      rw [if_neg h8, if_neg h8]
      rfl
    rw [if_neg h1, if_neg h1]
    by_cases h2 : ty = .function
    · rw [if_pos h2, if_pos h2]
      cases find_label_of labels_table body.head? with
      | error e => rfl
      | ok func_label =>
        dsimp only
        rcases code_of_cases _ _ (same_code_last labels_table body ih
            (scopes ++ [.node ty op body])
            (Dict.set fm1 (function_key func_label) (len + 1))
            (Dict.set fm2 (function_key func_label) (len + 1)))
          with ⟨e1, g1, g2⟩ | ⟨code, f1, f2, g1, g2⟩
        · rw [g1, g2]
        · rw [g1, g2]; rfl
    rw [if_neg h2, if_neg h2]
    by_cases h3 : ty = .program
    · rw [if_pos h3, if_pos h3]
      exact same_code_body labels_table body ih _ _ _ _
    rw [if_neg h3, if_neg h3]
    rfl

theorem instructions_generate (labels_table : List Label) (function_map : FunctionMap)
    (ast : AST) :
    instructions (generate function_map ast labels_table)
      = code_of (code_generator labels_table [ast] function_map ast) := by
  unfold generate
  cases code_generator labels_table [ast] function_map ast with
  | error e => rfl
  | ok p => rfl

/-- C34 (`function_map` is a variable of the module, set to `{}` once when the module
is loaded and written by every run): a run that starts with the table `function_map`
left by earlier runs returns the same instruction array, or the same error, as a first
run, which starts with the empty table; but the Function Table it returns keeps, under
every name that the run's AST does not declare, the entry that the earlier runs left.
After a run on `num fn f() { return 1; }`, which leaves the entry of `f`, the run on
`print("hello");` returns a Function Table with the entry of `f`, where a first run
returns the empty table. -/
theorem function_table_outlives_run (labels_table : List Label) (function_map : FunctionMap)
    (ast : AST) :
    instructions (generate function_map ast labels_table)
      = instructions (generate [] ast labels_table) ∧
    (∀ (key : String) (code_object : CodeObject),
        generate function_map ast labels_table = .ok code_object →
        declares labels_table key ast = false →
        Dict.get code_object.function_map key = Dict.get function_map key) ∧
    generate [] one_function_program one_function_labels
      = .ok ⟨[⟨.jmp, .num 3⟩, ⟨.load_const, .num 1⟩, ⟨.ret, .null⟩], [("f", 1)], [], [], []⟩ ∧
    generate [] print_program print_labels = .ok ⟨print_code, [], [], [], []⟩ ∧
    generate [("f", 1)] print_program print_labels
      = .ok ⟨print_code, [("f", 1)], [], [], []⟩ ∧
    declares print_labels "f" print_program = false := by
  refine ⟨?_, ?_, by decide, by decide, by decide, by decide⟩
  · rw [instructions_generate, instructions_generate]
    exact (same_code labels_table ast).2 _ _ _
  · intro key code_object h hd
    unfold generate at h
    split at h
    · cases h
    · rename_i code fm hcg
      cases h
      exact (function_map_frame labels_table key ast).2 _ _ _ _ hcg hd

/-- Instance: the run on `print("hello");` after a run that left the entry of `f`. -/
theorem function_table_outlives_run_witness :
    generate [("f", 1)] print_program print_labels = .ok ⟨print_code, [("f", 1)], [], [], []⟩ ∧
    declares print_labels "f" print_program = false ∧
    Dict.get (⟨print_code, [("f", 1)], [], [], []⟩ : CodeObject).function_map "f"
      = Dict.get ([("f", 1)] : FunctionMap) "f" :=
  ⟨by decide, by decide,
    (function_table_outlives_run print_labels [("f", 1)] print_program).2.1 "f"
      ⟨print_code, [("f", 1)], [], [], []⟩ (by decide) (by decide)⟩

/-! ## Placeholder targets and conditions other than 0 and 1 -/

/-- C35 fails as stated: in the code of `while (a < 2) { if (a < 1) { break; } }`, whose
condition code has length 4, the `break` at index 13 is rewritten to the distance -7 and so
lands on index 6, the `jmp` at offset `c + 2`, not on the `jmp_remove` at index 5; in the
code of `while (a < 2) { a = a + 1; continue; }` the `continue` at index 13 is rewritten
to the distance -13 and lands on index 0, the start of the condition code, not on the
`jmp` at index 6. -/
theorem placeholder_targets_differ :
    code_generator_stmt sum_labels [] [] 0
      (.node .action .while_ [example_cond, break_body]) = .ok (break_loop_code, []) ∧
    expr_generator sum_labels [.node .action .while_ [example_cond, break_body]] example_cond
      = .ok [⟨.load_name, .str "a"⟩, ⟨.load_value, .null⟩, ⟨.load_const, .num 2⟩,
          ⟨.compare_below, .null⟩] ∧
    break_loop_code[13]? = some ⟨.jmp, .num (-7)⟩ ∧
    jump_target break_loop_code 13 = some 6 ∧
    action_at break_loop_code 6 = some .jmp ∧
    action_at break_loop_code 5 = some .jmp_remove ∧
    code_generator_stmt sum_labels [] [] 0
      (.node .action .while_ [example_cond, continue_body]) = .ok (continue_loop_code, []) ∧
    continue_loop_code[13]? = some ⟨.jmp, .num (-13)⟩ ∧
    jump_target continue_loop_code 13 = some 0 ∧
    action_at continue_loop_code 6 = some .jmp := by
  refine ⟨by decide, by decide, by decide, by decide, by decide, by decide, by decide,
    by decide, by decide, by decide⟩

/-- C35, amended: in the code generated for a `while` node whose condition code has
length `c`, the `jmp_remove` sits at offset `c + 1` and a `jmp` that lands on the first
index after the loop code at offset `c + 2`; every `break` placeholder of the body code
(at offset `k` of it, so at offset `c + 3 + k` of the loop code) is rewritten to the
distance from its own position to that `jmp` at offset `c + 2`, and every `continue`
placeholder to the distance from its own position to offset 0, where the condition code
starts. -/
theorem placeholder_targets (labels_table : List Label) (scopes : List AST)
    (function_map : FunctionMap) (code_length : Nat) (while_cond_ast while_body_ast : AST)
    (rest : List AST) (while_code : List OPCodeT) (fm' : FunctionMap)
    (hgen : code_generator_stmt labels_table scopes function_map code_length
      (.node .action .while_ (while_cond_ast :: while_body_ast :: rest)) = .ok (while_code, fm')) :
    ∃ cc bc,
      expr_generator labels_table
        (scopes ++ [.node .action .while_ (while_cond_ast :: while_body_ast :: rest)])
        while_cond_ast = .ok cc ∧
      code_generator labels_table
        (scopes ++ [.node .action .while_ (while_cond_ast :: while_body_ast :: rest)])
        function_map while_body_ast = .ok (bc, fm') ∧
      action_at while_code (cc.length + 1) = some .jmp_remove ∧
      action_at while_code (cc.length + 2) = some .jmp ∧
      jump_target while_code (cc.length + 2) = some (while_code.length : Int) ∧
      (∀ k : Nat, bc[k]? = some ⟨.jmp, .str "break"⟩ →
        while_code[cc.length + 3 + k]?
          = some ⟨.jmp, .num (((cc.length + 2 : Nat) : Int) - ((cc.length + 3 + k : Nat) : Int))⟩ ∧
        jump_target while_code (cc.length + 3 + k) = some ((cc.length + 2 : Nat) : Int)) ∧
      (∀ k : Nat, bc[k]? = some ⟨.jmp, .str "continue"⟩ →
        while_code[cc.length + 3 + k]?
          = some ⟨.jmp, .num (-((cc.length + 3 + k : Nat) : Int))⟩ ∧
        jump_target while_code (cc.length + 3 + k) = some 0) := by
  obtain ⟨cc, bc, hc, hb, hcode⟩ := code_generator_stmt_while_ok labels_table scopes
    function_map code_length while_cond_ast while_body_ast rest while_code fm' hgen
  obtain ⟨g0, g1, g2, g3, g4, g5, g6⟩ := layout_while cc
    (resolve_placeholders (cc.length + 2) (cc.length + 3) bc)
    ⟨.jmp_true_remove, .num 3⟩ ⟨.jmp_remove, .num (bc.length + 3)⟩ ⟨.jmp, .num (bc.length + 2)⟩
    ⟨.jmp, .num (-((cc.length + 3 + bc.length : Nat) : Int))⟩
  rw [resolve_placeholders_length] at g6
  rw [← hcode] at g2 g3 g4 g6
  refine ⟨cc, bc, hc, hb, action_at_of_get g2, action_at_of_get g3, ?_, ?_, ?_⟩
  · rw [jump_target_of_get g3, g6]; push_cast; congr 1; omega
  · intro k hk
    have hres : while_code[cc.length + 3 + k]?
        = some ⟨.jmp, .num (((cc.length + 2 : Nat) : Int) - ((cc.length + 3 + k : Nat) : Int))⟩ := by
      have := g4.get_at (resolve_placeholders_get (cc.length + 2) bc (cc.length + 3) k _ hk)
      rw [this]
      simp [resolve_placeholder]
    refine ⟨hres, ?_⟩
    rw [jump_target_of_get hres]; congr 1; omega
  · intro k hk
    have hres : while_code[cc.length + 3 + k]?
        = some ⟨.jmp, .num (-((cc.length + 3 + k : Nat) : Int))⟩ := by
      have := g4.get_at (resolve_placeholders_get (cc.length + 2) bc (cc.length + 3) k _ hk)
      rw [this]
      simp [resolve_placeholder]
    refine ⟨hres, ?_⟩
    rw [jump_target_of_get hres]; congr 1; omega

/-- C36: in the code of an `if` node with condition code of length `c` and true block of
length `t`, with a number `n` other than 0 and 1 on top of the operand stack at the
`jmp_true_remove` (offset `c`), the two conditional jumps are fetched one after the other
and leave all stacks as they were, so the run is at offset `c + 2`, where the true block
starts, with `n` still on the operand stack; and when the run of the true block from
there comes to the end of the block with the operand stack as it found it, the run of
the construct comes to the first index after its code, fetching after the true block
only the `jmp` over the else block when there is one, with the operand stack `n :: s`,
where `s` is the operand stack below the condition value. -/
theorem if_noncanonical_condition (labels_table : List Label) (scopes : List AST)
    (function_map : FunctionMap) (code_length : Nat) (if_cond_ast if_true_ast : AST)
    (rest : List AST) (if_code : List OPCodeT) (fm' : FunctionMap)
    (hgen : code_generator_stmt labels_table scopes function_map code_length
      (.node .action .if_ (if_cond_ast :: if_true_ast :: rest)) = .ok (if_code, fm')) :
    ∃ cc tc fm1,
      expr_generator labels_table
        (scopes ++ [.node .action .if_ (if_cond_ast :: if_true_ast :: rest)]) if_cond_ast
          = .ok cc ∧
      code_generator labels_table
        (scopes ++ [.node .action .if_ (if_cond_ast :: if_true_ast :: rest)]) function_map
        if_true_ast = .ok (tc, fm1) ∧
      action_at if_code cc.length = some .jmp_true_remove ∧
      action_at if_code (cc.length + 1) = some .jmp_false_remove ∧
      ∀ (code : List OPCodeT) (base : Nat) (fm : FunctionMap) (n : Int) (s : List Val)
        (cs : List Int) (ss : List Frame) (out : List (List Val)),
        CodeAt code base if_code → n ≠ 0 → n ≠ 1 →
        Reaches code fm ⟨((base + cc.length : Nat) : Int), .num n :: s, cs, ss, out⟩
          [((base + cc.length : Nat) : Int), ((base + (cc.length + 1) : Nat) : Int)]
          ⟨((base + (cc.length + 2) : Nat) : Int), .num n :: s, cs, ss, out⟩ ∧
        ∀ (cs' : List Int) (ss' : List Frame) (out' : List (List Val)) (fetched : List Int),
          Reaches code fm ⟨((base + (cc.length + 2) : Nat) : Int), .num n :: s, cs, ss, out⟩
            fetched
            ⟨((base + (cc.length + 2 + tc.length) : Nat) : Int), .num n :: s, cs', ss', out'⟩ →
          Reaches code fm ⟨((base + cc.length : Nat) : Int), .num n :: s, cs, ss, out⟩
            ([((base + cc.length : Nat) : Int), ((base + (cc.length + 1) : Nat) : Int)]
              ++ fetched
              ++ (match rest with
                  | [] => []
                  | _ :: _ => [((base + (cc.length + 2 + tc.length) : Nat) : Int)]))
            ⟨((base + if_code.length : Nat) : Int), .num n :: s, cs', ss', out'⟩ := by
  have fall : ∀ (code : List OPCodeT) (base : Nat) (fm : FunctionMap) (n : Int) (s : List Val)
      (cs : List Int) (ss : List Frame) (out : List (List Val)) (c : Nat) (d1 d2 : Int),
      code[base + c]? = some ⟨.jmp_true_remove, .num d1⟩ →
      code[base + (c + 1)]? = some ⟨.jmp_false_remove, .num d2⟩ → n ≠ 0 → n ≠ 1 →
      Reaches code fm ⟨((base + c : Nat) : Int), .num n :: s, cs, ss, out⟩
        [((base + c : Nat) : Int), ((base + (c + 1) : Nat) : Int)]
        ⟨((base + (c + 2) : Nat) : Int), .num n :: s, cs, ss, out⟩ := by
    intro code base fm n s cs ss out c d1 d2 h1 h2 hn0 hn1
    have r1 := Reaches.exec fm ⟨((base + c : Nat) : Int), .num n :: s, cs, ss, out⟩
      ⟨((base + (c + 1) : Nat) : Int), .num n :: s, cs, ss, out⟩ h1 rfl
      (by simp [exec, pop, VMState.next, hn1]; omega)
    have r2 := Reaches.exec fm ⟨((base + (c + 1) : Nat) : Int), .num n :: s, cs, ss, out⟩
      ⟨((base + (c + 2) : Nat) : Int), .num n :: s, cs, ss, out⟩ h2 rfl
      (by simp [exec, pop, VMState.next, hn0]; omega)
    exact r1.trans r2
  cases rest with
  | nil =>
    rw [code_generator_stmt_if] at hgen
    cases hc : expr_generator labels_table
        (scopes ++ [.node .action .if_ [if_cond_ast, if_true_ast]]) if_cond_ast with
    | error e => rw [hc] at hgen; cases hgen
    | ok cc =>
      cases ht : code_generator labels_table
          (scopes ++ [.node .action .if_ [if_cond_ast, if_true_ast]]) function_map
          if_true_ast with
      | error e => rw [hc, ht] at hgen; cases hgen
      | ok p =>
        obtain ⟨tc, fm1⟩ := p
        rw [hc, ht] at hgen
        simp only [Except.ok.injEq, Prod.mk.injEq] at hgen
        obtain ⟨h1, h2⟩ := hgen
        subst h1 h2
        obtain ⟨g0, g1, g2, g3, g4⟩ := layout_if cc tc ⟨.jmp_true_remove, .num 2⟩
          ⟨.jmp_false_remove, .num (tc.length + 1)⟩
        refine ⟨cc, tc, fm1, rfl, rfl, action_at_of_get g1, action_at_of_get g2, ?_⟩
        intro code base fm n s cs ss out hat hn0 hn1
        have r := fall code base fm n s cs ss out cc.length _ _ (hat.get_at g1) (hat.get_at g2)
          hn0 hn1
        refine ⟨r, ?_⟩
        intro cs' ss' out' fetched ht'
        have r3 := r.trans ht'
        rw [g4]
        simpa using r3
  | cons if_else_ast rest' =>
    rw [code_generator_stmt_if_else] at hgen
    cases hc : expr_generator labels_table
        (scopes ++ [.node .action .if_ (if_cond_ast :: if_true_ast :: if_else_ast :: rest')])
        if_cond_ast with
    | error e => rw [hc] at hgen; cases hgen
    | ok cc =>
      cases ht : code_generator labels_table
          (scopes ++ [.node .action .if_ (if_cond_ast :: if_true_ast :: if_else_ast :: rest')])
          function_map if_true_ast with
      | error e => rw [hc, ht] at hgen; cases hgen
      | ok p =>
        obtain ⟨tc, fm1⟩ := p
        cases he : code_generator labels_table
            (scopes ++ [.node .action .if_ (if_cond_ast :: if_true_ast :: if_else_ast :: rest')])
            fm1 if_else_ast with
        | error e => rw [hc, ht] at hgen; dsimp only at hgen; rw [he] at hgen; cases hgen
        | ok q =>
          obtain ⟨ec, fm2⟩ := q
          rw [hc, ht] at hgen; dsimp only at hgen; rw [he] at hgen
          simp only [Except.ok.injEq, Prod.mk.injEq] at hgen
          obtain ⟨h1, h2⟩ := hgen
          subst h1 h2
          obtain ⟨g0, g1, g2, g3, g4, g5, g6⟩ := layout_if_else cc tc ec
            ⟨.jmp_true_remove, .num 2⟩ ⟨.jmp_false_remove, .num (tc.length + 2)⟩
            ⟨.jmp, .num (ec.length + 1)⟩
          refine ⟨cc, tc, fm1, rfl, rfl, action_at_of_get g1, action_at_of_get g2, ?_⟩
          intro code base fm n s cs ss out hat hn0 hn1
          have r := fall code base fm n s cs ss out cc.length _ _ (hat.get_at g1)
            (hat.get_at g2) hn0 hn1
          refine ⟨r, ?_⟩
          intro cs' ss' out' fetched ht'
          have r4 := Reaches.exec fm
            ⟨((base + (cc.length + 2 + tc.length) : Nat) : Int), .num n :: s, cs', ss', out'⟩
            ⟨((base + (cc.length + 3 + tc.length + ec.length) : Nat) : Int), .num n :: s, cs',
              ss', out'⟩ (hat.get_at g4) rfl (by simp [exec, jump_step]; omega)
          rw [g6]
          exact (r.trans ht').trans r4

/-- C37 (the `while` code tests the condition with `jmp_true_remove`, which jumps only
on the value 1, and follows it with the unconditional `jmp_remove` out of the loop): in
the code of a `while` node with condition code of length `c`, with a number `n` other
than 1 on top of the operand stack at the `jmp_true_remove` (offset `c`), the run fetches
that instruction and the `jmp_remove` and is then at the first index after the loop code,
the value popped, without having fetched an instruction of the body; with 1 on top the
run is at offset `c + 3`, where the body starts.  The analyzer accepts
`num x = 0; while (2) { x = 1; break; }`, and its run ends with `x = 0`; with the
condition `1` the run ends with `x = 1`; and the run of
`num x = 0; if (2) { x = 1; } else { x = 3; }` takes the true block and ends with
`x = 1`. -/
theorem while_noncanonical_condition (labels_table : List Label) (scopes : List AST)
    (function_map : FunctionMap) (code_length : Nat) (while_cond_ast while_body_ast : AST)
    (rest : List AST) (while_code : List OPCodeT) (fm' : FunctionMap)
    (hgen : code_generator_stmt labels_table scopes function_map code_length
      (.node .action .while_ (while_cond_ast :: while_body_ast :: rest)) = .ok (while_code, fm')) :
    (∃ cc bc,
      expr_generator labels_table
        (scopes ++ [.node .action .while_ (while_cond_ast :: while_body_ast :: rest)])
        while_cond_ast = .ok cc ∧
      code_generator labels_table
        (scopes ++ [.node .action .while_ (while_cond_ast :: while_body_ast :: rest)])
        function_map while_body_ast = .ok (bc, fm') ∧
      ∀ (code : List OPCodeT) (base : Nat) (fm : FunctionMap) (n : Int) (s : List Val)
        (cs : List Int) (ss : List Frame) (out : List (List Val)),
        CodeAt code base while_code →
        (n ≠ 1 →
          Reaches code fm ⟨((base + cc.length : Nat) : Int), .num n :: s, cs, ss, out⟩
            [((base + cc.length : Nat) : Int), ((base + (cc.length + 1) : Nat) : Int)]
            ⟨((base + while_code.length : Nat) : Int), s, cs, ss, out⟩) ∧
        Reaches code fm ⟨((base + cc.length : Nat) : Int), .num 1 :: s, cs, ss, out⟩
          [((base + cc.length : Nat) : Int)]
          ⟨((base + (cc.length + 3) : Nat) : Int), s, cs, ss, out⟩) ∧
    analyze (literal_loop_program "2") self_read_labels = .ok () ∧
    (generate [] (literal_loop_program "2") self_read_labels).bind (vm 100)
      = .ok ⟨12, [], [], [[("x", .num 0)]], []⟩ ∧
    (generate [] (literal_loop_program "2") self_read_labels).map (vm_trace 100)
      = .ok [0, 1, 2, 3, 4, 5] ∧
    (generate [] (literal_loop_program "1") self_read_labels).bind (vm 100)
      = .ok ⟨12, [], [], [[("x", .num 1)]], []⟩ ∧
    (generate [] literal_if_program self_read_labels).bind (vm 100)
      = .ok ⟨13, [.num 2], [], [[("x", .num 1)]], []⟩ := by
  refine ⟨?_, by decide, by decide, by decide, by decide, by decide⟩
  obtain ⟨cc, bc, hc, hb, hcode⟩ := code_generator_stmt_while_ok labels_table scopes
    function_map code_length while_cond_ast while_body_ast rest while_code fm' hgen
  obtain ⟨g0, g1, g2, g3, g4, g5, g6⟩ := layout_while cc
    (resolve_placeholders (cc.length + 2) (cc.length + 3) bc)
    ⟨.jmp_true_remove, .num 3⟩ ⟨.jmp_remove, .num (bc.length + 3)⟩ ⟨.jmp, .num (bc.length + 2)⟩
    ⟨.jmp, .num (-((cc.length + 3 + bc.length : Nat) : Int))⟩
  rw [resolve_placeholders_length] at g6
  rw [← hcode] at g1 g2 g6
  refine ⟨cc, bc, hc, hb, ?_⟩
  intro code base fm n s cs ss out hat
  constructor
  · intro hn1
    have r1 := Reaches.exec fm ⟨((base + cc.length : Nat) : Int), .num n :: s, cs, ss, out⟩
      ⟨((base + (cc.length + 1) : Nat) : Int), .num n :: s, cs, ss, out⟩ (hat.get_at g1) rfl
      (by simp [exec, pop, VMState.next, hn1]; omega)
    have r2 := Reaches.exec fm
      ⟨((base + (cc.length + 1) : Nat) : Int), .num n :: s, cs, ss, out⟩
      ⟨((base + while_code.length : Nat) : Int), s, cs, ss, out⟩ (hat.get_at g2) rfl
      (by simp [exec, pop, jump_step, g6]; omega)
    exact r1.trans r2
  · exact Reaches.exec fm ⟨((base + cc.length : Nat) : Int), .num 1 :: s, cs, ss, out⟩
      ⟨((base + (cc.length + 3) : Nat) : Int), s, cs, ss, out⟩ (hat.get_at g1) rfl
      (by simp [exec, pop, jump_step]; omega)

/-- Instance: the loop `while (a < 2) { if (a < 1) { break; } }`, whose body code holds
the `break` placeholder at offset 6. -/
theorem placeholder_targets_witness :
    code_generator_stmt sum_labels [] [] 0
      (.node .action .while_ [example_cond, break_body]) = .ok (break_loop_code, []) ∧
    ∃ cc bc,
      expr_generator sum_labels
        ([] ++ [.node .action .while_ [example_cond, break_body]]) example_cond = .ok cc ∧
      code_generator sum_labels
        ([] ++ [.node .action .while_ [example_cond, break_body]]) [] break_body
          = .ok (bc, []) ∧
      action_at break_loop_code (cc.length + 1) = some .jmp_remove ∧
      action_at break_loop_code (cc.length + 2) = some .jmp ∧
      jump_target break_loop_code (cc.length + 2) = some (break_loop_code.length : Int) ∧
      (∀ k : Nat, bc[k]? = some ⟨.jmp, .str "break"⟩ →
        break_loop_code[cc.length + 3 + k]?
          = some ⟨.jmp, .num (((cc.length + 2 : Nat) : Int) - ((cc.length + 3 + k : Nat) : Int))⟩ ∧
        jump_target break_loop_code (cc.length + 3 + k) = some ((cc.length + 2 : Nat) : Int)) ∧
      (∀ k : Nat, bc[k]? = some ⟨.jmp, .str "continue"⟩ →
        break_loop_code[cc.length + 3 + k]?
          = some ⟨.jmp, .num (-((cc.length + 3 + k : Nat) : Int))⟩ ∧
        jump_target break_loop_code (cc.length + 3 + k) = some 0) :=
  ⟨by decide, placeholder_targets sum_labels [] [] 0 example_cond break_body []
    break_loop_code [] (by decide)⟩

/-- Instance: `if (2) { x = 1; } else { x = 3; }`; the run of the program
`num x = 0; if (2) { x = 1; } else { x = 3; }` ends with the condition value 2 on the
operand stack and `x = 1`, having fetched no instruction of the else block. -/
theorem if_noncanonical_condition_witness :
    code_generator_stmt self_read_labels [] [] 0 literal_if = .ok (literal_if_code, []) ∧
    (generate [] literal_if_program self_read_labels).bind (vm 100)
      = .ok ⟨13, [.num 2], [], [[("x", .num 1)]], []⟩ ∧
    (generate [] literal_if_program self_read_labels).map (vm_trace 100)
      = .ok [0, 1, 2, 3, 4, 5, 6, 7, 8, 9] ∧
    ∃ cc tc fm1,
      expr_generator self_read_labels ([] ++ [literal_if]) (Expr.lit "2").ast = .ok cc ∧
      code_generator self_read_labels ([] ++ [literal_if]) []
        (.node .program .none
          [.node .action .assign [.node .target .none [.num 1], (Expr.lit "1").ast]])
        = .ok (tc, fm1) ∧
      action_at literal_if_code cc.length = some .jmp_true_remove ∧
      action_at literal_if_code (cc.length + 1) = some .jmp_false_remove ∧
      ∀ (code : List OPCodeT) (base : Nat) (fm : FunctionMap) (n : Int) (s : List Val)
        (cs : List Int) (ss : List Frame) (out : List (List Val)),
        CodeAt code base literal_if_code → n ≠ 0 → n ≠ 1 →
        Reaches code fm ⟨((base + cc.length : Nat) : Int), .num n :: s, cs, ss, out⟩
          [((base + cc.length : Nat) : Int), ((base + (cc.length + 1) : Nat) : Int)]
          ⟨((base + (cc.length + 2) : Nat) : Int), .num n :: s, cs, ss, out⟩ ∧
        ∀ (cs' : List Int) (ss' : List Frame) (out' : List (List Val)) (fetched : List Int),
          Reaches code fm ⟨((base + (cc.length + 2) : Nat) : Int), .num n :: s, cs, ss, out⟩
            fetched
            ⟨((base + (cc.length + 2 + tc.length) : Nat) : Int), .num n :: s, cs', ss', out'⟩ →
          Reaches code fm ⟨((base + cc.length : Nat) : Int), .num n :: s, cs, ss, out⟩
            ([((base + cc.length : Nat) : Int), ((base + (cc.length + 1) : Nat) : Int)]
              ++ fetched ++ [((base + (cc.length + 2 + tc.length) : Nat) : Int)])
            ⟨((base + literal_if_code.length : Nat) : Int), .num n :: s, cs', ss', out'⟩ :=
  ⟨by decide, by decide, by decide,
    if_noncanonical_condition self_read_labels [] [] 0 (Expr.lit "2").ast
      (.node .program .none
        [.node .action .assign [.node .target .none [.num 1], (Expr.lit "1").ast]])
      [.node .program .none
        [.node .action .assign [.node .target .none [.num 1], (Expr.lit "3").ast]]]
      literal_if_code [] (by decide)⟩

/-- Instance: the loop `while (2) { x = 1; break; }`. -/
theorem while_noncanonical_condition_witness :
    code_generator_stmt self_read_labels [] [] 0 literal_loop = .ok (literal_loop_code, []) ∧
    ∃ cc bc,
      expr_generator self_read_labels ([] ++ [literal_loop]) (Expr.lit "2").ast = .ok cc ∧
      code_generator self_read_labels ([] ++ [literal_loop]) []
        (.node .program .none
          [ .node .action .assign [.node .target .none [.num 1], (Expr.lit "1").ast],
            .node .action .break_ [] ]) = .ok (bc, []) ∧
      ∀ (code : List OPCodeT) (base : Nat) (fm : FunctionMap) (n : Int) (s : List Val)
        (cs : List Int) (ss : List Frame) (out : List (List Val)),
        CodeAt code base literal_loop_code →
        (n ≠ 1 →
          Reaches code fm ⟨((base + cc.length : Nat) : Int), .num n :: s, cs, ss, out⟩
            [((base + cc.length : Nat) : Int), ((base + (cc.length + 1) : Nat) : Int)]
            ⟨((base + literal_loop_code.length : Nat) : Int), s, cs, ss, out⟩) ∧
        Reaches code fm ⟨((base + cc.length : Nat) : Int), .num 1 :: s, cs, ss, out⟩
          [((base + cc.length : Nat) : Int)]
          ⟨((base + (cc.length + 3) : Nat) : Int), s, cs, ss, out⟩ :=
  ⟨by decide,
    (while_noncanonical_condition self_read_labels [] [] 0 (Expr.lit "2").ast
      (.node .program .none
        [ .node .action .assign [.node .target .none [.num 1], (Expr.lit "1").ast],
          .node .action .break_ [] ]) [] literal_loop_code [] (by decide)).1⟩

/-! ## Arguments that name parameters of the callee -/

/-- C38 (`expr_generator` emits `create_scope` before the code of the arguments, and the
code of each argument after the `assign` of the parameters before it, so that
`load_value` finds a parameter already bound in the new frame): the code of the call
`f(b, a, n - 1)` inside `f(a, b, n)` is the binding code followed by `call f` and
`delete_scope`; run in a frame with `a = n1`, `b = n2`, `n = n3`, the binding code leaves
the new frame with `a = n2`, `b = n2` and `n` the double that `n3 - 1` is rounded to
(`number`, which is `n3 - 1` itself up to 2^53): `b` gets the value of the new `a`; the
analyzer accepts the program with `num r = f(1, 2, 1);`, and its run ends with `r = 0`,
where the call `f(2, 1, 0)` would give `r = 1`. -/
theorem argument_reads_bound_parameter :
    analyze swap_program swap_labels = .ok () ∧
    expr_generator swap_labels [swap_program] swap_call
      = .ok (swap_binding_code ++ [⟨.call, .str "f"⟩, ⟨.delete_scope, .null⟩]) ∧
    (∀ n1 n2 n3 : Int,
      run swap_binding_code [] 15
          ⟨0, [], [], [[("a", .num n1), ("b", .num n2), ("n", .num n3)]], []⟩
        = match number (n3 - 1) with
          | .ok v =>
            .ok ⟨15, [], [],
              [ [("a", .num n2), ("b", .num n2), ("n", v)],
                [("a", .num n1), ("b", .num n2), ("n", .num n3)] ], []⟩
          | .error e => .error e) ∧
    (generate [] swap_program swap_labels).bind (vm 200)
      = .ok ⟨49, [], [], [[("r", .num 0)]], []⟩ := by
  refine ⟨by decide, by decide, ?_, by decide⟩
  intro n1 n2 n3
  rcases h : number (n3 - 1) with e | v <;>
    simp [run, step, exec, swap_binding_code, pop, key_of, VMState.next, lookup_value, Dict.get,
      Dict.set, found_at_scope, binary_step, js_sub, h]

/-! ## The lexer on identifiers -/

theorem id_reg_body_test_get (code_str : List Char)
    (h : ∀ c ∈ code_str, id_reg_body_test (some c) = true) (i : Nat) :
    id_reg_body_test code_str[i]? = true := by
  cases hc : code_str[i]? with
  | none => rfl
  | some c => exact h c (List.getElem?_mem hc)

/-- On a string of letters, digits and underscores the loop of the identifier rule never
reaches its `break`: past the end of the string it reads `undefined`, which the test of
`id_reg_body` accepts. -/
theorem scan_id_diverges (code_str : List Char)
    (h : ∀ c ∈ code_str, id_reg_body_test (some c) = true) :
    ∀ (fuel char_index : Nat) (id_at_head : Bool) (id_value : List Char),
      scan_id code_str fuel char_index id_at_head id_value = .error .out_of_fuel := by
  intro fuel
  induction fuel with
  | zero => intro i b v; rfl
  | succ k ih =>
    intro i b v
    unfold scan_id
    cases b with
    | true => simp only [if_true]; exact ih _ _ _
    | false =>
      simp only [Bool.false_eq_true, if_false, id_reg_body_test_get code_str h i, if_true]
      exact ih _ _ _

theorem PushesNoId.ite {c : Prop} [Decidable c] {a b : Res (Nat × List Token)}
    (ha : PushesNoId a) (hb : PushesNoId b) : PushesNoId (if c then a else b) := by
  by_cases h : c
  · rw [if_pos h]; exact ha
  · rw [if_neg h]; exact hb

theorem PushesNoId.ok (next_index : Nat) (pushed : List Token)
    (h : ∀ t ∈ pushed, t.type ≠ "id") : PushesNoId (.ok (next_index, pushed)) := by
  intro n p e t ht
  cases e
  exact h t ht

theorem PushesNoId.error (e : Fault) : PushesNoId (.error e) := by
  intro n p h
  cases h

theorem lexer_step_no_id (code_str : List Char)
    (hs : ∀ c ∈ code_str, id_reg_body_test (some c) = true) (fuel char_index : Nat) :
    PushesNoId (lexer_step code_str fuel char_index) := by
  unfold lexer_step
  rw [scan_id_diverges code_str hs]
  repeat' apply PushesNoId.ite
  all_goals first
    | exact PushesNoId.ok _ _ (by decide)
    | exact PushesNoId.error _
    | (split
       · exact PushesNoId.error _
       · exact PushesNoId.ok _ _ (by simp))

/-- On a string of letters, digits and underscores the lexer returns no `id` token. -/
theorem lexer_loop_no_id (code_str : List Char)
    (hs : ∀ c ∈ code_str, id_reg_body_test (some c) = true) :
    ∀ (fuel char_index : Nat) (tokens result : List Token),
      lexer_loop code_str fuel char_index tokens = .ok result →
      (∀ t ∈ tokens, t.type ≠ "id") → ∀ t ∈ result, t.type ≠ "id" := by
  intro fuel
  induction fuel with
  | zero => intro i tokens result h; cases h
  | succ k ih =>
    intro i tokens result h htok
    unfold lexer_loop at h
    by_cases hend : i = code_str.length
    · rw [if_pos hend] at h
      cases h
      exact htok
    · rw [if_neg hend] at h
      cases hstep : lexer_step code_str k i with
      | error e => rw [hstep] at h; cases h
      | ok p =>
        obtain ⟨next_index, pushed⟩ := p
        rw [hstep] at h
        refine ih _ _ _ h ?_
        intro t hm
        rcases List.mem_append.mp hm with h1 | h1
        · exact htok t h1
        · exact lexer_step_no_id code_str hs k i next_index pushed hstep t h1

/-- C40 (the loop of the identifier rule has no test for the end of the string, where
`code_str[char_index]` is `undefined`, which `id_reg_body.test` takes as the text
`undefined`; and the rules of the keywords, which come first, match at the start of a
longer word): applied to a string of letters, digits and underscores alone, the lexer
returns no `id` token within any budget, so never the one token of the whole string;
applied to `x` it never returns; `x;` is lexed to the `id` token `x` and the `semi`
token; `number;` is lexed to the type token `num`, the `id` token `ber` and the `semi`
token, and `iffy ` to the `if` token and the `id` token `fy`. -/
theorem identifier_alone_not_lexed (fuel : Nat) (code_str : String)
    (hid : ∀ c ∈ code_str.data, id_reg_body_test (some c) = true) :
    (∀ tokens, lexer fuel code_str = .ok tokens → ∀ t ∈ tokens, t.type ≠ "id") ∧
    lexer fuel code_str ≠ .ok [⟨"id", code_str⟩] ∧
    (∀ budget, lexer budget "x" = .error .out_of_fuel) ∧
    lexer 100 "x;" = .ok [⟨"id", "x"⟩, ⟨"semi", ";"⟩] ∧
    lexer 100 "number;" = .ok [⟨"type", "num"⟩, ⟨"id", "ber"⟩, ⟨"semi", ";"⟩] ∧
    lexer 100 "iffy " = .ok [⟨"if_decl", "if"⟩, ⟨"id", "fy"⟩] := by
  have h1 : ∀ tokens, lexer fuel code_str = .ok tokens → ∀ t ∈ tokens, t.type ≠ "id" :=
    fun tokens h => lexer_loop_no_id code_str.data hid fuel 0 [] tokens h
      (fun t ht => absurd ht (List.not_mem_nil t))
  refine ⟨h1, ?_, ?_, by decide, by decide, by decide⟩
  · intro h
    exact h1 _ h ⟨"id", code_str⟩ (List.mem_singleton_self _) rfl
  · intro budget
    cases budget with
    | zero => rfl
    | succ k =>
      have hx : ∀ c ∈ "x".data, id_reg_body_test (some c) = true := by decide
      have hstep : lexer_step "x".data k 0 = .error .out_of_fuel := by
        unfold lexer_step
        rw [scan_id_diverges "x".data hx]
        repeat rw [if_neg (by decide)]
        rw [if_pos (by decide)]
      unfold lexer lexer_loop
      rw [if_neg (by decide), hstep]

/-- Instance: the identifier `count` alone. -/
theorem identifier_alone_not_lexed_witness :
    (∀ c ∈ "count".data, id_reg_body_test (some c) = true) ∧
    lexer 50 "count" ≠ .ok [⟨"id", "count"⟩] :=
  ⟨by decide, (identifier_alone_not_lexed 50 "count" (by decide)).2.1⟩

/-! ## Products in the expression parser -/

/-- C39 (the second loop of `_parse_expr` throws unless the left neighbour of a `*` or
`/` has the type `action`, `string_iter` or `number_iter`; the list leaves out `target`,
which the same loop takes as right neighbour and the third loop on both sides): with a
Target as left neighbour of a `mul` or `div` node the second loop throws, whatever
stands around them; for the declared names `x`, `a`, `b`, `c` the sequences `x * 2` and
`a + b * c` throw; `1 + 2 * c` yields `add(1, mul(2, c))`, `2 * x` yields `mul(2, x)`,
`x + 2` yields `add(x, 2)`, `8 / 4 * c` yields `mul(div(8, 4), c)` and `a - b < c` yields
`lt(sub(a, b), c)`. -/
theorem product_of_variable_rejected :
    (∀ (target_op : ASTOp) (target_body body : List AST) (before rest : List ExprToken),
        mul_div_loop (.node (.node .target target_op target_body) :: before)
          (.node (.node .action .mul body) :: rest) = .error .throws) ∧
    (∀ (target_op : ASTOp) (target_body body : List AST) (before rest : List ExprToken),
        mul_div_loop (.node (.node .target target_op target_body) :: before)
          (.node (.node .action .div body) :: rest) = .error .throws) ∧
    lexer 100 "x * 2;" = .ok [⟨"id", "x"⟩, ⟨"mul", "*"⟩, ⟨"number", "2"⟩, ⟨"semi", ";"⟩] ∧
    _parse_expr expr_table [⟨"id", "x"⟩, ⟨"mul", "*"⟩, ⟨"number", "2"⟩] = .error .throws ∧
    _parse_expr expr_table
        [⟨"id", "a"⟩, ⟨"add", "+"⟩, ⟨"id", "b"⟩, ⟨"mul", "*"⟩, ⟨"id", "c"⟩] = .error .throws ∧
    _parse_expr expr_table
        [⟨"number", "1"⟩, ⟨"add", "+"⟩, ⟨"number", "2"⟩, ⟨"mul", "*"⟩, ⟨"id", "c"⟩]
      = .ok (Expr.binary .add (.lit "1") (.binary .mul (.lit "2") (.target 4))).ast ∧
    _parse_expr expr_table [⟨"number", "2"⟩, ⟨"mul", "*"⟩, ⟨"id", "x"⟩]
      = .ok (Expr.binary .mul (.lit "2") (.target 1)).ast ∧
    _parse_expr expr_table [⟨"id", "x"⟩, ⟨"add", "+"⟩, ⟨"number", "2"⟩]
      = .ok (Expr.binary .add (.target 1) (.lit "2")).ast ∧
    _parse_expr expr_table
        [⟨"number", "8"⟩, ⟨"div", "/"⟩, ⟨"number", "4"⟩, ⟨"mul", "*"⟩, ⟨"id", "c"⟩]
      = .ok (.node .action .mul
          [.node .action .div [(Expr.lit "8").ast, (Expr.lit "4").ast], (Expr.target 4).ast]) ∧
    _parse_expr expr_table
        [⟨"id", "a"⟩, ⟨"sub", "-"⟩, ⟨"id", "b"⟩, ⟨"lt", "<"⟩, ⟨"id", "c"⟩]
      = .ok (Expr.binary .lt (.binary .sub (.target 2) (.target 3)) (.target 4)).ast := by
  refine ⟨?_, ?_, by decide, by decide, by decide, by decide, by decide, by decide, by decide,
    by decide⟩
  · intro target_op target_body body before rest
    cases rest <;> rfl
  · intro target_op target_body body before rest
    cases rest <;> rfl

end SimpleLang
